import Mathlib

/-!
# TinyJS (42tiny-js): a shallow embedding of `TinyJS.cpp`

The development follows the source file top-down:

* utilities (`isNumeric`, `isAlpha`, `isIDString`, `int2string`, `isDecimalNumber`);
* the property list of a `CScriptVar` (`Childs`, a vector of links kept in the
  order of `CScriptVarLinkPtr::operator<`) with `findChild`, `addChild`,
  `addChildOrReplace` and `removeLink`;
* the value classes (`CScriptVarNull`, `CScriptVarString`, ...) with their
  virtual methods (`getVarType`, `getInt`, `getNumericVar`, ...);
* `DoMaths` and `CTinyJS::mathsOp`;
* the heap of script values, the `new` operator, `instanceof` and
  `CTinyJS::callFunction`.

Conventions.  A C++ `int` is an `Int` kept in the range `[-2^31, 2^31)` by
`wrapInt` (two's complement wrap-around).  A `std::string` is a `String`
compared character by character (`stringLess`).  A pointer to a script value
is its address, a `Nat`.  A `double` is an element of an arbitrary type `D`
equipped with the operations of `Platform`.
-/

namespace TinyJS

/-! ## Utils -/

/-- Two's complement wrap-around of a 32-bit `int`. -/
def wrapInt (x : Int) : Int := (x + 2147483648) % 4294967296 - 2147483648

/-- Source `operator<` of `std::string`: lexicographic on the character codes, a proper
prefix being smaller. -/
def stringLessList : List Char → List Char → Bool
  | [], [] => false
  | [], _ :: _ => true
  | _ :: _, [] => false
  | a :: as, b :: bs =>
    if a.toNat < b.toNat then true
    else if b.toNat < a.toNat then false
    else stringLessList as bs

/-- Source `lhs < rhs` on `std::string`. -/
def stringLess (lhs rhs : String) : Bool := stringLessList lhs.toList rhs.toList

/-- Source `bool isNumeric(char ch)`. -/
def isNumeric (ch : Char) : Bool := decide ('0'.toNat ≤ ch.toNat) && decide (ch.toNat ≤ '9'.toNat)

/-- Source `bool isAlpha(char ch)`. -/
def isAlpha (ch : Char) : Bool :=
  (decide ('a'.toNat ≤ ch.toNat) && decide (ch.toNat ≤ 'z'.toNat)) ||
  (decide ('A'.toNat ≤ ch.toNat) && decide (ch.toNat ≤ 'Z'.toNat)) || ch == '_' || ch == '$'

/-- Source `bool isIDString(const char *s)`. -/
def isIDString (s : String) : Bool :=
  match s.toList with
  | [] => false
  | c :: cs => isAlpha c && (c :: cs).all (fun ch => isAlpha ch || isNumeric ch)

/-- The digits that `ostringstream << n` writes for `n ≥ 0`, most significant
first, in front of `acc`; the first argument bounds the number of digits. -/
def int2stringDigits : Nat → Nat → List Char → List Char
  | 0, _, acc => acc
  | fuel + 1, n, acc =>
    let d := Char.ofNat ('0'.toNat + n % 10)
    if n / 10 = 0 then d :: acc else int2stringDigits fuel (n / 10) (d :: acc)

/-- Source `string int2string(int intData)`: the decimal representation, with a leading
`-` for a negative number. -/
def int2string (intData : Int) : String :=
  if intData < 0 then
    String.mk ('-' :: int2stringDigits (intData.natAbs + 1) intData.natAbs [])
  else String.mk (int2stringDigits (intData.natAbs + 1) intData.natAbs [])

/-- The loop of `isDecimalNumber`: `ret = ret*10+str[i]-'0'` in `int` arithmetic,
leaving with `-1` at the first character that is no digit. -/
def isDecimalNumberLoop : List Char → Int → Int
  | [], ret => ret
  | c :: cs, ret =>
    if !isNumeric c then -1
    else isDecimalNumberLoop cs (wrapInt (ret * 10 + (c.toNat : Int) - ('0'.toNat : Int)))

/-- Source `int isDecimalNumber(const string &str)`. -/
def isDecimalNumber (str : String) : Int :=
  if str.length = 0 ∨ (str.length > 1 ∧ str.toList.head? = some '0') then -1
  else isDecimalNumberLoop str.toList 0

/-! ## Links and the property list -/

/-- A `CScriptVarLink`: the named slot of a value.  `addr` is the identity of the
link object (what a `CScriptVarLinkPtr` points to); `owned` is the
`SCRIPTVARLINK_OWNED` bit, kept apart from the other `flags`. -/
structure CScriptVarLink where
  name : String
  var : Nat
  flags : Nat
  owner : Option Nat
  owned : Bool
  addr : Nat
deriving DecidableEq, Repr

/-- Source `SCRIPTVAR_CHILDS`: the vector of links of a value. -/
abbrev SCRIPTVAR_CHILDS := List CScriptVarLink

/-- Source `bool CScriptVarLinkPtr::operator <(const string &rhs) const`. -/
def CScriptVarLinkPtr.lt (link : CScriptVarLink) (rhs : String) : Bool :=
  let lhs_int := isDecimalNumber link.name
  let rhs_int := isDecimalNumber rhs
  if lhs_int < 0 ∧ rhs_int < 0 then stringLess link.name rhs
  else decide (lhs_int < rhs_int)

/-- The loop of `std::lower_bound` (a binary search): `first` and `len` are the
loop variables, the first argument bounds the number of passes. -/
def lower_bound_loop (Childs : SCRIPTVAR_CHILDS) (val : String) : Nat → Nat → Nat → Nat
  | 0, first, _ => first
  | fuel + 1, first, len =>
    if len = 0 then first
    else
      let half := len / 2
      let middle := first + half
      match Childs[middle]? with
      | some l =>
        if CScriptVarLinkPtr.lt l val then
          lower_bound_loop Childs val fuel (middle + 1) (len - half - 1)
        else lower_bound_loop Childs val fuel first half
      | none => first

/-- Source `lower_bound(Childs.begin(), Childs.end(), val)` as an index into `Childs`
(`Childs.length` for `Childs.end()`).  Each pass of the loop makes `len`
smaller, so `Childs.length` passes are enough. -/
def lower_bound (Childs : SCRIPTVAR_CHILDS) (val : String) : Nat :=
  lower_bound_loop Childs val Childs.length 0 Childs.length

/-- Source `CScriptVar::findChild`. -/
def findChild (Childs : SCRIPTVAR_CHILDS) (childName : String) : Option CScriptVarLink :=
  if Childs.isEmpty then none
  else
    let it := lower_bound Childs childName
    match Childs[it]? with
    | some l => if l.name = childName then some l else none
    | none => none

/-- Source `CScriptVar::addChild` (release build: the `ASSERT` of the debug build is
absent).  `this` is the address of the value that owns `Childs`, `newLink` the
address of the link object that is allocated, `undefinedVar` the value
`constScriptVar(Undefined)`.  Returns the new property list and the link (no
link when a child of that name was found). -/
def addChild (Childs : SCRIPTVAR_CHILDS) (this newLink undefinedVar : Nat) (childName : String)
    (child : Option Nat) (linkFlags : Nat) : SCRIPTVAR_CHILDS × Option CScriptVarLink :=
  let it := lower_bound Childs childName
  if it = Childs.length ∨ (Childs[it]?).map CScriptVarLink.name ≠ some childName then
    let link : CScriptVarLink :=
      { name := childName, var := child.getD undefinedVar, flags := linkFlags,
        owner := some this, owned := true, addr := newLink }
    (Childs.insertIdx it link, some link)
  else (Childs, none)

/-- Source `CScriptVar::addChildOrReplace`. -/
def addChildOrReplace (Childs : SCRIPTVAR_CHILDS) (this newLink : Nat) (childName : String)
    (child : Nat) (linkFlags : Nat) : SCRIPTVAR_CHILDS × CScriptVarLink :=
  let it := lower_bound Childs childName
  match Childs[it]? with
  | some l =>
    if l.name ≠ childName then
      let link : CScriptVarLink :=
        { name := childName, var := child, flags := linkFlags,
          owner := some this, owned := true, addr := newLink }
      (Childs.insertIdx it link, link)
    else
      let l1 : CScriptVarLink := { l with var := child }
      (Childs.set it l1, l1)
  | none =>
    let link : CScriptVarLink :=
      { name := childName, var := child, flags := linkFlags,
        owner := some this, owned := true, addr := newLink }
    (Childs.insertIdx it link, link)

/-- Source `CScriptVar::removeLink` (release build).  `link` is the pointer handed in
(`none` for a null pointer); equality of link pointers is equality of the link
objects' addresses. -/
def removeLink (Childs : SCRIPTVAR_CHILDS) (link : Option CScriptVarLink) :
    SCRIPTVAR_CHILDS × Bool :=
  match link with
  | none => (Childs, false)
  | some l =>
    let it := lower_bound Childs l.name
    match Childs[it]? with
    | some x => if x.addr = l.addr then (Childs.eraseIdx it, true) else (Childs, true)
    | none => (Childs, true)

/-- A linear scan of the property list for a link of the given name. -/
def linearScan (Childs : SCRIPTVAR_CHILDS) (childName : String) : Option CScriptVarLink :=
  Childs.find? (fun l => l.name = childName)

/-- The names of a property list, in list order. -/
def childNames (Childs : SCRIPTVAR_CHILDS) : List String := Childs.map CScriptVarLink.name

/-! ## Script values -/

/-- The classes of the values that are no primitives (what `typeid` tells
apart).  `FunctionNativeClass n` stands for the `n`-th instance of the class
template of native member functions. -/
inductive ObjectClass
  | Object | Error | Accessor | Array | RegExp
  | Function | FunctionNativeCallback | FunctionNativeClass (n : Nat)
  | Scope | ScopeFnc | ScopeLet | ScopeWith
deriving DecidableEq, Repr

/-- A script value as the operators see it.  A primitive is given by its class,
its `data` and its `fakeObject` flag (`CScriptVarPrimitive::toObject` boxes no
`undefined` and no `null`, so these two carry no flag); every other value by
its class and its address.  `D` is the type of a `double`. -/
inductive ScriptVar (D : Type)
  | undefined
  | null
  | nan (fakeObject : Bool)
  | string (data : String) (fakeObject : Bool)
  | integer (data : Int) (fakeObject : Bool)
  | bool (data : Bool) (fakeObject : Bool)
  | infinity (negative : Bool) (fakeObject : Bool)
  | double (data : D) (fakeObject : Bool)
  | object (cls : ObjectClass) (addr : Nat)
deriving DecidableEq, Repr

/-- The dynamic class of a value, for `typeid(*A.getVar()) == typeid(*B.getVar())`. -/
inductive TypeId
  | Undefined | Null | NaN | String | Integer | Bool | Infinity | Double
  | Object (cls : ObjectClass)
deriving DecidableEq, Repr

namespace ScriptVar

variable {D : Type}

/-- The class of a value. -/
def typeid : ScriptVar D → TypeId
  | undefined => .Undefined
  | null => .Null
  | nan _ => .NaN
  | string _ _ => .String
  | integer _ _ => .Integer
  | bool _ _ => .Bool
  | infinity _ _ => .Infinity
  | double _ _ => .Double
  | object cls _ => .Object cls

/-- Source `isPrimitive()`: true in `CScriptVarPrimitive`, false in `CScriptVar`,
`CScriptVarAccessor` and `CScriptVarFunction`. -/
def isPrimitive : ScriptVar D → Bool
  | object _ _ => false
  | _ => true

/-- The `fakeObject` flag of a primitive. -/
def fakeObject : ScriptVar D → Bool
  | nan f => f
  | string _ f => f
  | integer _ f => f
  | bool _ f => f
  | infinity _ f => f
  | double _ f => f
  | _ => false

/-- Source `isNaN()`. -/
def isNaN : ScriptVar D → Bool
  | nan _ => true
  | _ => false

/-- Source `isString()`. -/
def isString : ScriptVar D → Bool
  | string _ _ => true
  | _ => false

/-- Source `isNull()`. -/
def isNull : ScriptVar D → Bool
  | null => true
  | _ => false

/-- Source `isUndefined()`. -/
def isUndefined : ScriptVar D → Bool
  | undefined => true
  | _ => false

/-- Source `isDouble()`. -/
def isDouble : ScriptVar D → Bool
  | double _ _ => true
  | _ => false

/-- Source `isObject()`: true in `CScriptVarObject` and `CScriptVarFunction`, the
`fakeObject` flag in `CScriptVarPrimitive`, false in `CScriptVarScope`. -/
def isObject : ScriptVar D → Bool
  | object .Scope _ => false
  | object .ScopeFnc _ => false
  | object .ScopeLet _ => false
  | object .ScopeWith _ => false
  | object _ _ => true
  | nan f => f
  | string _ f => f
  | integer _ f => f
  | bool _ f => f
  | infinity _ f => f
  | double _ f => f
  | _ => false

/-- Source `isFunction()`: true in `CScriptVarFunction` and the classes derived from it. -/
def isFunction : ScriptVar D → Bool
  | object .Function _ => true
  | object .FunctionNativeCallback _ => true
  | object (.FunctionNativeClass _) _ => true
  | _ => false

/-- Source `isNative()`: true in `CScriptVarFunctionNative` and the classes derived
from it. -/
def isNative : ScriptVar D → Bool
  | object .FunctionNativeCallback _ => true
  | object (.FunctionNativeClass _) _ => true
  | _ => false

/-- Source `int isInfinity()`: the `data` of a `CScriptVarInfinity` (`+1` or `-1`), `0`
for every other value. -/
def isInfinity : ScriptVar D → Int
  | infinity negative _ => if negative then -1 else 1
  | _ => 0

/-- Source `CScriptVarPrimitive::getVarType(const char *typeStr)`. -/
def getVarTypePrimitive (fakeObject : Bool) (typeStr : String) : String :=
  if fakeObject then "object" else typeStr

/-- The virtual `getVarType()`, class by class. -/
def getVarType : ScriptVar D → String
  | undefined => "undefined"
  | null => "null"
  | nan f => getVarTypePrimitive f "number"
  | string _ f => getVarTypePrimitive f "string"
  | integer _ f => getVarTypePrimitive f "number"
  | bool _ f => getVarTypePrimitive f "boolean"
  | infinity _ f => getVarTypePrimitive f "number"
  | double _ f => getVarTypePrimitive f "number"
  | object .Accessor _ => "accessor"
  | object .Function _ => "function"
  | object .FunctionNativeCallback _ => "function"
  | object (.FunctionNativeClass _) _ => "function"
  | object _ _ => "object"

end ScriptVar

/-- The value of `typeof v` in `CTinyJS::execute_unary`, for the value `v` the
operand denotes: `newScriptVar(a->getVarPtr()->getVarType())`. -/
def execute_typeof {D : Type} (v : ScriptVar D) : ScriptVar D :=
  .string v.getVarType false

/-! ## The C library and floating point -/

/-- What the interpreter takes from outside the source file: the arithmetic of
`double` (on an arbitrary carrier `D`), the conversions between `int` and
`double`, the stream output of a `double` (`float2string`) and the C library
functions `strtol` / `strtod`, which return the parsed number together with the
character `*endptr` at which parsing stopped (the character of code 0 at the
end of the string). -/
structure Platform (D : Type) where
  ofInt : Int → D
  toInt : D → Int
  add : D → D → D
  sub : D → D → D
  mul : D → D → D
  div : D → D → D
  eq : D → D → Bool
  lt : D → D → Bool
  le : D → D → Bool
  float2string : D → String
  strtol : String → Int × Char
  strtod : String → D × Char


/-- The bit pattern of an `int` read as `unsigned int`. -/
def toUnsigned (x : Int) : Nat := (x % 4294967296).toNat

/-- The operator tokens that reach `mathsOp`.  Single characters are named after
the character, the others after their `LEX_` constant; `other` stands for
every remaining token code. -/
inductive Op
  | plus | minus | star | slash | percent
  | amp | pipe | caret | tilde
  | LEX_LSHIFT | LEX_RSHIFT | LEX_RSHIFTU
  | LEX_EQUAL | LEX_NEQUAL | less | LEX_LEQUAL | greater | LEX_GEQUAL
  | LEX_TYPEEQUAL | LEX_NTYPEEQUAL
  | other (tk : Nat)
deriving DecidableEq, Repr

/-- How a call of `mathsOp` / `DoMaths` ends: with a value (and `execute` still
set), with `execute` cleared (the call then returns `constUndefined`), with a
thrown `CScriptException`, in an integer division by zero, or in the integer
division of `INT_MIN` by -1, whose quotient is no `int` (undefined behaviour
in C++; the division instruction traps as it does for a divisor 0).  In the
last two cases the call returns nothing. -/
inductive MathsResult (D : Type)
  | value (v : ScriptVar D)
  | stopped
  | exception (msg : String)
  | divisionByZero
  | divisionOverflow
deriving DecidableEq, Repr

namespace ScriptVar

variable {D : Type}

/-- The virtual `getInt()` of the primitives.  (On a value that is no primitive
the source first converts with `getPrimitivVar()`; `mathsOp` calls `getInt`
only on what `getNumericVar` returned, which is a primitive.) -/
def getInt (P : Platform D) : ScriptVar D → Int
  | string data _ => wrapInt (P.strtol data).1
  | integer data _ => data
  | bool data _ => if data then 1 else 0
  | infinity negative _ => if negative then -1 else 1
  | double data _ => wrapInt (P.toInt data)
  | _ => 0

/-- The virtual `getDouble()` of the primitives. -/
def getDouble (P : Platform D) : ScriptVar D → D
  | string data _ => (P.strtod data).1
  | integer data _ => P.ofInt data
  | bool data _ => P.ofInt (if data then 1 else 0)
  | infinity negative _ => P.ofInt (if negative then -1 else 1)
  | double data _ => data
  | _ => P.ofInt 0

/-- The virtual `getString()` of the primitives. -/
def getString (P : Platform D) : ScriptVar D → String
  | undefined => "undefined"
  | null => "null"
  | nan _ => "NaN"
  | string data _ => data
  | integer data _ => int2string data
  | bool data _ => if data then "true" else "false"
  | infinity negative _ => if negative then "-Infinity" else "Infinity"
  | double data _ => P.float2string data
  | object _ _ => ""

/-- Modelled from the spec: `constScriptVar(Infinity(sig))` of `TinyJS.h` (the header
is not part of the source), for the value kind `Infinity(sign)`: the constant
`constInfinityNegative` for a negative `sig`, `constInfinityPositive` otherwise,
as in the constructor of `CScriptVarInfinity`, which stores `Data<0?-1:1`. -/
def constInfinity (sig : Int) : ScriptVar D := infinity (decide (sig < 0)) false

/-- The virtual `getNumericVar()`: `CScriptVar::getNumericVar` (NaN) unless the
class overrides it. -/
def getNumericVar (P : Platform D) : ScriptVar D → ScriptVar D
  | null => integer 0 false
  | string data _ =>
    let r := P.strtol data
    if r.2 = Char.ofNat 0 then integer (wrapInt r.1) false
    else if r.2 = '.' ∨ r.2 = 'e' ∨ r.2 = 'E' then
      let r2 := P.strtod data
      if r2.2 = Char.ofNat 0 then double r2.1 false else nan false
    else nan false
  | integer data f => integer data f
  | bool data _ => integer (if data then 1 else 0) false
  | infinity negative f => infinity negative f
  | double data f => double data f
  | _ => nan false

end ScriptVar

open ScriptVar in
/-- Source `DoMaths<int>`.  The quotient and the remainder of `INT_MIN` and -1 are
undefined behaviour (the quotient 2^31 is no `int`); they are the result
`divisionOverflow`. -/
def DoMathsInt {D : Type} (P : Platform D) (a b : ScriptVar D) (op : Op) : MathsResult D :=
  let dai := a.getInt P
  let dbi := b.getInt P
  let da := if a.isDouble then wrapInt (P.toInt (a.getDouble P)) else dai
  let db := if b.isDouble then wrapInt (P.toInt (b.getDouble P)) else dbi
  match op with
  | .plus => .value (integer (wrapInt (da + db)) false)
  | .minus => .value (integer (wrapInt (da - db)) false)
  | .star => .value (integer (wrapInt (da * db)) false)
  | .slash =>
    if db = 0 then
      if da = 0 then .value (nan false)
      else .value (constInfinity (if da < 0 then -1 else 1))
    else if da = -2147483648 ∧ db = -1 then .divisionOverflow
    else .value (integer (wrapInt (Int.tdiv da db)) false)
  | .percent =>
    if db = 0 then .value (nan false)
    else if dbi = 0 then .divisionByZero
    else if dai = -2147483648 ∧ dbi = -1 then .divisionOverflow
    else .value (integer (wrapInt (Int.tmod dai dbi)) false)
  | .amp => .value (integer (wrapInt (Nat.land (toUnsigned dai) (toUnsigned dbi))) false)
  | .pipe => .value (integer (wrapInt (Nat.lor (toUnsigned dai) (toUnsigned dbi))) false)
  | .caret => .value (integer (wrapInt (Nat.xor (toUnsigned dai) (toUnsigned dbi))) false)
  | .tilde => .value (integer (wrapInt (-dai - 1)) false)
  | .LEX_LSHIFT => .value (integer (wrapInt (dai * 2 ^ (toUnsigned dbi % 32))) false)
  | .LEX_RSHIFT => .value (integer (dai / 2 ^ (toUnsigned dbi % 32)) false)
  | .LEX_RSHIFTU =>
    .value (integer (wrapInt ((toUnsigned dai / 2 ^ (toUnsigned dbi % 32) : Nat) : Int)) false)
  | .LEX_EQUAL => .value (bool (decide (da = db)) false)
  | .LEX_NEQUAL => .value (bool (decide (da ≠ db)) false)
  | .less => .value (bool (decide (da < db)) false)
  | .LEX_LEQUAL => .value (bool (decide (da ≤ db)) false)
  | .greater => .value (bool (decide (da > db)) false)
  | .LEX_GEQUAL => .value (bool (decide (da ≥ db)) false)
  | _ => .exception "This operation not supported on the int datatype"

open ScriptVar in
/-- Source `DoMaths<double>`; the remainder is that of the two `int`s, as in
`DoMaths<int>`. -/
def DoMathsDouble {D : Type} (P : Platform D) (a b : ScriptVar D) (op : Op) : MathsResult D :=
  let dai := a.getInt P
  let dbi := b.getInt P
  let da := if a.isDouble then a.getDouble P else P.ofInt dai
  let db := if b.isDouble then b.getDouble P else P.ofInt dbi
  match op with
  | .plus => .value (double (P.add da db) false)
  | .minus => .value (double (P.sub da db) false)
  | .star => .value (double (P.mul da db) false)
  | .slash =>
    if P.eq db (P.ofInt 0) then
      if P.eq da (P.ofInt 0) then .value (nan false)
      else .value (constInfinity (if P.lt da (P.ofInt 0) then -1 else 1))
    else .value (double (P.div da db) false)
  | .percent =>
    if P.eq db (P.ofInt 0) then .value (nan false)
    else if dbi = 0 then .divisionByZero
    else if dai = -2147483648 ∧ dbi = -1 then .divisionOverflow
    else .value (integer (wrapInt (Int.tmod dai dbi)) false)
  | .amp => .value (integer (wrapInt (Nat.land (toUnsigned dai) (toUnsigned dbi))) false)
  | .pipe => .value (integer (wrapInt (Nat.lor (toUnsigned dai) (toUnsigned dbi))) false)
  | .caret => .value (integer (wrapInt (Nat.xor (toUnsigned dai) (toUnsigned dbi))) false)
  | .tilde => .value (integer (wrapInt (-dai - 1)) false)
  | .LEX_LSHIFT => .value (integer (wrapInt (dai * 2 ^ (toUnsigned dbi % 32))) false)
  | .LEX_RSHIFT => .value (integer (dai / 2 ^ (toUnsigned dbi % 32)) false)
  | .LEX_RSHIFTU =>
    .value (integer (wrapInt ((toUnsigned dai / 2 ^ (toUnsigned dbi % 32) : Nat) : Int)) false)
  | .LEX_EQUAL => .value (bool (P.eq da db) false)
  | .LEX_NEQUAL => .value (bool (!P.eq da db) false)
  | .less => .value (bool (P.lt da db) false)
  | .LEX_LEQUAL => .value (bool (P.le da db) false)
  | .greater => .value (bool (P.lt db da) false)
  | .LEX_GEQUAL => .value (bool (P.le db da) false)
  | _ => .exception "This operation not supported on the int datatype"

open ScriptVar in
/-- The last block of `mathsOp`: `a` and `b` are what `getNumericVar` returned
("gets only an Integer, a Double, in Infinity or a NaN"). -/
def mathsOpNumeric {D : Type} (P : Platform D) (a b : ScriptVar D) (op : Op) : MathsResult D :=
  if a.isNaN ∨ b.isNaN then
    match op with
    | .LEX_NEQUAL => .value (bool true false)
    | .LEX_EQUAL | .LEX_GEQUAL | .LEX_LEQUAL | .less | .greater => .value (bool false false)
    | _ => .value (nan false)
  else if a.isInfinity ≠ 0 ∨ b.isInfinity ≠ 0 then
    let a_i := a.isInfinity
    let a_sig : Int := if a.getInt P > 0 then 1 else -1
    let b_i := b.isInfinity
    let b_sig : Int := if a.getInt P > 0 then 1 else -1
    match op with
    | .LEX_EQUAL => .value (bool (decide (a_i = b_i)) false)
    | .LEX_GEQUAL | .greater => .value (bool (decide (a_i ≥ b_i)) false)
    | .LEX_LEQUAL | .less => .value (bool (decide (a_i ≤ b_i)) false)
    | .LEX_NEQUAL => .value (bool (decide (a_i ≠ b_i)) false)
    | .plus =>
      if a_i ≠ 0 ∧ b_i ≠ 0 ∧ a_i ≠ b_i then .value (nan false)
      else .value (constInfinity (if b_i ≠ 0 then b_i else a_i))
    | .minus =>
      if a_i ≠ 0 ∧ a_i = b_i then .value (nan false)
      else .value (constInfinity (if b_i ≠ 0 then -b_i else a_i))
    | .star =>
      let tmp := wrapInt (a.getInt P * b.getInt P)
      if tmp = 0 then .value (nan false) else .value (constInfinity tmp)
    | .slash =>
      if a_i ≠ 0 ∧ b_i ≠ 0 then .value (nan false)
      else if b_i ≠ 0 then .value (integer 0 false)
      else .value (constInfinity (a_sig * b_sig))
    | .percent =>
      if a_i ≠ 0 then .value (nan false) else .value (constInfinity a_sig)
    | .amp => .value (integer 0 false)
    | .pipe | .caret =>
      if a_i ≠ 0 ∧ b_i ≠ 0 then .value (integer 0 false)
      else .value (integer (if a_i ≠ 0 then b.getInt P else a.getInt P) false)
    | .LEX_LSHIFT | .LEX_RSHIFT | .LEX_RSHIFTU =>
      if a_i ≠ 0 then .value (integer 0 false) else .value (integer (a.getInt P) false)
    | _ => .exception "This operation not supported on the int datatype"
  else if !a.isDouble ∧ !b.isDouble then DoMathsInt P a b op
  else DoMathsDouble P a b op

/-- Source `CScriptVar::getPrimitivVar(bool &execute)` with `execute` set: a primitive is
returned as it is.  `toPrimitive cls addr` is the outcome for the value of
class `cls` at `addr` that is no primitive (the source then runs script code:
`valueOf`, `toString`): the primitive it yields, or `none` when it clears
`execute`. -/
def ScriptVar.getPrimitivVar {D : Type} (toPrimitive : ObjectClass → Nat → Option (ScriptVar D)) :
    ScriptVar D → Option (ScriptVar D)
  | .object cls addr => toPrimitive cls addr
  | X => some X

open ScriptVar in
/-- The block `if (!A->isPrimitive() && !B->isPrimitive())` of `mathsOp` ("Just
check pointers"): the result for `==` and `!=` on two values that are no
primitives, `none` where control passes on. -/
def mathsOpObjects {D : Type} (A B : ScriptVar D) (op : Op) : Option (MathsResult D) :=
  match A, B with
  | object _ addrA, object _ addrB =>
    match op with
    | .LEX_EQUAL => some (.value (bool (decide (addrA = addrB)) false))
    | .LEX_NEQUAL => some (.value (bool (decide (addrA ≠ addrB)) false))
    | _ => none
  | _, _ => none

open ScriptVar in
/-- The body of `mathsOp` below the block for `===` / `!==`. -/
def mathsOpLoose {D : Type} (P : Platform D) (toPrimitive : ObjectClass → Nat → Option (ScriptVar D))
    (A B : ScriptVar D) (op : Op) : MathsResult D :=
  match mathsOpObjects A B op with
  | some r => r
  | none =>
    match getPrimitivVar toPrimitive A, getPrimitivVar toPrimitive B with
    | some a, some b =>
      let a_isString := a.isString
      let b_isString := b.isString
      if (a_isString ∧ b_isString) ∨ ((a_isString ∨ b_isString) ∧ op = .plus) then
        let da := if a.isNull then "" else a.getString P
        let db := if b.isNull then "" else b.getString P
        match op with
        | .plus => .value (string (da ++ db) false)
        | .LEX_EQUAL => .value (bool (decide (da = db)) false)
        | .LEX_NEQUAL => .value (bool (decide (da ≠ db)) false)
        | .less => .value (bool (stringLess da db) false)
        | .LEX_LEQUAL => .value (bool (!stringLess db da) false)
        | .greater => .value (bool (stringLess db da) false)
        | .LEX_GEQUAL => .value (bool (!stringLess da db) false)
        | _ => .value (nan false)
      else if (a.isUndefined ∨ a.isNull) ∧ (b.isUndefined ∨ b.isNull) then
        match op with
        | .LEX_NEQUAL =>
          .value (bool (!((a.isUndefined || a.isNull) && (b.isUndefined || b.isNull))) false)
        | .LEX_EQUAL =>
          .value (bool ((a.isUndefined || a.isNull) && (b.isUndefined || b.isNull)) false)
        | .LEX_GEQUAL | .LEX_LEQUAL | .less | .greater => .value (bool false false)
        | _ => .value (nan false)
      else mathsOpNumeric P (a.getNumericVar P) (b.getNumericVar P) op
    | _, _ => .stopped

/-- Source `CScriptVarPtr CTinyJS::mathsOp(bool &execute, A, B, op)`.  The recursive call
of the `===` / `!==` block passes `LEX_EQUAL` / `LEX_NEQUAL`, so it continues
below that block, in `mathsOpLoose`. -/
def mathsOp {D : Type} (P : Platform D) (toPrimitive : ObjectClass → Nat → Option (ScriptVar D))
    (execute : Bool) (A B : ScriptVar D) (op : Op) : MathsResult D :=
  if !execute then .stopped
  else if op = .LEX_TYPEEQUAL ∨ op = .LEX_NTYPEEQUAL then
    if A.isNaN ∨ B.isNaN then .value (.bool false false)
    else if xor (decide (A.typeid = B.typeid)) (decide (op ≠ .LEX_TYPEEQUAL)) then
      mathsOpLoose P toPrimitive A B (if op = .LEX_TYPEEQUAL then .LEX_EQUAL else .LEX_NEQUAL)
    else .value (.bool false false)
  else mathsOpLoose P toPrimitive A B op

/-- An instance of `Platform` for evaluating examples: a `double` is an integer,
the arithmetic is that of the integers, `strtol` and `strtod` read an unsigned
decimal numeral. -/
def intPlatform : Platform Int where
  ofInt := fun i => i
  toInt := fun d => d
  add := fun x y => x + y
  sub := fun x y => x - y
  mul := fun x y => x * y
  div := fun x y => Int.tdiv x y
  eq := fun x y => decide (x = y)
  lt := fun x y => decide (x < y)
  le := fun x y => decide (x ≤ y)
  float2string := fun d => int2string d
  strtol := fun s =>
    ((s.toList.takeWhile isNumeric).foldl (fun n c => n * 10 + ((c.toNat : Int) - 48)) 0,
      ((s.toList.dropWhile isNumeric).head?).getD (Char.ofNat 0))
  strtod := fun s =>
    ((s.toList.takeWhile isNumeric).foldl (fun n c => n * 10 + ((c.toNat : Int) - 48)) 0,
      ((s.toList.dropWhile isNumeric).head?).getD (Char.ofNat 0))

/-- The conversion of values that are no primitives used in examples: it clears
`execute`. -/
def noPrimitive {D : Type} : ObjectClass → Nat → Option (ScriptVar D) := fun _ _ => none

/-! ## The heap of script values -/

/-- Modelled from the spec: the macro `TINYJS___PROTO___VAR` of `TinyJS.h` (the
header is not part of the source); the prototype slot is "stored as a child
named `__proto__`". -/
def TINYJS___PROTO___VAR : String := "__proto__"

/-- Modelled from the spec: the macro `TINYJS_PROTOTYPE_CLASS` of `TinyJS.h`, the
name of the property `f.prototype`. -/
def TINYJS_PROTOTYPE_CLASS : String := "prototype"

/-- Modelled from the spec: the macro `TINYJS_RETURN_VAR` of `TinyJS.h`, "the
current function scope's `__return__` slot". -/
def TINYJS_RETURN_VAR : String := "__return__"

/-- Modelled from the spec: the macro `TINYJS_ARGUMENTS_VAR` of `TinyJS.h`, the
name of the `arguments` object. -/
def TINYJS_ARGUMENTS_VAR : String := "arguments"

/-- Modelled from the spec: the macro `TINYJS_FUNCTION_CLOSURE_VAR` of
`TinyJS.h`, the name of the child under which a function value keeps "the
enclosing closure scope (captured at function-value creation)". -/
def TINYJS_FUNCTION_CLOSURE_VAR : String := "__function_closure__"

/-- Modelled from the spec: the link flag `SCRIPTVARLINK_WRITABLE` of `TinyJS.h`
(flags `writable, enumerable, configurable, owned`). -/
def SCRIPTVARLINK_WRITABLE : Nat := 1

/-- Modelled from the spec: the link flags `SCRIPTVARLINK_DEFAULT` of `TinyJS.h`,
the default of the `linkFlags` argument (writable, enumerable, configurable). -/
def SCRIPTVARLINK_DEFAULT : Nat := 7

/-- The bits of `runtimeFlags`. -/
structure RuntimeFlags where
  CAN_THROW : Bool
  THROW : Bool
  BREAK : Bool
  CONTINUE : Bool
deriving DecidableEq, Repr

/-! ## Tokens of the token buffer -/

/-- Source `CScriptToken` with its token data: a simple token with `intData`; a
token with string data (`LEX_ID`, `LEX_STR`, `LEX_REGEXP`, the labels; also
`LEX_FLOAT`, whose `floatData` is kept as the text that `strtod` reads); a
function token with `CScriptTokenDataFnc` (name, arguments, body); the forwarder
`LEX_T_FORWARD` with `CScriptTokenDataForwards` (the three sets of names and the
set of functions); the object or array literal `LEX_T_OBJECT_LITERAL` with
`CScriptTokenDataObjectLiteral`.  `element` is no token: it is one `ELEMENT`
(`id`, `value`) of an object literal.  Token data is shared by all copies of a
token, as in the source, where it is reference counted. -/
inductive CScriptToken where
  | simple (token : Nat) (intData : Int)
  | string (token : Nat) (tkStr : String)
  | fnc (token : Nat) (name : String) (arguments body : List CScriptToken)
  | forwarder (lets vars vars_in_letscope : List String) (functions : List CScriptToken)
  | object (isArray destructuring structuring : Bool) (elements : List CScriptToken)
  | element (id : String) (value : List CScriptToken)

mutual

/-- Equality of tokens is decidable. -/
def CScriptToken.decideEq : (a b : CScriptToken) → Decidable (a = b)
  | .simple t i, .simple t' i' =>
    match (inferInstance : Decidable (t = t')), (inferInstance : Decidable (i = i')) with
    | isTrue h1, isTrue h2 => isTrue (by rw [h1, h2])
    | isFalse h, _ => isFalse (by intro e; cases e; exact h rfl)
    | _, isFalse h => isFalse (by intro e; cases e; exact h rfl)
  | .string t x, .string t' x' =>
    match (inferInstance : Decidable (t = t')), (inferInstance : Decidable (x = x')) with
    | isTrue h1, isTrue h2 => isTrue (by rw [h1, h2])
    | isFalse h, _ => isFalse (by intro e; cases e; exact h rfl)
    | _, isFalse h => isFalse (by intro e; cases e; exact h rfl)
  | .fnc t n a b, .fnc t' n' a' b' =>
    match (inferInstance : Decidable (t = t')), (inferInstance : Decidable (n = n')),
      CScriptToken.decideEqList a a', CScriptToken.decideEqList b b' with
    | isTrue h1, isTrue h2, isTrue h3, isTrue h4 => isTrue (by rw [h1, h2, h3, h4])
    | isFalse h, _, _, _ => isFalse (by intro e; cases e; exact h rfl)
    | _, isFalse h, _, _ => isFalse (by intro e; cases e; exact h rfl)
    | _, _, isFalse h, _ => isFalse (by intro e; cases e; exact h rfl)
    | _, _, _, isFalse h => isFalse (by intro e; cases e; exact h rfl)
  | .forwarder l v w f, .forwarder l' v' w' f' =>
    match (inferInstance : Decidable (l = l')), (inferInstance : Decidable (v = v')),
      (inferInstance : Decidable (w = w')), CScriptToken.decideEqList f f' with
    | isTrue h1, isTrue h2, isTrue h3, isTrue h4 => isTrue (by rw [h1, h2, h3, h4])
    | isFalse h, _, _, _ => isFalse (by intro e; cases e; exact h rfl)
    | _, isFalse h, _, _ => isFalse (by intro e; cases e; exact h rfl)
    | _, _, isFalse h, _ => isFalse (by intro e; cases e; exact h rfl)
    | _, _, _, isFalse h => isFalse (by intro e; cases e; exact h rfl)
  | .object a d s e, .object a' d' s' e' =>
    match (inferInstance : Decidable (a = a')), (inferInstance : Decidable (d = d')),
      (inferInstance : Decidable (s = s')), CScriptToken.decideEqList e e' with
    | isTrue h1, isTrue h2, isTrue h3, isTrue h4 => isTrue (by rw [h1, h2, h3, h4])
    | isFalse h, _, _, _ => isFalse (by intro e; cases e; exact h rfl)
    | _, isFalse h, _, _ => isFalse (by intro e; cases e; exact h rfl)
    | _, _, isFalse h, _ => isFalse (by intro e; cases e; exact h rfl)
    | _, _, _, isFalse h => isFalse (by intro e; cases e; exact h rfl)
  | .element i v, .element i' v' =>
    match (inferInstance : Decidable (i = i')), CScriptToken.decideEqList v v' with
    | isTrue h1, isTrue h2 => isTrue (by rw [h1, h2])
    | isFalse h, _ => isFalse (by intro e; cases e; exact h rfl)
    | _, isFalse h => isFalse (by intro e; cases e; exact h rfl)
  | .simple _ _, .string _ _ => isFalse nofun
  | .simple _ _, .fnc _ _ _ _ => isFalse nofun
  | .simple _ _, .forwarder _ _ _ _ => isFalse nofun
  | .simple _ _, .object _ _ _ _ => isFalse nofun
  | .simple _ _, .element _ _ => isFalse nofun
  | .string _ _, .simple _ _ => isFalse nofun
  | .string _ _, .fnc _ _ _ _ => isFalse nofun
  | .string _ _, .forwarder _ _ _ _ => isFalse nofun
  | .string _ _, .object _ _ _ _ => isFalse nofun
  | .string _ _, .element _ _ => isFalse nofun
  | .fnc _ _ _ _, .simple _ _ => isFalse nofun
  | .fnc _ _ _ _, .string _ _ => isFalse nofun
  | .fnc _ _ _ _, .forwarder _ _ _ _ => isFalse nofun
  | .fnc _ _ _ _, .object _ _ _ _ => isFalse nofun
  | .fnc _ _ _ _, .element _ _ => isFalse nofun
  | .forwarder _ _ _ _, .simple _ _ => isFalse nofun
  | .forwarder _ _ _ _, .string _ _ => isFalse nofun
  | .forwarder _ _ _ _, .fnc _ _ _ _ => isFalse nofun
  | .forwarder _ _ _ _, .object _ _ _ _ => isFalse nofun
  | .forwarder _ _ _ _, .element _ _ => isFalse nofun
  | .object _ _ _ _, .simple _ _ => isFalse nofun
  | .object _ _ _ _, .string _ _ => isFalse nofun
  | .object _ _ _ _, .fnc _ _ _ _ => isFalse nofun
  | .object _ _ _ _, .forwarder _ _ _ _ => isFalse nofun
  | .object _ _ _ _, .element _ _ => isFalse nofun
  | .element _ _, .simple _ _ => isFalse nofun
  | .element _ _, .string _ _ => isFalse nofun
  | .element _ _, .fnc _ _ _ _ => isFalse nofun
  | .element _ _, .forwarder _ _ _ _ => isFalse nofun
  | .element _ _, .object _ _ _ _ => isFalse nofun

/-- Equality of lists of tokens is decidable. -/
def CScriptToken.decideEqList : (as bs : List CScriptToken) → Decidable (as = bs)
  | [], [] => isTrue rfl
  | [], _ :: _ => isFalse nofun
  | _ :: _, [] => isFalse nofun
  | a :: as, b :: bs =>
    match CScriptToken.decideEq a b, CScriptToken.decideEqList as bs with
    | isTrue h1, isTrue h2 => isTrue (by rw [h1, h2])
    | isFalse h, _ => isFalse (by intro e; cases e; exact h rfl)
    | _, isFalse h => isFalse (by intro e; cases e; exact h rfl)

end

instance : DecidableEq CScriptToken := CScriptToken.decideEq

/-- One entry of `Fnc->arguments`: an identifier (`token == LEX_ID`) or a
destructuring pattern with its flat list `DestructuringVar().vars` of pairs
(`first`, `second`). -/
inductive FncArgument
  | LEX_ID (name : String)
  | destructuring (vars : List (String × String))
deriving DecidableEq, Repr

/-- Source `CScriptTokenDataFnc`: name, parameter list and body of a function.
`bodyIsBlock` tells whether the first token of the body is `{`
(`body.front().token == '{'`); `body` holds the tokens of the body (it is left
empty where no body is run). -/
structure CScriptTokenDataFnc where
  name : String
  arguments : List FncArgument
  bodyIsBlock : Bool
  body : List CScriptToken := []
deriving DecidableEq

/-- A `CScriptVar` on the heap: class and data (`val`), the property list, the
`extensible` flag, the `temporaryID` and, for a function, `getFunctionData()`. -/
structure CScriptVar (D : Type) where
  val : ScriptVar D
  Childs : SCRIPTVAR_CHILDS
  extensible : Bool
  temporaryID : Nat
  data : Option CScriptTokenDataFnc

/-- The interpreter context `CTinyJS` with the heap: `vars[a]` is the value at
address `a`, `nextLink` the address of the next link object. -/
structure CTinyJS (D : Type) where
  vars : List (CScriptVar D)
  nextLink : Nat
  objectPrototype : Nat
  numberPrototype : Nat
  constUndefined : Nat
  root : Nat
  scopes : List Nat
  runtimeFlags : RuntimeFlags
  uniqueID : Nat
  exceptionVar : Option Nat

namespace CTinyJS

variable {D : Type}

/-- The property list of the value at `this` (empty for a dangling address). -/
def childsOf (c : CTinyJS D) (this : Nat) : SCRIPTVAR_CHILDS :=
  match c.vars[this]? with
  | some v => v.Childs
  | none => []

/-- The class and data of the value at `this`. -/
def valOf (c : CTinyJS D) (this : Nat) : Option (ScriptVar D) :=
  (c.vars[this]?).map CScriptVar.val

/-- Stores a property list in the value at `this`. -/
def setChilds (c : CTinyJS D) (this : Nat) (Childs : SCRIPTVAR_CHILDS) : CTinyJS D :=
  match c.vars[this]? with
  | some v => { c with vars := c.vars.set this { v with Childs := Childs } }
  | none => c

/-- Source `this->findChild(childName)` on the heap. -/
def findChild (c : CTinyJS D) (this : Nat) (childName : String) : Option CScriptVarLink :=
  TinyJS.findChild (c.childsOf this) childName

/-- Source `this->addChild(childName, child, linkFlags)` on the heap. -/
def addChild (c : CTinyJS D) (this : Nat) (childName : String) (child : Option Nat)
    (linkFlags : Nat) : CTinyJS D × Option CScriptVarLink :=
  let r := TinyJS.addChild (c.childsOf this) this c.nextLink c.constUndefined childName child
    linkFlags
  ({ c.setChilds this r.1 with nextLink := c.nextLink + 1 }, r.2)

/-- Source `this->addChildOrReplace(childName, child, linkFlags)` on the heap. -/
def addChildOrReplace (c : CTinyJS D) (this : Nat) (childName : String) (child : Nat)
    (linkFlags : Nat) : CTinyJS D × CScriptVarLink :=
  let r := TinyJS.addChildOrReplace (c.childsOf this) this c.nextLink childName child linkFlags
  ({ c.setChilds this r.1 with nextLink := c.nextLink + 1 }, r.2)

/-- The constructor `CScriptVar::CScriptVar(Context, Prototype)`: the new value
gets the next free address and, when `Prototype` is no null pointer, the child
`__proto__`. -/
def newCScriptVar (c : CTinyJS D) (val : Nat → ScriptVar D) (Prototype : Option Nat)
    (data : Option CScriptTokenDataFnc) : CTinyJS D × Nat :=
  let addr := c.vars.length
  let c1 : CTinyJS D :=
    { c with vars := c.vars ++ [{ val := val addr, Childs := [], extensible := true,
                                  temporaryID := 0, data := data }] }
  match Prototype with
  | some p => ((c1.addChild addr TINYJS___PROTO___VAR (some p) SCRIPTVARLINK_WRITABLE).1, addr)
  | none => (c1, addr)

/-- Source `newScriptVar(Object)`: a `CScriptVarObject`, whose prototype is
`Context->objectPrototype`. -/
def newScriptVarObject (c : CTinyJS D) : CTinyJS D × Nat :=
  c.newCScriptVar (fun addr => .object .Object addr) (some c.objectPrototype) none

/-- Source `newScriptVar(int)`: a `CScriptVarInteger`, whose prototype is
`Context->numberPrototype`. -/
def newScriptVarInteger (c : CTinyJS D) (Data : Int) : CTinyJS D × Nat :=
  c.newCScriptVar (fun _ => .integer Data false) (some c.numberPrototype) none

/-- Modelled from the spec: `newScriptVar(this, ScopeFnc, Closure)`, the
constructor of `CScriptVarScopeFnc` in `TinyJS.h` (not part of the source).  "A
`FunctionScope` holds a reference to the enclosing closure scope": the scope is
an object value that links the closure, when there is one, as a child. -/
def newScriptVarScopeFnc (c : CTinyJS D) (Closure : Option Nat) : CTinyJS D × Nat :=
  let r := c.newCScriptVar (fun addr => .object .ScopeFnc addr) (some c.objectPrototype) none
  match Closure with
  | some cl => ((r.1.addChild r.2 TINYJS_FUNCTION_CLOSURE_VAR (some cl) 0).1, r.2)
  | none => r

/-- Source `setTemporaryID(ID)` on the value at `this`. -/
def setTemporaryID (c : CTinyJS D) (this ID : Nat) : CTinyJS D :=
  match c.vars[this]? with
  | some v => { c with vars := c.vars.set this { v with temporaryID := ID } }
  | none => c

/-- Source `getTempraryID()` of the value at `this`. -/
def getTempraryID (c : CTinyJS D) (this : Nat) : Nat :=
  match c.vars[this]? with
  | some v => v.temporaryID
  | none => 0

/-- Source `isFunction()` of the value at `this`. -/
def isFunction (c : CTinyJS D) (this : Nat) : Bool :=
  match c.valOf this with
  | some v => v.isFunction
  | none => false

/-- The `while` loop of `instanceof`: `object` walks the `__proto__` links until
it is null, is the wanted `prototype`, or carries the stamp `uniqueID`.  Every
pass stamps one more value, so the number of values bounds the passes. -/
def instanceofLoop (uniqueID prototype : Nat) : Nat → CTinyJS D → Option Nat →
    CTinyJS D × Option Nat
  | 0, c, object => (c, object)
  | fuel + 1, c, object =>
    match object with
    | none => (c, none)
    | some o =>
      if o ≠ prototype ∧ c.getTempraryID o ≠ uniqueID then
        let c1 := c.setTemporaryID o uniqueID
        instanceofLoop uniqueID prototype fuel c1
          ((c1.findChild o TINYJS___PROTO___VAR).map CScriptVarLink.var)
      else (c, some o)

/-- The `instanceof` branch of `CTinyJS::execute_relation` for the operand values
at `a` and `b`: the new context and the result, `none` where the source calls
`throwError` (no `prototype` child in `b`). -/
def execute_instanceof (c : CTinyJS D) (a b : Nat) : CTinyJS D × Option Bool :=
  match c.findChild b TINYJS_PROTOTYPE_CLASS with
  | none => (c, none)
  | some prototype =>
    let uniqueID := c.uniqueID + 1
    let c1 : CTinyJS D := { c with uniqueID := uniqueID }
    let object := (c1.findChild a TINYJS___PROTO___VAR).map CScriptVarLink.var
    let r := instanceofLoop uniqueID prototype.var (c1.vars.length + 1) c1 object
    (r.1, some (decide (r.2 = some prototype.var)))

end CTinyJS

/-- The parts of the evaluator that `callFunction` calls back into: the
execution of a function body (`execute_block`, or `execute_base` for an
expression body, which also yields the value), the call of a native function
(which may throw a script value) and `CScriptVarLinkWorkPtr::getter`.  Each
takes the context and the `execute` flag and returns the new ones. -/
structure Evaluator (D : Type) where
  execute_block : CTinyJS D → Nat → Bool → CTinyJS D × Bool
  execute_base : CTinyJS D → Nat → Bool → CTinyJS D × Bool × Nat
  nativeCall : CTinyJS D → Nat → Nat → CTinyJS D × Option Nat
  getter : CTinyJS D → CScriptVarLink → Bool → CTinyJS D × Bool × Nat

/-- How `callFunction` ends: it returns (new context, `execute`, the returned
value and what was stored in `*newThis`), it throws a `CScriptException`, or it
follows a null pointer. -/
inductive CallResult (D : Type)
  | returned (c : CTinyJS D) (execute : Bool) (ret : Nat) (newThis : Option Nat)
  | exception (msg : String)
  | nullPointer

/-- How the parameter loop of `callFunction` ends: it runs to its end, or
`callFunction` returns `constUndefined` from inside it, or a null pointer is
followed. -/
inductive LoopResult (D : Type)
  | done (c : CTinyJS D) (execute : Bool)
  | returnUndefined (c : CTinyJS D) (execute : Bool)
  | nullPointer

/-- The loop over `DestructuringVar().vars` (from its second entry) in
`callFunction`; `Path` is kept with its back at the head of the list. -/
def callFunction_destructuring {D : Type} (E : Evaluator D) (functionRoot : Nat) :
    List (String × String) → List Nat → CTinyJS D → Bool → LoopResult D
  | [], _, c, execute => .done c execute
  | it :: rest, Path, c, execute =>
    if it.2 = "\x7d" ∨ it.2 = "]" then
      match Path with
      | [] => .nullPointer
      | _ :: Path1 => callFunction_destructuring E functionRoot rest Path1 c execute
    else if it.2 = "" then callFunction_destructuring E functionRoot rest Path c execute
    else
      match Path with
      | [] => .nullPointer
      | back :: _ =>
        let r : CTinyJS D × Bool × Nat :=
          match c.findChild back it.1 with
          | some var => E.getter c var execute
          | none => (c, execute, c.constUndefined)
        if !r.2.1 then .returnUndefined r.1 r.2.1
        else if it.2 = "\x7b" ∨ it.2 = "[" then
          callFunction_destructuring E functionRoot rest (r.2.2 :: Path) r.1 r.2.1
        else
          callFunction_destructuring E functionRoot rest Path
            (r.1.addChildOrReplace functionRoot it.2 r.2.2 SCRIPTVARLINK_DEFAULT).1 r.2.1

/-- The `for` loop of `callFunction` over `arguments_idx`; the first argument
counts the passes that remain (`length - arguments_idx`). -/
def callFunction_loop {D : Type} (E : Evaluator D) (Fnc : CScriptTokenDataFnc)
    (Arguments : List Nat) (functionRoot arguments : Nat) :
    Nat → Nat → CTinyJS D → Bool → LoopResult D
  | 0, _, c, execute => .done c execute
  | remaining + 1, arguments_idx, c, execute =>
    let arguments_idx_str := int2string arguments_idx
    let r : CTinyJS D × Option Nat :=
      match Arguments[arguments_idx]? with
      | some arg =>
        let r1 := c.addChild arguments arguments_idx_str (some arg) SCRIPTVARLINK_DEFAULT
        (r1.1, r1.2.map CScriptVarLink.var)
      | none => (c, some c.constUndefined)
    match Fnc.arguments[arguments_idx]? with
    | none => callFunction_loop E Fnc Arguments functionRoot arguments remaining
        (arguments_idx + 1) r.1 execute
    | some (.LEX_ID name) =>
      match r.2 with
      | none => .nullPointer
      | some value =>
        callFunction_loop E Fnc Arguments functionRoot arguments remaining (arguments_idx + 1)
          (r.1.addChildOrReplace functionRoot name value SCRIPTVARLINK_DEFAULT).1 execute
    | some (.destructuring vars) =>
      match r.2 with
      | none => .nullPointer
      | some value =>
        match callFunction_destructuring E functionRoot vars.tail [value] r.1 execute with
        | .done c1 execute1 =>
          callFunction_loop E Fnc Arguments functionRoot arguments remaining (arguments_idx + 1)
            c1 execute1
        | other => other

/-- How the first part of `callFunction` ends: the function scope is built
(`entered`: context, `execute`, the scope `functionRoot` and the `arguments`
object), or `callFunction` returns `constUndefined` early, or a null pointer is
followed. -/
inductive EnterResult (D : Type)
  | entered (c : CTinyJS D) (execute : Bool) (functionRoot arguments : Nat)
  | returnUndefined (c : CTinyJS D) (execute : Bool)
  | nullPointer

/-- The first part of `callFunction`, up to `ScopeControl.addFncScope(functionRoot)`:
the scope `functionRoot` is created, the function's name, `this` and
`arguments` are added, the parameters are bound, `arguments.length` is set and
the scope is pushed. -/
def callFunction_enter {D : Type} (E : Evaluator D) (c : CTinyJS D) (execute : Bool)
    (Function : Nat) (Fnc : CScriptTokenDataFnc) (Arguments : List Nat) (This : Nat) :
    EnterResult D :=
  let closure := (c.findChild Function TINYJS_FUNCTION_CLOSURE_VAR).map CScriptVarLink.var
  let r0 := c.newScriptVarScopeFnc closure
  let functionRoot := r0.2
  let c1 := if Fnc.name.length ≠ 0 then
      (r0.1.addChild functionRoot Fnc.name (some Function) SCRIPTVARLINK_DEFAULT).1
    else r0.1
  let c2 := (c1.addChild functionRoot "this" (some This) SCRIPTVARLINK_DEFAULT).1
  let r3 := c2.newScriptVarObject
  let r4 := r3.1.addChild functionRoot TINYJS_ARGUMENTS_VAR (some r3.2) SCRIPTVARLINK_DEFAULT
  match r4.2 with
  | none => .nullPointer
  | some argumentsLink =>
    let arguments := argumentsLink.var
    let length_proto := Fnc.arguments.length
    let length_arguments := Arguments.length
    let length := max length_proto length_arguments
    match callFunction_loop E Fnc Arguments functionRoot arguments length 0 r4.1 execute with
    | .nullPointer => .nullPointer
    | .returnUndefined c5 execute5 => .returnUndefined c5 execute5
    | .done c5 execute5 =>
      let r6 := c5.newScriptVarInteger length_arguments
      let c7 := (r6.1.addChild arguments "length" (some r6.2) SCRIPTVARLINK_DEFAULT).1
      .entered { c7 with scopes := functionRoot :: c7.scopes } execute5 functionRoot arguments

/-- The execution of the body of a script function in `callFunction`:
`execute_block` for a body that starts with `{`, otherwise the value of
`execute_base` is stored in the return slot; then `execute` is set again unless
`RUNTIME_THROW` is set. -/
def callFunction_script {D : Type} (E : Evaluator D) (c : CTinyJS D) (execute : Bool)
    (Function : Nat) (Fnc : CScriptTokenDataFnc) (functionRoot : Nat) : CTinyJS D × Bool :=
  let r : CTinyJS D × Bool :=
    if Fnc.bodyIsBlock then E.execute_block c Function execute
    else
      let rb := E.execute_base c Function execute
      ((rb.1.addChildOrReplace functionRoot TINYJS_RETURN_VAR rb.2.2 SCRIPTVARLINK_DEFAULT).1,
        rb.2.1)
  (r.1, if !r.1.runtimeFlags.THROW then true else r.2)

/-- The call of a native function in `callFunction` with its `try` / `catch`:
`none` when the caught value is thrown on as a `CScriptException`. -/
def callFunction_native {D : Type} (E : Evaluator D) (c : CTinyJS D) (execute : Bool)
    (Function functionRoot : Nat) : Option (CTinyJS D × Bool) :=
  let rn := E.nativeCall c Function functionRoot
  match rn.2 with
  | none => some (rn.1, if rn.1.runtimeFlags.THROW then false else execute)
  | some v =>
    if rn.1.runtimeFlags.CAN_THROW then
      some ({ rn.1 with runtimeFlags := { rn.1.runtimeFlags with THROW := true },
                        exceptionVar := some v }, false)
    else none

/-- The end of `callFunction`: `*newThis` is set, the scope is popped (the
destructor of `ScopeControl`) and the value of the return slot, or
`constScriptVar(Undefined)`, is returned. -/
def callFunction_return {D : Type} (c : CTinyJS D) (execute : Bool) (functionRoot : Nat)
    (wantNewThis : Bool) : CallResult D :=
  let newThis : Option Nat :=
    if execute ∧ wantNewThis then (c.findChild functionRoot "this").map CScriptVarLink.var
    else none
  let c1 : CTinyJS D := { c with scopes := c.scopes.tail }
  match (if execute then c.findChild functionRoot TINYJS_RETURN_VAR else none) with
  | some returnVar => .returned c1 execute returnVar.var newThis
  | none => .returned c1 execute c1.constUndefined newThis

/-- Source `CTinyJS::callFunction(execute, Function, Arguments, This, newThis)`.
`wantNewThis` tells whether `newThis` is a non-null pointer. -/
def callFunction {D : Type} (E : Evaluator D) (c : CTinyJS D) (execute : Bool) (Function : Nat)
    (Arguments : List Nat) (This : Nat) (wantNewThis : Bool) : CallResult D :=
  match c.vars[Function]? with
  | none => .nullPointer
  | some fv =>
    match fv.data with
    | none => .nullPointer
    | some Fnc =>
      match callFunction_enter E c execute Function Fnc Arguments This with
      | .nullPointer => .nullPointer
      | .returnUndefined c5 execute5 => .returned c5 execute5 c5.constUndefined none
      | .entered c8 execute8 functionRoot _ =>
        if fv.val.isNative then
          match callFunction_native E c8 execute8 Function functionRoot with
          | none => .exception ("' in: native function '" ++ Fnc.name ++ "'")
          | some r => callFunction_return r.1 r.2 functionRoot wantNewThis
        else
          let r := callFunction_script E c8 execute8 Function Fnc functionRoot
          callFunction_return r.1 r.2 functionRoot wantNewThis

/-- How the evaluation of `new` ends. -/
inductive NewResult (D : Type)
  | value (c : CTinyJS D) (execute : Bool) (obj : Nat)
  | notAConstructor
  | exception (msg : String)
  | nullPointer

/-- The `LEX_R_NEW` case of `CTinyJS::execute_literals` with `execute` set, from
the point where the operand has been evaluated to the value at `objClass`;
`arguments` are the values of the argument expressions. -/
def execute_literals_NEW {D : Type} (E : Evaluator D) (c : CTinyJS D) (objClass : Nat)
    (arguments : List Nat) : NewResult D :=
  if c.isFunction objClass then
    let r0 := c.newScriptVarObject
    let obj := r0.2
    let prototype := r0.1.findChild objClass TINYJS_PROTOTYPE_CLASS
    let missing : Bool :=
      match prototype with
      | none => true
      | some l =>
        match r0.1.valOf l.var with
        | some v => v.isUndefined || v.isNull
        | none => false
    let c2 : Option (CTinyJS D) :=
      if missing then
        let r1 := r0.1.newScriptVarObject
        let r2 := r1.1.addChild objClass TINYJS_PROTOTYPE_CLASS (some r1.2) SCRIPTVARLINK_WRITABLE
        match r2.2 with
        | some prototype1 =>
          some (r2.1.addChildOrReplace obj TINYJS___PROTO___VAR prototype1.var
            SCRIPTVARLINK_WRITABLE).1
        | none => none
      else some r0.1
    match c2 with
    | none => .nullPointer
    | some c3 =>
      let constructor := c3.findChild objClass "__constructor__"
      let objClass1 :=
        match constructor with
        | some l => if c3.isFunction l.var then l.var else objClass
        | none => objClass
      match callFunction E c3 true objClass1 arguments obj true with
      | .returned c4 execute4 returnVar newThis =>
        let obj1 := newThis.getD obj
        match c4.valOf returnVar with
        | some v => if v.isObject then .value c4 execute4 returnVar else .value c4 execute4 obj1
        | none => .nullPointer
      | .exception msg => .exception msg
      | .nullPointer => .nullPointer
  else .notAConstructor

end TinyJS

namespace TinyJS

/-! ## Predicates used in the statements -/

/-- The order of `CScriptVarLinkPtr::operator<` as a relation between two names. -/
def nameLess (lhs rhs : String) : Bool :=
  CScriptVarLinkPtr.lt { name := lhs, var := 0, flags := 0, owner := none, owned := false,
                         addr := 0 } rhs

/-- A property list is strictly sorted: every link is smaller (`operator<`) than
the name of every later link. -/
def StrictSorted (Childs : SCRIPTVAR_CHILDS) : Prop :=
  Childs.Pairwise (fun a b => CScriptVarLinkPtr.lt a b.name = true)

/-- The name `n` is comparable with every link of the list: equal to its name,
greater or smaller. -/
def Comparable (n : String) (Childs : SCRIPTVAR_CHILDS) : Prop :=
  ∀ x ∈ Childs, x.name = n ∨ CScriptVarLinkPtr.lt x n = true ∨ nameLess n x.name = true

/-- The property list has a link named `n` whose value is `v`. -/
def Binds (Childs : SCRIPTVAR_CHILDS) (n : String) (v : Nat) : Prop :=
  ∃ l ∈ Childs, l.name = n ∧ l.var = v

end TinyJS

namespace TinyJS

/-- The state of the parameter loop of `callFunction` when the arguments before
index `ia` have been added to the `arguments` object `ar` and the parameters
before index `ip` have been bound in the scope `fr`: both property lists are
strictly sorted, `ar` holds `__proto__` and the indices below `ia`, the
argument `j` is bound to the name `int2string j` in `ar`, the parameter `j` is
bound to the argument `j` (or to `U`, the undefined value) in `fr`,
`arguments` is bound to `ar` in `fr` as long as no parameter has that name, and
`fr` is a function scope, `ar` an object. -/
def EnterInv {D : Type} (c : CTinyJS D) (U : Nat) (S : List Nat) (fr ar : Nat)
    (ps : List String) (Arguments : List Nat) (ia ip : Nat) : Prop :=
  fr < c.vars.length ∧ ar < c.vars.length ∧ fr ≠ ar ∧ c.constUndefined = U ∧ c.scopes = S ∧
  StrictSorted (c.childsOf fr) ∧ StrictSorted (c.childsOf ar) ∧
  (∀ x ∈ c.childsOf ar, x.name = TINYJS___PROTO___VAR ∨
    ∃ j : Nat, j < ia ∧ j < Arguments.length ∧ x.name = int2string j) ∧
  (∀ j a, j < ia → Arguments[j]? = some a → Binds (c.childsOf ar) (int2string j) a) ∧
  (∀ j p, j < ip → ps[j]? = some p → Binds (c.childsOf fr) p ((Arguments[j]?).getD U)) ∧
  ((∀ j, j < ip → ps[j]? ≠ some TINYJS_ARGUMENTS_VAR) →
    Binds (c.childsOf fr) TINYJS_ARGUMENTS_VAR ar) ∧
  c.valOf fr = some (.object .ScopeFnc fr) ∧ c.valOf ar = some (.object .Object ar)

end TinyJS

namespace TinyJS

/-! ## Readings of the claims and example data -/

/-- The sortedness that `std::is_sorted` checks: no link is smaller (`operator<`)
than the name of the link before it. -/
def sortedByLinkOrder (Childs : SCRIPTVAR_CHILDS) : Prop :=
  Childs.Chain' (fun a b => CScriptVarLinkPtr.lt b a.name = false)

/-- The property list of an object `o` after `o["0"] = a; o["4294967296"] = b`
(two calls of `addChild` on the empty list; `a` is the value at 8, `b` at 9). -/
def overflowChilds : SCRIPTVAR_CHILDS :=
  (addChild (addChild [] 0 0 1 "0" (some 8) SCRIPTVARLINK_DEFAULT).1 0 1 1 "4294967296" (some 9)
    SCRIPTVARLINK_DEFAULT).1

/-- The six strings that the spec lists as results of `typeof`. -/
def typeofNames : List String :=
  ["undefined", "boolean", "number", "string", "object", "function"]

/-- The string form that the `+` of `mathsOp` concatenates: `getString()`, the
empty string for `null`. -/
def ScriptVar.stringForm {D : Type} (P : Platform D) (a : ScriptVar D) : String :=
  if a.isNull then "" else a.getString P

/-- Source `isNumber()`: true in `CScriptVarNaN`, `CScriptVarIntegerBase` (so also for an
Infinity) and `CScriptVarDouble`, false in `CScriptVarBool` and in `CScriptVar`. -/
def ScriptVar.isNumber {D : Type} : ScriptVar D → Bool
  | .nan _ => true
  | .integer _ _ => true
  | .infinity _ _ => true
  | .double _ _ => true
  | _ => false

/-- The arithmetic operators other than `+`. -/
def arithmeticOps : List Op := [.minus, .star, .slash, .percent]

/-- The comparison operators for which the spec says that NaN compares false. -/
def comparisonOps : List Op := [.LEX_EQUAL, .less, .LEX_LEQUAL, .greater, .LEX_GEQUAL]

/-- The `__proto__` of the object that the evaluation of `new` yields. -/
def NewResult.protoOfObject {D : Type} : NewResult D → Option Nat
  | .value c _ obj => (c.findChild obj TINYJS___PROTO___VAR).map CScriptVarLink.var
  | _ => none

/-- The value of `prototype` in the function at `f` after the evaluation of `new`. -/
def NewResult.prototypeOf {D : Type} (f : Nat) : NewResult D → Option Nat
  | .value c _ _ => (c.findChild f TINYJS_PROTOTYPE_CLASS).map CScriptVarLink.var
  | _ => none

/-- The result of `obj instanceof f` for the object that the evaluation of `new`
yields. -/
def NewResult.instanceofResult {D : Type} (f : Nat) : NewResult D → Option Bool
  | .value c _ obj => (c.execute_instanceof obj f).2
  | _ => none

/-- The value that the function scope binds to `name` when the first part of
`callFunction` has built the scope. -/
def EnterResult.binding {D : Type} (name : String) : EnterResult D → Option Nat
  | .entered c _ functionRoot _ => (c.findChild functionRoot name).map CScriptVarLink.var
  | _ => none

/-- An evaluator for examples: a function body has no statements (it leaves the
context as it is), an expression body yields the undefined value, a native
function does nothing, a getter yields the value of the link. -/
def exampleEvaluator : Evaluator Int where
  execute_block := fun c _ execute => (c, execute)
  execute_base := fun c _ execute => (c, execute, c.constUndefined)
  nativeCall := fun c _ _ => (c, none)
  getter := fun c l execute => (c, execute, l.var)

/-- A link of the example heap. -/
def exampleLink (name : String) (var owner addr : Nat) : CScriptVarLink :=
  { name := name, var := var, flags := SCRIPTVARLINK_DEFAULT, owner := some owner, owned := true,
    addr := addr }

/-- A heap for examples, as it is after `function f(x, y) {}`: `Object.prototype`
(0, its own prototype), `undefined` (1), the root scope (2), the prototype of the
functions (3), the function `f` (4) with its `prototype` object (5), the
prototype of the numbers (6), the number 2 (7, the `length` of the functions),
the numbers 10 and 20 (8, 9) and a function `g(x, x)` (10), whose two parameters
have the same name. -/
def exampleContext : CTinyJS Int where
  vars := [
    { val := .object .Object 0, Childs := [exampleLink "__proto__" 0 0 0], extensible := true,
      temporaryID := 0, data := none },
    { val := .undefined, Childs := [exampleLink "__proto__" 0 1 1], extensible := true,
      temporaryID := 0, data := none },
    { val := .object .Scope 2, Childs := [exampleLink "__proto__" 0 2 2, exampleLink "f" 4 2 3],
      extensible := true, temporaryID := 0, data := none },
    { val := .object .Object 3, Childs := [exampleLink "__proto__" 0 3 4], extensible := true,
      temporaryID := 0, data := none },
    { val := .object .Function 4,
      Childs := [exampleLink "__proto__" 3 4 5, exampleLink "length" 7 4 6,
                 exampleLink "prototype" 5 4 7],
      extensible := true, temporaryID := 0,
      data := some { name := "f", arguments := [.LEX_ID "x", .LEX_ID "y"], bodyIsBlock := true } },
    { val := .object .Object 5, Childs := [exampleLink "__proto__" 0 5 8], extensible := true,
      temporaryID := 0, data := none },
    { val := .object .Object 6, Childs := [exampleLink "__proto__" 0 6 9], extensible := true,
      temporaryID := 0, data := none },
    { val := .integer 2 false, Childs := [exampleLink "__proto__" 6 7 10], extensible := true,
      temporaryID := 0, data := none },
    { val := .integer 10 false, Childs := [exampleLink "__proto__" 6 8 11], extensible := true,
      temporaryID := 0, data := none },
    { val := .integer 20 false, Childs := [exampleLink "__proto__" 6 9 12], extensible := true,
      temporaryID := 0, data := none },
    { val := .object .Function 10,
      Childs := [exampleLink "__proto__" 3 10 13, exampleLink "length" 7 10 14],
      extensible := true, temporaryID := 0,
      data := some { name := "g", arguments := [.LEX_ID "x", .LEX_ID "x"], bodyIsBlock := true } }]
  nextLink := 15
  objectPrototype := 0
  numberPrototype := 6
  constUndefined := 1
  root := 2
  scopes := [2]
  runtimeFlags := { CAN_THROW := false, THROW := false, BREAK := false, CONTINUE := false }
  uniqueID := 0
  exceptionVar := none

end TinyJS

namespace TinyJS

/-! ## Accessors: the getter and the setter of a link, and the assignment -/

/-- Modelled from the spec: the macro `TINYJS_ACCESSOR_GET_VAR` of `TinyJS.h` (not
part of the source), the name of the getter child of an accessor. -/
def TINYJS_ACCESSOR_GET_VAR : String := "__accessor_get__"

/-- Modelled from the spec: the macro `TINYJS_ACCESSOR_SET_VAR` of `TinyJS.h` (not
part of the source), the name of the setter child of an accessor. -/
def TINYJS_ACCESSOR_SET_VAR : String := "__accessor_set__"

/-- Source `CScriptVarLink::isWritable()`: the bit `SCRIPTVARLINK_WRITABLE` of the
flags. -/
def CScriptVarLink.isWritable (link : CScriptVarLink) : Bool :=
  Nat.land link.flags SCRIPTVARLINK_WRITABLE != 0

namespace CTinyJS

variable {D : Type}

/-- Source `isAccessor()` of the value at `this`: true for a `CScriptVarAccessor`
only. -/
def isAccessor (c : CTinyJS D) (this : Nat) : Bool :=
  match c.valOf this with
  | some (.object .Accessor _) => true
  | _ => false

/-- Source `isExtensible()` of the value at `this`. -/
def isExtensible (c : CTinyJS D) (this : Nat) : Bool :=
  match c.vars[this]? with
  | some v => v.extensible
  | none => false

/-- Source `link->setVarPtr(Var)`: the link object is changed in place.  A link
that is owned is the entry with its address in the property list of its owner;
a link that is not owned is in no property list. -/
def setVarPtr (c : CTinyJS D) (link : CScriptVarLink) (Var : Nat) : CTinyJS D :=
  match link.owned, link.owner with
  | true, some owner =>
    c.setChilds owner
      ((c.childsOf owner).map fun l => if l.addr = link.addr then { l with var := Var } else l)
  | _, _ => c

end CTinyJS

/-- What `getter(execute)` and `setter(execute, Var)` of a `CScriptVarLinkWorkPtr`
give back: `same` for `*this`, `var` for a new link to the value `ret`;
`exception` and `nullPointer` as for `callFunction` (`nullPointer` also where
`ASSERT(link->getOwner())` fails). -/
inductive WorkPtrResult (D : Type)
  | same (c : CTinyJS D) (execute : Bool)
  | var (c : CTinyJS D) (execute : Bool) (ret : Nat)
  | exception (msg : String)
  | nullPointer

/-- Source `CScriptVarLinkWorkPtr::getter(bool &execute)`; `link` is `none` for a
null link. -/
def CScriptVarLinkWorkPtr.getter {D : Type} (E : Evaluator D) (c : CTinyJS D)
    (link : Option CScriptVarLink) (execute : Bool) : WorkPtrResult D :=
  match link with
  | none => .same c execute
  | some l =>
    if execute && c.isAccessor l.var then
      match c.findChild l.var TINYJS_ACCESSOR_GET_VAR with
      | some getter =>
        match l.owner with
        | none => .nullPointer
        | some owner =>
          match callFunction E c execute getter.var [] owner false with
          | .returned c1 execute1 ret _ => .var c1 execute1 ret
          | .exception msg => .exception msg
          | .nullPointer => .nullPointer
      | none => .var c execute c.constUndefined
    else .same c execute

/-- Source `CScriptVarLinkWorkPtr::setter(bool &execute, const CScriptVarPtr &Var)`. -/
def CScriptVarLinkWorkPtr.setter {D : Type} (E : Evaluator D) (c : CTinyJS D)
    (link : Option CScriptVarLink) (execute : Bool) (Var : Nat) : WorkPtrResult D :=
  if execute then
    match link with
    | none => .nullPointer
    | some l =>
      if c.isAccessor l.var then
        match c.findChild l.var TINYJS_ACCESSOR_SET_VAR with
        | some setter =>
          match l.owner with
          | none => .nullPointer
          | some owner =>
            match callFunction E c execute setter.var [Var] owner false with
            | .returned c1 execute1 _ _ => .same c1 execute1
            | .exception msg => .exception msg
            | .nullPointer => .nullPointer
        | none => .same c execute
      else if l.isWritable then .same (c.setVarPtr l Var) execute
      else .same c execute
  else .same c execute

/-- How the assignment ends: with the value it returns, or as `callFunction`. -/
inductive AssignResult (D : Type)
  | value (c : CTinyJS D) (execute : Bool) (ret : Nat)
  | exception (msg : String)
  | nullPointer

/-- Source `CTinyJS::execute_assignment(lhs, execute)` for the operator `=`, from the
point where the right-hand side has been evaluated to `rhs` (with the `execute`
it left): the check of the left-hand side, the promotion of a link that is not
owned into its owner (or the root), the call of `lhs.setter`, and the value
returned.  With `execute` unset the function falls through to
`return lhs.getter(execute)`, which gives `lhs` itself. -/
def execute_assignment_assign {D : Type} (E : Evaluator D) (c : CTinyJS D)
    (lhs : CScriptVarLink) (rhs : Nat) (execute : Bool) : AssignResult D :=
  if execute then
    if !lhs.owned && lhs.owner.isNone && lhs.name.isEmpty then
      .exception "invalid assignment left-hand side (at runtime)"
    else if lhs.isWritable then
      let promoted : Option (CTinyJS D × CScriptVarLink) :=
        if !lhs.owned then
          match lhs.owner with
          | some owner =>
            if !c.isExtensible owner then none
            else some (c.addChildOrReplace owner lhs.name lhs.var SCRIPTVARLINK_DEFAULT)
          | none => some (c.addChildOrReplace c.root lhs.name lhs.var SCRIPTVARLINK_DEFAULT)
        else some (c, lhs)
      match promoted with
      | none => .value c execute rhs
      | some (c1, realLhs) =>
        match CScriptVarLinkWorkPtr.setter E c1 (some realLhs) execute rhs with
        | .same c2 execute2 => .value c2 execute2 rhs
        | .var c2 execute2 _ => .value c2 execute2 rhs
        | .exception msg => .exception msg
        | .nullPointer => .nullPointer
    else .value c execute rhs
  else .value c execute lhs.var

end TinyJS

namespace TinyJS

/-! ## Token kinds

Modelled from the spec: the values of the enum `LEX_TYPES` of `TinyJS.h` (not part
of the source).  A token kind is an `int`: a single-character token is the code
of its character, `LEX_EOF` is 0 (the lexer stores the terminating NUL of the
text as the token), every other kind lies above the character codes.  Of the
numbering only this, the distinctness and the order inside the range of the
assignment operators are used. -/

/-- Modelled from the spec: `LEX_EOF` of `TinyJS.h`, the code of the NUL character. -/
abbrev LEX_EOF : Nat := 0
/-- Modelled from the spec: `LEX_ID` of `TinyJS.h`. -/
abbrev LEX_ID : Nat := 256
/-- Modelled from the spec: `LEX_INT` of `TinyJS.h`. -/
abbrev LEX_INT : Nat := 257
/-- Modelled from the spec: `LEX_FLOAT` of `TinyJS.h`. -/
abbrev LEX_FLOAT : Nat := 258
/-- Modelled from the spec: `LEX_STR` of `TinyJS.h`. -/
abbrev LEX_STR : Nat := 259
/-- Modelled from the spec: `LEX_REGEXP` of `TinyJS.h`. -/
abbrev LEX_REGEXP : Nat := 260
/-- Modelled from the spec: `LEX_EQUAL` of `TinyJS.h`. -/
abbrev LEX_EQUAL : Nat := 261
/-- Modelled from the spec: `LEX_TYPEEQUAL` of `TinyJS.h`. -/
abbrev LEX_TYPEEQUAL : Nat := 262
/-- Modelled from the spec: `LEX_NEQUAL` of `TinyJS.h`. -/
abbrev LEX_NEQUAL : Nat := 263
/-- Modelled from the spec: `LEX_NTYPEEQUAL` of `TinyJS.h`. -/
abbrev LEX_NTYPEEQUAL : Nat := 264
/-- Modelled from the spec: `LEX_LEQUAL` of `TinyJS.h`. -/
abbrev LEX_LEQUAL : Nat := 265
/-- Modelled from the spec: `LEX_GEQUAL` of `TinyJS.h`. -/
abbrev LEX_GEQUAL : Nat := 266
/-- Modelled from the spec: `LEX_LSHIFT` of `TinyJS.h`. -/
abbrev LEX_LSHIFT : Nat := 267
/-- Modelled from the spec: `LEX_RSHIFT` of `TinyJS.h`. -/
abbrev LEX_RSHIFT : Nat := 268
/-- Modelled from the spec: `LEX_RSHIFTU` of `TinyJS.h`. -/
abbrev LEX_RSHIFTU : Nat := 269
/-- Modelled from the spec: `LEX_PLUSPLUS` of `TinyJS.h`. -/
abbrev LEX_PLUSPLUS : Nat := 270
/-- Modelled from the spec: `LEX_MINUSMINUS` of `TinyJS.h`. -/
abbrev LEX_MINUSMINUS : Nat := 271
/-- Modelled from the spec: `LEX_ANDAND` of `TinyJS.h`. -/
abbrev LEX_ANDAND : Nat := 272
/-- Modelled from the spec: `LEX_OROR` of `TinyJS.h`. -/
abbrev LEX_OROR : Nat := 273
/-- Modelled from the spec: `LEX_PLUSEQUAL` of `TinyJS.h`, the first of the
assignment operators (`LEX_ASSIGNMENTS_BEGIN`). -/
abbrev LEX_PLUSEQUAL : Nat := 274
/-- Modelled from the spec: `LEX_MINUSEQUAL` of `TinyJS.h`. -/
abbrev LEX_MINUSEQUAL : Nat := 275
/-- Modelled from the spec: `LEX_ASTERISKEQUAL` of `TinyJS.h`. -/
abbrev LEX_ASTERISKEQUAL : Nat := 276
/-- Modelled from the spec: `LEX_SLASHEQUAL` of `TinyJS.h`. -/
abbrev LEX_SLASHEQUAL : Nat := 277
/-- Modelled from the spec: `LEX_PERCENTEQUAL` of `TinyJS.h`. -/
abbrev LEX_PERCENTEQUAL : Nat := 278
/-- Modelled from the spec: `LEX_LSHIFTEQUAL` of `TinyJS.h`. -/
abbrev LEX_LSHIFTEQUAL : Nat := 279
/-- Modelled from the spec: `LEX_RSHIFTEQUAL` of `TinyJS.h`. -/
abbrev LEX_RSHIFTEQUAL : Nat := 280
/-- Modelled from the spec: `LEX_RSHIFTUEQUAL` of `TinyJS.h`. -/
abbrev LEX_RSHIFTUEQUAL : Nat := 281
/-- Modelled from the spec: `LEX_ANDEQUAL` of `TinyJS.h`. -/
abbrev LEX_ANDEQUAL : Nat := 282
/-- Modelled from the spec: `LEX_OREQUAL` of `TinyJS.h`. -/
abbrev LEX_OREQUAL : Nat := 283
/-- Modelled from the spec: `LEX_XOREQUAL` of `TinyJS.h`, the last of the assignment
operators (`LEX_ASSIGNMENTS_END`). -/
abbrev LEX_XOREQUAL : Nat := 284
/-- Modelled from the spec: `LEX_R_IF` of `TinyJS.h`. -/
abbrev LEX_R_IF : Nat := 300
/-- Modelled from the spec: `LEX_R_ELSE` of `TinyJS.h`. -/
abbrev LEX_R_ELSE : Nat := 301
/-- Modelled from the spec: `LEX_R_DO` of `TinyJS.h`. -/
abbrev LEX_R_DO : Nat := 302
/-- Modelled from the spec: `LEX_R_WHILE` of `TinyJS.h`. -/
abbrev LEX_R_WHILE : Nat := 303
/-- Modelled from the spec: `LEX_R_FOR` of `TinyJS.h`. -/
abbrev LEX_R_FOR : Nat := 304
/-- Modelled from the spec: `LEX_R_IN` of `TinyJS.h`. -/
abbrev LEX_R_IN : Nat := 305
/-- Modelled from the spec: `LEX_R_BREAK` of `TinyJS.h`. -/
abbrev LEX_R_BREAK : Nat := 306
/-- Modelled from the spec: `LEX_R_CONTINUE` of `TinyJS.h`. -/
abbrev LEX_R_CONTINUE : Nat := 307
/-- Modelled from the spec: `LEX_R_FUNCTION` of `TinyJS.h`. -/
abbrev LEX_R_FUNCTION : Nat := 308
/-- Modelled from the spec: `LEX_R_RETURN` of `TinyJS.h`. -/
abbrev LEX_R_RETURN : Nat := 309
/-- Modelled from the spec: `LEX_R_VAR` of `TinyJS.h`. -/
abbrev LEX_R_VAR : Nat := 310
/-- Modelled from the spec: `LEX_R_LET` of `TinyJS.h`. -/
abbrev LEX_R_LET : Nat := 311
/-- Modelled from the spec: `LEX_R_WITH` of `TinyJS.h`. -/
abbrev LEX_R_WITH : Nat := 312
/-- Modelled from the spec: `LEX_R_TRUE` of `TinyJS.h`. -/
abbrev LEX_R_TRUE : Nat := 313
/-- Modelled from the spec: `LEX_R_FALSE` of `TinyJS.h`. -/
abbrev LEX_R_FALSE : Nat := 314
/-- Modelled from the spec: `LEX_R_NULL` of `TinyJS.h`. -/
abbrev LEX_R_NULL : Nat := 315
/-- Modelled from the spec: `LEX_R_NEW` of `TinyJS.h`. -/
abbrev LEX_R_NEW : Nat := 316
/-- Modelled from the spec: `LEX_R_TRY` of `TinyJS.h`. -/
abbrev LEX_R_TRY : Nat := 317
/-- Modelled from the spec: `LEX_R_CATCH` of `TinyJS.h`. -/
abbrev LEX_R_CATCH : Nat := 318
/-- Modelled from the spec: `LEX_R_FINALLY` of `TinyJS.h`. -/
abbrev LEX_R_FINALLY : Nat := 319
/-- Modelled from the spec: `LEX_R_THROW` of `TinyJS.h`. -/
abbrev LEX_R_THROW : Nat := 320
/-- Modelled from the spec: `LEX_R_TYPEOF` of `TinyJS.h`. -/
abbrev LEX_R_TYPEOF : Nat := 321
/-- Modelled from the spec: `LEX_R_VOID` of `TinyJS.h`. -/
abbrev LEX_R_VOID : Nat := 322
/-- Modelled from the spec: `LEX_R_DELETE` of `TinyJS.h`. -/
abbrev LEX_R_DELETE : Nat := 323
/-- Modelled from the spec: `LEX_R_INSTANCEOF` of `TinyJS.h`. -/
abbrev LEX_R_INSTANCEOF : Nat := 324
/-- Modelled from the spec: `LEX_R_SWITCH` of `TinyJS.h`. -/
abbrev LEX_R_SWITCH : Nat := 325
/-- Modelled from the spec: `LEX_R_CASE` of `TinyJS.h`. -/
abbrev LEX_R_CASE : Nat := 326
/-- Modelled from the spec: `LEX_R_DEFAULT` of `TinyJS.h`. -/
abbrev LEX_R_DEFAULT : Nat := 327
/-- Modelled from the spec: `LEX_T_FOR_IN` of `TinyJS.h`. -/
abbrev LEX_T_FOR_IN : Nat := 340
/-- Modelled from the spec: `LEX_T_FOR_EACH_IN` of `TinyJS.h`. -/
abbrev LEX_T_FOR_EACH_IN : Nat := 341
/-- Modelled from the spec: `LEX_R_FUNCTION_PLACEHOLDER` of `TinyJS.h`. -/
abbrev LEX_R_FUNCTION_PLACEHOLDER : Nat := 342
/-- Modelled from the spec: `LEX_T_FUNCTION_OPERATOR` of `TinyJS.h`. -/
abbrev LEX_T_FUNCTION_OPERATOR : Nat := 343
/-- Modelled from the spec: `LEX_T_GET` of `TinyJS.h`. -/
abbrev LEX_T_GET : Nat := 344
/-- Modelled from the spec: `LEX_T_SET` of `TinyJS.h`. -/
abbrev LEX_T_SET : Nat := 345
/-- Modelled from the spec: `LEX_T_SKIP` of `TinyJS.h`. -/
abbrev LEX_T_SKIP : Nat := 346
/-- Modelled from the spec: `LEX_T_DUMMY_LABEL` of `TinyJS.h`. -/
abbrev LEX_T_DUMMY_LABEL : Nat := 347
/-- Modelled from the spec: `LEX_T_LABEL` of `TinyJS.h`. -/
abbrev LEX_T_LABEL : Nat := 348
/-- Modelled from the spec: `LEX_T_LOOP_LABEL` of `TinyJS.h`. -/
abbrev LEX_T_LOOP_LABEL : Nat := 349
/-- Modelled from the spec: `LEX_T_OBJECT_LITERAL` of `TinyJS.h`. -/
abbrev LEX_T_OBJECT_LITERAL : Nat := 350
/-- Modelled from the spec: `LEX_T_DESTRUCTURING_VAR` of `TinyJS.h`. -/
abbrev LEX_T_DESTRUCTURING_VAR : Nat := 351
/-- Modelled from the spec: `LEX_T_FORWARD` of `TinyJS.h`. -/
abbrev LEX_T_FORWARD : Nat := 352

/-- The token kind of a single character (`tk = currCh`). -/
abbrev tkChar (ch : Char) : Nat := ch.toNat

/-- Source table `reserved_words_begin`: the reserved words and their token kinds. -/
def reserved_words : List (String × Nat) :=
  [("if", LEX_R_IF), ("else", LEX_R_ELSE), ("do", LEX_R_DO), ("while", LEX_R_WHILE),
   ("for", LEX_R_FOR), ("in", LEX_R_IN), ("break", LEX_R_BREAK), ("continue", LEX_R_CONTINUE),
   ("function", LEX_R_FUNCTION), ("return", LEX_R_RETURN), ("var", LEX_R_VAR),
   ("let", LEX_R_LET), ("with", LEX_R_WITH), ("true", LEX_R_TRUE), ("false", LEX_R_FALSE),
   ("null", LEX_R_NULL), ("new", LEX_R_NEW), ("try", LEX_R_TRY), ("catch", LEX_R_CATCH),
   ("finally", LEX_R_FINALLY), ("throw", LEX_R_THROW), ("typeof", LEX_R_TYPEOF),
   ("void", LEX_R_VOID), ("delete", LEX_R_DELETE), ("instanceof", LEX_R_INSTANCEOF),
   ("switch", LEX_R_SWITCH), ("case", LEX_R_CASE), ("default", LEX_R_DEFAULT)]

/-- Source `CScriptToken::isReservedWord(const string &Str)`: the kind of the reserved
word `Str`, `LEX_ID` when it is none (the source finds the entry by binary
search in the table sorted by the words, which are pairwise different). -/
def isReservedWord (Str : String) : Nat :=
  match reserved_words.find? (fun e => e.1 == Str) with
  | some e => e.2
  | none => LEX_ID

/-- Source tables `reserved_words_begin` and `tokens2str_begin` with the rule for
single characters: `CScriptToken::getTokenStr(token)`. -/
def getTokenStr (token : Nat) : String :=
  match reserved_words.find? (fun e => e.2 == token) with
  | some e => e.1
  | none =>
    match ([(LEX_EOF, "EOF"), (LEX_ID, "ID"), (LEX_INT, "INT"), (LEX_FLOAT, "FLOAT"),
      (LEX_STR, "STRING"), (LEX_REGEXP, "REGEXP"), (LEX_EQUAL, "=="), (LEX_TYPEEQUAL, "==="),
      (LEX_NEQUAL, "!="), (LEX_NTYPEEQUAL, "!=="), (LEX_LEQUAL, "<="), (LEX_LSHIFT, "<<"),
      (LEX_LSHIFTEQUAL, "<<="), (LEX_GEQUAL, ">="), (LEX_RSHIFT, ">>"),
      (LEX_RSHIFTEQUAL, ">>="), (LEX_RSHIFTU, ">>>"), (LEX_RSHIFTUEQUAL, ">>>="),
      (LEX_PLUSEQUAL, "+="), (LEX_MINUSEQUAL, "-="), (LEX_PLUSPLUS, "++"),
      (LEX_MINUSMINUS, "--"), (LEX_ANDEQUAL, "&="), (LEX_ANDAND, "&&"), (LEX_OREQUAL, "|="),
      (LEX_OROR, "||"), (LEX_XOREQUAL, "^="), (LEX_ASTERISKEQUAL, "*="),
      (LEX_SLASHEQUAL, "/="), (LEX_PERCENTEQUAL, "%="), (LEX_T_FOR_IN, "for"),
      (LEX_T_FOR_EACH_IN, "for each"), (LEX_T_FUNCTION_OPERATOR, "function"),
      (LEX_T_GET, "get"), (LEX_T_SET, "set"), (LEX_T_SKIP, "LEX_SKIP"),
      (LEX_T_DUMMY_LABEL, "LABEL"), (LEX_T_LABEL, "LABEL"),
      (LEX_T_LOOP_LABEL, "LEX_LOOP_LABEL"), (LEX_T_OBJECT_LITERAL, "LEX_OBJECT_LITERAL"),
      (LEX_T_DESTRUCTURING_VAR, "Destructuring Var")] : List (Nat × String)).find?
        (fun e => e.1 == token) with
    | some e => e.2
    | none =>
      if 32 < token ∧ token < 128 then String.singleton (Char.ofNat token)
      else "?[" ++ toString token ++ "]"

/-- What stops a run of the model that is no result of the source: a
`CScriptException` that reaches the host (`errorType`, `message`), a construct
that the model leaves out, or the end of the fuel of a loop or a recursion. -/
inductive Fault
  | exception (errorType : String) (message : String)
  | notModelled (what : String)
  | fuel
deriving DecidableEq, Repr

deriving instance DecidableEq for Except

end TinyJS

namespace TinyJS

/-! ## The lexer `CScriptLex`

The text is a list of characters; `dataPos` is an index into it and `*dataPos`
is the NUL character past its end.  A loop of the source that reads characters
runs on fuel (the length of the text bounds the number of characters read);
a run that uses up its fuel ends in `Fault.fuel`. -/

/-- Source `isWhitespace`. -/
def isWhitespace (ch : Char) : Bool := ch == ' ' || ch == '\t' || ch == '\n' || ch == '\r'

/-- Source `isHexadecimal`. -/
def isHexadecimal (ch : Char) : Bool :=
  (decide ('0'.toNat ≤ ch.toNat) && decide (ch.toNat ≤ '9'.toNat)) ||
  (decide ('a'.toNat ≤ ch.toNat) && decide (ch.toNat ≤ 'f'.toNat)) ||
  (decide ('A'.toNat ≤ ch.toNat) && decide (ch.toNat ≤ 'F'.toNat))

/-- Source `isOctal`. -/
def isOctal (ch : Char) : Bool := decide ('0'.toNat ≤ ch.toNat) && decide (ch.toNat ≤ '7'.toNat)

/-- The NUL character, the `LEX_EOF` of the text. -/
abbrev NUL : Char := Char.ofNat 0

/-- Source `CScriptLex`: the text, the read position with the two characters of
lookahead, the current token (`tk`, `tkStr`), the token before it (`last_tk`),
the position `pos` (`currentLine`, `currentLineStart`, `tokenStart`) and
`lineBreakBeforeToken`.  `regex_errors` stands for the constructor of
`std::regex`, which rejects a pattern by throwing: it lists the patterns that
are rejected. -/
structure CScriptLex where
  data : List Char
  dataPos : Nat
  currCh : Char
  nextCh : Char
  tk : Nat
  last_tk : Nat
  tkStr : String
  currentLine : Int
  currentLineStart : Nat
  tokenStart : Nat
  lineBreakBeforeToken : Bool
  regex_errors : List String
deriving DecidableEq

/-- Source `CScriptLex::POS`. -/
structure POS where
  currentLine : Int
  currentLineStart : Nat
  tokenStart : Nat
deriving DecidableEq, Repr

namespace CScriptLex

/-- Source field `pos` of the lexer. -/
def pos (l : CScriptLex) : POS :=
  { currentLine := l.currentLine, currentLineStart := l.currentLineStart,
    tokenStart := l.tokenStart }

/-- The body of `CScriptLex::getNextCh` up to its test of `'\r'`. -/
def getNextCh_read (l : CScriptLex) : CScriptLex :=
  let l1 : CScriptLex :=
    if l.currCh = '\n' then
      { l with currentLine := l.currentLine + 1,
               tokenStart := l.dataPos - (if l.nextCh = NUL then 0 else 1),
               currentLineStart := l.dataPos - (if l.nextCh = NUL then 0 else 1) }
    else l
  let next := l1.data.getD l1.dataPos NUL
  { l1 with currCh := l1.nextCh, nextCh := next,
            dataPos := if next ≠ NUL then l1.dataPos + 1 else l1.dataPos }

/-- Source `CScriptLex::getNextCh`.  The call of itself for `"\r\n"` reads one more
character; in that call `currCh` becomes `'\n'`, so that its own test of `'\r'`
fails. -/
def getNextCh (l : CScriptLex) : CScriptLex :=
  let l1 := getNextCh_read l
  if l1.currCh = '\r' then
    if l1.nextCh = '\n' then getNextCh_read l1
    else { l1 with currCh := '\n' }
  else l1

/-- Source loops `while (cond) getNextCh();` of the lexer. -/
def skipWhile (cond : CScriptLex → Bool) : Nat → CScriptLex → Except Fault CScriptLex
  | 0, _ => .error .fuel
  | fuel + 1, l => if cond l then skipWhile cond fuel l.getNextCh else .ok l

/-- Source loops `while (cond) \x7b tkStr += currCh; getNextCh(); \x7d` of the lexer. -/
def readWhile (cond : CScriptLex → Bool) : Nat → CScriptLex → Except Fault CScriptLex
  | 0, _ => .error .fuel
  | fuel + 1, l =>
    if cond l then readWhile cond fuel { l with tkStr := l.tkStr.push l.currCh }.getNextCh
    else .ok l

/-- The value of a hexadecimal digit (for `strtol`). -/
def hexDigit (ch : Char) : Nat :=
  if decide ('0'.toNat ≤ ch.toNat) && decide (ch.toNat ≤ '9'.toNat) then ch.toNat - '0'.toNat
  else if decide ('a'.toNat ≤ ch.toNat) && decide (ch.toNat ≤ 'f'.toNat) then
    ch.toNat - 'a'.toNat + 10
  else ch.toNat - 'A'.toNat + 10

/-- Source `(char)strtol(buf, 0, base)` for a buffer of digits of the base. -/
def strtolChar (buf : List Char) (base : Nat) : Char :=
  Char.ofNat ((buf.foldl (fun acc ch => acc * base + hexDigit ch) 0) % 256)

/-- Source `case 'x'` of the escape sequences of a string literal, which has no
`break` and runs on into `default`. -/
def escape_x (l : CScriptLex) : Except Fault CScriptLex :=
  let l1 := l.getNextCh
  if isHexadecimal l1.currCh then
    -- `buf[0] = currCh; for(i=0; i<2 && isHexadecimal(nextCh); i++) \x7b getNextCh(); buf[i] = currCh; \x7d`
    let r : CScriptLex × List Char :=
      if isHexadecimal l1.nextCh then
        let l2 := l1.getNextCh
        if isHexadecimal l2.nextCh then
          let l3 := l2.getNextCh
          (l3, [l2.currCh, l3.currCh])
        else (l2, [l2.currCh])
      else (l1, [l1.currCh])
    .ok { r.1 with tkStr := r.1.tkStr.push (strtolChar r.2 16) }
  else .error (.exception "SyntaxError" "malformed hexadezimal character escape sequence")

/-- Source `default` of the escape sequences of a string literal. -/
def escape_default (l : CScriptLex) : CScriptLex :=
  if isOctal l.currCh then
    -- `buf[0] = currCh; for(i=1; i<3 && isOctal(nextCh); i++) \x7b getNextCh(); buf[i] = currCh; \x7d`
    let r : CScriptLex × List Char :=
      if isOctal l.nextCh then
        let l2 := l.getNextCh
        if isOctal l2.nextCh then
          let l3 := l2.getNextCh
          (l3, [l.currCh, l2.currCh, l3.currCh])
        else (l2, [l.currCh, l2.currCh])
      else (l, [l.currCh])
    { r.1 with tkStr := r.1.tkStr.push (strtolChar r.2 8) }
  else { l with tkStr := l.tkStr.push l.currCh }

/-- The loop over the characters of a string literal in `getNextToken`. -/
def readString (endCh : Char) : Nat → CScriptLex → Except Fault CScriptLex
  | 0, _ => .error .fuel
  | fuel + 1, l =>
    if l.currCh ≠ NUL ∧ l.currCh ≠ endCh ∧ l.currCh ≠ '\n' then
      if l.currCh = '\\' then
        let l1 := l.getNextCh
        let r : Except Fault CScriptLex :=
          if l1.currCh = '\n' then .ok l1
          else if l1.currCh = 'n' then .ok { l1 with tkStr := l1.tkStr.push '\n' }
          else if l1.currCh = 'r' then .ok { l1 with tkStr := l1.tkStr.push '\r' }
          else if l1.currCh = 'a' then .ok { l1 with tkStr := l1.tkStr.push (Char.ofNat 7) }
          else if l1.currCh = 'b' then .ok { l1 with tkStr := l1.tkStr.push (Char.ofNat 8) }
          else if l1.currCh = 'f' then .ok { l1 with tkStr := l1.tkStr.push (Char.ofNat 12) }
          else if l1.currCh = 't' then .ok { l1 with tkStr := l1.tkStr.push '\t' }
          else if l1.currCh = 'v' then .ok { l1 with tkStr := l1.tkStr.push (Char.ofNat 11) }
          else if l1.currCh = 'x' then (escape_x l1).map escape_default
          else .ok (escape_default l1)
        match r with
        | .ok l2 => readString endCh fuel l2.getNextCh
        | .error e => .error e
      else readString endCh fuel { l with tkStr := l.tkStr.push l.currCh }.getNextCh
    else .ok l

/-- The loop over the characters of the pattern of a regular expression in
`getNextToken`. -/
def readRegexp : Nat → CScriptLex → Except Fault CScriptLex
  | 0, _ => .error .fuel
  | fuel + 1, l =>
    if l.currCh ≠ NUL ∧ l.currCh ≠ '/' ∧ l.currCh ≠ '\n' then
      let l1 := if l.currCh = '\\' ∧ l.nextCh = '/' then
          { l with tkStr := l.tkStr.push l.currCh }.getNextCh
        else l
      readRegexp fuel { l1 with tkStr := l1.tkStr.push l1.currCh }.getNextCh
    else .ok l

end CScriptLex

/-- Source table `not_allowed_tokens_befor_regexp`. -/
def not_allowed_tokens_befor_regexp : List Nat :=
  [LEX_ID, LEX_INT, LEX_FLOAT, LEX_STR, LEX_R_TRUE, LEX_R_FALSE, LEX_R_NULL, tkChar ']',
   tkChar ')', tkChar '.', LEX_EOF]

/-- Source loop `for(uint16_t *p = not_allowed_tokens_befor_regexp; *p; p++)
if(*p==last_tk) \x7b tk = '/'; break; \x7d` of `getNextToken`, started with
`tk = LEX_REGEXP`: the loop ends at the first entry that is 0. -/
def regexpOrSlash (last_tk : Nat) : List Nat → Nat
  | [] => LEX_REGEXP
  | p :: ps =>
    if p = 0 then LEX_REGEXP
    else if p = last_tk then tkChar '/'
    else regexpOrSlash last_tk ps

end TinyJS

namespace TinyJS

namespace CScriptLex

/-- The fuel of a loop over characters: more than the characters left to read. -/
def charFuel (l : CScriptLex) : Nat := l.data.length + 3

/-- The branch `// Numbers` of `getNextToken`. -/
def readNumber (l : CScriptLex) : Except Fault CScriptLex := do
  let l1 : CScriptLex := if l.currCh = '.' then { l with tkStr := l.tkStr.push '0' } else l
  let l2 : CScriptLex :=
    if l1.currCh = '0' then { l1 with tkStr := l1.tkStr.push l1.currCh }.getNextCh else l1
  let isHex : Bool := l2.currCh == 'x' || l2.currCh == 'X'
  let l3 : CScriptLex :=
    if isHex then { l2 with tkStr := l2.tkStr.push l2.currCh }.getNextCh else l2
  let l4 ← readWhile (fun s => isNumeric s.currCh || (isHex && isHexadecimal s.currCh))
    l.charFuel { l3 with tk := LEX_INT }
  let l5 ←
    if !isHex && l4.currCh == '.' then
      readWhile (fun s => isNumeric s.currCh) l.charFuel
        { l4 with tk := LEX_FLOAT, tkStr := l4.tkStr.push '.' }.getNextCh
    else .ok l4
  if !isHex && (l5.currCh == 'e' || l5.currCh == 'E') then
    let l6 : CScriptLex := { l5 with tk := LEX_FLOAT, tkStr := l5.tkStr.push l5.currCh }.getNextCh
    let l7 : CScriptLex :=
      if l6.currCh = '-' then { l6 with tkStr := l6.tkStr.push l6.currCh }.getNextCh else l6
    readWhile (fun s => isNumeric s.currCh) l.charFuel l7
  else .ok l5

/-- The branch `// single chars` of `getNextToken` for a token that begins with
`/`: a regular expression, `/=` or `/`. -/
def readSlash (l : CScriptLex) : Except Fault CScriptLex := do
  let tk := regexpOrSlash l.last_tk not_allowed_tokens_befor_regexp
  if tk = LEX_REGEXP then
    let l1 ← readRegexp l.charFuel { l with tk := LEX_REGEXP, tkStr := "/" }
    if l1.currCh = '/' then
      if l1.regex_errors.contains (String.mk (l1.tkStr.toList.drop 1)) then
        .error (.exception "SyntaxError" "regex_error")
      else
        -- `do \x7b tkStr.append(1, currCh); getNextCh(); \x7d while (currCh=='g' || ...)`
        readWhile (fun s => s.currCh == 'g' || s.currCh == 'i' || s.currCh == 'm' ||
            s.currCh == 'y') l.charFuel { l1 with tkStr := l1.tkStr.push l1.currCh }.getNextCh
    else .error (.exception "SyntaxError" "unterminated regular expression literal")
  else if l.currCh = '=' then .ok { l with tk := LEX_SLASHEQUAL }.getNextCh
  else .ok { l with tk := tk }

/-- The branch `// single chars` of `getNextToken`; `tk` is the character that was
read, `l` the lexer after it. -/
def readPunctuator (tk : Char) (l : CScriptLex) : Except Fault CScriptLex :=
  let set (l : CScriptLex) (k : Nat) : CScriptLex := { l with tk := k }.getNextCh
  if tk = '=' ∧ l.currCh = '=' then
    let l1 := set l LEX_EQUAL
    .ok (if l1.currCh = '=' then set l1 LEX_TYPEEQUAL else l1)
  else if tk = '!' ∧ l.currCh = '=' then
    let l1 := set l LEX_NEQUAL
    .ok (if l1.currCh = '=' then set l1 LEX_NTYPEEQUAL else l1)
  else if tk = '<' then
    if l.currCh = '=' then .ok (set l LEX_LEQUAL)
    else if l.currCh = '<' then
      let l1 := set l LEX_LSHIFT
      .ok (if l1.currCh = '=' then set l1 LEX_LSHIFTEQUAL else l1)
    else .ok l
  else if tk = '>' then
    if l.currCh = '=' then .ok (set l LEX_GEQUAL)
    else if l.currCh = '>' then
      let l1 := set l LEX_RSHIFT
      if l1.currCh = '=' then .ok (set l1 LEX_RSHIFTEQUAL)
      else if l1.currCh = '>' then
        let l2 := set l1 LEX_RSHIFTU
        .ok (if l2.currCh = '=' then set l2 LEX_RSHIFTUEQUAL else l2)
      else .ok l1
    else .ok l
  else if tk = '+' then
    if l.currCh = '=' then .ok (set l LEX_PLUSEQUAL)
    else if l.currCh = '+' then .ok (set l LEX_PLUSPLUS)
    else .ok l
  else if tk = '-' then
    if l.currCh = '=' then .ok (set l LEX_MINUSEQUAL)
    else if l.currCh = '-' then .ok (set l LEX_MINUSMINUS)
    else .ok l
  else if tk = '&' then
    if l.currCh = '=' then .ok (set l LEX_ANDEQUAL)
    else if l.currCh = '&' then .ok (set l LEX_ANDAND)
    else .ok l
  else if tk = '|' then
    if l.currCh = '=' then .ok (set l LEX_OREQUAL)
    else if l.currCh = '|' then .ok (set l LEX_OROR)
    else .ok l
  else if tk = '^' ∧ l.currCh = '=' then .ok (set l LEX_XOREQUAL)
  else if tk = '*' ∧ l.currCh = '=' then .ok (set l LEX_ASTERISKEQUAL)
  else if tk = '/' then readSlash l
  else if tk = '%' ∧ l.currCh = '=' then .ok (set l LEX_PERCENTEQUAL)
  else .ok l

/-- Source `CScriptLex::getNextToken`.  The fuel counts the calls of itself after
a comment. -/
def getNextToken : Nat → CScriptLex → Except Fault CScriptLex
  | 0, _ => .error .fuel
  | fuel + 1, l0 => do
    let l ← skipWhile (fun s => s.currCh != NUL && isWhitespace s.currCh) l0.charFuel l0
    if l.currCh = '/' ∧ l.nextCh = '/' then
      let l1 ← skipWhile (fun s => s.currCh != NUL && s.currCh != '\n') l.charFuel l
      getNextToken fuel l1.getNextCh
    else if l.currCh = '/' ∧ l.nextCh = '*' then
      let l1 ← skipWhile (fun s => s.currCh != NUL && (s.currCh != '*' || s.nextCh != '/'))
        l.charFuel l
      getNextToken fuel l1.getNextCh.getNextCh
    else
      let l1 : CScriptLex :=
        { l with last_tk := l.tk, tk := LEX_EOF, tkStr := "",
                 tokenStart := l.dataPos -
                   (if l.nextCh = NUL then (if l.currCh = NUL then 0 else 1) else 2) }
      if isAlpha l1.currCh then
        let l2 ← readWhile (fun s => isAlpha s.currCh || isNumeric s.currCh) l1.charFuel l1
        .ok { l2 with tk := isReservedWord l2.tkStr }
      else if isNumeric l1.currCh || (l1.currCh == '.' && isNumeric l1.nextCh) then
        readNumber l1
      else if l1.currCh = '"' ∨ l1.currCh = '\'' then
        let endCh := l1.currCh
        let l2 ← readString endCh l1.charFuel l1.getNextCh
        if l2.currCh ≠ endCh then .error (.exception "SyntaxError" "unterminated string literal")
        else .ok { l2.getNextCh with tk := LEX_STR }
      else
        let tk := l1.currCh
        let l2 : CScriptLex := { l1 with tk := tkChar tk }
        readPunctuator tk (if tk ≠ NUL then l2.getNextCh else l2)

/-- The fuel of `getNextToken`: more than the comments the text can hold. -/
def tokenFuel (l : CScriptLex) : Nat := l.data.length + 2

/-- Source `CScriptLex::reset(toPos)`. -/
def reset (l : CScriptLex) (toPos : POS) : Except Fault CScriptLex :=
  let l1 : CScriptLex :=
    { l with dataPos := toPos.tokenStart, tk := 0, last_tk := 0, tkStr := "",
             currentLine := toPos.currentLine, currentLineStart := toPos.currentLineStart,
             tokenStart := toPos.tokenStart, lineBreakBeforeToken := false,
             currCh := NUL, nextCh := NUL }
  getNextToken l.tokenFuel l1.getNextCh.getNextCh

/-- Source constructor `CScriptLex::CScriptLex(Code, File, Line, Column)`. -/
def new (Code : String) (Line : Int) (regex_errors : List String) : Except Fault CScriptLex :=
  reset { data := Code.toList, dataPos := 0, currCh := NUL, nextCh := NUL, tk := 0, last_tk := 0,
          tkStr := "", currentLine := Line, currentLineStart := 0, tokenStart := 0,
          lineBreakBeforeToken := false, regex_errors := regex_errors }
    { currentLine := Line, currentLineStart := 0, tokenStart := 0 }

/-- Source `CScriptLex::check(expected_tk, alternate_tk)`; `none` stands for the
default -1 of `alternate_tk`.  The result is the exception thrown, if any. -/
def check (l : CScriptLex) (expected_tk : Nat) (alternate_tk : Option Nat) : Option Fault :=
  if expected_tk = tkChar ';' ∧ l.tk = LEX_EOF then none
  else if l.tk ≠ expected_tk ∧ some l.tk ≠ alternate_tk then
    some (.exception "SyntaxError"
      ((if expected_tk = LEX_EOF then "Got unexpected " ++ getTokenStr l.tk
        else "Got '" ++ getTokenStr l.tk ++ "' expected '" ++ getTokenStr expected_tk ++ "'") ++
       (match alternate_tk with
        | some a => " or '" ++ getTokenStr a ++ "'"
        | none => "")))
  else none

/-- Source `CScriptLex::match(expected_tk1, alternate_tk)`. -/
def «match» (l : CScriptLex) (expected_tk1 : Nat) (alternate_tk : Option Nat) :
    Except Fault CScriptLex :=
  match l.check expected_tk1 alternate_tk with
  | some e => .error e
  | none => do
    let line := l.currentLine
    let l1 ← getNextToken l.tokenFuel l
    .ok { l1 with lineBreakBeforeToken := decide (line ≠ l1.currentLine) }

end CScriptLex

end TinyJS

namespace TinyJS

/-- Source type `TOKEN_VECT`. -/
abbrev TOKEN_VECT := List CScriptToken

/-- Modelled from the spec: the macro `LEX_TOKEN_DATA_STRING` of `TinyJS.h` (not part
of the source): the token kinds that carry a string. -/
def LEX_TOKEN_DATA_STRING (tk : Nat) : Bool :=
  tk == LEX_ID || tk == LEX_STR || tk == LEX_REGEXP || tk == LEX_T_LABEL ||
    tk == LEX_T_DUMMY_LABEL || tk == LEX_T_LOOP_LABEL

/-- Modelled from the spec: the macro `LEX_TOKEN_DATA_FUNCTION` of `TinyJS.h` (not
part of the source): the token kinds that carry a function. -/
def LEX_TOKEN_DATA_FUNCTION (tk : Nat) : Bool :=
  tk == LEX_R_FUNCTION || tk == LEX_R_FUNCTION_PLACEHOLDER || tk == LEX_T_FUNCTION_OPERATOR ||
    tk == LEX_T_GET || tk == LEX_T_SET

namespace CScriptToken

/-- Source field `token`. -/
def token : CScriptToken → Nat
  | .simple token _ => token
  | .string token _ => token
  | .fnc token _ _ _ => token
  | .forwarder _ _ _ _ => LEX_T_FORWARD
  | .object _ _ _ _ => LEX_T_OBJECT_LITERAL
  | .element _ _ => LEX_EOF

/-- Source `Int()`, the `intData` of a simple token. -/
def getInt : CScriptToken → Int
  | .simple _ intData => intData
  | _ => 0

/-- Source `String()`, the string of a token with string data. -/
def getString : CScriptToken → String
  | .string _ tkStr => tkStr
  | .fnc _ name _ _ => name
  | .element id _ => id
  | _ => ""

/-- Source `Forwarder().lets`. -/
def lets : CScriptToken → List String
  | .forwarder lets _ _ _ => lets
  | _ => []

/-- Source `Forwarder().vars`. -/
def vars : CScriptToken → List String
  | .forwarder _ vars _ _ => vars
  | _ => []

/-- Source `Forwarder().vars_in_letscope`. -/
def vars_in_letscope : CScriptToken → List String
  | .forwarder _ _ vars_in_letscope _ => vars_in_letscope
  | _ => []

/-- Source `Forwarder().functions`. -/
def functions : CScriptToken → List CScriptToken
  | .forwarder _ _ _ functions => functions
  | _ => []

/-- Source `Fnc().arguments`. -/
def arguments : CScriptToken → List CScriptToken
  | .fnc _ _ arguments _ => arguments
  | _ => []

/-- Source `Fnc().body`. -/
def body : CScriptToken → List CScriptToken
  | .fnc _ _ _ body => body
  | .element _ value => value
  | _ => []

/-- Source `Object().elements`. -/
def elements : CScriptToken → List CScriptToken
  | .object _ _ _ elements => elements
  | _ => []

/-- Source assignment `it->token = Tk` to a token in the buffer: the data stays. -/
def setToken (Tk : Nat) : CScriptToken → CScriptToken
  | .simple _ intData => .simple Tk intData
  | .string _ tkStr => .string Tk tkStr
  | .fnc _ name arguments body => .fnc Tk name arguments body
  | t => t

/-- Source assignment `Int() = v` to a token in the buffer. -/
def setInt (v : Int) : CScriptToken → CScriptToken
  | .simple token _ => .simple token v
  | t => t

/-- Source constructor `CScriptToken(uint16_t Tk, int IntData)` for the kinds that
the tokenizer creates without a lexer: the forwarder gets empty sets, an object
literal no elements, any other kind is a simple token. -/
def new (Tk : Nat) : CScriptToken :=
  if Tk = LEX_T_FORWARD then .forwarder [] [] [] []
  else if Tk = LEX_T_OBJECT_LITERAL then .object false false false []
  else if LEX_TOKEN_DATA_FUNCTION Tk then .fnc Tk "" [] []
  else .simple Tk 0

end CScriptToken

/-- Source `std::set<std::string>::insert`: the set is the list of its members in
ascending order. -/
def STRING_SET_insert : List String → String → List String
  | [], x => [x]
  | y :: ys, x =>
    if stringLess x y then x :: y :: ys
    else if stringLess y x then y :: STRING_SET_insert ys x
    else y :: ys

/-- Source `FNC_SET_t::insert` with `compare_fnc_token_by_name`: function tokens in
ascending order of their names; a token whose name is in the set is not
inserted. -/
def FNC_SET_insert : List CScriptToken → CScriptToken → List CScriptToken
  | [], x => [x]
  | y :: ys, x =>
    if stringLess x.getString y.getString then x :: y :: ys
    else if stringLess y.getString x.getString then y :: FNC_SET_insert ys x
    else y :: ys

namespace CScriptToken

/-- Source `CScriptTokenDataForwards::checkRedefinition`. -/
def checkRedefinition (f : CScriptToken) (Str : String) (checkVarsInLetScope : Bool) : Bool :=
  if f.lets.contains Str then false
  else if checkVarsInLetScope && f.vars_in_letscope.contains Str then false
  else true

/-- Source `CScriptTokenDataForwards::addVars`. -/
def addVars (f : CScriptToken) (Vars : List String) : CScriptToken :=
  match f with
  | .forwarder lets vars vl functions => .forwarder lets (Vars.foldl STRING_SET_insert vars) vl functions
  | t => t

/-- Source `CScriptTokenDataForwards::addVarsInLetscope`: the changed forwarder and
the name that is redeclared (empty when there is none). -/
def addVarsInLetscope : CScriptToken → List String → CScriptToken × String
  | f, [] => (f, "")
  | f, v :: Vars =>
    if !f.checkRedefinition v false then (f, v)
    else
      match f with
      | .forwarder lets vars vl functions =>
        addVarsInLetscope (.forwarder lets vars (STRING_SET_insert vl v) functions) Vars
      | t => addVarsInLetscope t Vars

/-- Source `CScriptTokenDataForwards::addLets`. -/
def addLets : CScriptToken → List String → CScriptToken × String
  | f, [] => (f, "")
  | f, v :: Lets =>
    if !f.checkRedefinition v true then (f, v)
    else
      match f with
      | .forwarder lets vars vl functions =>
        addLets (.forwarder (STRING_SET_insert lets v) vars vl functions) Lets
      | t => addLets t Lets

/-- Source `vars_in_letscope.clear()` of a forwarder. -/
def clearVarsInLetscope : CScriptToken → CScriptToken
  | .forwarder lets vars _ functions => .forwarder lets vars [] functions
  | t => t

/-- Source `Forwarder().functions.insert(FncToken)`. -/
def insertFunction (f : CScriptToken) (FncToken : CScriptToken) : CScriptToken :=
  match f with
  | .forwarder lets vars vl functions => .forwarder lets vars vl (FNC_SET_insert functions FncToken)
  | t => t

end CScriptToken

/-- Source `(int)strtol(str, 0, 0)` on the text of an integer token: hexadecimal
after `0x`, octal after a leading `0`, decimal otherwise; the digits are read as
far as they are digits of the base, the value is capped at `LONG_MAX` (64 bit)
and stored in an `int`. -/
def strtol (str : String) : Int :=
  let digits (base : Nat) (cs : List Char) : Nat :=
    (cs.takeWhile fun ch =>
      isHexadecimal ch && decide (CScriptLex.hexDigit ch < base)).foldl
        (fun acc ch => acc * base + CScriptLex.hexDigit ch) 0
  let v : Nat :=
    match str.toList with
    | '0' :: 'x' :: cs => digits 16 cs
    | '0' :: 'X' :: cs => digits 16 cs
    | '0' :: cs => digits 8 cs
    | cs => digits 10 cs
  wrapInt (min v 9223372036854775807 : Nat)

end TinyJS

namespace TinyJS

/-! ## The tokenizer `CScriptTokenizer`

The functions `tokenize...` of the source share the lexer `l` and the arguments
`Tokens`, `BlockStart`, `Marks`, `Labels` and `LoopLabels`, which they change in
place: `Tokenizing` holds them.  A vector is the list of its entries, `front()`
its head and `back()` its last entry.  The functions call each other, so they
run on fuel.  Destructuring patterns (`tokenizeDestructionVar`) are left out:
the model stops with `Fault.notModelled` where the source tokenizes one. -/

/-- Source enum `TOKENIZE_FLAGS_...`: the bits of the argument `Flags`. -/
structure TokenizeFlags where
  canLabel : Bool
  canBreak : Bool
  canContinue : Bool
  canReturn : Bool
  asStatement : Bool
  forFor : Bool
  isAccessor : Bool
  callForNew : Bool
  noBlockStart : Bool
  nestedObject : Bool
deriving DecidableEq, Repr

/-- The value 0 of `Flags`. -/
def TokenizeFlags.zero : TokenizeFlags :=
  { canLabel := false, canBreak := false, canContinue := false, canReturn := false,
    asStatement := false, forFor := false, isAccessor := false, callForNew := false,
    noBlockStart := false, nestedObject := false }

/-- Source test `Flags != 0`. -/
def TokenizeFlags.nonZero (f : TokenizeFlags) : Bool :=
  f.canLabel || f.canBreak || f.canContinue || f.canReturn || f.asStatement || f.forFor ||
    f.isAccessor || f.callForNew || f.noBlockStart || f.nestedObject

/-- Source enum `TOKENIZE_STATE_...`: the bits of the argument `State`. -/
structure TokenizeState where
  leftHand : Bool
  Destructuring : Bool
deriving DecidableEq, Repr

/-- The lexer and the arguments that the functions `tokenize...` hand on. -/
structure Tokenizing where
  l : CScriptLex
  Tokens : TOKEN_VECT
  BlockStart : List Nat
  Marks : List Nat
  Labels : List String
  LoopLabels : List String
deriving DecidableEq

namespace CScriptTokenizer

/-- Source constructor `CScriptToken(CScriptLex *l, int Match, int Alternate)`: the
token is made of the current token of the lexer, which is then matched. -/
def tokenOfLex (l : CScriptLex) (Match Alternate : Option Nat) :
    Except Fault (CScriptToken × CScriptLex) :=
  let token : CScriptToken :=
    if l.tk = LEX_INT then .simple LEX_INT (strtol l.tkStr)
    else if l.tk = LEX_FLOAT then .string LEX_FLOAT l.tkStr
    else if LEX_TOKEN_DATA_STRING l.tk then .string l.tk l.tkStr
    else if LEX_TOKEN_DATA_FUNCTION l.tk then .fnc l.tk "" [] []
    else .simple l.tk 0
  match (match Match with
         | some m => l.«match» m Alternate
         | none => l.«match» l.tk none) with
  | .ok l1 => .ok (token, l1)
  | .error e => .error e

/-- Source `CScriptTokenizer::pushToken(Tokens, Match, Alternate)`; `none` stands for
the default -1.  Returns the index of the token pushed. -/
def pushToken (T : Tokenizing) (Match Alternate : Option Nat) : Except Fault (Tokenizing × Nat) :=
  if Match = some (tkChar ';') ∧ T.l.tk ≠ tkChar ';' ∧
      (T.l.lineBreakBeforeToken = true ∨ T.l.tk = tkChar '\x7d' ∨ T.l.tk = LEX_EOF) then
    .ok ({ T with Tokens := T.Tokens ++ [CScriptToken.simple (tkChar ';') 0] }, T.Tokens.length)
  else
    match tokenOfLex T.l Match Alternate with
    | .ok (token, l1) => .ok ({ T with Tokens := T.Tokens ++ [token], l := l1 }, T.Tokens.length)
    | .error e => .error e

/-- Source `pushToken(Tokens, Match, Alternate)` where the index is not used. -/
def push (T : Tokenizing) (Match Alternate : Option Nat) : Except Fault Tokenizing :=
  (pushToken T Match Alternate).map Prod.fst

/-- Source `Marks.push_back(pushToken(Tokens, Match))`. -/
def pushMark (T : Tokenizing) (Match : Option Nat) : Except Fault Tokenizing :=
  (pushToken T Match none).map fun r => { r.1 with Marks := r.1.Marks ++ [r.2] }

/-- Source `Tokens.push_back(Token)`. -/
def pushBack (T : Tokenizing) (Token : CScriptToken) : Tokenizing :=
  { T with Tokens := T.Tokens ++ [Token] }

/-- Source `CScriptTokenizer::pushForwarder`. -/
def pushForwarder (T : Tokenizing) : Tokenizing :=
  { T with BlockStart := T.BlockStart ++ [T.Tokens.length],
           Tokens := T.Tokens ++ [CScriptToken.new LEX_T_FORWARD] }

/-- Source `setTokenSkip`. -/
def setTokenSkip (T : Tokenizing) : Except Fault Tokenizing :=
  match T.Marks.getLast? with
  | none => .error (.notModelled "back() of an empty vector")
  | some tokenBeginIdx =>
    .ok { T with Marks := T.Marks.dropLast,
                 Tokens := T.Tokens.modify
                   (CScriptToken.setInt ((T.Tokens.length : Int) - tokenBeginIdx)) tokenBeginIdx }

/-- Source `fix_BlockStarts_Marks` for `diff = -1`. -/
def fix_BlockStarts_Marks (T : Tokenizing) (start : Nat) : Tokenizing :=
  { T with BlockStart := T.BlockStart.map fun i => if start ≤ i then i - 1 else i,
           Marks := T.Marks.map fun i => if start ≤ i then i - 1 else i }

/-- Source `CScriptTokenizer::removeEmptyForwarder`. -/
def removeEmptyForwarder (T : Tokenizing) : Except Fault Tokenizing :=
  match T.BlockStart.getLast? with
  | none => .error (.notModelled "back() of an empty vector")
  | some back =>
    match T.Tokens[back]? with
    | some (.forwarder lets vars _ functions) =>
      let T1 : Tokenizing :=
        { T with Tokens := T.Tokens.set back (.forwarder lets vars [] functions) }
      let T2 : Tokenizing :=
        if vars.isEmpty && lets.isEmpty && functions.isEmpty then
          fix_BlockStarts_Marks { T1 with Tokens := T1.Tokens.eraseIdx back } back
        else T1
      .ok { T2 with BlockStart := T2.BlockStart.dropLast }
    | _ => .error (.notModelled "Forwarder() of a token that is no forwarder")

/-- The forwarder at `Tokens[idx]`, changed by `f`. -/
def modifyForwarder (T : Tokenizing) (idx : Nat) (f : CScriptToken → CScriptToken) :
    Except Fault Tokenizing :=
  match T.Tokens[idx]? with
  | some (.forwarder lets vars vl functions) =>
    .ok { T with Tokens := T.Tokens.set idx (f (.forwarder lets vars vl functions)) }
  | _ => .error (.notModelled "Forwarder() of a token that is no forwarder")

/-- Source `BlockStart.front()`. -/
def front (T : Tokenizing) : Except Fault Nat :=
  match T.BlockStart.head? with
  | some i => .ok i
  | none => .error (.notModelled "front() of an empty vector")

/-- Source `BlockStart.back()`. -/
def back (T : Tokenizing) : Except Fault Nat :=
  match T.BlockStart.getLast? with
  | some i => .ok i
  | none => .error (.notModelled "back() of an empty vector")

/-- Source `l->match(expected, alternate)` inside the tokenizer. -/
def lmatch (T : Tokenizing) (expected : Nat) (alternate : Option Nat) : Except Fault Tokenizing :=
  (T.l.«match» expected alternate).map fun l1 => { T with l := l1 }

/-- Source `l->check(expected, alternate)` inside the tokenizer. -/
def lcheck (T : Tokenizing) (expected : Nat) (alternate : Option Nat) : Except Fault Tokenizing :=
  match T.l.check expected alternate with
  | some e => .error e
  | none => .ok T

/-- The first loop of `PushLoopLabels` (and of `tokenizeTry`), over the tokens before
the last one from the back: `rev` is the rest of the reversed buffer, `done` the
tokens passed (in buffer order).  Every pair `LEX_T_LABEL`, `:` at the back
becomes `LEX_T_DUMMY_LABEL`, `:`; the names are the labels found, innermost
first. -/
def labelScan : List CScriptToken → List CScriptToken → List String →
    List CScriptToken × List String
  | colon :: label :: rev, done, names =>
    if colon.token = tkChar ':' ∧ label.token = LEX_T_LABEL then
      labelScan rev (label.setToken LEX_T_DUMMY_LABEL :: colon :: done)
        (names ++ [label.getString])
    else ((colon :: label :: rev).reverse ++ done, names)
  | rev, done, names => (rev.reverse ++ done, names)

/-- Source `PushLoopLabels(Tokens, &LoopLabels)`: returns `label_count`. -/
def PushLoopLabels (T : Tokenizing) : Tokenizing × Nat :=
  if 3 ≤ T.Tokens.length then
    match T.Tokens.reverse with
    | last :: rev =>
      let r := labelScan rev [last] []
      let LoopLabels := T.LoopLabels ++ r.2
      -- `Tokens.push_back(CScriptToken(LEX_T_LOOP_LABEL, *(LoopLabels->rbegin()+i)))`
      ({ T with Tokens := r.1 ++ (LoopLabels.reverse.take r.2.length).map
                  (CScriptToken.string LEX_T_LOOP_LABEL),
                LoopLabels := LoopLabels }, r.2.length)
    | [] => (T, 0)
  else (T, 0)

/-- Source `PopLoopLabels`. -/
def PopLoopLabels (T : Tokenizing) (label_count : Nat) : Tokenizing :=
  { T with LoopLabels := T.LoopLabels.take (T.LoopLabels.length - label_count) }

/-- Source table `Left2Right_begin` of `tokenizeSubExpression`. -/
def Left2Right : List Nat :=
  [tkChar '*', tkChar '/', tkChar '%', tkChar '+', tkChar '-', LEX_LSHIFT, LEX_RSHIFT,
   LEX_RSHIFTU, LEX_EQUAL, LEX_NEQUAL, LEX_TYPEEQUAL, LEX_NTYPEEQUAL, tkChar '<', LEX_LEQUAL,
   tkChar '>', LEX_GEQUAL, LEX_R_IN, LEX_R_INSTANCEOF, tkChar '&', tkChar '^', tkChar '|',
   LEX_ANDAND, LEX_OROR]

/-- Source test `tk=='=' || (tk>=LEX_ASSIGNMENTS_BEGIN && tk<=LEX_ASSIGNMENTS_END)`. -/
def isAssignment (tk : Nat) : Bool :=
  tk == tkChar '=' || (decide (LEX_PLUSEQUAL ≤ tk) && decide (tk ≤ LEX_XOREQUAL))

end CScriptTokenizer

end TinyJS

namespace TinyJS

namespace CScriptTokenizer

/-- The loop over the parameters in `tokenizeFunction`:
`while(l->tk != ')') \x7b pushToken(FncData.arguments, LEX_ID); if (l->tk!=')') l->match(',',')'); \x7d`. -/
def tokenizeFunction_arguments : Nat → CScriptLex → List CScriptToken →
    Except Fault (CScriptLex × List CScriptToken)
  | 0, _, _ => .error .fuel
  | fuel + 1, l, arguments =>
    if l.tk ≠ tkChar ')' then
      if l.tk = tkChar '[' ∨ l.tk = tkChar '\x7b' then .error (.notModelled "tokenizeDestructionVar")
      else do
        let r ← tokenOfLex l (some LEX_ID) none
        let l2 ← if r.2.tk ≠ tkChar ')' then r.2.«match» (tkChar ',') (some (tkChar ')'))
                 else .ok r.2
        tokenizeFunction_arguments fuel l2 (arguments ++ [r.1])
    else .ok (l, arguments)

/-- Source `CScriptTokenDataObjectLiteral::setMode`; the fuel bounds the nesting of
the literals. -/
def setMode : Nat → Bool → CScriptToken → CScriptToken
  | 0, _, t => t
  | fuel + 1, Destructuring, t =>
    match t with
    | .object isArray _ _ elements =>
      .object isArray Destructuring (!Destructuring) (elements.map fun e =>
        match e with
        | .element id (.object a true true es :: value) =>
          .element id (setMode fuel Destructuring (.object a true true es) :: value)
        | e => e)
    | t => t

mutual

/-- Source `CScriptTokenizer::tokenizeStatement`. -/
def tokenizeStatement : Nat → Tokenizing → TokenizeFlags → Except Fault Tokenizing
  | 0, _, _ => .error .fuel
  | fuel + 1, T, Flags =>
    let tk := T.l.tk
    if tk = tkChar '\x7b' then tokenizeBlock fuel T Flags
    else if tk = tkChar ';' then push T none none
    else if tk = LEX_R_VAR then tokenizeVar fuel T Flags
    else if tk = LEX_R_LET then tokenizeLet fuel T { Flags with asStatement := true }
    else if tk = LEX_R_WITH then tokenizeWith fuel T Flags
    else if tk = LEX_R_IF then tokenizeIf fuel T Flags
    else if tk = LEX_R_SWITCH then tokenizeSwitch fuel T Flags
    else if tk = LEX_R_DO then tokenizeDo fuel T Flags
    else if tk = LEX_R_WHILE then tokenizeWhile fuel T Flags
    else if tk = LEX_R_FOR then tokenizeFor fuel T Flags
    else if tk = LEX_R_FUNCTION then tokenizeFunction fuel T { Flags with asStatement := true }
    else if tk = LEX_R_TRY then tokenizeTry fuel T Flags
    else if tk = LEX_R_RETURN ∨ tk = LEX_R_THROW then
      if tk = LEX_R_RETURN ∧ Flags.canReturn = false then
        .error (.exception "SyntaxError" "'return' statement, but not in a function.")
      else do
        let T1 ← pushMark T none
        let T2 ← if T1.l.tk ≠ tkChar ';' ∧ T1.l.lineBreakBeforeToken = false then
            tokenizeExpression fuel T1 Flags
          else .ok T1
        let T3 ← push T2 (some (tkChar ';')) none
        setTokenSkip T3
    else if tk = LEX_R_BREAK ∨ tk = LEX_R_CONTINUE then do
      let isBreak : Bool := tk == LEX_R_BREAK
      let T1 ← pushMark T none
      let T2 ←
        if T1.l.tk ≠ tkChar ';' ∧ T1.l.lineBreakBeforeToken = false then do
          let T1a ← lcheck T1 LEX_ID none
          let L := if isBreak then T1a.Labels else T1a.LoopLabels
          if !L.contains T1a.l.tkStr then
            .error (.exception "SyntaxError" ("label '" ++ T1a.l.tkStr ++ "' not found"))
          else push T1a none none
        else if (if isBreak then Flags.canBreak else Flags.canContinue) = false then
          .error (.exception "SyntaxError"
            (if isBreak then "'break' must be inside loop or switch"
             else "'continue' must be inside loop"))
        else .ok T1
      let T3 ← push T2 (some (tkChar ';')) none
      setTokenSkip T3
    else if tk = LEX_ID then do
      let label_count := T.Labels.length
      let T1 ← tokenizeExpression fuel T { Flags with canLabel := true }
      if label_count < T1.Labels.length ∧ T1.l.tk = tkChar ':' then do
        let T2 ← push T1 none none
        let T3 ← tokenizeStatement fuel T2 Flags
        .ok { T3 with Labels := T3.Labels.dropLast }
      else push T1 (some (tkChar ';')) none
    else do
      let T1 ← tokenizeExpression fuel T Flags
      push T1 (some (tkChar ';')) none

/-- The loop `while(l->tk != '\x7d' && l->tk != LEX_EOF) tokenizeStatement(...)` of
`tokenizeBlock`. -/
def tokenizeBlock_loop : Nat → Tokenizing → TokenizeFlags → Except Fault Tokenizing
  | 0, _, _ => .error .fuel
  | fuel + 1, T, Flags =>
    if T.l.tk ≠ tkChar '\x7d' ∧ T.l.tk ≠ LEX_EOF then do
      let T1 ← tokenizeStatement fuel T Flags
      tokenizeBlock_loop fuel T1 Flags
    else .ok T

/-- Source `CScriptTokenizer::tokenizeBlock`. -/
def tokenizeBlock : Nat → Tokenizing → TokenizeFlags → Except Fault Tokenizing
  | 0, _, _ => .error .fuel
  | fuel + 1, T, Flags0 => do
    let addBlockStart : Bool := !Flags0.noBlockStart
    let Flags : TokenizeFlags := { Flags0 with noBlockStart := false }
    let T1 ← pushMark T (some (tkChar '\x7b'))
    let T2 := if addBlockStart then pushForwarder T1 else T1
    let T3 ← tokenizeBlock_loop fuel T2 Flags
    let T4 ← push T3 (some (tkChar '\x7d')) none
    let T5 ← if addBlockStart then removeEmptyForwarder T4 else .ok T4
    setTokenSkip T5

/-- The body of a statement that opens a block start of its own:
`BlockStart.push_back(Tokens.size()); tokenizeStatement(...); BlockStart.pop_back();`. -/
def tokenizeBody : Nat → Tokenizing → TokenizeFlags → Except Fault Tokenizing
  | 0, _, _ => .error .fuel
  | fuel + 1, T, Flags => do
    let T1 ← tokenizeStatement fuel { T with BlockStart := T.BlockStart ++ [T.Tokens.length] } Flags
    .ok { T1 with BlockStart := T1.BlockStart.dropLast }

/-- Source `CScriptTokenizer::tokenizeCatch`. -/
def tokenizeCatch : Nat → Tokenizing → TokenizeFlags → Except Fault Tokenizing
  | 0, _, _ => .error .fuel
  | fuel + 1, T, Flags => do
    let T1 ← pushMark T (some LEX_R_CATCH)
    let T2 ← push T1 (some (tkChar '(')) none
    let T3 ← push T2 (some LEX_ID) none
    let T4 ← if T3.l.tk = LEX_R_IF then do
        let T3a ← push T3 none none
        tokenizeExpression fuel T3a Flags
      else .ok T3
    let T5 ← push T4 (some (tkChar ')')) none
    let T6 ← tokenizeBlock fuel T5 Flags
    setTokenSkip T6

/-- The loop `while(l->tk == LEX_R_CATCH && isTry) tokenizeCatch(...)` of
`tokenizeTry`. -/
def tokenizeTry_catches : Nat → Tokenizing → TokenizeFlags → Except Fault Tokenizing
  | 0, _, _ => .error .fuel
  | fuel + 1, T, Flags =>
    if T.l.tk = LEX_R_CATCH then do
      let T1 ← tokenizeCatch fuel T Flags
      tokenizeTry_catches fuel T1 Flags
    else .ok T

/-- Source `CScriptTokenizer::tokenizeTry` (also called for `finally`). -/
def tokenizeTry : Nat → Tokenizing → TokenizeFlags → Except Fault Tokenizing
  | 0, _, _ => .error .fuel
  | fuel + 1, T, Flags => do
    let isTry : Bool := T.l.tk == LEX_R_TRY
    let T1 ← pushMark T none
    let T2 : Tokenizing :=
      if isTry ∧ 3 ≤ T1.Tokens.length then
        match T1.Tokens.reverse with
        | last :: rev =>
          let r := labelScan rev [last] []
          { T1 with Tokens := r.1 ++ (T1.Labels.reverse.take r.2.length).map
                      (CScriptToken.string LEX_T_LOOP_LABEL) }
        | [] => T1
      else T1
    let T3 ← tokenizeBlock fuel T2 Flags
    let T4 ← setTokenSkip T3
    let T5 ← if T4.l.tk ≠ LEX_R_FINALLY ∧ isTry then do
        let T4a ← lcheck T4 LEX_R_CATCH (some LEX_R_FINALLY)
        tokenizeTry_catches fuel T4a Flags
      else .ok T4
    if T5.l.tk = LEX_R_FINALLY ∧ isTry then tokenizeTry fuel T5 Flags else .ok T5

/-- The loop `while(l->tk != '\x7d' && l->tk != LEX_R_CASE && l->tk != LEX_R_DEFAULT &&
l->tk != LEX_EOF) tokenizeStatement(...)` of `tokenizeSwitch`. -/
def tokenizeSwitch_statements : Nat → Tokenizing → TokenizeFlags → Except Fault Tokenizing
  | 0, _, _ => .error .fuel
  | fuel + 1, T, Flags =>
    if T.l.tk ≠ tkChar '\x7d' ∧ T.l.tk ≠ LEX_R_CASE ∧ T.l.tk ≠ LEX_R_DEFAULT ∧ T.l.tk ≠ LEX_EOF
    then do
      let T1 ← tokenizeStatement fuel T Flags
      tokenizeSwitch_statements fuel T1 Flags
    else .ok T

/-- The loop `for(bool hasDefault=false;;)` of `tokenizeSwitch`. -/
def tokenizeSwitch_cases : Nat → Tokenizing → TokenizeFlags → Bool → Except Fault Tokenizing
  | 0, _, _, _ => .error .fuel
  | fuel + 1, T, Flags, hasDefault =>
    if T.l.tk = LEX_R_CASE ∨ T.l.tk = LEX_R_DEFAULT then do
      let r ← (if T.l.tk = LEX_R_CASE then do
          let T1 ← pushMark T none
          let T2 : Tokenizing :=
            { T1 with Marks := T1.Marks ++ [T1.Tokens.length],
                      Tokens := T1.Tokens ++ [CScriptToken.new LEX_T_SKIP] }
          let T3 ← tokenizeExpression fuel T2 Flags
          let T4 ← setTokenSkip T3
          .ok (T4, hasDefault)
        else do
          let T1 ← pushMark T none
          if hasDefault then .error (.exception "SyntaxError" "more than one switch default")
          else .ok (T1, true) : Except Fault (Tokenizing × Bool))
      let T5 ← pushMark r.1 (some (tkChar ':'))
      let T6 ← tokenizeSwitch_statements fuel T5 Flags
      let T7 ← setTokenSkip T6
      tokenizeSwitch_cases fuel T7 Flags r.2
    else if T.l.tk = tkChar '\x7d' then .ok T
    else .error (.exception "SyntaxError" "invalid switch statement")

/-- Source `CScriptTokenizer::tokenizeSwitch`. -/
def tokenizeSwitch : Nat → Tokenizing → TokenizeFlags → Except Fault Tokenizing
  | 0, _, _ => .error .fuel
  | fuel + 1, T, Flags0 => do
    let T1 ← pushMark T none
    let T2 ← push T1 (some (tkChar '(')) none
    let T3 ← tokenizeExpression fuel T2 Flags0
    let T4 ← push T3 (some (tkChar ')')) none
    let T5 ← pushMark T4 (some (tkChar '\x7b'))
    let T6 := pushForwarder T5
    let MarksSize := T6.Marks.length
    let Flags : TokenizeFlags := { Flags0 with canBreak := true }
    let T7 ← tokenizeSwitch_cases fuel T6 Flags false
    -- `while(MarksSize < Marks.size()) setTokenSkip(Tokens, Marks);`
    let T8 ← (List.range (T7.Marks.length - MarksSize)).foldlM (fun T _ => setTokenSkip T) T7
    let T9 ← removeEmptyForwarder T8
    let T10 ← push T9 (some (tkChar '\x7d')) none
    let T11 ← setTokenSkip T10
    setTokenSkip T11

/-- Source `CScriptTokenizer::tokenizeWith`. -/
def tokenizeWith : Nat → Tokenizing → TokenizeFlags → Except Fault Tokenizing
  | 0, _, _ => .error .fuel
  | fuel + 1, T, Flags => do
    let T1 ← pushMark T none
    let T2 ← push T1 (some (tkChar '(')) none
    let T3 ← tokenizeExpression fuel T2 Flags
    let T4 ← push T3 (some (tkChar ')')) none
    let T5 ← tokenizeBody fuel T4 Flags
    setTokenSkip T5

/-- Source `CScriptTokenizer::tokenizeWhile`. -/
def tokenizeWhile : Nat → Tokenizing → TokenizeFlags → Except Fault Tokenizing
  | 0, _, _ => .error .fuel
  | fuel + 1, T, Flags => do
    let T1 ← pushMark T none
    let r := PushLoopLabels T1
    let T2 ← push r.1 (some (tkChar '(')) none
    let T3 ← tokenizeExpression fuel T2 Flags
    let T4 ← push T3 (some (tkChar ')')) none
    let T5 : Tokenizing :=
      { T4 with Marks := T4.Marks ++ [T4.Tokens.length],
                Tokens := T4.Tokens ++ [CScriptToken.new LEX_T_SKIP] }
    let T6 ← tokenizeBody fuel T5 { Flags with canBreak := true, canContinue := true }
    let T7 ← setTokenSkip T6
    setTokenSkip (PopLoopLabels T7 r.2)

/-- Source `CScriptTokenizer::tokenizeDo`. -/
def tokenizeDo : Nat → Tokenizing → TokenizeFlags → Except Fault Tokenizing
  | 0, _, _ => .error .fuel
  | fuel + 1, T, Flags => do
    let T1 ← pushMark T none
    let r := PushLoopLabels T1
    let T2 ← tokenizeBody fuel r.1 { Flags with canBreak := true, canContinue := true }
    let T3 ← pushMark T2 (some LEX_R_WHILE)
    let T4 ← push T3 (some (tkChar '(')) none
    let T5 ← tokenizeExpression fuel T4 Flags
    let T6 ← push T5 (some (tkChar ')')) none
    let T7 ← push T6 (some (tkChar ';')) none
    let T8 ← setTokenSkip T7
    setTokenSkip (PopLoopLabels T8 r.2)

/-- Source `CScriptTokenizer::tokenizeIf`. -/
def tokenizeIf : Nat → Tokenizing → TokenizeFlags → Except Fault Tokenizing
  | 0, _, _ => .error .fuel
  | fuel + 1, T, Flags => do
    let T1 ← pushMark T none
    let T2 ← push T1 (some (tkChar '(')) none
    let T3 ← tokenizeExpression fuel T2 Flags
    let T4 ← push T3 (some (tkChar ')')) none
    let T5 : Tokenizing :=
      { T4 with Marks := T4.Marks ++ [T4.Tokens.length],
                Tokens := T4.Tokens ++ [CScriptToken.new LEX_T_SKIP] }
    let T6 ← tokenizeBody fuel T5 Flags
    let T7 ← setTokenSkip T6
    let T8 ← if T7.l.tk = LEX_R_ELSE then do
        let T7a ← pushMark T7 none
        let T7b ← tokenizeBody fuel T7a Flags
        setTokenSkip T7b
      else .ok T7
    setTokenSkip T8

/-- Source `CScriptTokenizer::tokenizeFor`. -/
def tokenizeFor : Nat → Tokenizing → TokenizeFlags → Except Fault Tokenizing
  | 0, _, _ => .error .fuel
  | fuel + 1, T, Flags => do
    let prev_pos := T.l.pos
    let la ← T.l.«match» LEX_R_FOR none
    let for_each_in : Bool := la.tk == LEX_ID && la.tkStr == "each"
    let lb ← if for_each_in then la.«match» LEX_ID none else .ok la
    let for_in ← (if !for_each_in then do
        let l1 ← lb.«match» (tkChar '(') none
        let l2 ← if l1.tk = LEX_R_VAR then l1.«match» LEX_R_VAR none
                 else if l1.tk = LEX_R_LET then l1.«match» LEX_R_LET none
                 else .ok l1
        if l2.tk = LEX_ID then do
          let l3 ← l2.«match» LEX_ID none
          .ok (l3.tk == LEX_R_IN)
        else .ok false
      else .ok true : Except Fault Bool)
    let lr ← T.l.reset prev_pos
    let T1 ← pushMark { T with l := lr } none
    let forToken := if for_each_in then LEX_T_FOR_EACH_IN else LEX_T_FOR_IN
    let T2 : Tokenizing :=
      if for_in then
        { T1 with
          Tokens := T1.Tokens.modify (CScriptToken.setToken forToken) (T1.Tokens.length - 1) }
      else T1
    let T3 ← if for_each_in then lmatch T2 LEX_ID none else .ok T2
    let r := PushLoopLabels T3
    let T4 ← push r.1 (some (tkChar '(')) none
    let T5 := pushForwarder T4
    let T6 ← (if for_in then do
        let Ta ← (if T5.l.tk = LEX_R_VAR then do
            let Tb ← push T5 (some LEX_R_VAR) none
            let f ← front Tb
            modifyForwarder Tb f (fun t => t.addVars [Tb.l.tkStr])
          else if T5.l.tk = LEX_R_LET then do
            let Tb ← push T5 (some LEX_R_LET) none
            let b ← back Tb
            modifyForwarder Tb b (fun t =>
              match t with
              | .forwarder lets vars vl fs => .forwarder (STRING_SET_insert lets Tb.l.tkStr) vars vl fs
              | t => t)
          else .ok T5 : Except Fault Tokenizing)
        let Tc ← push Ta (some LEX_ID) none
        push Tc (some LEX_R_IN) none
      else do
        let Ta ← (if T5.l.tk = LEX_R_VAR then tokenizeVar fuel T5 { Flags with forFor := true }
          else if T5.l.tk = LEX_R_LET then
            tokenizeLet fuel T5 { Flags with forFor := true, asStatement := true }
          else if T5.l.tk ≠ tkChar ';' then tokenizeExpression fuel T5 Flags
          else .ok T5 : Except Fault Tokenizing)
        let Tb ← lcheck Ta (tkChar ';') none
        let Tc ← push Tb (some (tkChar ';')) none
        let Td ← if Tc.l.tk ≠ tkChar ';' then tokenizeExpression fuel Tc Flags else .ok Tc
        let Te ← lcheck Td (tkChar ';') none
        push Te (some (tkChar ';')) none : Except Fault Tokenizing)
    let T7 ← if for_in ∨ T6.l.tk ≠ tkChar ')' then tokenizeExpression fuel T6 Flags else .ok T6
    let T8 ← push T7 (some (tkChar ')')) none
    let T9 ← tokenizeBody fuel T8 { Flags with canBreak := true, canContinue := true }
    let T10 ← removeEmptyForwarder T9
    setTokenSkip (PopLoopLabels T10 r.2)

/-- Source `CScriptTokenizer::tokenizeFunction`. -/
def tokenizeFunction : Nat → Tokenizing → TokenizeFlags → Except Fault Tokenizing
  | 0, _, _ => .error .fuel
  | fuel + 1, T, Flags0 => do
    let Statement := Flags0.asStatement
    let Accessor := Flags0.isAccessor
    let r0 ← (if Accessor then
        .ok (if (T.Tokens.getLast?.map CScriptToken.getString) = some "get" then LEX_T_GET
             else LEX_T_SET, { T with Tokens := T.Tokens.dropLast })
      else do
        let T1 ← lmatch T LEX_R_FUNCTION none
        .ok (if !Statement then LEX_T_FUNCTION_OPERATOR else T.l.tk, T1)
        : Except Fault (Nat × Tokenizing))
    let tk := r0.1
    let T2 := r0.2
    let forward ← (if tk = LEX_R_FUNCTION then do
        let f ← front T2
        let b ← back T2
        .ok (f == b)
      else .ok false : Except Fault Bool)
    let r1 ← (if T2.l.tk = LEX_ID ∨ Accessor then do
        let l1 ← T2.l.«match» LEX_ID (some LEX_STR)
        .ok (T2.l.tkStr, l1)
      else if Statement then
        .error (.exception "SyntaxError" "Function statement requires a name.")
      else .ok ("", T2.l) : Except Fault (String × CScriptLex))
    let l2 ← r1.2.«match» (tkChar '(') none
    let r3 ← tokenizeFunction_arguments l2.tokenFuel l2 []
    -- `l->tk = '\x7b'; l->match('\x7b');`
    let l4 ← { r3.1 with tk := tkChar '\x7b' }.«match» (tkChar '\x7b') none
    let inner : Tokenizing :=
      { l := l4, Tokens := [], BlockStart := [], Marks := [], Labels := [], LoopLabels := [] }
    let B ← (if l4.tk = tkChar '\x7b' ∨ tk = LEX_T_GET ∨ tk = LEX_T_SET then
        tokenizeBlock fuel inner { TokenizeFlags.zero with canReturn := true }
      else do
        let B1 ← tokenizeExpression fuel inner TokenizeFlags.zero
        lmatch B1 (tkChar ';') none : Except Fault Tokenizing)
    let T3 : Tokenizing := { T2 with l := B.l }
    if forward then do
      let f ← front T3
      let T4 ← modifyForwarder T3 f
        (fun t => t.insertFunction (.fnc tk r1.1 r3.2 B.Tokens))
      .ok (pushBack T4 (.fnc LEX_R_FUNCTION_PLACEHOLDER r1.1 r3.2 B.Tokens))
    else .ok (pushBack T3 (.fnc tk r1.1 r3.2 B.Tokens))

/-- The loop `for(;;)` over the declarations of `tokenizeLet` and `tokenizeVar`;
`vars` collects the names. -/
def tokenizeVar_declarations : Nat → Tokenizing → TokenizeFlags → List String →
    Except Fault (Tokenizing × List String)
  | 0, _, _, _ => .error .fuel
  | fuel + 1, T, Flags, vars =>
    if T.l.tk = tkChar '[' ∨ T.l.tk = tkChar '\x7b' then
      .error (.notModelled "tokenizeDestructionVar")
    else do
      let vars1 := vars ++ [T.l.tkStr]
      let T1 ← push T (some LEX_ID) none
      let T2 ← if T1.l.tk = tkChar '=' then do
          let T1a ← push T1 (some (tkChar '=')) none
          tokenizeAssignment fuel T1a Flags
        else .ok T1
      if T2.l.tk = tkChar ',' then do
        let T3 ← push T2 none none
        tokenizeVar_declarations fuel T3 Flags vars1
      else .ok (T2, vars1)

/-- Source `CScriptTokenizer::tokenizeLet` (built without
`PREVENT_REDECLARATION_IN_FUNCTION_SCOPES`). -/
def tokenizeLet : Nat → Tokenizing → TokenizeFlags → Except Fault Tokenizing
  | 0, _, _ => .error .fuel
  | fuel + 1, T, Flags0 => do
    let forFor := Flags0.forFor
    let Statement := Flags0.asStatement
    let Flags : TokenizeFlags := { Flags0 with forFor := false, asStatement := false }
    let T1 ← pushMark T none
    let expression : Bool := !forFor && (T1.l.tk == tkChar '(' || !Statement)
    let T2 ← if expression then do
        let T1a ← push T1 (some (tkChar '(')) none
        .ok (pushForwarder T1a)
      else .ok T1
    let r ← tokenizeVar_declarations fuel T2 Flags []
    let T3 := r.1
    let vars := r.2
    let redeclare (T : Tokenizing) (idx : Nat) : Except Fault Tokenizing :=
      match T.Tokens[idx]? with
      | some (.forwarder lets vs vl fs) =>
        let a := (CScriptToken.forwarder lets vs vl fs).addLets vars
        if a.2.length ≠ 0 then
          .error (.exception "TypeError" ("redeclaration of variable '" ++ a.2 ++ "'"))
        else .ok { T with Tokens := T.Tokens.set idx a.1 }
      | _ => .error (.notModelled "Forwarder() of a token that is no forwarder")
    let T9 ← (if expression then do
        let b ← back T3
        let T4 ← redeclare T3 b
        let T5 ← push T4 (some (tkChar ')')) none
        let T6 ← (if Statement then
            if T5.l.tk = tkChar '\x7b' then tokenizeBlock fuel T5 { Flags with noBlockStart := true }
            else tokenizeStatement fuel T5 Flags
          else tokenizeExpression fuel T5 Flags : Except Fault Tokenizing)
        let b6 ← back T6
        modifyForwarder T6 b6 CScriptToken.clearVarsInLetscope
      else do
        let T4 ← if !forFor then push T3 (some (tkChar ';')) none else .ok T3
        let f ← front T4
        let b ← back T4
        if f = b then modifyForwarder T4 f (fun t => t.addVars vars)
        else if (T4.Tokens[b]?).map CScriptToken.token = some LEX_T_FORWARD then redeclare T4 b
        else .error (.exception "SyntaxError" "let declaration not directly within block")
        : Except Fault Tokenizing)
    setTokenSkip T9

/-- Source `CScriptTokenizer::tokenizeVar` (built without
`PREVENT_REDECLARATION_IN_FUNCTION_SCOPES`). -/
def tokenizeVar : Nat → Tokenizing → TokenizeFlags → Except Fault Tokenizing
  | 0, _, _ => .error .fuel
  | fuel + 1, T, Flags0 => do
    let forFor := Flags0.forFor
    let Flags : TokenizeFlags := { Flags0 with forFor := false }
    let T1 ← pushMark T none
    let r ← tokenizeVar_declarations fuel T1 Flags []
    let vars := r.2
    let T2 ← if !forFor then push r.1 (some (tkChar ';')) none else .ok r.1
    let T3 ← setTokenSkip T2
    let f ← front T3
    let T4 ← modifyForwarder T3 f (fun t => t.addVars vars)
    let b ← back T4
    if f ≠ b then
      match T4.Tokens[b]? with
      | some (.forwarder lets vs vl fs) =>
        let a := (CScriptToken.forwarder lets vs vl fs).addVarsInLetscope vars
        if a.2.length ≠ 0 then
          .error (.exception "TypeError" ("redeclaration of variable '" ++ a.2 ++ "'"))
        else .ok { T4 with Tokens := T4.Tokens.set b a.1 }
      | _ => .ok T4
    else .ok T4

/-- The loop over the elements of `_tokenizeLiteralObject`; `Objc` is the literal
(`destructuring`, `structuring`, `elements`), `msg` the error message kept back. -/
def tokenizeLiteralObject_elements : Nat → Tokenizing → TokenizeFlags → CScriptToken → String →
    Except Fault (Tokenizing × CScriptToken × String)
  | 0, _, _, _, _ => .error .fuel
  | fuel + 1, T, Flags, Objc, msg =>
    match Objc with
    | .object isArray destructuring structuring elements =>
      if T.l.tk ≠ tkChar '\x7d' then do
        -- the element: its id, its value, `assign`, and the changed literal flags
        let r ← (if T.l.tk = LEX_ID then do
            let id := T.l.tkStr
            let tl ← tokenOfLex T.l (some LEX_ID) none
            let T1 : Tokenizing := { T with l := tl.2 }
            if (T1.l.tk = LEX_ID ∨ T1.l.tk = LEX_STR) ∧ (id = "get" ∨ id = "set") then do
              let id2 := T1.l.tkStr
              let F ← tokenizeFunction fuel { T1 with Tokens := [tl.1] }
                { Flags with isAccessor := true }
              .ok ({ F with Tokens := T1.Tokens }, id2, F.Tokens, false, false, structuring, msg)
            else if destructuring ∧ (T1.l.tk = tkChar ',' ∨ T1.l.tk = tkChar '\x7d') then
              if msg.length = 0 then
                .ok (T1, id, [tl.1], false, destructuring, false,
                  "Got '" ++ getTokenStr T1.l.tk ++ "' expected ':'")
              else .ok (T1, id, [tl.1], false, destructuring, structuring, msg)
            else .ok (T1, id, [], true, destructuring, structuring, msg)
          else if T.l.tk = LEX_INT then do
            let T1 ← lmatch T LEX_INT none
            .ok (T1, int2string (strtol T.l.tkStr), [], true, destructuring, structuring, msg)
          else if T.l.tk = LEX_FLOAT then
            .error (.notModelled "float2string")
          else if LEX_TOKEN_DATA_STRING T.l.tk ∧ T.l.tk ≠ LEX_REGEXP then do
            let T1 ← lmatch T T.l.tk none
            .ok (T1, T.l.tkStr, [], true, destructuring, structuring, msg)
          else do
            let T1 ← lmatch T LEX_ID (some LEX_STR)
            .ok (T1, "", [], false, destructuring, structuring, msg)
          : Except Fault (Tokenizing × String × List CScriptToken × Bool × Bool × Bool × String))
        let T1 := r.1
        let id := r.2.1
        let assign := r.2.2.2.1
        let structuring1 := r.2.2.2.2.2.1
        let msg1 := r.2.2.2.2.2.2
        let r2 ← (if assign then do
            let T2 ← lmatch T1 (tkChar ':') none
            let dFlags : TokenizeFlags :=
              if Flags.nonZero || (T2.l.tk == tkChar '\x7b' || T2.l.tk == tkChar '[') then
                { TokenizeFlags.zero with nestedObject := true }
              else TokenizeFlags.zero
            let V ← tokenizeAssignmentState fuel { T2 with Tokens := r.2.2.1 } dFlags
              { leftHand := false, Destructuring := true }
            .ok ({ V.1 with Tokens := T2.Tokens }, V.1.Tokens,
              if r.2.2.2.2.1 then V.2.leftHand && V.2.Destructuring else false)
          else .ok (T1, r.2.2.1, r.2.2.2.2.1) : Except Fault (Tokenizing × List CScriptToken × Bool))
        let T3 := r2.1
        let destructuring1 := r2.2.2
        if !destructuring1 ∧ msg1.length ≠ 0 then .error (.exception "SyntaxError" msg1)
        else do
          let T4 ← if T3.l.tk ≠ tkChar '\x7d' then lmatch T3 (tkChar ',') (some (tkChar '\x7d'))
                   else .ok T3
          tokenizeLiteralObject_elements fuel T4 Flags
            (.object isArray destructuring1 structuring1 (elements ++ [.element id r2.2.1])) msg1
      else .ok (T, Objc, msg)
    | _ => .error (.notModelled "Object() of a token that is no literal")

/-- Source `CScriptTokenizer::_tokenizeLiteralObject`. -/
def tokenizeLiteralObject : Nat → Tokenizing → TokenizeFlags → TokenizeState →
    Except Fault (Tokenizing × TokenizeState)
  | 0, _, _, _ => .error .fuel
  | fuel + 1, T, Flags0, State => do
    let nestedObject := Flags0.nestedObject
    let Flags : TokenizeFlags := { Flags0 with nestedObject := false }
    let T1 ← lmatch T (tkChar '\x7b') none
    let r ← tokenizeLiteralObject_elements fuel T1 Flags (.object false true true []) ""
    let T2 ← lmatch r.1 (tkChar '\x7d') none
    match r.2.1 with
    | .object isArray destructuring structuring elements =>
      let Objc ← (if destructuring ∧ structuring then
          if nestedObject then
            if T2.l.tk ≠ tkChar ',' ∧ T2.l.tk ≠ tkChar '\x7d' ∧ T2.l.tk ≠ tkChar '=' then
              .ok (CScriptToken.object isArray false structuring elements)
            else .ok r.2.1
          else .ok (setMode fuel (T2.l.tk == tkChar '=') r.2.1)
        else if !destructuring ∧ r.2.2.length ≠ 0 then .error (.exception "SyntaxError" r.2.2)
        else .ok r.2.1 : Except Fault CScriptToken)
      let d := match Objc with
        | .object _ d _ _ => d
        | _ => false
      .ok (pushBack T2 Objc,
        if d then { leftHand := true, Destructuring := true } else State)
    | _ => .error (.notModelled "Object() of a token that is no literal")

/-- The loop over the elements of `_tokenizeLiteralArray`. -/
def tokenizeLiteralArray_elements : Nat → Tokenizing → TokenizeFlags → CScriptToken → Nat →
    Except Fault (Tokenizing × CScriptToken)
  | 0, _, _, _, _ => .error .fuel
  | fuel + 1, T, Flags, Objc, idx =>
    match Objc with
    | .object isArray destructuring structuring elements =>
      if T.l.tk ≠ tkChar ']' then do
        let r ← (if T.l.tk ≠ tkChar ',' then do
            let dFlags : TokenizeFlags :=
              if Flags.nonZero || (T.l.tk == tkChar '\x7b' || T.l.tk == tkChar '[') then
                { TokenizeFlags.zero with nestedObject := true }
              else TokenizeFlags.zero
            let V ← tokenizeAssignmentState fuel { T with Tokens := [] } dFlags
              { leftHand := false, Destructuring := true }
            .ok ({ V.1 with Tokens := T.Tokens }, V.1.Tokens,
              if destructuring then V.2.leftHand && V.2.Destructuring else false)
          else .ok (T, [], destructuring) : Except Fault (Tokenizing × List CScriptToken × Bool))
        let T2 ← if r.1.l.tk ≠ tkChar ']' then lmatch r.1 (tkChar ',') (some (tkChar ']'))
                 else .ok r.1
        tokenizeLiteralArray_elements fuel T2 Flags
          (.object isArray r.2.2 structuring
            (elements ++ [.element (int2string (idx : Int)) r.2.1])) (idx + 1)
      else .ok (T, Objc)
    | _ => .error (.notModelled "Object() of a token that is no literal")

/-- Source `CScriptTokenizer::_tokenizeLiteralArray`. -/
def tokenizeLiteralArray : Nat → Tokenizing → TokenizeFlags → TokenizeState →
    Except Fault (Tokenizing × TokenizeState)
  | 0, _, _, _ => .error .fuel
  | fuel + 1, T, Flags0, State => do
    let nestedObject := Flags0.nestedObject
    let Flags : TokenizeFlags := { Flags0 with nestedObject := false }
    let T1 ← lmatch T (tkChar '[') none
    let r ← tokenizeLiteralArray_elements fuel T1 Flags (.object true true true []) 0
    let T2 ← lmatch r.1 (tkChar ']') none
    match r.2 with
    | .object isArray destructuring structuring elements =>
      let Objc : CScriptToken :=
        if destructuring ∧ structuring then
          if nestedObject then
            if T2.l.tk ≠ tkChar ',' ∧ T2.l.tk ≠ tkChar ']' ∧ T2.l.tk ≠ tkChar '=' then
              CScriptToken.object isArray false structuring elements
            else r.2
          else setMode fuel (T2.l.tk == tkChar '=') r.2
        else r.2
      let d := match Objc with
        | .object _ d _ _ => d
        | _ => false
      .ok (pushBack T2 Objc,
        if d then { leftHand := true, Destructuring := true } else State)
    | _ => .error (.notModelled "Object() of a token that is no literal")

/-- Source `CScriptTokenizer::tokenizeLiteral`. -/
def tokenizeLiteral : Nat → Tokenizing → TokenizeFlags → TokenizeState →
    Except Fault (Tokenizing × TokenizeState)
  | 0, _, _, _ => .error .fuel
  | fuel + 1, T, Flags0, State0 =>
    let State : TokenizeState := { State0 with leftHand := false }
    let canLabel := Flags0.canLabel
    let Flags : TokenizeFlags := { Flags0 with canLabel := false }
    let tk := T.l.tk
    if tk = LEX_ID then do
      let label := T.l.tkStr
      let T1 ← push T none none
      if T1.l.tk = tkChar ':' ∧ canLabel then
        if T1.Labels.contains label then
          .error (.exception "SyntaxError" ("dublicate label '" ++ label ++ "'"))
        else
          .ok ({ T1 with
                 Tokens := T1.Tokens.modify (CScriptToken.setToken LEX_T_LABEL)
                   (T1.Tokens.length - 1),
                 Labels := T1.Labels ++ [label] }, State)
      else if label = "this" then
        if isAssignment T1.l.tk then
          .error (.exception "SyntaxError" "invalid assignment left-hand side")
        else if T1.l.tk = LEX_PLUSPLUS ∨ T1.l.tk = LEX_MINUSMINUS then
          .error (.exception "SyntaxError"
            (if T1.l.tk = LEX_PLUSPLUS then "invalid increment operand"
             else "invalid decrement operand"))
        else .ok (T1, State)
      else .ok (T1, { State with leftHand := true })
    else if tk = LEX_INT ∨ tk = LEX_FLOAT ∨ tk = LEX_STR ∨ tk = LEX_REGEXP ∨ tk = LEX_R_TRUE ∨
        tk = LEX_R_FALSE ∨ tk = LEX_R_NULL then do
      let T1 ← push T none none
      .ok (T1, State)
    else if tk = tkChar '\x7b' then tokenizeLiteralObject fuel T Flags State
    else if tk = tkChar '[' then tokenizeLiteralArray fuel T Flags State
    else if tk = LEX_R_LET then do
      let T1 ← tokenizeLet fuel T Flags
      .ok (T1, State)
    else if tk = LEX_R_FUNCTION then do
      let T1 ← tokenizeFunction fuel T Flags
      .ok (T1, State)
    else if tk = LEX_R_NEW then do
      let T1 ← pushMark T none
      let r ← tokenizeFunctionCall fuel T1 { Flags with callForNew := true }
        { leftHand := false, Destructuring := false }
      let T2 ← setTokenSkip r.1
      .ok (T2, State)
    else if tk = tkChar '(' then do
      let T1 ← pushMark T none
      let T2 ← tokenizeExpression fuel T1 Flags
      let T3 ← push T2 (some (tkChar ')')) none
      let T4 ← setTokenSkip T3
      .ok (T4, State)
    else do
      let T1 ← lcheck T LEX_EOF none
      .ok (T1, State)

/-- Source `CScriptTokenizer::tokenizeMember`. -/
def tokenizeMember : Nat → Tokenizing → TokenizeFlags → TokenizeState →
    Except Fault (Tokenizing × TokenizeState)
  | 0, _, _, _ => .error .fuel
  | fuel + 1, T, Flags, State =>
    if T.l.tk = tkChar '.' ∨ T.l.tk = tkChar '[' then do
      let T3 ← (if T.l.tk = tkChar '.' then do
          let T1 ← push T none none
          push T1 (some LEX_ID) none
        else do
          let T1 ← push T none none
          let T2 ← tokenizeExpression fuel T1 Flags
          push T2 (some (tkChar ']')) none : Except Fault Tokenizing)
      tokenizeMember fuel T3 Flags { State with leftHand := true }
    else .ok (T, State)

/-- The loop over the arguments of a call in `tokenizeFunctionCall`. -/
def tokenizeFunctionCall_arguments : Nat → Tokenizing → TokenizeFlags → Except Fault Tokenizing
  | 0, _, _ => .error .fuel
  | fuel + 1, T, Flags =>
    if T.l.tk ≠ tkChar ')' then do
      let T1 ← tokenizeAssignment fuel T Flags
      let T2 ← if T1.l.tk ≠ tkChar ')' then push T1 (some (tkChar ',')) (some (tkChar ')'))
               else .ok T1
      tokenizeFunctionCall_arguments fuel T2 Flags
    else .ok T

/-- The loop `while(l->tk == '(')` of `tokenizeFunctionCall`. -/
def tokenizeFunctionCall_calls : Nat → Tokenizing → TokenizeFlags → Bool → TokenizeState →
    Except Fault (Tokenizing × TokenizeState)
  | 0, _, _, _, _ => .error .fuel
  | fuel + 1, T, Flags, for_new, State0 =>
    if T.l.tk = tkChar '(' then do
      let State : TokenizeState := { State0 with leftHand := false }
      let T1 ← pushMark T none
      let T2 ← tokenizeFunctionCall_arguments fuel T1 Flags
      let T3 ← push T2 none none
      let T4 ← setTokenSkip T3
      if for_new then .ok (T4, State)
      else do
        let r ← tokenizeMember fuel T4 Flags State
        tokenizeFunctionCall_calls fuel r.1 Flags for_new r.2
    else .ok (T, State0)

/-- Source `CScriptTokenizer::tokenizeFunctionCall`. -/
def tokenizeFunctionCall : Nat → Tokenizing → TokenizeFlags → TokenizeState →
    Except Fault (Tokenizing × TokenizeState)
  | 0, _, _, _ => .error .fuel
  | fuel + 1, T, Flags0, State => do
    let for_new := Flags0.callForNew
    let Flags : TokenizeFlags := { Flags0 with callForNew := false }
    let r1 ← tokenizeLiteral fuel T Flags State
    let r2 ← tokenizeMember fuel r1.1 Flags r1.2
    tokenizeFunctionCall_calls fuel r2.1 Flags for_new r2.2

/-- The loop `while(!right2left_end)` over the prefix operators in
`tokenizeSubExpression`; returns the changed `Flags` and `noLeftHand`. -/
def tokenizeSubExpression_unary : Nat → Tokenizing → TokenizeFlags → Bool →
    Except Fault (Tokenizing × TokenizeFlags × Bool)
  | 0, _, _, _ => .error .fuel
  | fuel + 1, T, Flags, noLeftHand =>
    let tk := T.l.tk
    if tk = tkChar '-' ∨ tk = tkChar '+' ∨ tk = tkChar '!' ∨ tk = tkChar '~' ∨
        tk = LEX_R_TYPEOF ∨ tk = LEX_R_VOID ∨ tk = LEX_R_DELETE then do
      let T1 ← push T none none
      tokenizeSubExpression_unary fuel T1 { Flags with canLabel := false } true
    else if tk = LEX_PLUSPLUS ∨ tk = LEX_MINUSMINUS then do
      let T1 ← push T none none
      if T1.l.tk = LEX_ID ∧ T1.l.tkStr = "this" then
        .error (.exception "SyntaxError"
          (if tk = LEX_PLUSPLUS then "invalid increment operand"
           else "invalid decrement operand"))
      else .ok (T1, { Flags with canLabel := false }, true)
    else .ok (T, Flags, noLeftHand)

/-- The loop `for(;;)` of `tokenizeSubExpression`. -/
def tokenizeSubExpression_loop : Nat → Tokenizing → TokenizeFlags → TokenizeState → Bool →
    Except Fault (Tokenizing × TokenizeState × Bool)
  | 0, _, _, _, _ => .error .fuel
  | fuel + 1, T, Flags0, State, noLeftHand0 => do
    let p ← tokenizeSubExpression_unary fuel T Flags0 noLeftHand0
    let Flags := p.2.1
    let r ← tokenizeFunctionCall fuel p.1 Flags State
    let r1 ← (if r.1.l.lineBreakBeforeToken = false ∧
          (r.1.l.tk = LEX_PLUSPLUS ∨ r.1.l.tk = LEX_MINUSMINUS) then do
        let T1 ← push r.1 none none
        .ok (T1, true)
      else .ok (r.1, p.2.2) : Except Fault (Tokenizing × Bool))
    if Left2Right.contains r1.1.l.tk then do
      let T2 ← push r1.1 none none
      tokenizeSubExpression_loop fuel T2 Flags r.2 true
    else .ok (r1.1, r.2, r1.2)

/-- Source `CScriptTokenizer::tokenizeSubExpression`. -/
def tokenizeSubExpression : Nat → Tokenizing → TokenizeFlags → TokenizeState →
    Except Fault (Tokenizing × TokenizeState)
  | 0, _, _, _ => .error .fuel
  | fuel + 1, T, Flags, State => do
    let r ← tokenizeSubExpression_loop fuel T Flags State false
    .ok (r.1, if r.2.2 then { r.2.1 with leftHand := false } else r.2.1)

/-- Source `CScriptTokenizer::tokenizeCondition`. -/
def tokenizeCondition : Nat → Tokenizing → TokenizeFlags → TokenizeState →
    Except Fault (Tokenizing × TokenizeState)
  | 0, _, _, _ => .error .fuel
  | fuel + 1, T, Flags, State => do
    let r ← tokenizeSubExpression fuel T Flags State
    if r.1.l.tk = tkChar '?' then do
      let T1 ← push r.1 none none
      let r2 ← tokenizeCondition fuel T1 Flags r.2
      let T3 ← push r2.1 (some (tkChar ':')) none
      let r4 ← tokenizeCondition fuel T3 Flags r2.2
      .ok (r4.1, { r4.2 with leftHand := false })
    else .ok r

/-- Source `CScriptTokenizer::tokenizeAssignment` with the argument `State`. -/
def tokenizeAssignmentState : Nat → Tokenizing → TokenizeFlags → TokenizeState →
    Except Fault (Tokenizing × TokenizeState)
  | 0, _, _, _ => .error .fuel
  | fuel + 1, T, Flags, State0 => do
    let r ← tokenizeCondition fuel T Flags { State0 with leftHand := false }
    if isAssignment r.1.l.tk then
      let State : TokenizeState := { r.2 with Destructuring := false }
      if !State.leftHand then
        .error (.exception "ReferenceError" "invalid assignment left-hand side")
      else do
        let T1 ← push r.1 none none
        let T2 ← tokenizeAssignment fuel T1 Flags
        .ok (T2, State)
    else .ok r

/-- Source `CScriptTokenizer::tokenizeAssignment` without the argument `State`. -/
def tokenizeAssignment : Nat → Tokenizing → TokenizeFlags → Except Fault Tokenizing
  | 0, _, _ => .error .fuel
  | fuel + 1, T, Flags => do
    let r ← tokenizeAssignmentState fuel T Flags { leftHand := false, Destructuring := false }
    .ok r.1

/-- The loop `while(l->tk == ',')` of `tokenizeExpression`. -/
def tokenizeExpression_loop : Nat → Tokenizing → TokenizeFlags → Except Fault Tokenizing
  | 0, _, _ => .error .fuel
  | fuel + 1, T, Flags =>
    if T.l.tk = tkChar ',' then do
      let T1 ← push T none none
      let T2 ← tokenizeAssignment fuel T1 Flags
      tokenizeExpression_loop fuel T2 Flags
    else .ok T

/-- Source `CScriptTokenizer::tokenizeExpression`. -/
def tokenizeExpression : Nat → Tokenizing → TokenizeFlags → Except Fault Tokenizing
  | 0, _, _ => .error .fuel
  | fuel + 1, T, Flags => do
    let T1 ← tokenizeAssignment fuel T Flags
    tokenizeExpression_loop fuel T1 Flags

end

/-- The loop `do \x7b tokenizeStatement(...); \x7d while (l->tk!=LEX_EOF);` of
`tokenizeCode`. -/
def tokenizeCode_loop (fuel : Nat) : Nat → Tokenizing → Except Fault Tokenizing
  | 0, _ => .error .fuel
  | n + 1, T => do
    let T1 ← tokenizeStatement fuel T TokenizeFlags.zero
    if T1.l.tk ≠ LEX_EOF then tokenizeCode_loop fuel n T1 else .ok T1

/-- Source `CScriptTokenizer::tokenizeCode` for a text that begins at statement level:
the token buffer of the text. -/
def tokenizeCode (fuel : Nat) (Lexer : CScriptLex) : Except Fault TOKEN_VECT := do
  let T0 : Tokenizing :=
    pushForwarder { l := Lexer, Tokens := [], BlockStart := [0], Marks := [], Labels := [],
                    LoopLabels := [] }
  let T1 ← tokenizeCode_loop fuel fuel T0
  let T2 ← push T1 (some LEX_EOF) none
  let T3 ← removeEmptyForwarder T2
  .ok T3.Tokens

/-- Source constructor `CScriptTokenizer(Code, File, Line, Column)`: the token buffer
of the text `Code`. -/
def tokenize (Code : String) : Except Fault TOKEN_VECT :=
  match CScriptLex.new Code 0 [] with
  | .ok l => tokenizeCode (2 * Code.length + 20) l
  | .error e => .error e

end CScriptTokenizer

end TinyJS

namespace TinyJS

/-! ## The evaluator of statements

`CTinyJS::execute_statement` runs a cursor over the token buffer.  `Exec` is the
state it works on: the context, the token buffer (the forwarder tokens are
changed in place), the position of the cursor and the member `label`.  The
argument `bool &execute` is handed in and out.  The evaluation of expressions
(`execute_base`, `execute_assignment` and what they use) is a parameter, as in
`callFunction`.  Left out are `with`, `for ... in`, the extended form
`let (...)` and destructuring declarations: the model stops with
`Fault.notModelled` at their tokens. -/

/-- Modelled from the spec: the macro `TINYJS_SCOPE_PARENT_VAR` of `TinyJS.h` (not
part of the source), the name under which a let-scope links its parent. -/
def TINYJS_SCOPE_PARENT_VAR : String := "__scope_parent__"

/-- Modelled from the spec: the link flags `SCRIPTVARLINK_VARDEFAULT` of `TinyJS.h`
(not part of the source), the flags of a declared variable (writable and
enumerable). -/
def SCRIPTVARLINK_VARDEFAULT : Nat := 3

namespace CTinyJS

variable {D : Type}

/-- The class of the scope value at `this`. -/
def scopeClass (c : CTinyJS D) (this : Nat) : Option ObjectClass :=
  match c.valOf this with
  | some (.object cls _) => some cls
  | _ => none

/-- Source `getParent()` of a let-scope or with-scope: the value of its parent
link. -/
def getParent (c : CTinyJS D) (this : Nat) : Option Nat :=
  (c.findChild this TINYJS_SCOPE_PARENT_VAR).map CScriptVarLink.var

/-- Source `scopeVar()` of the scope at `this`: a let-scope (and a with-scope, which
is a let-scope) hands on to its parent.  The fuel bounds the walk by the number
of values. -/
def scopeVar (c : CTinyJS D) : Nat → Nat → Option Nat
  | 0, _ => none
  | fuel + 1, this =>
    match c.scopeClass this with
    | some .ScopeLet => (c.getParent this).bind (scopeVar c fuel)
    | some .ScopeWith => (c.getParent this).bind (scopeVar c fuel)
    | _ => some this

/-- Source `scopeLet()` of the scope at `this`: a with-scope hands on to its
parent. -/
def scopeLet (c : CTinyJS D) : Nat → Nat → Option Nat
  | 0, _ => none
  | fuel + 1, this =>
    match c.scopeClass this with
    | some .ScopeWith => (c.getParent this).bind (scopeLet c fuel)
    | _ => some this

/-- Source `findInScopes(childName)` of the scope at `this`, for the root scope, a
function scope and a let-scope (whose `letExpressionInitMode` is set by the
form `let (...)` only). -/
def findInScopesFrom (c : CTinyJS D) (childName : String) : Nat → Nat → Option CScriptVarLink
  | 0, _ => none
  | fuel + 1, this =>
    match c.findChild this childName with
    | some link => some link
    | none =>
      match c.scopeClass this with
      | some .ScopeLet => (c.getParent this).bind (findInScopesFrom c childName fuel)
      | some .ScopeFnc =>
        match c.findChild this TINYJS_FUNCTION_CLOSURE_VAR with
        | some closure => findInScopesFrom c childName fuel closure.var
        | none => c.findChild c.root childName
      | _ => none

/-- Source `scope()`: the innermost scope (`scopes.back()`). -/
def scope (c : CTinyJS D) : Nat := c.scopes.headD c.root

/-- Source `CTinyJS::findInScopes`. -/
def findInScopes (c : CTinyJS D) (childName : String) : Option CScriptVarLink :=
  c.findInScopesFrom childName (c.vars.length + 1) c.scope

/-- Modelled from the spec: `CScopeControl::addLetScope` of `TinyJS.h` (not part of
the source) with the constructor of `CScriptVarScopeLet`, which is: a new
let-scope whose parent link is the innermost scope is pushed on `scopes`
("a `LetScope` holds a parent pointer"). -/
def addLetScope (c : CTinyJS D) : CTinyJS D :=
  let r := c.newCScriptVar (fun addr => .object .ScopeLet addr) (some c.objectPrototype) none
  let c1 := (r.1.addChild r.2 TINYJS_SCOPE_PARENT_VAR (some c.scope) 0).1
  { c1 with scopes := r.2 :: c1.scopes }

/-- Modelled from the spec: the destructor of `CScopeControl` of `TinyJS.h` (not part
of the source), which pops the `count` scopes that the control pushed. -/
def popScopes (c : CTinyJS D) (count : Nat) : CTinyJS D :=
  { c with scopes := c.scopes.drop count }

end CTinyJS

deriving instance DecidableEq for CScriptVar

deriving instance DecidableEq for CTinyJS

/-- The state of the evaluator of statements. -/
structure Exec (D : Type) where
  c : CTinyJS D
  tokens : TOKEN_VECT
  pos : Nat
  label : String
deriving DecidableEq

namespace Exec

variable {D : Type}

/-- Source `t->getToken()`: the token at the cursor (the end of the buffer reads as
`LEX_EOF`). -/
def getToken (s : Exec D) : CScriptToken := (s.tokens[s.pos]?).getD (.simple LEX_EOF 0)

/-- Source `t->tk`. -/
def tk (s : Exec D) : Nat := s.getToken.token

/-- Source `t->tkStr()`. -/
def tkStr (s : Exec D) : String := s.getToken.getString

/-- Source `CScriptTokenizer::getNextToken` on one buffer. -/
def getNextToken (s : Exec D) : Exec D :=
  if s.tk = LEX_EOF then s else { s with pos := s.pos + 1 }

/-- Source `CScriptTokenizer::check`: whether the token is to be passed, or the
exception. -/
def check (s : Exec D) (ExpectedToken : Nat) (AlternateToken : Option Nat) : Except Fault Bool :=
  if ExpectedToken = tkChar ';' ∧ (s.tk = LEX_EOF ∨ s.tk = tkChar '\x7d') then .ok false
  else if s.tk ≠ ExpectedToken ∧ some s.tk ≠ AlternateToken then
    .error (.exception "SyntaxError"
      (if ExpectedToken = LEX_EOF then "Got unexpected " ++ getTokenStr s.tk
       else "Got '" ++ getTokenStr s.tk ++ "' expected '" ++ getTokenStr ExpectedToken ++ "'" ++
         (match AlternateToken with
          | some a => " or '" ++ getTokenStr a ++ "'"
          | none => "")))
  else .ok true

/-- Source `CScriptTokenizer::match`. -/
def «match» (s : Exec D) (ExpectedToken : Nat) (AlternateToken : Option Nat) :
    Except Fault (Exec D) :=
  match s.check ExpectedToken AlternateToken with
  | .ok true => .ok s.getNextToken
  | .ok false => .ok s
  | .error e => .error e

/-- Source `t->skip(t->getToken().Int())`. -/
def skip (s : Exec D) : Exec D := { s with pos := (s.pos + s.getToken.getInt).toNat }

/-- Source `t->setPos(Pos)`. -/
def setPos (s : Exec D) (Pos : Nat) : Exec D := { s with pos := Pos }

/-- The context changed by `f`. -/
def withContext (s : Exec D) (f : CTinyJS D → CTinyJS D) : Exec D := { s with c := f s.c }

end Exec

/-- The parts of the evaluator of expressions that the statements call: the old
callbacks of `callFunction` (`calls`), `execute_base` and `execute_assignment`
for a token that starts an expression, `getBool()` of a value,
`getPrimitivVar(execute)`, `mathsOp` on two values and
`parseFunctionDefinition` (the new context and the function value).
`bodyFault c Function execute` is the fault, if there is one, in which the body
of the script function at `Function` ends when it is run in the context `c`
(the context `callFunction` has built, with the scope of the function pushed):
a `CScriptException` that the body throws leaves `callFunction` and every
expression on the way to the host, and `calls` has no result for it. -/
structure Expressions (D : Type) where
  calls : Evaluator D
  execute_base : Exec D → Bool → Except Fault (Exec D × Bool × Nat)
  execute_assignment : Exec D → Bool → Except Fault (Exec D × Bool × Nat)
  getBool : CTinyJS D → Nat → Bool
  getPrimitivVar : Exec D → Bool → Nat → Except Fault (Exec D × Bool × Nat)
  mathsOp : Exec D → Bool → Nat → Nat → Op → Except Fault (Exec D × Bool × Nat)
  parseFunctionDefinition : CTinyJS D → CScriptToken → CTinyJS D × Nat
  bodyFault : CTinyJS D → Nat → Bool → Option Fault := fun _ _ _ => none

/-- The fault in which the call `callFunction(execute, Function, Arguments, This)`
ends because the body of the function does: the body of a script function is
run in the context that `callFunction_enter` builds. -/
def callFunctionFault {D : Type} (E : Expressions D) (c : CTinyJS D) (execute : Bool)
    (Function : Nat) (Arguments : List Nat) (This : Nat) : Option Fault :=
  match c.vars[Function]? with
  | none => none
  | some fv =>
    match fv.data with
    | none => none
    | some Fnc =>
      match callFunction_enter E.calls c execute Function Fnc Arguments This with
      | .entered c8 execute8 _ _ =>
        if fv.val.isNative then none else E.bodyFault c8 Function execute8
      | _ => none

/-- The fault in which `link.getter(execute)` ends because the body of the getter
function does (the call is the one of `CScriptVarLinkWorkPtr::getter`). -/
def getterFault {D : Type} (E : Expressions D) (c : CTinyJS D) (link : Option CScriptVarLink)
    (execute : Bool) : Option Fault :=
  match link with
  | none => none
  | some l =>
    if execute && c.isAccessor l.var then
      match c.findChild l.var TINYJS_ACCESSOR_GET_VAR, l.owner with
      | some getter, some owner => callFunctionFault E c execute getter.var [] owner
      | _, _ => none
    else none

/-- The fault in which `link.setter(execute, Var)` ends because the body of the
setter function does (the call is the one of `CScriptVarLinkWorkPtr::setter`). -/
def setterFault {D : Type} (E : Expressions D) (c : CTinyJS D) (link : Option CScriptVarLink)
    (execute : Bool) (Var : Nat) : Option Fault :=
  match link with
  | none => none
  | some l =>
    if execute && c.isAccessor l.var then
      match c.findChild l.var TINYJS_ACCESSOR_SET_VAR, l.owner with
      | some setter, some owner => callFunctionFault E c execute setter.var [Var] owner
      | _, _ => none
    else none

/-- The fault in which the assignment `lhs = rhs` ends because the body of a setter
function does: the setter is called on the link that `execute_assignment_assign`
calls it on (`lhs`, or the link that `lhs` is promoted to). -/
def assignFault {D : Type} (E : Expressions D) (c : CTinyJS D) (lhs : CScriptVarLink)
    (rhs : Nat) (execute : Bool) : Option Fault :=
  if execute then
    if !lhs.owned && lhs.owner.isNone && lhs.name.isEmpty then none
    else if lhs.isWritable then
      let promoted : Option (CTinyJS D × CScriptVarLink) :=
        if !lhs.owned then
          match lhs.owner with
          | some owner =>
            if !c.isExtensible owner then none
            else some (c.addChildOrReplace owner lhs.name lhs.var SCRIPTVARLINK_DEFAULT)
          | none => some (c.addChildOrReplace c.root lhs.name lhs.var SCRIPTVARLINK_DEFAULT)
        else some (c, lhs)
      match promoted with
      | none => none
      | some (c1, realLhs) => setterFault E c1 (some realLhs) execute rhs
    else none
  else none

/-- The tokens with a `case` of their own in the `switch` of `execute_unary` or of
`execute_literals`: the tokens an expression can start with. -/
def startsExpression (tk : Nat) : Bool :=
  tk == tkChar '-' || tk == tkChar '+' || tk == tkChar '!' || tk == tkChar '~' ||
  tk == LEX_R_TYPEOF || tk == LEX_R_VOID || tk == LEX_R_DELETE || tk == LEX_PLUSPLUS ||
  tk == LEX_MINUSMINUS || tk == LEX_ID || tk == LEX_INT || tk == LEX_FLOAT || tk == LEX_STR ||
  tk == LEX_REGEXP || tk == LEX_T_OBJECT_LITERAL || tk == LEX_R_LET ||
  tk == LEX_T_FUNCTION_OPERATOR || tk == LEX_R_NEW || tk == LEX_R_TRUE || tk == LEX_R_FALSE ||
  tk == LEX_R_NULL || tk == tkChar '('

/-- Source `CTinyJS::execute_assignment(execute)` seen from its first token.  The
call goes down through `execute_condition`, `execute_logic`, ... to
`execute_unary`, `execute_function_call` and `execute_literals` without reading
a token.  A token with no `case` in the `switch` of `execute_unary` and of
`execute_literals` reaches `default: t->match(LEX_EOF)` of `execute_literals`:
any token but `LEX_EOF` throws there; at `LEX_EOF` the value is
`constScriptVar(Undefined)` and no token is read. -/
def execute_assignment {D : Type} (E : Expressions D) (s : Exec D) (execute : Bool) :
    Except Fault (Exec D × Bool × Nat) :=
  if startsExpression s.tk then E.execute_assignment s execute
  else
    match s.«match» LEX_EOF none with
    | .ok s1 => .ok (s1, execute, s1.c.constUndefined)
    | .error e => .error e

/-- Source `CTinyJS::execute_base(execute)` seen from its first token, as
`execute_assignment`: the loop over `,` finds no comma at `LEX_EOF`. -/
def execute_base {D : Type} (E : Expressions D) (s : Exec D) (execute : Bool) :
    Except Fault (Exec D × Bool × Nat) :=
  if startsExpression s.tk then E.execute_base s execute
  else
    match s.«match» LEX_EOF none with
    | .ok s1 => .ok (s1, execute, s1.c.constUndefined)
    | .error e => .error e

end TinyJS

namespace TinyJS

/-- A function that executes one statement at the cursor: the new state, the new
`execute` and the link returned (`none` for a null link). -/
abbrev StatementFn (D : Type) := Exec D → Bool → Except Fault (Exec D × Bool × Option Nat)

/-- Modelled from the spec: the mask `RUNTIME_THROW_MASK` of `TinyJS.h` (not part of
the source) covers the bits `RUNTIME_CAN_THROW` and `RUNTIME_THROW` ("save and
set `CanThrow`", "clear `Throw`"): `(runtimeFlags & ~RUNTIME_THROW_MASK) | old`
puts both bits back to the saved values. -/
def restoreThrowFlags (flags old : RuntimeFlags) : RuntimeFlags :=
  { flags with CAN_THROW := old.CAN_THROW, THROW := old.THROW }

section

variable {D : Type}

/-- The loop `while (t->tk && t->tk!='\x7d') execute_statement(execute);` of
`execute_block`. -/
def execute_block_loop (stmt : StatementFn D) : Nat → Exec D → Bool →
    Except Fault (Exec D × Bool)
  | 0, _, _ => .error .fuel
  | fuel + 1, s, execute =>
    if s.tk ≠ LEX_EOF ∧ s.tk ≠ tkChar '\x7d' then
      match stmt s execute with
      | .ok r => execute_block_loop stmt fuel r.1 r.2.1
      | .error e => .error e
    else .ok (s, execute)

/-- Source `CTinyJS::execute_block(execute, createLetScope)`. -/
def execute_block (stmt : StatementFn D) (fuel : Nat) (s : Exec D) (execute : Bool)
    (createLetScope : Bool) : Except Fault (Exec D × Bool) :=
  if execute then do
    let s1 ← s.«match» (tkChar '\x7b') none
    let addLet : Bool :=
      createLetScope && s1.tk == LEX_T_FORWARD && s1.getToken.lets.length != 0
    let s2 := if addLet then s1.withContext CTinyJS.addLetScope else s1
    let r ← execute_block_loop stmt fuel s2 execute
    let s3 ← r.1.«match» (tkChar '\x7d') none
    .ok (if addLet then s3.withContext (fun c => c.popScopes 1) else s3, r.2)
  else .ok (s.skip, execute)

/-- The inner loop of the `case LEX_T_FORWARD`: every name that `in_scope` does not
have is added with the value `undefined`. -/
def forward_names (c : CTinyJS D) (in_scope : Nat) (names : List String) : CTinyJS D :=
  names.foldl (fun c name =>
    match c.findChild in_scope name with
    | some _ => c
    | none => (c.addChild in_scope name (some c.constUndefined) SCRIPTVARLINK_VARDEFAULT).1) c

/-- The loop over `Forwarder().functions` of the `case LEX_T_FORWARD`. -/
def forward_functions (E : Expressions D) (c : CTinyJS D) (in_scope : Nat)
    (functions : List CScriptToken) : CTinyJS D :=
  functions.foldl (fun c fn =>
    let r := E.parseFunctionDefinition c fn
    (r.1.addChildOrReplace in_scope fn.getString r.2 SCRIPTVARLINK_VARDEFAULT).1) c

/-- Source `case LEX_T_FORWARD` of `execute_statement`.  `vars` is a reference to
`Forwarder().lets`; the assignment `vars = t->getToken().Forwarder().vars` at
the end of each of the two passes copies the set `vars` of the token over its
set `lets`. -/
def execute_forward (E : Expressions D) (s : Exec D) : Except Fault (Exec D) :=
  match s.getToken with
  | .forwarder lets vars vl functions =>
    match s.c.scopeLet (s.c.vars.length + 1) s.c.scope with
    | none => .error (.notModelled "null pointer")
    | some scopeLet =>
      let c1 := forward_names s.c scopeLet lets
      match c1.scopeVar (c1.vars.length + 1) c1.scope with
      | none => .error (.notModelled "null pointer")
      | some scopeVar =>
        -- second pass: `vars` now reads the set that was copied over `lets`
        let c2 := forward_names c1 scopeVar vars
        let c3 := forward_functions E c2 scopeVar functions
        ({ s with c := c3,
                  tokens := s.tokens.set s.pos (.forwarder vars vars vl functions) }).«match»
          LEX_T_FORWARD none
  | _ => .error (.notModelled "Forwarder() of a token that is no forwarder")

/-- What the statements make of a `WorkPtrResult`. -/
def ofWorkPtr (s : Exec D) : WorkPtrResult D → Except Fault (Exec D × Bool)
  | .same c execute => .ok ({ s with c := c }, execute)
  | .var c execute _ => .ok ({ s with c := c }, execute)
  | .exception msg => .error (.exception "Error" msg)
  | .nullPointer => .error (.notModelled "null pointer")

/-- Source `CTinyJS::execute_var_init(hideLetScope, execute)` for `hideLetScope`
unset (the statements `var` and `let`).  In a release build `ASSERT(v==true)`
is no code. -/
def execute_var_init (E : Expressions D) : Nat → Exec D → Bool → Except Fault (Exec D × Bool)
  | 0, _, _ => .error .fuel
  | fuel + 1, s, execute =>
    if s.tk = LEX_T_DESTRUCTURING_VAR then .error (.notModelled "destructuring")
    else do
      let name := s.tkStr
      let s1 ← s.«match» LEX_ID none
      let r ← (if s1.tk = tkChar '=' then do
          let s2 ← s1.«match» (tkChar '=') none
          match s2.c.findInScopes name with
          | some v => do
            let a ← execute_assignment E s2 execute
            match setterFault E a.1.c (some v) a.2.1 a.2.2 with
            | some f => .error f
            | none =>
              ofWorkPtr a.1 (CScriptVarLinkWorkPtr.setter E.calls a.1.c (some v) a.2.1 a.2.2)
          | none => .ok (s2, execute)
        else .ok (s1, execute) : Except Fault (Exec D × Bool))
      if r.1.tk = tkChar ',' then do
        let s3 ← r.1.«match» (tkChar ',') none
        execute_var_init E fuel s3 r.2
      else .ok r

/-- The loop `while(t->tk == LEX_T_LOOP_LABEL)` at the head of a loop and of `try`:
the labels of the statement. -/
def loopLabels : Nat → Exec D → List String → Except Fault (Exec D × List String)
  | 0, _, _ => .error .fuel
  | fuel + 1, s, myLabels =>
    if s.tk = LEX_T_LOOP_LABEL then
      match s.«match» LEX_T_LOOP_LABEL none with
      | .ok s1 => loopLabels fuel s1 (myLabels ++ [s.tkStr])
      | .error e => .error e
    else .ok (s, myLabels)

/-- The block `if(!execute) \x7b ... \x7d` of the loops, up to the test of `Continue`:
a pending `break` or `continue` that is meant for this loop (no label, or one
of `myLabels`) is taken; the result is the new state, `execute` and
`Continue`. -/
def loopControl (s : Exec D) (myLabels : List String) : Exec D × Bool × Bool :=
  if (s.c.runtimeFlags.BREAK || s.c.runtimeFlags.CONTINUE) &&
      (s.label.isEmpty || myLabels.contains s.label) then
    ({ s with label := "",
              c := { s.c with runtimeFlags :=
                { s.c.runtimeFlags with BREAK := false, CONTINUE := false } } },
      true, s.c.runtimeFlags.CONTINUE)
  else (s, false, false)

/-- The condition of a loop: `execute_base(execute)->getVarPtr()->getBool()`. -/
def loopCondition (E : Expressions D) (s : Exec D) (execute : Bool) :
    Except Fault (Exec D × Bool × Bool) :=
  match execute_base E s execute with
  | .ok r => .ok (r.1, r.2.1, E.getBool r.1.c r.2.2)
  | .error e => .error e

/-- The loop `while (loopCond && execute)` of `case LEX_R_WHILE`; the result is the
state, `execute` and `loopEnd`. -/
def execute_while_loop (E : Expressions D) (stmt : StatementFn D) (myLabels : List String)
    (condStart loopStart : Nat) : Nat → Exec D → Bool → Bool → Nat →
    Except Fault (Exec D × Bool × Nat)
  | 0, _, _, _, _ => .error .fuel
  | fuel + 1, s, execute, loopCond, loopEnd =>
    if loopCond && execute then do
      let r ← stmt (s.setPos loopStart) execute
      let loopEnd1 := if loopEnd = loopStart then r.1.pos else loopEnd
      if !r.2.1 then
        let k := loopControl r.1 myLabels
        if !k.2.2 then .ok (k.1, k.2.1, loopEnd1)
        else if k.2.1 then do
          let b ← loopCondition E (k.1.setPos condStart) k.2.1
          execute_while_loop E stmt myLabels condStart loopStart fuel b.1 b.2.1 b.2.2 loopEnd1
        else execute_while_loop E stmt myLabels condStart loopStart fuel k.1 k.2.1 loopCond loopEnd1
      else do
        let b ← loopCondition E (r.1.setPos condStart) r.2.1
        execute_while_loop E stmt myLabels condStart loopStart fuel b.1 b.2.1 b.2.2 loopEnd1
    else .ok (s, execute, loopEnd)

/-- Source `case LEX_R_WHILE` of `execute_statement`. -/
def execute_while (E : Expressions D) (stmt : StatementFn D) (fuel : Nat) (s : Exec D)
    (execute : Bool) : Except Fault (Exec D × Bool) :=
  if execute then do
    let s1 ← s.«match» LEX_R_WHILE none
    let l ← loopLabels fuel s1 []
    let s2 ← l.1.«match» (tkChar '(') none
    let condStart := s2.pos
    let b ← loopCondition E s2 execute
    let s3 ← b.1.«match» (tkChar ')') none
    if b.2.2 && b.2.1 then do
      let s4 ← s3.«match» LEX_T_SKIP none
      let r ← execute_while_loop E stmt l.2 condStart s4.pos fuel s4 b.2.1 b.2.2 s4.pos
      .ok (r.1.setPos r.2.2, r.2.1)
    else do
      let _ ← s3.check LEX_T_SKIP none
      .ok (s3.skip, b.2.1)
  else .ok (s.skip, execute)

/-- The loop `while (loopCond && execute)` of `case LEX_R_DO`. -/
def execute_do_loop (E : Expressions D) (stmt : StatementFn D) (myLabels : List String)
    (loopStart : Nat) : Nat → Exec D → Bool → Bool → Except Fault (Exec D × Bool)
  | 0, _, _, _ => .error .fuel
  | fuel + 1, s, execute, loopCond =>
    if loopCond && execute then do
      let r ← stmt (s.setPos loopStart) execute
      let k : Exec D × Bool × Bool :=
        if !r.2.1 then loopControl r.1 myLabels else (r.1, r.2.1, true)
      if !r.2.1 && !k.2.2 then .ok (k.1.skip, k.2.1)
      else do
        let s1 ← k.1.«match» LEX_R_WHILE none
        let s2 ← s1.«match» (tkChar '(') none
        let b ← loopCondition E s2 k.2.1
        let s3 ← b.1.«match» (tkChar ')') none
        let s4 ← s3.«match» (tkChar ';') none
        execute_do_loop E stmt myLabels loopStart fuel s4 b.2.1 b.2.2
    else .ok (s, execute)

/-- Source `case LEX_R_DO` of `execute_statement`. -/
def execute_do (E : Expressions D) (stmt : StatementFn D) (fuel : Nat) (s : Exec D)
    (execute : Bool) : Except Fault (Exec D × Bool) :=
  if execute then do
    let s1 ← s.«match» LEX_R_DO none
    let l ← loopLabels fuel s1 []
    execute_do_loop E stmt l.2 l.1.pos fuel l.1 execute true
  else .ok (s.skip, execute)

/-- The loop `while (loopCond && execute)` of `case LEX_R_FOR`; the result is the
state, `execute` and `loopEnd`.  `Continue` is not initialised in the source;
where it is not set, `execute` is unset and the loop ends whatever its value. -/
def execute_for_loop (E : Expressions D) (stmt : StatementFn D) (myLabels : List String)
    (conditionStart iterStart loopStart : Nat) (cond_empty iter_empty : Bool) :
    Nat → Exec D → Bool → Bool → Nat → Except Fault (Exec D × Bool × Nat)
  | 0, _, _, _, _ => .error .fuel
  | fuel + 1, s, execute, loopCond, loopEnd =>
    if loopCond && execute then do
      let r ← stmt (s.setPos loopStart) execute
      let loopEnd1 := if loopEnd = loopStart then r.1.pos else loopEnd
      let k : Exec D × Bool × Bool :=
        if !r.2.1 then loopControl r.1 myLabels else (r.1, r.2.1, true)
      if !r.2.1 && !k.2.2 then .ok (k.1, k.2.1, loopEnd1)
      else if k.2.1 then do
        let i ← (if !iter_empty then do
            let x ← execute_base E (k.1.setPos iterStart) k.2.1
            .ok (x.1, x.2.1)
          else .ok (k.1, k.2.1) : Except Fault (Exec D × Bool))
        let b ← (if !cond_empty then loopCondition E (i.1.setPos conditionStart) i.2
          else .ok (i.1, i.2, loopCond) : Except Fault (Exec D × Bool × Bool))
        execute_for_loop E stmt myLabels conditionStart iterStart loopStart cond_empty iter_empty
          fuel b.1 b.2.1 b.2.2 loopEnd1
      else
        execute_for_loop E stmt myLabels conditionStart iterStart loopStart cond_empty iter_empty
          fuel k.1 k.2.1 loopCond loopEnd1
    else .ok (s, execute, loopEnd)

/-- Source `case LEX_R_FOR` of `execute_statement`. -/
def execute_for (E : Expressions D) (stmt : StatementFn D) (fuel : Nat) (s : Exec D)
    (execute : Bool) : Except Fault (Exec D × Bool) :=
  if execute then do
    let s1 ← s.«match» LEX_R_FOR none
    let l ← loopLabels fuel s1 []
    let s2 ← l.1.«match» (tkChar '(') none
    let addLet : Bool := s2.tk == LEX_T_FORWARD
    let f ← (if addLet then do
        let x ← stmt (s2.withContext CTinyJS.addLetScope) execute
        .ok (x.1, x.2.1)
      else .ok (s2, execute) : Except Fault (Exec D × Bool))
    let i ← stmt f.1 f.2
    let conditionStart := i.1.pos
    let cond_empty : Bool := i.1.tk == tkChar ';'
    let b ← (if !cond_empty then
        if i.2.1 then loopCondition E i.1 i.2.1 else .ok (i.1, i.2.1, false)
      else .ok (i.1, i.2.1, i.2.1) : Except Fault (Exec D × Bool × Bool))
    let s3 ← b.1.«match» (tkChar ';') none
    let iterStart := s3.pos
    let iter_empty : Bool := s3.tk == tkChar ')'
    let s4 ← (if !iter_empty then do
        let x ← execute_base E s3 false
        .ok x.1
      else .ok s3 : Except Fault (Exec D))
    let s5 ← s4.«match» (tkChar ')') none
    let r ← (if b.2.2 then do
        let x ← execute_for_loop E stmt l.2 conditionStart iterStart s5.pos cond_empty iter_empty
          fuel s5 b.2.1 b.2.2 s5.pos
        .ok (x.1.setPos x.2.2, x.2.1)
      else do
        let x ← stmt s5 false
        .ok (x.1, b.2.1) : Except Fault (Exec D × Bool))
    .ok (if addLet then r.1.withContext (fun c => c.popScopes 1) else r.1, r.2)
  else .ok (s.skip, execute)

/-- Source `case LEX_R_IF` of `execute_statement`. -/
def execute_if (E : Expressions D) (stmt : StatementFn D) (s : Exec D) (execute : Bool) :
    Except Fault (Exec D × Bool) :=
  if execute then do
    let s1 ← s.«match» LEX_R_IF none
    let s2 ← s1.«match» (tkChar '(') none
    let b ← loopCondition E s2 execute
    let cond := b.2.2
    let s3 ← b.1.«match» (tkChar ')') none
    let r ← (if cond && b.2.1 then do
        let s4 ← s3.«match» LEX_T_SKIP none
        let x ← stmt s4 b.2.1
        .ok (x.1, x.2.1)
      else do
        let _ ← s3.check LEX_T_SKIP none
        .ok (s3.skip, b.2.1) : Except Fault (Exec D × Bool))
    if r.1.tk = LEX_R_ELSE then
      if !cond && r.2 then do
        let s5 ← r.1.«match» LEX_R_ELSE none
        let x ← stmt s5 r.2
        .ok (x.1, x.2.1)
      else .ok (r.1.skip, r.2)
    else .ok r
  else .ok (s.skip, execute)

/-- Source `case LEX_R_BREAK: case LEX_R_CONTINUE:` of `execute_statement`.  The
statement clears `execute` before it reads the label, so that
`if(execute) label = t->tkStr();` never stores one. -/
def execute_break (s : Exec D) (execute : Bool) : Except Fault (Exec D × Bool) :=
  if execute then do
    let flags : RuntimeFlags :=
      if s.tk = LEX_R_BREAK then { s.c.runtimeFlags with BREAK := true }
      else { s.c.runtimeFlags with CONTINUE := true }
    let s0 : Exec D := { s with c := { s.c with runtimeFlags := flags } }
    let execute1 := false
    let s1 ← s0.«match» s0.tk none
    let s3 ← (if s1.tk = LEX_ID then do
        let s2 : Exec D := if execute1 then { s1 with label := s1.tkStr } else s1
        s2.«match» LEX_ID none
      else .ok s1 : Except Fault (Exec D))
    let s4 ← s3.«match» (tkChar ';') none
    .ok (s4, execute1)
  else .ok (s.skip, execute)

/-- Source `case LEX_R_RETURN` of `execute_statement`. -/
def execute_return (E : Expressions D) (s : Exec D) (execute : Bool) :
    Except Fault (Exec D × Bool) :=
  if execute then do
    let s1 ← s.«match» LEX_R_RETURN none
    let r ← (if s1.tk ≠ tkChar ';' then do
        let x ← execute_base E s1 execute
        .ok (x.1, some x.2.2)
      else .ok (s1, none) : Except Fault (Exec D × Option Nat))
    let s2 ← r.1.«match» (tkChar ';') none
    match r.2 with
    | some result =>
      match s2.c.scopeVar (s2.c.vars.length + 1) s2.c.scope with
      | some scopeVar =>
        .ok (s2.withContext fun c =>
          (c.addChildOrReplace scopeVar TINYJS_RETURN_VAR result SCRIPTVARLINK_DEFAULT).1, false)
      | none => .error (.notModelled "null pointer")
    | none => .ok (s2, false)
  else .ok (s.skip, execute)

/-- Source `case LEX_R_FUNCTION:` and `case LEX_R_FUNCTION_PLACEHOLDER:` of
`execute_statement`. -/
def execute_function (E : Expressions D) (s : Exec D) (execute : Bool) :
    Except Fault (Exec D × Bool) := do
  let s1 ← (if s.tk = LEX_R_FUNCTION ∧ execute then
      match s.c.scopeVar (s.c.vars.length + 1) s.c.scope with
      | some scopeVar =>
        let r := E.parseFunctionDefinition s.c s.getToken
        .ok { s with c := (r.1.addChildOrReplace scopeVar s.getToken.getString r.2
                SCRIPTVARLINK_VARDEFAULT).1 }
      | none => .error (.notModelled "null pointer")
    else .ok s : Except Fault (Exec D))
  let s2 ← s1.«match» s1.tk none
  .ok (s2, execute)

/-- Source `case LEX_R_THROW` of `execute_statement`. -/
def execute_throw (E : Expressions D) (s : Exec D) (execute : Bool) :
    Except Fault (Exec D × Bool) :=
  if execute then do
    let s1 ← s.«match» LEX_R_THROW none
    let a ← execute_base E s1 execute
    if a.2.1 then
      if a.1.c.runtimeFlags.CAN_THROW then
        .ok ({ a.1 with c := { a.1.c with
                runtimeFlags := { a.1.c.runtimeFlags with THROW := true },
                exceptionVar := some a.2.2 } }, false)
      else .error (.exception "Error" "uncaught exception: ")
    else .ok (a.1, a.2.1)
  else .ok (s.skip, execute)

/-- The loop `while(t->tk == LEX_R_CATCH)` of `case LEX_R_TRY`; the result is the
state, `execute` and `isThrow`. -/
def execute_catches (E : Expressions D) (stmt : StatementFn D) (fuel : Nat)
    (exceptionVar : Option Nat) : Nat → Exec D → Bool → Bool →
    Except Fault (Exec D × Bool × Bool)
  | 0, _, _, _ => .error .fuel
  | n + 1, s, execute, isThrow =>
    if s.tk = LEX_R_CATCH then
      if execute && isThrow then do
        let s1 ← s.«match» LEX_R_CATCH none
        let s2 ← s1.«match» (tkChar '(') none
        let exception_var_name := s2.tkStr
        let s3 ← s2.«match» LEX_ID none
        let c4 := s3.c.addLetScope
        let scopeLet ← (match c4.scopeLet (c4.vars.length + 1) c4.scope with
          | some a => .ok a
          | none => .error (.notModelled "null pointer") : Except Fault Nat)
        let s5 : Exec D :=
          { s3 with c := (c4.addChild scopeLet exception_var_name exceptionVar
                            SCRIPTVARLINK_DEFAULT).1 }
        let g ← (if s5.tk = LEX_R_IF then do
            let s6 ← s5.«match» LEX_R_IF none
            let b ← execute_base E s6 execute
            let p ← E.getPrimitivVar b.1 b.2.1 b.2.2
            .ok (p.1, p.2.1, E.getBool p.1.c p.2.2)
          else .ok (s5, execute, true) : Except Fault (Exec D × Bool × Bool))
        let s7 ← g.1.«match» (tkChar ')') none
        let r ← (if g.2.1 && g.2.2 then do
            let x ← execute_block stmt fuel s7 g.2.1 false
            .ok (x.1, x.2, false)
          else do
            let x ← execute_block stmt fuel s7 false false
            .ok (x.1, g.2.1, isThrow) : Except Fault (Exec D × Bool × Bool))
        execute_catches E stmt fuel exceptionVar n (r.1.withContext fun c => c.popScopes 1)
          r.2.1 r.2.2
      else execute_catches E stmt fuel exceptionVar n s.skip execute isThrow
    else .ok (s, execute, isThrow)

/-- Source `case LEX_R_TRY` of `execute_statement`. -/
def execute_try (E : Expressions D) (stmt : StatementFn D) (fuel : Nat) (s : Exec D)
    (execute : Bool) : Except Fault (Exec D × Bool) :=
  if execute then do
    let s1 ← s.«match» LEX_R_TRY none
    let l ← loopLabels fuel s1 []
    let myLabels := l.2
    let old_throw_runtimeFlags := l.1.c.runtimeFlags
    let s2 : Exec D :=
      { l.1 with c := { l.1.c with runtimeFlags := { l.1.c.runtimeFlags with CAN_THROW := true } } }
    let b ← execute_block stmt fuel s2 execute true
    let exceptionVar := b.1.c.exceptionVar
    let isThrow := b.1.c.runtimeFlags.THROW
    let execute3 : Bool := if isThrow then true else b.2
    let taken : Bool := b.1.c.runtimeFlags.BREAK && myLabels.contains b.1.label
    let flags4 : RuntimeFlags :=
      if taken then { b.1.c.runtimeFlags with BREAK := false } else b.1.c.runtimeFlags
    let s5 : Exec D :=
      { b.1 with label := if taken then "" else b.1.label,
                 c := { b.1.c with exceptionVar := none,
                                   runtimeFlags := restoreThrowFlags flags4 old_throw_runtimeFlags } }
    let execute5 : Bool := if taken then true else execute3
    let r ← execute_catches E stmt fuel exceptionVar fuel s5 execute5 isThrow
    let f ← (if r.1.tk = LEX_R_FINALLY then do
        let s6 ← r.1.«match» LEX_R_FINALLY none
        let x ← execute_block stmt fuel s6 true true
        .ok x.1
      else .ok r.1 : Except Fault (Exec D))
    if r.2.2 && !f.c.runtimeFlags.THROW then
      if f.c.runtimeFlags.CAN_THROW then
        .ok ({ f with c := { f.c with runtimeFlags := { f.c.runtimeFlags with THROW := true },
                                      exceptionVar := exceptionVar } }, false)
      else .error (.exception "Error" "uncaught exception: ")
    else .ok (f, r.2.1)
  else .ok (s.skip, execute)

/-- The loop `while (t->tk)` of `case LEX_R_SWITCH`; it ends at the `\x7d` of the
switch (`goto end_while`) or at the end of the buffer. -/
def execute_switch_loop (E : Expressions D) (stmt : StatementFn D) (SwitchValue : Nat) :
    Nat → Exec D → Bool → Bool → Bool → Nat → Except Fault (Exec D × Bool)
  | 0, _, _, _, _, _ => .error .fuel
  | fuel + 1, s, execute, found, hasDefault, defaultStart =>
    if s.tk = LEX_EOF then .ok (s, execute)
    else if s.tk = LEX_R_CASE then
      if !execute then
        execute_switch_loop E stmt SwitchValue fuel s.skip execute found hasDefault defaultStart
      else if found then do
        let s1 ← s.«match» LEX_R_CASE none
        let s2 ← s1.skip.«match» (tkChar ':') none
        execute_switch_loop E stmt SwitchValue fuel s2 execute found hasDefault defaultStart
      else do
        let s1 ← s.«match» LEX_R_CASE none
        let s2 ← s1.«match» LEX_T_SKIP none
        let CaseValue ← execute_base E s2 execute
        let m ← E.mathsOp CaseValue.1 CaseValue.2.1 CaseValue.2.2 SwitchValue .LEX_EQUAL
        if m.2.1 then
          let found1 := E.getBool m.1.c m.2.2
          if found1 then do
            let s3 ← m.1.«match» (tkChar ':') none
            execute_switch_loop E stmt SwitchValue fuel s3 m.2.1 found1 hasDefault defaultStart
          else
            execute_switch_loop E stmt SwitchValue fuel m.1.skip m.2.1 found1 hasDefault
              defaultStart
        else
          execute_switch_loop E stmt SwitchValue fuel m.1.skip m.2.1 found hasDefault defaultStart
    else if s.tk = LEX_R_DEFAULT then
      if !execute then
        execute_switch_loop E stmt SwitchValue fuel s.skip execute found hasDefault defaultStart
      else do
        let s1 ← s.«match» LEX_R_DEFAULT none
        if found then do
          let s2 ← s1.«match» (tkChar ':') none
          execute_switch_loop E stmt SwitchValue fuel s2 execute found hasDefault defaultStart
        else execute_switch_loop E stmt SwitchValue fuel s1.skip execute found true s1.pos
    else if s.tk = tkChar '\x7d' then
      if execute && !found && hasDefault then do
        let s1 ← (s.setPos defaultStart).«match» (tkChar ':') none
        execute_switch_loop E stmt SwitchValue fuel s1 execute true hasDefault defaultStart
      else .ok (s, execute)
    else do
      let r ← stmt s (if found then execute else false)
      execute_switch_loop E stmt SwitchValue fuel r.1 (if found then r.2.1 else execute) found
        hasDefault defaultStart

/-- Source `case LEX_R_SWITCH` of `execute_statement`. -/
def execute_switch (E : Expressions D) (stmt : StatementFn D) (fuel : Nat) (s : Exec D)
    (execute : Bool) : Except Fault (Exec D × Bool) :=
  if execute then do
    let s1 ← s.«match» LEX_R_SWITCH none
    let s2 ← s1.«match» (tkChar '(') none
    let SwitchValue ← execute_base E s2 execute
    let s3 ← SwitchValue.1.«match» (tkChar ')') none
    if SwitchValue.2.1 then do
      let s4 ← s3.«match» (tkChar '\x7b') none
      let addLet : Bool := s4.tk == LEX_T_FORWARD
      let f ← (if addLet then do
          let x ← stmt (s4.withContext CTinyJS.addLetScope) SwitchValue.2.1
          .ok (x.1, x.2.1)
        else .ok (s4, SwitchValue.2.1) : Except Fault (Exec D × Bool))
      let r ← execute_switch_loop E stmt SwitchValue.2.2 fuel f.1 f.2 false false f.1.pos
      let s5 ← r.1.«match» (tkChar '\x7d') none
      let s6 : Exec D × Bool :=
        if !r.2 && s5.c.runtimeFlags.BREAK then
          ({ s5 with c := { s5.c with runtimeFlags := { s5.c.runtimeFlags with BREAK := false } } },
            true)
        else (s5, r.2)
      .ok (if addLet then s6.1.withContext (fun c => c.popScopes 1) else s6.1, s6.2)
    else .ok (s3.skip, SwitchValue.2.1)
  else .ok (s.skip, execute)

/-- Source `case LEX_T_LABEL` of `execute_statement`. -/
def execute_label (stmt : StatementFn D) (s : Exec D) (execute : Bool) :
    Except Fault (Exec D × Bool) := do
  let Label := s.tkStr
  let s1 ← s.«match» LEX_T_LABEL none
  let s2 ← s1.«match» (tkChar ':') none
  if execute then do
    let r ← stmt s2 execute
    if !r.2.1 && r.1.c.runtimeFlags.BREAK && Label == r.1.label then
      .ok ({ r.1 with c := { r.1.c with runtimeFlags := { r.1.c.runtimeFlags with BREAK := false } } },
        true)
    else .ok (r.1, r.2.1)
  else do
    let r ← stmt s2 false
    .ok (r.1, execute)

/-- Source `case LEX_R_VAR: case LEX_R_LET:` of `execute_statement`, without the
extended form `let (...)`. -/
def execute_var (E : Expressions D) (fuel : Nat) (s : Exec D) (execute : Bool) :
    Except Fault (Exec D × Bool) :=
  if execute then do
    let isLet : Bool := s.tk == LEX_R_LET
    let s1 ← s.«match» s.tk none
    if isLet ∧ s1.tk = tkChar '(' then .error (.notModelled "let (...)")
    else do
      let r ← execute_var_init E fuel s1 execute
      let s2 ← r.1.«match» (tkChar ';') none
      .ok (s2, r.2)
  else .ok (s.skip, execute)

/-- Source `CTinyJS::execute_statement(execute)`, with `stmt` for its calls of
itself and `fuel` for its loops.  The token `LEX_T_DUMMY_LABEL` has no `case`:
the one written in the source lies between `#if 0` and `#endif`. -/
def execute_statement_step (E : Expressions D) (stmt : StatementFn D) (fuel : Nat) (s : Exec D)
    (execute : Bool) : Except Fault (Exec D × Bool × Option Nat) :=
  let noValue (r : Except Fault (Exec D × Bool)) : Except Fault (Exec D × Bool × Option Nat) :=
    r.map fun x => (x.1, x.2, none)
  let tk := s.tk
  if tk = tkChar '\x7b' then noValue (execute_block stmt fuel s execute true)
  else if tk = tkChar ';' then noValue ((s.«match» (tkChar ';') none).map fun x => (x, execute))
  else if tk = LEX_T_FORWARD then noValue ((execute_forward E s).map fun x => (x, execute))
  else if tk = LEX_R_VAR ∨ tk = LEX_R_LET then noValue (execute_var E fuel s execute)
  else if tk = LEX_R_WITH then .error (.notModelled "with")
  else if tk = LEX_R_IF then noValue (execute_if E stmt s execute)
  else if tk = LEX_R_DO then noValue (execute_do E stmt fuel s execute)
  else if tk = LEX_R_WHILE then noValue (execute_while E stmt fuel s execute)
  else if tk = LEX_T_FOR_IN ∨ tk = LEX_T_FOR_EACH_IN then .error (.notModelled "for in")
  else if tk = LEX_R_FOR then noValue (execute_for E stmt fuel s execute)
  else if tk = LEX_R_BREAK ∨ tk = LEX_R_CONTINUE then noValue (execute_break s execute)
  else if tk = LEX_R_RETURN then noValue (execute_return E s execute)
  else if tk = LEX_R_FUNCTION ∨ tk = LEX_R_FUNCTION_PLACEHOLDER then
    noValue (execute_function E s execute)
  else if tk = LEX_R_TRY then noValue (execute_try E stmt fuel s execute)
  else if tk = LEX_R_THROW then noValue (execute_throw E s execute)
  else if tk = LEX_R_SWITCH then noValue (execute_switch E stmt fuel s execute)
  else if tk = LEX_T_LABEL then noValue (execute_label stmt s execute)
  else if tk = LEX_EOF then noValue ((s.«match» LEX_EOF none).map fun x => (x, execute))
  else do
    -- `case LEX_ID:` and `default:`
    let r ← execute_base E s execute
    let s1 ← r.1.«match» (tkChar ';') none
    .ok (s1, r.2.1, some r.2.2)

/-- Source `CTinyJS::execute_statement(execute)`; the fuel bounds the nesting of the
statements and the passes of each loop. -/
def execute_statement (E : Expressions D) : Nat → StatementFn D
  | 0, _, _ => .error .fuel
  | fuel + 1, s, execute => execute_statement_step E (execute_statement E fuel) fuel s execute

/-- The loop `do \x7b v = execute_statement(execute); while (t->tk==';') t->match(';');
\x7d while (t->tk!=LEX_EOF);` of `evaluateComplex`. -/
def evaluateComplex_loop (E : Expressions D) (fuel : Nat) : Nat → Exec D → Bool →
    Except Fault (Exec D × Bool × Option Nat)
  | 0, _, _ => .error .fuel
  | n + 1, s, execute =>
    match execute_statement E fuel s execute with
    | .error e => .error e
    | .ok r =>
      -- `t->match(';')` passes every `;`
      let semicolons := ((r.1.tokens.drop r.1.pos).takeWhile fun t => t.token == tkChar ';').length
      let s1 : Exec D := r.1.setPos (r.1.pos + semicolons)
      if s1.tk ≠ LEX_EOF then evaluateComplex_loop E fuel n s1 r.2.1
      else .ok (s1, r.2.1, r.2.2)

/-- Source `CTinyJS::evaluateComplex(Tokenizer)` without the collection of the
values that are no longer referred to: the context left and the value returned,
`constScriptVar(Undefined)` when the last statement gave no link. -/
def evaluateComplex (E : Expressions D) (fuel : Nat) (c : CTinyJS D) (tokens : TOKEN_VECT) :
    Except Fault (CTinyJS D × Nat) :=
  match evaluateComplex_loop E fuel fuel { c := c, tokens := tokens, pos := 0, label := "" }
      true with
  | .error e => .error e
  | .ok r =>
    match r.2.2 with
    | some v => .ok (r.1.c, v)
    | none => .ok (r.1.c, r.1.c.constUndefined)

end

end TinyJS

namespace TinyJS

/-! ## Readings of the claims on accessors, statements and tokens; example data -/

/-- The link `x` of the object `o` of `accessorContext`. -/
def accessorLink : CScriptVarLink := exampleLink "x" 4 3 6

/-- A heap for examples, as it is after `var o = \x7b get x() \x7b return 42 \x7d \x7d`:
`Object.prototype` (0), `undefined` (1), the root scope (2) with `o`, the object
`o` (3) with the property `x`, the accessor (4) with the getter only, the getter
function (5) with its `prototype` object (6), the prototype of the functions
(7), the prototype of the numbers (8), the numbers 42, 7 and 0 (9, 10, 11). -/
def accessorContext : CTinyJS Int where
  vars := [
    { val := .object .Object 0, Childs := [exampleLink "__proto__" 0 0 0], extensible := true,
      temporaryID := 0, data := none },
    { val := .undefined, Childs := [exampleLink "__proto__" 0 1 1], extensible := true,
      temporaryID := 0, data := none },
    { val := .object .Scope 2, Childs := [exampleLink "__proto__" 0 2 2, exampleLink "o" 3 2 3],
      extensible := true, temporaryID := 0, data := none },
    { val := .object .Object 3, Childs := [exampleLink "__proto__" 0 3 4, accessorLink],
      extensible := true, temporaryID := 0, data := none },
    { val := .object .Accessor 4,
      Childs := [exampleLink "__accessor_get__" 5 4 7, exampleLink "__proto__" 0 4 5],
      extensible := true, temporaryID := 0, data := none },
    { val := .object .Function 5,
      Childs := [exampleLink "__proto__" 7 5 8, exampleLink "length" 11 5 9,
                 exampleLink "prototype" 6 5 10],
      extensible := true, temporaryID := 0,
      data := some { name := "x", arguments := [], bodyIsBlock := true } },
    { val := .object .Object 6, Childs := [exampleLink "__proto__" 0 6 11], extensible := true,
      temporaryID := 0, data := none },
    { val := .object .Object 7, Childs := [exampleLink "__proto__" 0 7 12], extensible := true,
      temporaryID := 0, data := none },
    { val := .object .Object 8, Childs := [exampleLink "__proto__" 0 8 13], extensible := true,
      temporaryID := 0, data := none },
    { val := .integer 42 false, Childs := [exampleLink "__proto__" 8 9 14], extensible := true,
      temporaryID := 0, data := none },
    { val := .integer 7 false, Childs := [exampleLink "__proto__" 8 10 15], extensible := true,
      temporaryID := 0, data := none },
    { val := .integer 0 false, Childs := [exampleLink "__proto__" 8 11 16], extensible := true,
      temporaryID := 0, data := none }]
  nextLink := 17
  objectPrototype := 0
  numberPrototype := 8
  constUndefined := 1
  root := 2
  scopes := [2]
  runtimeFlags := { CAN_THROW := false, THROW := false, BREAK := false, CONTINUE := false }
  uniqueID := 0
  exceptionVar := none

end TinyJS

namespace TinyJS

/-- The token kinds before which, by C20, a `/` is no start of a regular
expression: identifier, number, string, `true`, `false`, `null`, `]`, `)`, `.`
and the end of the input. -/
def claimedNoRegexpAfter : List Nat :=
  [LEX_ID, LEX_INT, LEX_FLOAT, LEX_STR, LEX_R_TRUE, LEX_R_FALSE, LEX_R_NULL, tkChar ']',
   tkChar ')', tkChar '.', LEX_EOF]

/-- The token kinds before which the lexer takes a `/` as the division. -/
def noRegexpAfter : List Nat :=
  [LEX_ID, LEX_INT, LEX_FLOAT, LEX_STR, LEX_R_TRUE, LEX_R_FALSE, LEX_R_NULL, tkChar ']',
   tkChar ')', tkChar '.']

/-- The kind and the text of the current token of a lexer, and
`lineBreakBeforeToken`. -/
def lexView (l : Except Fault CScriptLex) : Option (Nat × String × Bool) :=
  match l with
  | .ok l => some (l.tk, l.tkStr, l.lineBreakBeforeToken)
  | .error _ => none

/-- A platform in which `std::regex` accepts every pattern. -/
def anyRegex : List String := []

end TinyJS

namespace TinyJS

/-! ### An evaluator of expressions for the examples

The examples run the statements of small programs.  Their expressions are
evaluated by `exampleExpressions`, which knows the few forms the examples use:
a literal (number, string, `true`, `false`, an object literal whose values are
literals), an identifier with members (`a.b`), the postfix `++` on an
identifier, and one comparison `==` or `<` of two such operands. -/

/-- Allocates a primitive value (the examples take `Object.prototype` as the
prototype of every value). -/
def exampleValue (c : CTinyJS Int) (v : ScriptVar Int) : CTinyJS Int × Nat :=
  c.newCScriptVar (fun _ => v) (some c.objectPrototype) none

/-- The value of a literal token, `none` for a token that is no literal. -/
def exampleLiteral (c : CTinyJS Int) (t : CScriptToken) : Option (CTinyJS Int × Nat) :=
  if t.token = LEX_INT then some (exampleValue c (.integer t.getInt false))
  else if t.token = LEX_STR then some (exampleValue c (.string t.getString false))
  else if t.token = LEX_R_TRUE then some (exampleValue c (.bool true false))
  else if t.token = LEX_R_FALSE then some (exampleValue c (.bool false false))
  else none

/-- An operand of the examples: the new state, the value, and the link when the
operand is an identifier that is found in the scopes.  With `execute` unset
the tokens are passed and the value is `undefined`. -/
def exampleOperand (s : Exec Int) (execute : Bool) :
    Except Fault (Exec Int × Nat × Option CScriptVarLink) :=
  let t := s.getToken
  let next : Exec Int := { s with pos := s.pos + 1 }
  if !execute then
    if t.token = LEX_ID then
      .ok ({ s with pos := s.pos + 1 + 2 * ((s.tokens.drop (s.pos + 1)).takeWhile
        fun x => x.token == tkChar '.' || x.token == LEX_ID).length / 2 }, s.c.constUndefined, none)
    else .ok (next, s.c.constUndefined, none)
  else
    match t with
    | .object _ _ _ elements =>
      let r := s.c.newScriptVarObject
      let c1 := elements.foldl (fun c e =>
        match e.body.head?.bind (exampleLiteral c) with
        | some v => (v.1.addChildOrReplace r.2 e.getString v.2 SCRIPTVARLINK_DEFAULT).1
        | none => c) r.1
      .ok ({ next with c := c1 }, r.2, none)
    | _ =>
      match exampleLiteral s.c t with
      | some v => .ok ({ next with c := v.1 }, v.2, none)
      | none =>
        if t.token = LEX_ID then
          let link := s.c.findInScopes t.getString
          let v := (link.map CScriptVarLink.var).getD s.c.constUndefined
          -- members `.name`
          let members := ((s.tokens.drop (s.pos + 1)).takeWhile
            fun x => x.token == tkChar '.' || x.token == LEX_ID).filter
              fun x => x.token == LEX_ID
          if members.isEmpty then .ok (next, v, link)
          else
            let w := members.foldl (fun v m =>
              ((s.c.findChild v m.getString).map CScriptVarLink.var).getD s.c.constUndefined) v
            .ok ({ s with pos := s.pos + 1 + 2 * members.length }, w, none)
        else .error (.notModelled "expression of no example")

/-- The integer of a value of the examples. -/
def exampleInt (c : CTinyJS Int) (v : Nat) : Int :=
  match c.valOf v with
  | some (.integer i _) => i
  | _ => 0

/-- The comparison `a == b` of the examples: numbers and strings by their data,
every other pair by the address. -/
def exampleEqual (c : CTinyJS Int) (a b : Nat) : Bool :=
  match c.valOf a, c.valOf b with
  | some (.integer i _), some (.integer j _) => i == j
  | some (.string x _), some (.string y _) => x == y
  | some (.bool x _), some (.bool y _) => x == y
  | _, _ => a == b

/-- The expressions of the examples. -/
def exampleExpression (s : Exec Int) (execute : Bool) : Except Fault (Exec Int × Bool × Nat) := do
  let a ← exampleOperand s execute
  if a.1.tk = LEX_PLUSPLUS then
    let s1 : Exec Int := { a.1 with pos := a.1.pos + 1 }
    match a.2.2, execute with
    | some link, true =>
      let r := exampleValue s1.c (.integer (wrapInt (exampleInt s1.c a.2.1 + 1)) false)
      .ok ({ s1 with c := r.1.setVarPtr link r.2 }, execute, a.2.1)
    | _, _ => .ok (s1, execute, a.2.1)
  else if a.1.tk = LEX_EQUAL ∨ a.1.tk = tkChar '<' then do
    let b ← exampleOperand { a.1 with pos := a.1.pos + 1 } execute
    if execute then
      let v : Bool :=
        if a.1.tk = LEX_EQUAL then exampleEqual b.1.c a.2.1 b.2.1
        else decide (exampleInt b.1.c a.2.1 < exampleInt b.1.c b.2.1)
      let r := exampleValue b.1.c (.bool v false)
      .ok ({ b.1 with c := r.1 }, execute, r.2)
    else .ok (b.1, execute, b.1.c.constUndefined)
  else .ok (a.1, execute, a.2.1)

/-- Source `getBool()` for the values of the examples: a number is true when it is
not 0, a string when it is not empty, `undefined`, `null` and the objects are
false. -/
def exampleGetBool (c : CTinyJS Int) (v : Nat) : Bool :=
  match c.valOf v with
  | some (.bool b _) => b
  | some (.integer i _) => i != 0
  | some (.string x _) => x.length != 0
  | _ => false

/-- The evaluator of expressions of the examples. -/
def exampleExpressions : Expressions Int where
  calls := exampleEvaluator
  execute_base := exampleExpression
  execute_assignment := exampleExpression
  getBool := exampleGetBool
  getPrimitivVar := fun s execute v => .ok (s, execute, v)
  mathsOp := fun s execute a b _ =>
    let r := exampleValue s.c (.bool (exampleEqual s.c a b) false)
    .ok ({ s with c := r.1 }, execute, r.2)
  parseFunctionDefinition := fun c fn =>
    c.newCScriptVar (fun addr => .object .Function addr) (some c.objectPrototype)
      (some { name := fn.getString,
              arguments := fn.arguments.map fun a => FncArgument.LEX_ID a.getString,
              bodyIsBlock := true })

/-- The context in which the examples start: `Object.prototype` (0), `undefined`
(1) and the root scope (2). -/
def startContext : CTinyJS Int where
  vars := [
    { val := .object .Object 0, Childs := [exampleLink "__proto__" 0 0 0], extensible := true,
      temporaryID := 0, data := none },
    { val := .undefined, Childs := [exampleLink "__proto__" 0 1 1], extensible := true,
      temporaryID := 0, data := none },
    { val := .object .Scope 2, Childs := [exampleLink "__proto__" 0 2 2], extensible := true,
      temporaryID := 0, data := none }]
  nextLink := 3
  objectPrototype := 0
  numberPrototype := 0
  constUndefined := 1
  root := 2
  scopes := [2]
  runtimeFlags := { CAN_THROW := false, THROW := false, BREAK := false, CONTINUE := false }
  uniqueID := 0
  exceptionVar := none

/-- The strings among the values of a context, in the order of their creation. -/
def stringsOf (c : CTinyJS Int) : List String :=
  c.vars.filterMap fun v =>
    match v.val with
    | .string x _ => some x
    | _ => none

/-- Source `CTinyJS::evaluate(Code)` for the examples: the text is tokenized and
evaluated in `startContext`; the result is the string of the value returned and
the strings that were created, or the fault. -/
def exampleEvaluate (Code : String) : Except Fault (String × List String) :=
  match CScriptTokenizer.tokenize Code with
  | .error e => .error e
  | .ok tokens =>
    match evaluateComplex exampleExpressions (2 * tokens.length + 10) startContext tokens with
    | .error e => .error e
    | .ok r =>
      .ok (((r.1.valOf r.2).map (ScriptVar.getString intPlatform)).getD "", stringsOf r.1)

/-- The kinds of the tokens of the buffer a text is tokenized to, `none` when the
tokenizer throws. -/
def tokenKinds (Code : String) : Option (List Nat) :=
  match CScriptTokenizer.tokenize Code with
  | .ok tokens => some (tokens.map CScriptToken.token)
  | .error _ => none

/-- The fault in which the tokenizer ends on a text, `none` when it gives a
buffer. -/
def tokenizeFault (Code : String) : Option Fault :=
  match CScriptTokenizer.tokenize Code with
  | .ok _ => none
  | .error e => some e

/-- The fault in which the evaluation of a text ends, `none` when it gives a
value. -/
def evaluateFault (Code : String) : Option Fault :=
  match exampleEvaluate Code with
  | .ok _ => none
  | .error e => some e

/-- The result of the evaluation of a text, `none` when it ends in a fault. -/
def evaluateResult (Code : String) : Option (String × List String) :=
  match exampleEvaluate Code with
  | .ok r => some r
  | .error _ => none

end TinyJS

namespace TinyJS

/-- The text of C14. -/
def program14 : String :=
  "try \x7b throw \x7bm:1\x7d; \x7d catch(e if e.m==2) \x7b \"a\" \x7d catch(e) \x7b \"b\" \x7d finally \x7b \"c\" \x7d"

/-- The text of C15. -/
def program15 : String :=
  "outer: for (var i=0;i<3;i++) for (var j=0;j<3;j++) \x7b if (j==1) break outer; \x7d [i,j]"

/-- A loop whose body is a block that declares a `let` name and that runs twice. -/
def program16 : String := "for (var i=0;i<2;i++) \x7b let x = i; \x7d"

/-- The same loop running once. -/
def program16once : String := "for (var i=0;i<1;i++) \x7b let x = i; \x7d"

/-- A function declaration inside a nested block at the top level. -/
def program17 : String := "\x7b function f()\x7b\x7d \x7d"

/-- A function declaration as the branch of an `if`. -/
def program17if : String := "if (c) function f()\x7b\x7d"

/-- A function declaration directly at the top level. -/
def program17top : String := "function f()\x7b\x7d"

/-- A `var x` in a block nested in the block that declares `let x`. -/
def program18 : String := "\x7b let x; \x7b var x; \x7d \x7d"

/-- A `var x` as the unbraced branch of an `if` in the block that declares `let x`. -/
def program18if : String := "\x7b let x; if (c) var x; \x7d"

/-- A `var x` directly in the block that declares `let x`. -/
def program18same : String := "\x7b let x; var x; \x7d"

/-- Two expressions on one line, the second a string literal with a line
continuation (a backslash before a line break) inside. -/
def program19 : String := "a \"b\\\nc\""

/-- Two expressions on one line, no line break anywhere. -/
def program19plain : String := "a \"b\""

/-- The lexer on `Code` after its first token has been matched. -/
def secondToken (Code : String) : Except Fault CScriptLex :=
  match CScriptLex.new Code 0 anyRegex with
  | .ok l => l.«match» l.tk none
  | .error e => .error e

/-- The names in the sets `functions` of the forwarders of a buffer (the buffer of
the top level; the bodies of the functions are not searched). -/
def forwardedFunctions (Code : String) : Option (List String) :=
  match CScriptTokenizer.tokenize Code with
  | .ok tokens => some ((tokens.map fun t => t.functions.map CScriptToken.getString).flatten)
  | .error _ => none

end TinyJS

namespace TinyJS

/-- The value of a run that ends well, `d` for a fault. -/
def getOk {α : Type} (d : α) : Except Fault α → α
  | .ok a => a
  | .error _ => d

/-- A lexer on the empty text. -/
def emptyLex : CScriptLex :=
  { data := [], dataPos := 0, currCh := NUL, nextCh := NUL, tk := 0, last_tk := 0, tkStr := "",
    currentLine := 0, currentLineStart := 0, tokenStart := 0, lineBreakBeforeToken := false,
    regex_errors := anyRegex }

/-- The tokenizer at the start of the text `function f()\x7b\x7d`, as `tokenizeCode`
sets it up: the forwarder of the root is token 0 and the only block start. -/
def tokenizing17 : Tokenizing :=
  CScriptTokenizer.pushForwarder
    { l := getOk emptyLex (CScriptLex.new program17top 0 anyRegex), Tokens := [],
      BlockStart := [0], Marks := [], Labels := [], LoopLabels := [] }

/-- The lexer of `tokenizing17` after `n` tokens have been matched. -/
def lexer17 : Nat → CScriptLex
  | 0 => tokenizing17.l
  | n + 1 => getOk emptyLex ((lexer17 n).«match» (lexer17 n).tk none)

/-- The tokenizer at the body of the function of `tokenizing17`, and the body
tokenized. -/
def body17 : Tokenizing :=
  getOk { l := emptyLex, Tokens := [], BlockStart := [], Marks := [], Labels := [],
          LoopLabels := [] }
    (CScriptTokenizer.tokenizeBlock 5
      { l := getOk emptyLex
          ({ lexer17 3 with tk := tkChar '\x7b' }.«match» (tkChar '\x7b') none),
        Tokens := [], BlockStart := [], Marks := [], Labels := [], LoopLabels := [] }
      { TokenizeFlags.zero with canReturn := true })

end TinyJS

namespace TinyJS

/-- The kind of the token at index `i` of a buffer (`LEX_EOF` past its end): what
`t->tk` reads with the cursor at `i`. -/
def kindAt (tokens : TOKEN_VECT) (i : Nat) : Nat :=
  ((tokens[i]?).getD (.simple LEX_EOF 0)).token

/-- The state in which the block of `catch (e)` starts, for a `try` entered with the
flags `old` whose block threw the value `a` in the state `sv` with the cursor
at the `;` that ends the `throw`: the bits `CanThrow` and `Throw` are those of
`old`, `exceptionVar` is cleared, the cursor has passed `; \x7d catch ( e )`,
a let-scope is pushed and `addChild(e, a)` is called on it. -/
def catchEntry {D : Type} (sv : Exec D) (old : RuntimeFlags) (e : String) (a : Nat) : Exec D :=
  let c4 := CTinyJS.addLetScope
    { sv.c with exceptionVar := none, runtimeFlags := restoreThrowFlags sv.c.runtimeFlags old }
  { sv with pos := sv.pos + 6,
            c := (c4.addChild (sv.c.vars.length) e (some a) SCRIPTVARLINK_DEFAULT).1 }

/-- The text `try \x7b throw "v" \x7d catch(e) \x7b e; \x7d "z"`. -/
def program13 : String := "try \x7b throw \"v\" \x7d catch(e) \x7b e; \x7d \"z\""

/-- The state in which the evaluation of `program13` starts. -/
def start13 : Exec Int :=
  { c := startContext, tokens := getOk [] (CScriptTokenizer.tokenize program13), pos := 0,
    label := "" }

/-- The result of the evaluation of the operand of `throw` in `program13`. -/
def thrown13 : Exec Int × Bool × Nat :=
  getOk (start13, false, 0)
    (execute_base exampleExpressions
      { start13 with pos := 3,
                     c := { startContext with
                       runtimeFlags := { startContext.runtimeFlags with CAN_THROW := true } } }
      true)

/-- The state in which the block of the `catch` of `program13` ends. -/
def caught13 : Exec Int :=
  (getOk (start13, false)
    (execute_block (execute_statement exampleExpressions 3) 3
      (catchEntry thrown13.1 startContext.runtimeFlags "e" thrown13.2.2) true false)).1

end TinyJS

namespace TinyJS

/-! ### The statement `switch`: the layout of its tokens, and what the specification
says of it -/

/-- The kind (`token`) and the skip value (`Int()`) of every token of a buffer. -/
def layoutOf (T : TOKEN_VECT) : List (Nat × Int) := T.map fun t => (t.token, t.getInt)

/-- The kind of token `i` of a layout (`LEX_EOF` past its end). -/
def kindIn (L : List (Nat × Int)) (i : Nat) : Nat := ((L[i]?).map Prod.fst).getD LEX_EOF

/-- The skip value of token `i` of a layout. -/
def skipIn (L : List (Nat × Int)) (i : Nat) : Int := ((L[i]?).map Prod.snd).getD 0

/-- One clause of the body of a `switch`, by the indices of its tokens: whether it is
`default`, the index of the token `case` or `default`, the index of its `:`,
and for each statement of the clause the index at which it ends (the next one
starts there; the first starts after the `:`). -/
structure SwitchClause where
  isDefault : Bool
  label : Nat
  colon : Nat
  body : List Nat
deriving DecidableEq

/-- The index at which a run of statements ends that starts at `p`. -/
def lastEnd : Nat → List Nat → Nat
  | p, [] => p
  | _, e :: rest => lastEnd e rest

/-- The index of what follows a clause: the next label or the `\x7d` of the switch. -/
def SwitchClause.next (c : SwitchClause) : Nat := lastEnd (c.colon + 1) c.body

/-- A token at which a statement of the body starts: none of those the loop of the
switch handles itself. -/
def isStatementKind (k : Nat) : Bool :=
  k != LEX_EOF && k != LEX_R_CASE && k != LEX_R_DEFAULT && k != tkChar '\x7d'

/-- The statements that start at `p` and end at the indices `body` each start with a
token of a statement. -/
def statementsAt (L : List (Nat × Int)) : Nat → List Nat → Bool
  | _, [] => true
  | p, e :: rest => isStatementKind (kindIn L p) && statementsAt L e rest

/-- The tokens of one clause as `tokenizeSwitch` lays them out: `case` and `default`
skip to the `\x7d` of the switch, the token `LEX_T_SKIP` after `case` skips to the
`:`, and the `:` skips to what follows the clause. -/
def clauseAt (L : List (Nat × Int)) (closing : Nat) (c : SwitchClause) : Bool :=
  L[c.label]? == some (if c.isDefault then LEX_R_DEFAULT else LEX_R_CASE,
    (closing : Int) - (c.label : Int)) &&
  (if c.isDefault then c.colon == c.label + 1
   else L[c.label + 1]? == some (LEX_T_SKIP, (c.colon : Int) - ((c.label : Int) + 1))) &&
  L[c.colon]? == some (tkChar ':', (c.next : Int) - (c.colon : Int)) &&
  statementsAt L (c.colon + 1) c.body

/-- The clauses `cs` lie one after the other from index `p` up to the `\x7d` of the
switch at index `closing`. -/
def clausesAt (L : List (Nat × Int)) (closing : Nat) : Nat → List SwitchClause → Bool
  | p, [] => p == closing
  | p, c :: rest => c.label == p && clauseAt L closing c && clausesAt L closing c.next rest

/-- The number of passes of the loop of the switch that the clauses take. -/
def clauseSteps : List SwitchClause → Nat
  | [] => 0
  | c :: rest => c.body.length + 1 + clauseSteps rest

/-- Fuel that suffices for the loop of a switch with the clauses `cs`. -/
def switchFuel (cs : List SwitchClause) : Nat := cs.length + clauseSteps cs + 3

section

variable {D : Type}

/-- What the evaluator of statements is taken to do with the statements that start
at `p` and end at `body`: a statement leaves the layout of the buffer as it is
and the cursor at its end, and with `execute` unset it does nothing else. -/
def StatementsOK (stmt : StatementFn D) (L : List (Nat × Int)) : Nat → List Nat → Prop
  | _, [] => True
  | p, e :: rest =>
    (∀ s : Exec D, layoutOf s.tokens = L → s.pos = p →
      (∀ r, stmt s true = .ok r → layoutOf r.1.tokens = L ∧ r.1.pos = e) ∧
      (∃ x, stmt s false = .ok (s.setPos e, false, x))) ∧
    StatementsOK stmt L e rest

/-- What the evaluators are taken to do with a clause: the expression of a `case`
leaves the layout as it is and the cursor at the `:`, and the statements are as
in `StatementsOK`. -/
def ClauseOK (E : Expressions D) (stmt : StatementFn D) (L : List (Nat × Int))
    (c : SwitchClause) : Prop :=
  (c.isDefault = false → ∀ s : Exec D, layoutOf s.tokens = L → s.pos = c.label + 2 →
    ∀ r, execute_base E s true = .ok r → layoutOf r.1.tokens = L ∧ r.1.pos = c.colon) ∧
  StatementsOK stmt L (c.colon + 1) c.body

/-- What `mathsOp` is taken to do with the buffer: nothing. -/
def MathsOK (E : Expressions D) (L : List (Nat × Int)) : Prop :=
  ∀ (s : Exec D) (ex : Bool) (a b : Nat) (r : Exec D × Bool × Nat), layoutOf s.tokens = L →
    E.mathsOp s ex a b .LEX_EQUAL = .ok r → layoutOf r.1.tokens = L ∧ r.1.pos = s.pos

/-- What the loop of the switch has noted of `default` while it searches the cases,
in the variables `hasDefault` (`hd`) and `defaultStart` (`ds`): nothing, or the
`:` of the `default` from which the clauses `c :: rest` go on. -/
def DefaultSeen (E : Expressions D) (stmt : StatementFn D) (L : List (Nat × Int))
    (closing K : Nat) (hd : Bool) (ds : Nat) : Option (List SwitchClause) → Prop
  | none => hd = false
  | some [] => False
  | some (c :: rest) =>
    hd = true ∧ ds = c.colon ∧ kindIn L c.colon = tkChar ':' ∧
    statementsAt L (c.colon + 1) c.body = true ∧ StatementsOK stmt L (c.colon + 1) c.body ∧
    clausesAt L closing c.next rest = true ∧ (∀ c1 ∈ rest, ClauseOK E stmt L c1) ∧
    c.body.length + clauseSteps rest + 2 ≤ K

/-- The specification of the fall through, one clause: the statements that start at
`p` and end at `body` are executed in their order until one of them clears
`execute` (a `break`). -/
def runStatements (stmt : StatementFn D) : Nat → List Nat → Exec D →
    Except Fault (Exec D × Bool)
  | _, [], s => .ok (s, true)
  | p, e :: rest, s =>
    match stmt (s.setPos p) true with
    | .error x => .error x
    | .ok r => if r.2.1 then runStatements stmt e rest r.1 else .ok (r.1, false)

/-- The specification of the fall through: the statements of the clauses `cs` are
executed clause after clause, the labels between them are passed, until a
statement clears `execute` or the clauses end. -/
def fallThrough (stmt : StatementFn D) : List SwitchClause → Exec D →
    Except Fault (Exec D × Bool)
  | [], s => .ok (s, true)
  | c :: rest, s =>
    match runStatements stmt (c.colon + 1) c.body s with
    | .error x => .error x
    | .ok r => if r.2 then fallThrough stmt rest r.1 else .ok r

/-- The specification of the search: the expressions of the `case` clauses are
evaluated in source order and compared with the discriminant `d` by `==`,
up to the first that holds; the result is the state, `execute`, and the clauses
from the one that matched on (`none` when no case matched).  An expression that
clears `execute` ends the search. -/
def switchSearch (E : Expressions D) (d : Nat) : List SwitchClause → Exec D →
    Except Fault (Exec D × Bool × Option (List SwitchClause))
  | [], s => .ok (s, true, none)
  | c :: rest, s =>
    if c.isDefault then switchSearch E d rest s
    else
      match execute_base E (s.setPos (c.label + 2)) true with
      | .error x => .error x
      | .ok v =>
        match E.mathsOp v.1 v.2.1 v.2.2 d .LEX_EQUAL with
        | .error x => .error x
        | .ok m =>
          if !m.2.1 then .ok (m.1, false, none)
          else if E.getBool m.1.c m.2.2 then .ok (m.1, true, some (c :: rest))
          else switchSearch E d rest m.1

/-- The clauses from `default` on, `dflt` when there is no `default` (the tokenizer
admits one `default`; of several this is the last). -/
def defaultFrom (dflt : Option (List SwitchClause)) : List SwitchClause →
    Option (List SwitchClause)
  | [] => dflt
  | c :: rest => defaultFrom (if c.isDefault then some (c :: rest) else dflt) rest

/-- The specification of the body of a switch: the execution starts after the first
`case` that equals `d` and falls through; when no case matches it starts after
`default:`, wherever that is placed; when there is no `default` either, no
statement is executed. -/
def switchBody (E : Expressions D) (stmt : StatementFn D) (d : Nat) (cs : List SwitchClause)
    (s : Exec D) : Except Fault (Exec D × Bool) :=
  match switchSearch E d cs s with
  | .error x => .error x
  | .ok f =>
    if !f.2.1 then .ok (f.1, false)
    else
      match f.2.2 with
      | some run => fallThrough stmt run f.1
      | none =>
        match defaultFrom none cs with
        | some run => fallThrough stmt run f.1
        | none => .ok (f.1, true)

/-- The specification of a switch whose discriminant is evaluated (`d`), from the
state `s` at the first clause: the body is executed as in `switchBody`, the
cursor ends just past the `\x7d` of the switch at index `closing`, and a pending
`break` is taken by the switch.  `addLet` says that the body has declarations
of its own, for which a let-scope was pushed. -/
def switchSpec (E : Expressions D) (stmt : StatementFn D) (d : Nat) (cs : List SwitchClause)
    (closing : Nat) (addLet : Bool) (s : Exec D) : Except Fault (Exec D × Bool) :=
  match switchBody E stmt d cs s with
  | .error x => .error x
  | .ok r =>
    let s5 := r.1.setPos (closing + 1)
    let s6 : Exec D × Bool :=
      if !r.2 && s5.c.runtimeFlags.BREAK then
        ({ s5 with c := { s5.c with runtimeFlags := { s5.c.runtimeFlags with BREAK := false } } },
          true)
      else (s5, r.2)
    .ok (if addLet then s6.1.withContext (fun c => c.popScopes 1) else s6.1, s6.2)

end

end TinyJS

namespace TinyJS

/-- The text `switch (2) \x7b case 1: ; default: ; case 2: ; break; case 3: ; \x7d`. -/
def program12 : String :=
  "switch (2) \x7b case 1: ; default: ; case 2: ; break; case 3: ; \x7d"

/-- The state in which the evaluation of `program12` starts. -/
def start12 : Exec Int :=
  { c := startContext, tokens := getOk [] (CScriptTokenizer.tokenize program12), pos := 0,
    label := "" }

/-- The result of the evaluation of the discriminant of `program12`. -/
def discriminant12 : Exec Int × Bool × Nat :=
  getOk (start12, false, 0) (execute_base exampleExpressions (start12.setPos 2) true)

/-- The state of `program12` at the first clause. -/
def body12 : Exec Int := discriminant12.1.setPos (discriminant12.1.pos + 2)

/-- The clauses of `program12`: `case 1` at token 5, `default` at 10, `case 2` at 13
with the two statements `;` and `break;`, `case 3` at 20; the `\x7d` is token 25. -/
def clauses12 : List SwitchClause :=
  [{ isDefault := false, label := 5, colon := 8, body := [10] },
   { isDefault := true, label := 10, colon := 11, body := [13] },
   { isDefault := false, label := 13, colon := 16, body := [18, 20] },
   { isDefault := false, label := 20, colon := 23, body := [25] }]

/-- A text with a `default` in the middle and a case that matches after it. -/
def program12match : String :=
  "var x = 2; switch (x) \x7b case 1: \"a\"; break; default: \"b\"; case 2: \"c\"; case 3: \"d\"; break; case 4: \"e\" \x7d"

/-- The same switch on a value that no case equals. -/
def program12default : String :=
  "var x = 7; switch (x) \x7b case 1: \"a\"; break; default: \"b\"; case 2: \"c\"; break; case 4: \"e\" \x7d \"z\""

/-- A switch with no `default` on a value that no case equals. -/
def program12none : String :=
  "var x = 7; switch (x) \x7b case 1: \"a\"; break; case 2: \"c\" \x7d \"z\""

end TinyJS

namespace TinyJS

/-! ## Walks along the prototype chain: lookup and `keys` -/

/-- Modelled from the spec: the link flag `SCRIPTVARLINK_ENUMERABLE` of `TinyJS.h`
(not part of the source): the bit of `SCRIPTVARLINK_VARDEFAULT` (writable and
enumerable) that is not `SCRIPTVARLINK_WRITABLE`. -/
def SCRIPTVARLINK_ENUMERABLE : Nat := 2

/-- Modelled from the spec: the link flag of `TinyJS.h` (not part of the source)
that `isDeletable()` tests: the bit of `SCRIPTVARLINK_DEFAULT` (writable,
enumerable, configurable) that is not in `SCRIPTVARLINK_VARDEFAULT`. -/
def SCRIPTVARLINK_CONFIGURABLE : Nat := 4

/-- Modelled from the spec: `CScriptVarLink::isEnumerable()` of `TinyJS.h` (not part
of the source), the bit `SCRIPTVARLINK_ENUMERABLE` of the flags. -/
def CScriptVarLink.isEnumerable (link : CScriptVarLink) : Bool :=
  Nat.land link.flags SCRIPTVARLINK_ENUMERABLE != 0

/-- Modelled from the spec: `CScriptVarLink::isDeletable()` of `TinyJS.h` (not part
of the source), the bit `SCRIPTVARLINK_CONFIGURABLE` of the flags. -/
def CScriptVarLink.isDeletable (link : CScriptVarLink) : Bool :=
  Nat.land link.flags SCRIPTVARLINK_CONFIGURABLE != 0

namespace CTinyJS

variable {D : Type}

/-- Modelled from the spec: `CTinyJS::getUniqueID()` of `TinyJS.h` (not part of the
source), "bump a monotonic `uniqueID`": the counter is advanced and its new
value returned. -/
def getUniqueID (c : CTinyJS D) : CTinyJS D × Nat :=
  ({ c with uniqueID := c.uniqueID + 1 }, c.uniqueID + 1)

/-- The loop of `CScriptVar::findChildWithPrototypeChain`; `object` is `none` for a
null pointer.  The last component of the result is no part of the source: it
lists the values that `object` had in the passes of the loop body, the latest
first. -/
def findChildWithPrototypeChain_loop (childName : String) (uniqueID : Nat) :
    Nat → CTinyJS D → Option Nat → List Nat →
    Except Fault (CTinyJS D × Option CScriptVarLink × List Nat)
  | 0, _, _, _ => .error .fuel
  | fuel + 1, c, object, visited =>
    match object with
    | none => .ok (c, none, visited)
    | some o =>
      if c.getTempraryID o ≠ uniqueID then
        match c.findChild o childName with
        | some implementation => .ok (c, some implementation, o :: visited)
        | none =>
          let c1 := c.setTemporaryID o uniqueID
          findChildWithPrototypeChain_loop childName uniqueID fuel c1
            ((c1.findChild o TINYJS___PROTO___VAR).map CScriptVarLink.var) (o :: visited)
      else .ok (c, none, visited)

/-- Source `CScriptVar::findChildWithPrototypeChain(childName)` on the value at
`this`.  Every pass of the loop but the last stamps one more value, so two
passes more than there are values are enough. -/
def findChildWithPrototypeChain (c : CTinyJS D) (this : Nat) (childName : String) :
    Except Fault (CTinyJS D × Option CScriptVarLink × List Nat) :=
  let u := c.getUniqueID
  findChildWithPrototypeChain_loop childName u.2 (u.1.vars.length + 2) u.1 (some this) []

/-- The loop of `CScriptVar::findChildInPrototypeChain`; the last component of the
result lists the values that `object` had in the passes of the loop body, the
latest first (no part of the source). -/
def findChildInPrototypeChain_loop (childName : String) (uniqueID : Nat) :
    Nat → CTinyJS D → Nat → List Nat →
    Except Fault (CTinyJS D × Option CScriptVarLink × List Nat)
  | 0, _, _, _ => .error .fuel
  | fuel + 1, c, object, visited =>
    if c.getTempraryID object ≠ uniqueID then
      match c.findChild object TINYJS___PROTO___VAR with
      | some __proto__ =>
        match c.findChild __proto__.var childName with
        | some implementation => .ok (c, some implementation, object :: visited)
        | none =>
          findChildInPrototypeChain_loop childName uniqueID fuel
            (c.setTemporaryID object uniqueID) __proto__.var (object :: visited)
      | none => .ok (c, none, visited)
    else .ok (c, none, visited)

/-- Source `CScriptVar::findChildInPrototypeChain(childName)` on the value at
`this`. -/
def findChildInPrototypeChain (c : CTinyJS D) (this : Nat) (childName : String) :
    Except Fault (CTinyJS D × Option CScriptVarLink × List Nat) :=
  let u := c.getUniqueID
  findChildInPrototypeChain_loop childName u.2 (u.1.vars.length + 2) u.1 this []

/-- Source `CScriptVar::keys(Keys, OnlyEnumerable, ID)` on the value at `this`; the
set `Keys` is the list of its members in ascending order.  The call of itself
for the prototype runs on fuel. -/
def keys (OnlyEnumerable : Bool) (ID : Nat) :
    Nat → CTinyJS D → Nat → List String → Except Fault (CTinyJS D × List String)
  | 0, _, _, _ => .error .fuel
  | fuel + 1, c, this, Keys =>
    let c1 := c.setTemporaryID this ID
    let Keys1 := (c1.childsOf this).foldl (fun K it =>
      if !OnlyEnumerable || it.isEnumerable then STRING_SET_insert K it.name else K) Keys
    if ID ≠ 0 then
      match c1.findChild this TINYJS___PROTO___VAR with
      | some __proto__ =>
        if c1.getTempraryID __proto__.var ≠ ID then keys OnlyEnumerable ID fuel c1 __proto__.var Keys1
        else .ok (c1, Keys1)
      | none => .ok (c1, Keys1)
    else .ok (c1, Keys1)

/-- Source `newScriptVar(Accessor)`: the constructor `CScriptVarAccessor(Context)`,
an accessor whose prototype is `Context->objectPrototype`. -/
def newScriptVarAccessor (c : CTinyJS D) : CTinyJS D × Nat :=
  c.newCScriptVar (fun addr => .object .Accessor addr) (some c.objectPrototype) none

end CTinyJS

/-! ### The words of C25 -/

namespace CTinyJS

variable {D : Type}

/-- The prototype of the value at `o`: the value of its link `__proto__`. -/
def protoOf (c : CTinyJS D) (o : Nat) : Option Nat :=
  (c.findChild o TINYJS___PROTO___VAR).map CScriptVarLink.var

/-- The `k`-th value along the `__proto__` chain that starts with `object`. -/
def protoAt (c : CTinyJS D) : Nat → Option Nat → Option Nat
  | 0, object => object
  | k + 1, object => protoAt c k (object.bind c.protoOf)

/-- The link `r` is the own property named `childName` of the first value along
the `__proto__` chain from `start` that has one, or no link when none has. -/
def FirstOwn (c : CTinyJS D) (childName : String) (start : Option Nat) :
    Option CScriptVarLink → Prop
  | some l => ∃ k o, c.protoAt k start = some o ∧ c.findChild o childName = some l ∧
      ∀ j < k, ∀ p, c.protoAt j start = some p → c.findChild p childName = none
  | none => ∀ k o, c.protoAt k start = some o → c.findChild o childName = none

end CTinyJS

end TinyJS

namespace TinyJS

/-- Source constructor `CScriptVarAccessor(Context, getterFnc, getterData, setterFnc,
setterData)` of a native accessor; `getter` and `setter` are the function values
made of the callbacks (`none` for a null callback). -/
def CTinyJS.newScriptVarAccessorNative {D : Type} (c : CTinyJS D) (getter setter : Option Nat) :
    CTinyJS D × Nat :=
  let r := c.newCScriptVar (fun addr => .object .Accessor addr) (some c.objectPrototype) none
  let c1 := match getter with
    | some g => (r.1.addChild r.2 "__accessor_get__" (some g) 0).1
    | none => r.1
  let c2 := match setter with
    | some f => (c1.addChild r.2 "__accessor_set__" (some f) 0).1
    | none => c1
  (c2, r.2)

end TinyJS

namespace TinyJS

/-! ## The evaluator of expressions

`execute_literals`, `execute_member`, `execute_function_call`, `execute_unary`
and the functions of the binary operators up to `execute_base` run the cursor
over the token buffer as the statements do.  A `CScriptVarLinkWorkPtr` is a link
or the null link; its `referencedOwner`, which only the call of a function found
in a prototype reads, is left out.  The operations on values (`getBool`,
`mathsOp`, `getPrimitivVar`, `parseFunctionDefinition`, the calls) are those of
`Expressions`; the constants of the context and what `TinyJS.h` defines are the
fields of `Values`.  The model stops with `Fault.notModelled` at a float or
regular expression literal, at an array literal, at a destructuring pattern, at
`let (...)` as expression and at `new` when `execute` is set. -/

/-- Modelled from the spec: the macro `TINYJS_TEMP_NAME` of `TinyJS.h` (not part of
the source), the name of a link that is no property; `execute_assignment`
recognises such a link by `getName().empty()`. -/
def TINYJS_TEMP_NAME : String := ""

/-- What the evaluator of expressions takes from `TinyJS.h` (not part of the
source) and from the classes of the values: the constants `constFalse`,
`constTrue`, `constScriptVar(Null)`, `constZero` and `constOne` of the context,
`newScriptVar` for a primitive value (the value is allocated with the prototype
of its class), `newScriptVarError`, the inline function `CheckRightHandVar`,
`getPrimitivStringVar(execute)->getString()` and `getNumericVar()`. -/
structure Values (D : Type) where
  constFalse : Nat
  constTrue : Nat
  constNull : Nat
  constZero : Nat
  constOne : Nat
  newScriptVar : CTinyJS D → ScriptVar D → CTinyJS D × Nat
  newScriptVarError : CTinyJS D → String → String → CTinyJS D × Nat
  CheckRightHandVar : Exec D → Bool → Option CScriptVarLink → Except Fault (Exec D × Bool)
  getPrimitivStringVar : Exec D → Bool → Nat → Except Fault (Exec D × Bool × String)
  getNumericVar : CTinyJS D → Nat → CTinyJS D × Nat

/-- What an expression function gives back: the state, `execute` and the link. -/
abbrev Work (D : Type) := Exec D × Bool × Option CScriptVarLink

/-- The operator of `mathsOp` for a token. -/
def tokenOp (tk : Nat) : Op :=
  if tk = tkChar '+' then .plus
  else if tk = tkChar '-' then .minus
  else if tk = tkChar '*' then .star
  else if tk = tkChar '/' then .slash
  else if tk = tkChar '%' then .percent
  else if tk = tkChar '&' then .amp
  else if tk = tkChar '|' then .pipe
  else if tk = tkChar '^' then .caret
  else if tk = tkChar '~' then .tilde
  else if tk = tkChar '<' then .less
  else if tk = tkChar '>' then .greater
  else if tk = LEX_LSHIFT then .LEX_LSHIFT
  else if tk = LEX_RSHIFT then .LEX_RSHIFT
  else if tk = LEX_RSHIFTU then .LEX_RSHIFTU
  else if tk = LEX_EQUAL then .LEX_EQUAL
  else if tk = LEX_NEQUAL then .LEX_NEQUAL
  else if tk = LEX_LEQUAL then .LEX_LEQUAL
  else if tk = LEX_GEQUAL then .LEX_GEQUAL
  else if tk = LEX_TYPEEQUAL then .LEX_TYPEEQUAL
  else if tk = LEX_NTYPEEQUAL then .LEX_NTYPEEQUAL
  else .other tk

/-- Source table `assignments` of `execute_assignment`: the operator of a compound
assignment, indexed by `op-LEX_PLUSEQUAL`. -/
def assignments : List Nat :=
  [tkChar '+', tkChar '-', tkChar '*', tkChar '/', tkChar '%', LEX_LSHIFT, LEX_RSHIFT,
   LEX_RSHIFTU, tkChar '&', tkChar '|', tkChar '^']

/-- Modelled from the spec: the range `LEX_RELATIONS_1_BEGIN` to
`LEX_RELATIONS_1_END` of `TinyJS.h` (not part of the source), the operators of
precedence 9: `==`, `===`, `!=`, `!==`. -/
def isRelation1 (tk : Nat) : Bool :=
  tk == LEX_EQUAL || tk == LEX_TYPEEQUAL || tk == LEX_NEQUAL || tk == LEX_NTYPEEQUAL

/-- Modelled from the spec: the range `LEX_SHIFTS_BEGIN` to `LEX_SHIFTS_END` of
`TinyJS.h` (not part of the source): `<<`, `>>`, `>>>`. -/
def isShift (tk : Nat) : Bool := tk == LEX_LSHIFT || tk == LEX_RSHIFT || tk == LEX_RSHIFTU

/-- The condition of `execute_relation` on the token for the operator set `set`. -/
def isRelation (set tk : Nat) : Bool :=
  (set == LEX_EQUAL && isRelation1 tk) ||
  (set == tkChar '<' && (tk == LEX_LEQUAL || tk == LEX_GEQUAL || tk == tkChar '<' ||
    tk == tkChar '>' || tk == LEX_R_IN || tk == LEX_R_INSTANCEOF))

/-- The test `t->tk=='=' || (t->tk>=LEX_ASSIGNMENTS_BEGIN && t->tk<=LEX_ASSIGNMENTS_END)`. -/
def isAssignment (tk : Nat) : Bool :=
  tk == tkChar '=' || (decide (LEX_PLUSEQUAL ≤ tk) && decide (tk ≤ LEX_XOREQUAL))

namespace CTinyJS

variable {D : Type}

/-- Source constructor `CScriptVarLink(Var, Name, Flags)`: a new link object that
no value owns. -/
def newLink (c : CTinyJS D) (Var : Nat) (Name : String) (Flags : Nat) :
    CTinyJS D × CScriptVarLink :=
  ({ c with nextLink := c.nextLink + 1 },
   { name := Name, var := Var, flags := Flags, owner := none, owned := false,
     addr := c.nextLink })

/-- Source `setExtensible(On)` on the value at `this`. -/
def setExtensible (c : CTinyJS D) (this : Nat) (On : Bool) : CTinyJS D :=
  match c.vars[this]? with
  | some v => { c with vars := c.vars.set this { v with extensible := On } }
  | none => c

/-- Source `isUndefined() || isNull()` of the value at `this`. -/
def isUndefinedOrNull (c : CTinyJS D) (this : Nat) : Bool :=
  match c.valOf this with
  | some v => v.isUndefined || v.isNull
  | none => false

/-- Source `getString()` of the value at `this` when it is `undefined` or `null`. -/
def undefinedOrNullString (c : CTinyJS D) (this : Nat) : String :=
  match c.valOf this with
  | some .null => "null"
  | _ => "undefined"

/-- Source `this->removeLink(link)` on the heap. -/
def removeLink (c : CTinyJS D) (this : Nat) (link : Option CScriptVarLink) : CTinyJS D :=
  c.setChilds this (TinyJS.removeLink (c.childsOf this) link).1

end CTinyJS

namespace Exec

variable {D : Type}

/-- The conversion of a value pointer to a link: a new link of the name
`TINYJS_TEMP_NAME` with the flags `SCRIPTVARLINK_DEFAULT`.  (`operator()` of a
link pointer, which reuses the link object when no one else refers to it, is
modelled in the same way.) -/
def link (s : Exec D) (Var : Nat) : Exec D × Option CScriptVarLink :=
  let r := s.c.newLink Var TINYJS_TEMP_NAME SCRIPTVARLINK_DEFAULT
  ({ s with c := r.1 }, some r.2)

/-- A value as the result of an expression function. -/
def value (s : Exec D) (execute : Bool) (Var : Nat) : Except Fault (Work D) :=
  let r := s.link Var
  .ok (r.1, execute, r.2)

end Exec

namespace Expression

variable {D : Type}

/-- Source `link->getVarPtr()`; a null link is a null pointer. -/
def varOf : Option CScriptVarLink → Except Fault Nat
  | some l => .ok l.var
  | none => .error (.notModelled "null pointer")

/-- Source `CTinyJS::throwError(execute, ErrorType, message)`. -/
def throw_error (V : Values D) (s : Exec D) (execute : Bool) (ErrorType message : String) :
    Except Fault (Exec D × Bool) :=
  if execute && s.c.runtimeFlags.CAN_THROW then
    let r := V.newScriptVarError s.c ErrorType message
    .ok ({ s with c := { r.1 with exceptionVar := some r.2,
                                  runtimeFlags := { r.1.runtimeFlags with THROW := true } } },
      false)
  else .error (.exception ErrorType message)

/-- Source `a.getter(execute)` as the expressions use it: the link itself, or a new
link to the value that the getter function returned. -/
def getter (E : Expressions D) (s : Exec D) (execute : Bool) (a : Option CScriptVarLink) :
    Except Fault (Work D) :=
  match getterFault E s.c a execute with
  | some f => .error f
  | none =>
    match CScriptVarLinkWorkPtr.getter E.calls s.c a execute with
    | .same c e => .ok ({ s with c := c }, e, a)
    | .var c e ret => ({ s with c := c } : Exec D).value e ret
    | .exception msg => .error (.exception "Error" msg)
    | .nullPointer => .error (.notModelled "null pointer")

/-- Source `a.setter(execute, Var)` as the expressions use it. -/
def setter (E : Expressions D) (s : Exec D) (execute : Bool) (a : Option CScriptVarLink)
    (Var : Nat) : Except Fault (Exec D × Bool) :=
  match setterFault E s.c a execute Var with
  | some f => .error f
  | none => ofWorkPtr s (CScriptVarLinkWorkPtr.setter E.calls s.c a execute Var)

/-- Source `mathsOp(execute, A, B, op)` with the conversion of its result to a
link. -/
def mathsOp (E : Expressions D) (s : Exec D) (execute : Bool) (A B : Nat) (op : Nat) :
    Except Fault (Work D) :=
  match E.mathsOp s execute A B (tokenOp op) with
  | .ok r => r.1.value r.2.1 r.2.2
  | .error e => .error e

/-- The statement `a = mathsOp(execute, a.getter(execute), b.getter(execute), op)`
of the binary operators; the getter of `a` runs first. -/
def binaryOp (E : Expressions D) (s : Exec D) (execute : Bool) (a b : Option CScriptVarLink)
    (op : Nat) : Except Fault (Work D) := do
  let ga ← getter E s execute a
  let gb ← getter E ga.1 ga.2.1 b
  let va ← varOf ga.2.2
  let vb ← varOf gb.2.2
  mathsOp E gb.1 gb.2.1 va vb op

/-- The accessor branch of the loop over the elements of an object literal in
`execute_literals`: the element `tk` (a `LEX_T_GET` or `LEX_T_SET` token) of the
object at `a`. -/
def object_literal_accessor (E : Expressions D) (c : CTinyJS D) (a : Nat) (tk : CScriptToken) :
    CTinyJS D :=
  if (tk.token = LEX_T_GET ∧ tk.arguments.length = 0) ∨
      (tk.token = LEX_T_SET ∧ tk.arguments.length = 1) then
    let funcVar := E.parseFunctionDefinition c tk
    let child : Option CScriptVarLink :=
      match funcVar.1.findChild a tk.getString with
      | some l => if !funcVar.1.isAccessor l.var then none else some l
      | none => none
    let r : CTinyJS D × CScriptVarLink :=
      match child with
      | some l => (funcVar.1, l)
      | none =>
        let acc := funcVar.1.newScriptVarAccessor
        acc.1.addChildOrReplace a tk.getString acc.2 SCRIPTVARLINK_DEFAULT
    (r.1.addChildOrReplace r.2.var
      (if tk.token = LEX_T_GET then TINYJS_ACCESSOR_GET_VAR else TINYJS_ACCESSOR_SET_VAR)
      funcVar.2 SCRIPTVARLINK_DEFAULT).1
  else c

mutual

/-- Source `CTinyJS::execute_literals(execute)`. -/
def execute_literals (E : Expressions D) (V : Values D) :
    Nat → Exec D → Bool → Except Fault (Work D)
  | 0, _, _ => .error .fuel
  | fuel + 1, s, execute =>
    if s.tk = LEX_ID then
      if execute then
        let a : Exec D × Option CScriptVarLink :=
          match s.c.findInScopes s.tkStr with
          | some l => (s, some l)
          | none =>
            if s.tkStr = "this" then s.link s.c.root
            else
              let r := s.c.newLink s.c.constUndefined s.tkStr SCRIPTVARLINK_DEFAULT
              ({ s with c := r.1 }, some r.2)
        match a.1.«match» LEX_ID none with
        | .ok s1 => .ok (s1, execute, a.2)
        | .error e => .error e
      else
        match s.«match» LEX_ID none with
        | .ok s1 => s1.value execute s1.c.constUndefined
        | .error e => .error e
    else if s.tk = LEX_INT then
      let r := s.c.newScriptVarInteger (wrapInt s.getToken.getInt)
      match ({ s with c := r.1.setExtensible r.2 false } : Exec D).«match» LEX_INT none with
      | .ok s1 => s1.value execute r.2
      | .error e => .error e
    else if s.tk = LEX_FLOAT then .error (.notModelled "float literal")
    else if s.tk = LEX_STR then
      let r := V.newScriptVar s.c (.string s.getToken.getString false)
      match ({ s with c := r.1 } : Exec D).«match» LEX_STR none with
      | .ok s1 => s1.value execute r.2
      | .error e => .error e
    else if s.tk = LEX_REGEXP then .error (.notModelled "regular expression literal")
    else if s.tk = LEX_T_OBJECT_LITERAL then
      if execute then
        match s.getToken with
        | .object isArray destructuring _ elements =>
          match s.«match» LEX_T_OBJECT_LITERAL none with
          | .ok s1 =>
            if destructuring then .error (.notModelled "destructuring")
            else if isArray then .error (.notModelled "array literal")
            else
              let r := s1.c.newScriptVarObject
              match object_literal_elements E V fuel r.2 elements { s1 with c := r.1 } execute with
              | .ok x => x.1.value x.2 r.2
              | .error e => .error e
          | .error e => .error e
        | _ => .error (.notModelled "Object() of a token that is no object literal")
      else
        match s.«match» LEX_T_OBJECT_LITERAL none with
        | .ok s1 => s1.value execute s1.c.constUndefined
        | .error e => .error e
    else if s.tk = LEX_R_LET then
      if execute then .error (.notModelled "let (...)")
      else s.skip.value execute s.c.constUndefined
    else if s.tk = LEX_T_FUNCTION_OPERATOR then
      if execute then
        let r := E.parseFunctionDefinition s.c s.getToken
        match ({ s with c := r.1 } : Exec D).«match» LEX_T_FUNCTION_OPERATOR none with
        | .ok s1 => s1.value execute r.2
        | .error e => .error e
      else
        match s.«match» LEX_T_FUNCTION_OPERATOR none with
        | .ok s1 => s1.value execute s1.c.constUndefined
        | .error e => .error e
    else if s.tk = LEX_R_NEW then
      if execute then .error (.notModelled "new")
      else s.skip.value execute s.c.constUndefined
    else if s.tk = LEX_R_TRUE then
      match s.«match» LEX_R_TRUE none with
      | .ok s1 => s1.value execute V.constTrue
      | .error e => .error e
    else if s.tk = LEX_R_FALSE then
      match s.«match» LEX_R_FALSE none with
      | .ok s1 => s1.value execute V.constFalse
      | .error e => .error e
    else if s.tk = LEX_R_NULL then
      match s.«match» LEX_R_NULL none with
      | .ok s1 => s1.value execute V.constNull
      | .error e => .error e
    else if s.tk = tkChar '(' then
      if execute then
        match s.«match» (tkChar '(') none with
        | .ok s1 =>
          match execute_base E V fuel s1 execute with
          | .ok b =>
            match getter E b.1 b.2.1 b.2.2 with
            | .ok a =>
              match a.1.«match» (tkChar ')') none with
              | .ok s2 => .ok (s2, a.2.1, a.2.2)
              | .error e => .error e
            | .error e => .error e
          | .error e => .error e
        | .error e => .error e
      else s.skip.value execute s.c.constUndefined
    else
      match s.«match» LEX_EOF none with
      | .ok s1 => s1.value execute s1.c.constUndefined
      | .error e => .error e
termination_by structural fuel => fuel

/-- The loop over `Objc.elements` of the object literal in `execute_literals`, for
the object at `a`.  The tokens of an element (`pushTokenScope(it->value)`) are
read in front of the rest of the buffer: the tokenizer leaves the scope when
its last token has been passed. -/
def object_literal_elements (E : Expressions D) (V : Values D) :
    Nat → Nat → List CScriptToken → Exec D → Bool → Except Fault (Exec D × Bool)
  | 0, _, _, _, _ => .error .fuel
  | _ + 1, _, [], s, execute => .ok (s, execute)
  | fuel + 1, a, el :: els, s, execute =>
    if !execute then .ok (s, execute)
    else
      match el.body with
      | [] => object_literal_elements E V fuel a els s execute
      | tk :: rest =>
        if tk.token = LEX_T_GET ∨ tk.token = LEX_T_SET then
          object_literal_elements E V fuel a els
            { s with c := object_literal_accessor E s.c a tk } execute
        else
          let value := tk :: rest
          match execute_assignment E V fuel
              { s with tokens := value ++ s.tokens.drop s.pos, pos := 0 } execute with
          | .ok r =>
            if r.1.pos < value.length then .error (.notModelled "token scope left open")
            else
              match varOf r.2.2 with
              | .ok v =>
                object_literal_elements E V fuel a els
                  { r.1 with tokens := s.tokens, pos := s.pos + (r.1.pos - value.length),
                             c := (r.1.c.addChildOrReplace a el.getString v
                                    SCRIPTVARLINK_DEFAULT).1 } r.2.1
              | .error e => .error e
          | .error e => .error e
termination_by structural fuel => fuel

/-- The loop `while(t->tk == '.' || t->tk == '[')` of `execute_member`; the result
holds `a` and, last, `parent`. -/
def execute_member_loop (E : Expressions D) (V : Values D) :
    Nat → Exec D → Bool → Option CScriptVarLink → Option CScriptVarLink →
    Except Fault (Work D × Option CScriptVarLink)
  | 0, _, _, _, _ => .error .fuel
  | fuel + 1, s, execute, a, parent =>
    if s.tk = tkChar '.' ∨ s.tk = tkChar '[' then
      -- `parent.swap(a)`
      let parent1 := a
      match getter E s execute parent1 with
      | .error e => .error e
      | .ok g =>
        let a1 := g.2.2
        let t : Except Fault (Exec D × Bool) :=
          if g.2.1 then
            match varOf a1 with
            | .ok v =>
              if g.1.c.isUndefinedOrNull v then
                throw_error V g.1 g.2.1 "ReferenceError"
                  ((a1.map CScriptVarLink.name).getD "" ++ " is " ++
                    g.1.c.undefinedOrNullString v)
              else .ok (g.1, g.2.1)
            | .error e => .error e
          else .ok (g.1, g.2.1)
        match t with
        | .error e => .error e
        | .ok t1 =>
          let n : Except Fault (Exec D × Bool × String × Bool) :=
            if t1.1.tk = tkChar '.' then
              match t1.1.«match» (tkChar '.') none with
              | .ok s1 =>
                match s1.«match» LEX_ID none with
                | .ok s2 => .ok (s2, t1.2, s1.tkStr, false)
                | .error e => .error e
              | .error e => .error e
            else if t1.2 then
              match t1.1.«match» (tkChar '[') none with
              | .ok s1 =>
                match execute_expression E V fuel s1 t1.2 with
                | .ok x =>
                  match varOf x.2.2 with
                  | .ok v =>
                    match V.getPrimitivStringVar x.1 x.2.1 v with
                    | .ok p =>
                      match p.1.«match» (tkChar ']') none with
                      | .ok s2 => .ok (s2, p.2.1, p.2.2, true)
                      | .error e => .error e
                    | .error e => .error e
                  | .error e => .error e
                | .error e => .error e
              | .error e => .error e
            else .ok (t1.1.skip, t1.2, "", false)
          match n with
          | .error e => .error e
          | .ok (s3, execute3, name, isIndex) =>
            if execute3 then
              match varOf a1 with
              | .error e => .error e
              | .ok aVar =>
                match s3.c.findChildWithPrototypeChain aVar name with
                | .error e => .error e
                | .ok f =>
                  let s4 : Exec D := { s3 with c := f.1 }
                  match f.2.1 with
                  | some child =>
                    if child.owner ≠ some aVar then
                      -- a temporary link with a faked owner, not owned
                      let r := s4.c.newLink child.var child.name SCRIPTVARLINK_DEFAULT
                      match varOf parent1 with
                      | .ok pv =>
                        execute_member_loop E V fuel { s4 with c := r.1 } execute3
                          (some { r.2 with owner := some pv }) parent1
                      | .error e => .error e
                    else execute_member_loop E V fuel s4 execute3 (some child) parent1
                  | none =>
                    if isIndex && (match s4.c.valOf aVar with
                        | some v => v.isString
                        | none => false) && name.toList.all isNumeric then
                      .error (.notModelled "character of a string")
                    else
                      let r := s4.c.newLink s4.c.constUndefined name SCRIPTVARLINK_DEFAULT
                      execute_member_loop E V fuel { s4 with c := r.1 } execute3
                        (some { r.2 with owner := some aVar }) parent1
            else execute_member_loop E V fuel s3 execute3 a1 parent1
    else .ok ((s, execute, a), parent)
termination_by structural fuel => fuel

/-- Source `CTinyJS::execute_member(parent, execute)`; the result holds the link
returned and, last, what is left in `parent`. -/
def execute_member (E : Expressions D) (V : Values D) :
    Nat → Exec D → Bool → Option CScriptVarLink → Except Fault (Work D × Option CScriptVarLink)
  | 0, _, _, _ => .error .fuel
  | fuel + 1, s, execute, parent =>
    -- `parent.swap(a)`: `a` is the old `parent`, `parent` the null link
    execute_member_loop E V fuel s execute parent none
termination_by structural fuel => fuel

/-- The loop over the arguments of a call with `execute` set at its start. -/
def call_arguments (E : Expressions D) (V : Values D) :
    Nat → Exec D → Bool → List Nat → Except Fault (Exec D × Bool × List Nat)
  | 0, _, _, _ => .error .fuel
  | fuel + 1, s, execute, arguments =>
    if s.tk ≠ tkChar ')' then
      match execute_assignment E V fuel s execute with
      | .error e => .error e
      | .ok x =>
        match getter E x.1 x.2.1 x.2.2 with
        | .error e => .error e
        | .ok value =>
          match (if value.2.1 then (varOf value.2.2).map fun v => arguments ++ [v]
              else .ok arguments : Except Fault (List Nat)) with
          | .error e => .error e
          | .ok arguments1 =>
            if value.1.tk ≠ tkChar ')' then
              match value.1.«match» (tkChar ',') none with
              | .ok s1 => call_arguments E V fuel s1 value.2.1 arguments1
              | .error e => .error e
            else call_arguments E V fuel value.1 value.2.1 arguments1
    else .ok (s, execute, arguments)
termination_by structural fuel => fuel

/-- The loop `while (t->tk != ')') execute_base(execute);` of a call that is not
executed. -/
def skip_arguments (E : Expressions D) (V : Values D) :
    Nat → Exec D → Bool → Except Fault (Exec D × Bool)
  | 0, _, _ => .error .fuel
  | fuel + 1, s, execute =>
    if s.tk ≠ tkChar ')' then
      match execute_base E V fuel s execute with
      | .ok r => skip_arguments E V fuel r.1 r.2.1
      | .error e => .error e
    else .ok (s, execute)
termination_by structural fuel => fuel

/-- The loop `while (t->tk == '(')` of `execute_function_call`. -/
def execute_function_call_loop (E : Expressions D) (V : Values D) :
    Nat → Exec D → Bool → Option CScriptVarLink → Option CScriptVarLink →
    Except Fault (Work D)
  | 0, _, _, _, _ => .error .fuel
  | fuel + 1, s, execute, a, parent =>
    if s.tk = tkChar '(' then
      let called : Except Fault (Work D × Option CScriptVarLink) :=
        if execute then
          match varOf a with
          | .error e => .error e
          | .ok av =>
            match (if s.c.isUndefinedOrNull av then
                throw_error V s execute "ReferenceError"
                  ((a.map CScriptVarLink.name).getD "" ++ " is " ++
                    s.c.undefinedOrNullString av)
              else .ok (s, execute) : Except Fault (Exec D × Bool)) with
            | .error e => .error e
            | .ok t1 =>
              match getter E t1.1 t1.2 a with
              | .error e => .error e
              | .ok fnc =>
                match varOf fnc.2.2 with
                | .error e => .error e
                | .ok fv =>
                  match (if !fnc.1.c.isFunction fv then
                      throw_error V fnc.1 fnc.2.1 "TypeError"
                        ((a.map CScriptVarLink.name).getD "" ++ " is not a function")
                    else .ok (fnc.1, fnc.2.1) : Except Fault (Exec D × Bool)) with
                  | .error e => .error e
                  | .ok t2 =>
                    match t2.1.«match» (tkChar '(') none with
                    | .error e => .error e
                    | .ok s1 =>
                      match call_arguments E V fuel s1 t2.2 [] with
                      | .error e => .error e
                      | .ok args =>
                        match args.1.«match» (tkChar ')') none with
                        | .error e => .error e
                        | .ok s2 =>
                          if args.2.1 then
                            let parent1 : Option CScriptVarLink :=
                              match parent with
                              | some p => some p
                              | none => s2.c.findInScopes "this"
                            let This : Nat :=
                              match parent1 with
                              | some p => p.var
                              | none => s2.c.root
                            match callFunctionFault E s2.c args.2.1 av args.2.2 This with
                            | some f => .error f
                            | none =>
                              match callFunction E.calls s2.c args.2.1 av args.2.2 This
                                  false with
                              | .returned c1 execute1 ret _ =>
                                (({ s2 with c := c1 } : Exec D).value execute1 ret).map
                                  fun w => (w, parent1)
                              | .exception msg => .error (.exception "Error" msg)
                              | .nullPointer => .error (.notModelled "null pointer")
                          else .ok ((s2, args.2.1, a), parent)
        else
          match s.«match» (tkChar '(') none with
          | .error e => .error e
          | .ok s1 =>
            match skip_arguments E V fuel s1 execute with
            | .error e => .error e
            | .ok r =>
              match r.1.«match» (tkChar ')') none with
              | .ok s2 => .ok ((s2, r.2, a), parent)
              | .error e => .error e
      match called with
      | .error e => .error e
      | .ok (w, parent1) =>
        match execute_member E V fuel w.1 w.2.1 w.2.2 with
        | .ok m => execute_function_call_loop E V fuel m.1.1 m.1.2.1 m.1.2.2 parent1
        | .error e => .error e
    else .ok (s, execute, a)
termination_by structural fuel => fuel

/-- Source `CTinyJS::execute_function_call(execute)`. -/
def execute_function_call (E : Expressions D) (V : Values D) :
    Nat → Exec D → Bool → Except Fault (Work D)
  | 0, _, _ => .error .fuel
  | fuel + 1, s, execute =>
    match execute_literals E V fuel s execute with
    | .error e => .error e
    | .ok parent =>
      match execute_member E V fuel parent.1 parent.2.1 parent.2.2 with
      | .error e => .error e
      | .ok m => execute_function_call_loop E V fuel m.1.1 m.1.2.1 m.1.2.2 m.2
termination_by structural fuel => fuel

/-- Source `CTinyJS::execute_unary(execute)`.  The `case LEX_R_DELETE` has no
`break`: it runs on into the `case LEX_PLUSPLUS: case LEX_MINUSMINUS:`. -/
def execute_unary (E : Expressions D) (V : Values D) :
    Nat → Exec D → Bool → Except Fault (Work D)
  | 0, _, _ => .error .fuel
  | fuel + 1, s, execute =>
    -- `case LEX_PLUSPLUS: case LEX_MINUSMINUS:`
    let increment (s : Exec D) (execute : Bool) : Except Fault (Work D) :=
      let op := s.tk
      match s.«match» s.tk none with
      | .error e => .error e
      | .ok s1 =>
        match execute_function_call E V fuel s1 execute with
        | .error e => .error e
        | .ok a =>
          if a.2.1 then
            match getter E a.1 a.2.1 a.2.2 with
            | .error e => .error e
            | .ok g =>
              match varOf g.2.2 with
              | .error e => .error e
              | .ok gv =>
                match E.mathsOp g.1 g.2.1 gv V.constOne
                    (tokenOp (if op = LEX_PLUSPLUS then tkChar '+' else tkChar '-')) with
                | .error e => .error e
                | .ok res =>
                  match setter E res.1 res.2.1 a.2.2 res.2.2 with
                  | .ok x => x.1.value x.2 res.2.2
                  | .error e => .error e
          else .ok a
    let head : Except Fault (Work D) :=
      if s.tk = tkChar '-' then
        match s.«match» (tkChar '-') none with
        | .error e => .error e
        | .ok s1 =>
          match execute_unary E V fuel s1 execute with
          | .error e => .error e
          | .ok a =>
            if a.2.1 then
              match V.CheckRightHandVar a.1 a.2.1 a.2.2 with
              | .error e => .error e
              | .ok k =>
                let zero := k.1.c.newScriptVarInteger 0
                match varOf a.2.2 with
                | .ok av => mathsOp E { k.1 with c := zero.1 } k.2 zero.2 av (tkChar '-')
                | .error e => .error e
            else .ok a
      else if s.tk = tkChar '+' then
        match s.«match» (tkChar '+') none with
        | .error e => .error e
        | .ok s1 =>
          match execute_unary E V fuel s1 execute with
          | .error e => .error e
          | .ok a =>
            match varOf a.2.2 with
            | .error e => .error e
            | .ok av =>
              match E.getPrimitivVar a.1 a.2.1 av with
              | .error e => .error e
              | .ok p =>
                let n := V.getNumericVar p.1.c p.2.2
                ({ p.1 with c := n.1 } : Exec D).value p.2.1 n.2
      else if s.tk = tkChar '!' ∨ s.tk = tkChar '~' ∨ s.tk = LEX_R_TYPEOF ∨ s.tk = LEX_R_VOID then
        let op := s.tk
        match s.«match» s.tk none with
        | .error e => .error e
        | .ok s1 =>
          match execute_unary E V fuel s1 execute with
          | .error e => .error e
          | .ok u =>
            match getter E u.1 u.2.1 u.2.2 with
            | .error e => .error e
            | .ok a =>
              if a.2.1 then
                match V.CheckRightHandVar a.1 a.2.1 a.2.2 with
                | .error e => .error e
                | .ok k =>
                  match varOf a.2.2 with
                  | .error e => .error e
                  | .ok av =>
                    if op = tkChar '!' then mathsOp E k.1 k.2 av V.constZero LEX_EQUAL
                    else if op = tkChar '~' then mathsOp E k.1 k.2 av V.constZero (tkChar '~')
                    else if op = LEX_R_TYPEOF then
                      let r := V.newScriptVar k.1.c
                        (.string (match k.1.c.valOf av with
                          | some v => v.getVarType
                          | none => "") false)
                      ({ k.1 with c := r.1 } : Exec D).value k.2 r.2
                    else k.1.value k.2 k.1.c.constUndefined
              else .ok a
      else if s.tk = LEX_R_DELETE then
        match s.«match» LEX_R_DELETE none with
        | .error e => .error e
        | .ok s1 =>
          match execute_unary E V fuel s1 execute with
          | .error e => .error e
          | .ok a =>
            let d : Except Fault (Work D) :=
              if a.2.1 then
                match a.2.2 with
                | none => .error (.notModelled "null pointer")
                | some l =>
                  if l.owned && l.isDeletable then
                    match l.owner with
                    | some owner =>
                      ({ a.1 with c := a.1.c.removeLink owner (some l) } : Exec D).value a.2.1
                        V.constTrue
                    | none => .error (.notModelled "null pointer")
                  else a.1.value a.2.1 V.constFalse
              else .ok a
            -- no `break`
            match d with
            | .ok r => increment r.1 r.2.1
            | .error e => .error e
      else if s.tk = LEX_PLUSPLUS ∨ s.tk = LEX_MINUSMINUS then increment s execute
      else execute_function_call E V fuel s execute
    match head with
    | .error e => .error e
    | .ok a =>
      -- post increment/decrement
      if a.1.tk = LEX_PLUSPLUS ∨ a.1.tk = LEX_MINUSMINUS then
        let op := a.1.tk
        match a.1.«match» a.1.tk none with
        | .error e => .error e
        | .ok s1 =>
          if a.2.1 then
            match varOf a.2.2 with
            | .error e => .error e
            | .ok av =>
              match E.getPrimitivVar s1 a.2.1 av with
              | .error e => .error e
              | .ok p =>
                let res := V.getNumericVar p.1.c p.2.2
                match E.mathsOp { p.1 with c := res.1 } p.2.1 res.2 V.constOne
                    (tokenOp (if op = LEX_PLUSPLUS then tkChar '+' else tkChar '-')) with
                | .error e => .error e
                | .ok m =>
                  match setter E m.1 m.2.1 a.2.2 m.2.2 with
                  | .ok x => x.1.value x.2 res.2
                  | .error e => .error e
          else .ok (s1, a.2.1, a.2.2)
      else .ok a
termination_by structural fuel => fuel

/-- The loop `while (t->tk=='*' || t->tk=='/' || t->tk=='%')` of `execute_term`. -/
def execute_term_loop (E : Expressions D) (V : Values D) :
    Nat → Exec D → Bool → Option CScriptVarLink → Except Fault (Work D)
  | 0, _, _, _ => .error .fuel
  | fuel + 1, s, execute, a =>
    if s.tk = tkChar '*' ∨ s.tk = tkChar '/' ∨ s.tk = tkChar '%' then
      let op := s.tk
      match s.«match» s.tk none with
      | .error e => .error e
      | .ok s1 =>
        match execute_unary E V fuel s1 execute with
        | .error e => .error e
        | .ok b =>
          if b.2.1 then
            match V.CheckRightHandVar b.1 b.2.1 b.2.2 with
            | .error e => .error e
            | .ok k =>
              match binaryOp E k.1 k.2 a b.2.2 op with
              | .ok r => execute_term_loop E V fuel r.1 r.2.1 r.2.2
              | .error e => .error e
          else execute_term_loop E V fuel b.1 b.2.1 a
    else .ok (s, execute, a)
termination_by structural fuel => fuel

/-- Source `CTinyJS::execute_term(execute)`. -/
def execute_term (E : Expressions D) (V : Values D) :
    Nat → Exec D → Bool → Except Fault (Work D)
  | 0, _, _ => .error .fuel
  | fuel + 1, s, execute =>
    match execute_unary E V fuel s execute with
    | .error e => .error e
    | .ok a =>
      if a.1.tk = tkChar '*' ∨ a.1.tk = tkChar '/' ∨ a.1.tk = tkChar '%' then
        match V.CheckRightHandVar a.1 a.2.1 a.2.2 with
        | .ok k => execute_term_loop E V fuel k.1 k.2 a.2.2
        | .error e => .error e
      else .ok a
termination_by structural fuel => fuel

/-- The loop `while (t->tk=='+' || t->tk=='-')` of `execute_expression`. -/
def execute_expression_loop (E : Expressions D) (V : Values D) :
    Nat → Exec D → Bool → Option CScriptVarLink → Except Fault (Work D)
  | 0, _, _, _ => .error .fuel
  | fuel + 1, s, execute, a =>
    if s.tk = tkChar '+' ∨ s.tk = tkChar '-' then
      let op := s.tk
      match s.«match» s.tk none with
      | .error e => .error e
      | .ok s1 =>
        match execute_term E V fuel s1 execute with
        | .error e => .error e
        | .ok b =>
          if b.2.1 then
            match V.CheckRightHandVar b.1 b.2.1 b.2.2 with
            | .error e => .error e
            | .ok k =>
              match binaryOp E k.1 k.2 a b.2.2 op with
              | .ok r => execute_expression_loop E V fuel r.1 r.2.1 r.2.2
              | .error e => .error e
          else execute_expression_loop E V fuel b.1 b.2.1 a
    else .ok (s, execute, a)
termination_by structural fuel => fuel

/-- Source `CTinyJS::execute_expression(execute)`. -/
def execute_expression (E : Expressions D) (V : Values D) :
    Nat → Exec D → Bool → Except Fault (Work D)
  | 0, _, _ => .error .fuel
  | fuel + 1, s, execute =>
    match execute_term E V fuel s execute with
    | .error e => .error e
    | .ok a =>
      if a.1.tk = tkChar '+' ∨ a.1.tk = tkChar '-' then
        match V.CheckRightHandVar a.1 a.2.1 a.2.2 with
        | .ok k => execute_expression_loop E V fuel k.1 k.2 a.2.2
        | .error e => .error e
      else .ok a
termination_by structural fuel => fuel

/-- The loop `while (t->tk>=LEX_SHIFTS_BEGIN && t->tk<=LEX_SHIFTS_END)` of
`execute_binary_shift`; its `CheckRightHandVar` is called on `a`. -/
def execute_binary_shift_loop (E : Expressions D) (V : Values D) :
    Nat → Exec D → Bool → Option CScriptVarLink → Except Fault (Work D)
  | 0, _, _, _ => .error .fuel
  | fuel + 1, s, execute, a =>
    if isShift s.tk then
      let op := s.tk
      match s.«match» s.tk none with
      | .error e => .error e
      | .ok s1 =>
        match execute_expression E V fuel s1 execute with
        | .error e => .error e
        | .ok b =>
          if b.2.1 then
            match V.CheckRightHandVar b.1 b.2.1 a with
            | .error e => .error e
            | .ok k =>
              match binaryOp E k.1 k.2 a b.2.2 op with
              | .ok r => execute_binary_shift_loop E V fuel r.1 r.2.1 r.2.2
              | .error e => .error e
          else execute_binary_shift_loop E V fuel b.1 b.2.1 a
    else .ok (s, execute, a)
termination_by structural fuel => fuel

/-- Source `CTinyJS::execute_binary_shift(execute)`. -/
def execute_binary_shift (E : Expressions D) (V : Values D) :
    Nat → Exec D → Bool → Except Fault (Work D)
  | 0, _, _ => .error .fuel
  | fuel + 1, s, execute =>
    match execute_expression E V fuel s execute with
    | .error e => .error e
    | .ok a =>
      if isShift a.1.tk then
        match V.CheckRightHandVar a.1 a.2.1 a.2.2 with
        | .ok k => execute_binary_shift_loop E V fuel k.1 k.2 a.2.2
        | .error e => .error e
      else .ok a
termination_by structural fuel => fuel

/-- The operand of `execute_relation`: `set_n ? execute_relation(execute, set_n, 0) :
execute_binary_shift(execute)`. -/
def execute_relation_operand (E : Expressions D) (V : Values D) (set_n : Nat) :
    Nat → Exec D → Bool → Except Fault (Work D)
  | 0, _, _ => .error .fuel
  | fuel + 1, s, execute =>
    if set_n ≠ 0 then
      -- `execute_relation(execute, set_n, 0)`
      match execute_binary_shift E V fuel s execute with
      | .error e => .error e
      | .ok a =>
        if isRelation set_n a.1.tk then
          match V.CheckRightHandVar a.1 a.2.1 a.2.2 with
          | .error e => .error e
          | .ok k =>
            match getter E k.1 k.2 a.2.2 with
            | .ok g => execute_relation_loop E V set_n 0 fuel g.1 g.2.1 g.2.2
            | .error e => .error e
        else .ok a
    else execute_binary_shift E V fuel s execute
termination_by structural fuel => fuel

/-- The loop of `execute_relation(execute, set, set_n)`. -/
def execute_relation_loop (E : Expressions D) (V : Values D) (set set_n : Nat) :
    Nat → Exec D → Bool → Option CScriptVarLink → Except Fault (Work D)
  | 0, _, _, _ => .error .fuel
  | fuel + 1, s, execute, a =>
    if isRelation set s.tk then
      let op := s.tk
      match s.«match» s.tk none with
      | .error e => .error e
      | .ok s1 =>
        match execute_relation_operand E V set_n fuel s1 execute with
        | .error e => .error e
        | .ok b0 =>
          if b0.2.1 then
            match V.CheckRightHandVar b0.1 b0.2.1 b0.2.2 with
            | .error e => .error e
            | .ok k =>
              let nameOf_b := (b0.2.2.map CScriptVarLink.name).getD ""
              match getter E k.1 k.2 b0.2.2 with
              | .error e => .error e
              | .ok b =>
                match varOf a, varOf b.2.2 with
                | .ok av, .ok bv =>
                  if op = LEX_R_IN then
                    match V.getPrimitivStringVar b.1 true av with
                    | .error e => .error e
                    | .ok p =>
                      match p.1.c.findChildWithPrototypeChain bv p.2.2 with
                      | .error e => .error e
                      | .ok f =>
                        match ({ p.1 with c := f.1 } : Exec D).value b.2.1
                            (if f.2.1.isSome then V.constTrue else V.constFalse) with
                        | .ok r => execute_relation_loop E V set set_n fuel r.1 r.2.1 r.2.2
                        | .error e => .error e
                  else if op = LEX_R_INSTANCEOF then
                    let i := b.1.c.execute_instanceof av bv
                    match i.2 with
                    | none =>
                      match throw_error V { b.1 with c := i.1 } b.2.1 "TypeError"
                          ("invalid 'instanceof' operand " ++ nameOf_b) with
                      | .ok t => execute_relation_loop E V set set_n fuel t.1 t.2 a
                      | .error e => .error e
                    | some is =>
                      match ({ b.1 with c := i.1 } : Exec D).value b.2.1
                          (if is then V.constTrue else V.constFalse) with
                      | .ok r => execute_relation_loop E V set set_n fuel r.1 r.2.1 r.2.2
                      | .error e => .error e
                  else
                    match mathsOp E b.1 b.2.1 av bv op with
                    | .ok r => execute_relation_loop E V set set_n fuel r.1 r.2.1 r.2.2
                    | .error e => .error e
                | .error e, _ => .error e
                | _, .error e => .error e
          else execute_relation_loop E V set set_n fuel b0.1 b0.2.1 a
    else .ok (s, execute, a)
termination_by structural fuel => fuel

/-- Source `CTinyJS::execute_relation(execute, set, set_n)` with its default
arguments `LEX_EQUAL` and `'<'`. -/
def execute_relation (E : Expressions D) (V : Values D) :
    Nat → Exec D → Bool → Except Fault (Work D)
  | 0, _, _ => .error .fuel
  | fuel + 1, s, execute =>
    match execute_relation_operand E V (tkChar '<') fuel s execute with
    | .error e => .error e
    | .ok a =>
      if isRelation LEX_EQUAL a.1.tk then
        match V.CheckRightHandVar a.1 a.2.1 a.2.2 with
        | .error e => .error e
        | .ok k =>
          match getter E k.1 k.2 a.2.2 with
          | .ok g => execute_relation_loop E V LEX_EQUAL (tkChar '<') fuel g.1 g.2.1 g.2.2
          | .error e => .error e
      else .ok a
termination_by structural fuel => fuel

/-- Source `CTinyJS::execute_binary_logic(execute, op, op_n1, op_n2)`; the operators
are those of `ops`, the lowest precedence first (`['|', '^', '&']` for the
default arguments). -/
def execute_binary_logic (E : Expressions D) (V : Values D) :
    Nat → List Nat → Exec D → Bool → Except Fault (Work D)
  | 0, _, _, _ => .error .fuel
  | fuel + 1, [], s, execute => execute_relation E V fuel s execute
  | fuel + 1, op :: ops, s, execute =>
    match execute_binary_logic E V fuel ops s execute with
    | .error e => .error e
    | .ok a =>
      if a.1.tk = op then
        match V.CheckRightHandVar a.1 a.2.1 a.2.2 with
        | .error e => .error e
        | .ok k =>
          match getter E k.1 k.2 a.2.2 with
          | .ok g => execute_binary_logic_loop E V fuel op ops g.1 g.2.1 g.2.2
          | .error e => .error e
      else .ok a
termination_by structural fuel => fuel

/-- The loop `while (t->tk==op)` of `execute_binary_logic`. -/
def execute_binary_logic_loop (E : Expressions D) (V : Values D) :
    Nat → Nat → List Nat → Exec D → Bool → Option CScriptVarLink → Except Fault (Work D)
  | 0, _, _, _, _, _ => .error .fuel
  | fuel + 1, op, ops, s, execute, a =>
    if s.tk = op then
      match s.«match» s.tk none with
      | .error e => .error e
      | .ok s1 =>
        match execute_binary_logic E V fuel ops s1 execute with
        | .error e => .error e
        | .ok b =>
          if b.2.1 then
            match V.CheckRightHandVar b.1 b.2.1 b.2.2 with
            | .error e => .error e
            | .ok k =>
              match getter E k.1 k.2 b.2.2 with
              | .error e => .error e
              | .ok gb =>
                match varOf a, varOf gb.2.2 with
                | .ok av, .ok bv =>
                  match mathsOp E gb.1 gb.2.1 av bv op with
                  | .ok r => execute_binary_logic_loop E V fuel op ops r.1 r.2.1 r.2.2
                  | .error e => .error e
                | .error e, _ => .error e
                | _, .error e => .error e
          else execute_binary_logic_loop E V fuel op ops b.1 b.2.1 a
    else .ok (s, execute, a)
termination_by structural fuel => fuel

/-- The operand of `execute_logic(execute, op, op_n)`: `op_n ?
execute_logic(execute, op_n, 0) : execute_binary_logic(execute)`. -/
def execute_logic_operand (E : Expressions D) (V : Values D) (op_n : Nat) :
    Nat → Exec D → Bool → Except Fault (Work D)
  | 0, _, _ => .error .fuel
  | fuel + 1, s, execute =>
    if op_n ≠ 0 then execute_logic E V op_n 0 fuel s execute
    else execute_binary_logic E V fuel [tkChar '|', tkChar '^', tkChar '&'] s execute
termination_by structural fuel => fuel

/-- The loop `while (t->tk==op)` of `execute_logic` with `execute` set; the result
holds `b` and, last, `_a_bool` and `shortCircuit`. -/
def execute_logic_loop (E : Expressions D) (V : Values D) (op op_n : Nat) :
    Nat → Exec D → Bool → Option CScriptVarLink → Bool → Bool →
    Except Fault (Work D × Bool × Bool)
  | 0, _, _, _, _, _ => .error .fuel
  | fuel + 1, s, execute, b, _a_bool, shortCircuit =>
    if s.tk = op then
      match s.«match» s.tk none with
      | .error e => .error e
      | .ok s1 =>
        let binary_op := if op = LEX_ANDAND then tkChar '&' else tkChar '|'
        let shortCircuit1 : Bool := if op = LEX_ANDAND then !_a_bool else _a_bool
        match execute_logic_operand E V op_n fuel s1
            (if shortCircuit1 then false else execute) with
        | .error e => .error e
        | .ok b1 =>
          -- the callee works on `noexecute` when `shortCircuit` is set
          let execute1 := if shortCircuit1 then execute else b1.2.1
          if execute1 && !shortCircuit1 then
            match V.CheckRightHandVar b1.1 execute1 b1.2.2 with
            | .error e => .error e
            | .ok k =>
              match getter E k.1 k.2 b1.2.2 with
              | .error e => .error e
              | .ok g =>
                match varOf g.2.2 with
                | .error e => .error e
                | .ok bv =>
                  -- `b(b.getter(execute))`
                  let b2 := g.1.link bv
                  match E.mathsOp b2.1 g.2.1 (if _a_bool then V.constTrue else V.constFalse)
                      (if E.getBool b2.1.c bv then V.constTrue else V.constFalse)
                      (tokenOp binary_op) with
                  | .error e => .error e
                  | .ok m =>
                    execute_logic_loop E V op op_n fuel m.1 m.2.1 b2.2 (E.getBool m.1.c m.2.2)
                      shortCircuit1
          else execute_logic_loop E V op op_n fuel b1.1 execute1 b1.2.2 _a_bool shortCircuit1
    else .ok ((s, execute, b), _a_bool, shortCircuit)
termination_by structural fuel => fuel

/-- Source `CTinyJS::execute_logic(execute, op, op_n)`.  With `execute` unset and the
token `op` at the cursor the operand function is called once more, the token
`op` still being the current token. -/
def execute_logic (E : Expressions D) (V : Values D) (op op_n : Nat) :
    Nat → Exec D → Bool → Except Fault (Work D)
  | 0, _, _ => .error .fuel
  | fuel + 1, s, execute =>
    match execute_logic_operand E V op_n fuel s execute with
    | .error e => .error e
    | .ok a =>
      if a.1.tk = op then
        if a.2.1 then
          match V.CheckRightHandVar a.1 a.2.1 a.2.2 with
          | .error e => .error e
          | .ok k =>
            match getter E k.1 k.2 a.2.2 with
            | .error e => .error e
            | .ok g =>
              match varOf g.2.2 with
              | .error e => .error e
              | .ok _a =>
                -- `a(a.getter(execute))`
                let a1 := g.1.link _a
                match execute_logic_loop E V op op_n fuel a1.1 g.2.1 a1.2 (E.getBool a1.1.c _a)
                    false with
                | .error e => .error e
                | .ok r =>
                  if r.2.1 && ((op == LEX_ANDAND && !r.2.2) || op == LEX_OROR) then .ok r.1
                  else r.1.1.value r.1.2.1 V.constFalse
        else
          match execute_logic_operand E V op_n fuel a.1 a.2.1 with
          | .ok x => .ok (x.1, x.2.1, a.2.2)
          | .error e => .error e
      else .ok a
termination_by structural fuel => fuel

/-- Source `CTinyJS::execute_condition(execute)`. -/
def execute_condition (E : Expressions D) (V : Values D) :
    Nat → Exec D → Bool → Except Fault (Work D)
  | 0, _, _ => .error .fuel
  | fuel + 1, s, execute =>
    match execute_logic E V LEX_OROR LEX_ANDAND fuel s execute with
    | .error e => .error e
    | .ok a =>
      if a.1.tk = tkChar '?' then
        match V.CheckRightHandVar a.1 a.2.1 a.2.2 with
        | .error e => .error e
        | .ok k =>
          match k.1.«match» (tkChar '?') none with
          | .error e => .error e
          | .ok s1 =>
            let c : Except Fault (Exec D × Bool × Bool) :=
              if k.2 then
                match getter E s1 k.2 a.2.2 with
                | .error e => .error e
                | .ok g =>
                  match varOf g.2.2 with
                  | .ok v => .ok (g.1, g.2.1, E.getBool g.1.c v)
                  | .error e => .error e
              else .ok (s1, k.2, false)
            match c with
            | .error e => .error e
            | .ok (s2, execute2, cond) =>
              match execute_condition E V fuel s2 (if cond then execute2 else false) with
              | .error e => .error e
              | .ok a1 =>
                let execute3 := if cond then a1.2.1 else execute2
                match a1.1.«match» (tkChar ':') none with
                | .error e => .error e
                | .ok s3 =>
                  match execute_condition E V fuel s3 (if cond then false else execute3) with
                  | .error e => .error e
                  | .ok b =>
                    let execute4 := if cond then execute3 else b.2.1
                    if !cond then .ok (b.1, execute4, b.2.2)
                    else .ok (b.1, execute4, a1.2.2)
      else .ok a
termination_by structural fuel => fuel

/-- Source `CTinyJS::execute_assignment(execute)` with
`execute_assignment(lhs, execute)`. -/
def execute_assignment (E : Expressions D) (V : Values D) :
    Nat → Exec D → Bool → Except Fault (Work D)
  | 0, _, _ => .error .fuel
  | fuel + 1, s, execute =>
    match execute_condition E V fuel s execute with
    | .error e => .error e
    | .ok lhs =>
      if isAssignment lhs.1.tk then
        let op := lhs.1.tk
        match lhs.1.«match» lhs.1.tk none with
        | .error e => .error e
        | .ok s1 =>
          match execute_assignment E V fuel s1 lhs.2.1 with
          | .error e => .error e
          | .ok r =>
            match getter E r.1 r.2.1 r.2.2 with
            | .error e => .error e
            | .ok rhs =>
              if rhs.2.1 then
                match lhs.2.2, varOf rhs.2.2 with
                | some l, .ok rv =>
                  if op = tkChar '=' then
                    match assignFault E rhs.1.c l rv rhs.2.1 with
                    | some f => .error f
                    | none =>
                      match execute_assignment_assign E.calls rhs.1.c l rv rhs.2.1 with
                      | .value c1 execute1 ret =>
                        ({ rhs.1 with c := c1 } : Exec D).value execute1 ret
                      | .exception msg => .error (.exception "ReferenceError" msg)
                      | .nullPointer => .error (.notModelled "null pointer")
                  else if !l.owned && l.owner.isNone && l.name.isEmpty then
                    .error (.exception "ReferenceError"
                      "invalid assignment left-hand side (at runtime)")
                  else if !l.owned then
                    match throw_error V rhs.1 rhs.2.1 "ReferenceError"
                        (l.name ++ " is not defined") with
                    | .ok t => getter E t.1 t.2 lhs.2.2
                    | .error e => .error e
                  else if l.isWritable then
                    match E.mathsOp rhs.1 rhs.2.1 l.var rv
                        (tokenOp (assignments.getD (op - LEX_PLUSEQUAL) 0)) with
                    | .error e => .error e
                    | .ok result =>
                      match setter E result.1 result.2.1 lhs.2.2 result.2.2 with
                      | .ok x => x.1.value x.2 result.2.2
                      | .error e => .error e
                  else rhs.1.value rhs.2.1 rv
                | none, _ => .error (.notModelled "null pointer")
                | _, .error e => .error e
              else getter E rhs.1 rhs.2.1 lhs.2.2
      else
        match V.CheckRightHandVar lhs.1 lhs.2.1 lhs.2.2 with
        | .ok k => getter E k.1 k.2 lhs.2.2
        | .error e => .error e
termination_by structural fuel => fuel

/-- Source `CTinyJS::execute_base(execute)`: the loop over the commas runs on the
fuel. -/
def execute_base (E : Expressions D) (V : Values D) :
    Nat → Exec D → Bool → Except Fault (Work D)
  | 0, _, _ => .error .fuel
  | fuel + 1, s, execute =>
    match execute_assignment E V fuel s execute with
    | .error e => .error e
    | .ok a =>
      if a.1.tk = tkChar ',' then
        match a.1.«match» (tkChar ',') none with
        | .ok s1 => execute_base E V fuel s1 a.2.1
        | .error e => .error e
      else .ok a
termination_by structural fuel => fuel

end

end Expression

end TinyJS

namespace TinyJS

/-! ## The statement `for ... in` and the expressions of the source as `Expressions` -/

section

variable {D : Type}

/-- The loop `for(it = keys.begin(); execute && it != keys.end(); ++it)` of the
`case LEX_T_FOR_IN: case LEX_T_FOR_EACH_IN:` of `execute_statement`. -/
def execute_for_in_loop (V : Values D) (stmt : StatementFn D) (for_each : Bool)
    (myLabels : List String) (for_var : CScriptVarLink) (for_in_var loopStart : Nat) :
    List String → Exec D → Bool → Except Fault (Exec D × Bool)
  | [], s, execute => .ok (s, execute)
  | it :: keys, s, execute =>
    if execute then
      let bound : Except Fault (CTinyJS D) :=
        if for_each then
          match s.c.findChildWithPrototypeChain for_in_var it with
          | .ok f =>
            match f.2.1 with
            | some l => .ok (f.1.setVarPtr for_var l.var)
            | none => .error (.notModelled "null pointer")
          | .error e => .error e
        else
          let r := V.newScriptVar s.c (.string it false)
          .ok (r.1.setVarPtr for_var r.2)
      match bound with
      | .error e => .error e
      | .ok c1 =>
        match stmt (({ s with c := c1 } : Exec D).setPos loopStart) execute with
        | .error e => .error e
        | .ok r =>
          if !r.2.1 then
            let k := loopControl r.1 myLabels
            if !k.2.2 then .ok (k.1, k.2.1)
            else
              execute_for_in_loop V stmt for_each myLabels for_var for_in_var loopStart keys k.1
                k.2.1
          else
            execute_for_in_loop V stmt for_each myLabels for_var for_in_var loopStart keys r.1
              r.2.1
    else .ok (s, execute)

/-- The statements `STRING_SET_t keys; for_in_var->getVarPtr()->keys(keys, true,
getUniqueID());` of the `case LEX_T_FOR_IN: case LEX_T_FOR_EACH_IN:`, for the
value at `for_in_var`. -/
def CTinyJS.for_in_keys (c : CTinyJS D) (for_in_var : Nat) :
    Except Fault (CTinyJS D × List String) :=
  let u := c.getUniqueID
  u.1.keys true u.2 (u.1.vars.length + 1) for_in_var []

/-- Source `case LEX_T_FOR_IN: case LEX_T_FOR_EACH_IN:` of `execute_statement`;
`fnc` stands for `execute_function_call`.  The let-scope of the statement is
pushed by `ScopeControl.addLetScope()` and popped at the end of the case. -/
def execute_for_in (V : Values D)
    (fnc : Exec D → Bool → Except Fault (Work D)) (stmt : StatementFn D) (fuel : Nat)
    (s : Exec D) (execute : Bool) : Except Fault (Exec D × Bool) :=
  if execute then do
    let for_each : Bool := s.tk == LEX_T_FOR_EACH_IN
    let s1 ← s.«match» s.tk none
    let l ← loopLabels fuel s1 []
    let s2 ← l.1.«match» (tkChar '(') none
    let s3 := s2.withContext CTinyJS.addLetScope
    let v ← (if s3.tk = LEX_R_LET then do
        let s4 ← s3.«match» LEX_R_LET none
        let var := s4.tkStr
        let s5 ← s4.«match» LEX_ID none
        -- `scope()->scopeLet()->findChildOrCreate(var)`
        match s5.c.scopeLet (s5.c.vars.length + 1) s5.c.scope with
        | some scopeLet =>
          match s5.c.findChild scopeLet var with
          | some link => .ok (s5, execute, some link)
          | none =>
            let r := s5.c.addChild scopeLet var (some s5.c.constUndefined) SCRIPTVARLINK_DEFAULT
            .ok ({ s5 with c := r.1 }, execute, r.2)
        | none => .error (.notModelled "null pointer")
      else fnc s3 execute : Except Fault (Work D))
    let s6 ← v.1.«match» LEX_R_IN none
    let w ← fnc s6 v.2.1
    let k ← V.CheckRightHandVar w.1 w.2.1 w.2.2
    let s7 ← k.1.«match» (tkChar ')') none
    let for_in_var ← Expression.varOf w.2.2
    let ks ← s7.c.for_in_keys for_in_var
    let s8 : Exec D := { s7 with c := ks.1 }
    let r ← (if ks.2.length ≠ 0 then
        match v.2.2 with
        | none => .error (.notModelled "null pointer")
        | some for_var =>
          let real : CTinyJS D × CScriptVarLink :=
            if !for_var.owned then
              match for_var.owner with
              | some owner =>
                s8.c.addChildOrReplace owner for_var.name for_var.var SCRIPTVARLINK_DEFAULT
              | none =>
                s8.c.addChildOrReplace s8.c.root for_var.name for_var.var SCRIPTVARLINK_DEFAULT
            else (s8.c, for_var)
          execute_for_in_loop V stmt for_each l.2 real.2 for_in_var s8.pos ks.2
            { s8 with c := real.1 } k.2
      else do
        let x ← stmt s8 false
        .ok (x.1, k.2) : Except Fault (Exec D × Bool))
    .ok (r.1.withContext (fun c => c.popScopes 1), r.2)
  else .ok (s.skip, execute)

/-- The value of the link that an expression function returned
(`->getVarPtr()`). -/
def Expression.toVar (r : Except Fault (Work D)) : Except Fault (Exec D × Bool × Nat) :=
  match r with
  | .ok w =>
    match Expression.varOf w.2.2 with
    | .ok v => .ok (w.1, w.2.1, v)
    | .error e => .error e
  | .error e => .error e

/-- The expressions of the source: `execute_base` and `execute_assignment` of `E`
are replaced by the functions of the model, run with `fuel`. -/
def sourceExpressions (E : Expressions D) (V : Values D) (fuel : Nat) : Expressions D :=
  { E with
    execute_base := fun s execute => Expression.toVar (Expression.execute_base E V fuel s execute)
    execute_assignment := fun s execute =>
      Expression.toVar (Expression.execute_assignment E V fuel s execute) }

end

end TinyJS

namespace TinyJS

/-! ## Readings of the claims C21 to C30 -/

/-- The hexadecimal digits. -/
def hexDigits : List Char := "0123456789abcdefABCDEF".toList

/-- The octal digits. -/
def octalDigits : List Char := "01234567".toList

/-- The text of a string literal that consists of one escape sequence: a double
quote, a backslash, the characters `body` and a double quote. -/
def escapeLiteral (body : List Char) : String := String.mk ('"' :: '\\' :: body ++ ['"'])

/-- The first token of a text (its kind and the codes of the characters of its
string), `none` when the lexer throws. -/
def firstToken (Code : String) : Option (Nat × List Nat) :=
  match CScriptLex.new Code 0 anyRegex with
  | .ok l => some (l.tk, l.tkStr.toList.map Char.toNat)
  | .error _ => none

end TinyJS

namespace TinyJS

/-- The words of C23: a decimal numeral without a leading zero (a non-empty
string of digits that is `"0"` or does not start with `0`). -/
def isNumeral (s : String) : Bool :=
  !s.toList.isEmpty && s.toList.all isNumeric &&
    (s.toList.length == 1 || s.toList.head? != some '0')

/-- The words of C23: the number that a string of digits denotes. -/
def numeralValue (s : String) : Nat :=
  s.toList.foldl (fun n c => n * 10 + (c.toNat - '0'.toNat)) 0

end TinyJS

namespace TinyJS

/-! ### Example data for the expressions of the source -/

/-- A link of the flags `flags` that the value at `owner` owns. -/
def flaggedLink (name : String) (var owner addr flags : Nat) : CScriptVarLink :=
  { name := name, var := var, flags := flags, owner := some owner, owned := true, addr := addr }

/-- The context in which the examples of expressions start: `Object.prototype`
(0, its own prototype), `undefined` (1), the root scope (2) and the constants
`false` (3), `true` (4), `null` (5), 0 (6) and 1 (7). -/
def expressionContext : CTinyJS Int where
  vars := [
    { val := .object .Object 0, Childs := [flaggedLink "__proto__" 0 0 0 0], extensible := true,
      temporaryID := 0, data := none },
    { val := .undefined, Childs := [], extensible := true, temporaryID := 0, data := none },
    { val := .object .Scope 2, Childs := [flaggedLink "__proto__" 0 2 1 SCRIPTVARLINK_WRITABLE],
      extensible := true, temporaryID := 0, data := none },
    { val := .bool false false, Childs := [], extensible := true, temporaryID := 0, data := none },
    { val := .bool true false, Childs := [], extensible := true, temporaryID := 0, data := none },
    { val := .null, Childs := [], extensible := true, temporaryID := 0, data := none },
    { val := .integer 0 false, Childs := [], extensible := true, temporaryID := 0, data := none },
    { val := .integer 1 false, Childs := [], extensible := true, temporaryID := 0, data := none }]
  nextLink := 2
  objectPrototype := 0
  numberPrototype := 0
  constUndefined := 1
  root := 2
  scopes := [2]
  runtimeFlags := { CAN_THROW := false, THROW := false, BREAK := false, CONTINUE := false }
  uniqueID := 0
  exceptionVar := none

/-- The operations on values of the examples: `mathsOp` is the model of the source
on the platform `intPlatform` (a value that is no primitive is not converted),
`getBool` and the functions are those of `exampleExpressions`. -/
def valueExpressions : Expressions Int :=
  { exampleExpressions with
    mathsOp := fun s execute a b op =>
      match s.c.valOf a, s.c.valOf b with
      | some A, some B =>
        match mathsOp intPlatform noPrimitive execute A B op with
        | .value v =>
          let r := exampleValue s.c v
          .ok ({ s with c := r.1 }, execute, r.2)
        | .stopped => .ok (s, false, s.c.constUndefined)
        | .exception msg => .error (.exception "Error" msg)
        | .divisionByZero => .error (.notModelled "division by zero")
        | .divisionOverflow => .error (.notModelled "division overflow")
      | _, _ => .error (.notModelled "null pointer") }

/-- The fields of `Values` for the examples: the constants of
`expressionContext`; every value is allocated with `Object.prototype` as its
prototype; `CheckRightHandVar` accepts every link. -/
def exampleValues : Values Int where
  constFalse := 3
  constTrue := 4
  constNull := 5
  constZero := 6
  constOne := 7
  newScriptVar := exampleValue
  newScriptVarError := fun c _ _ =>
    c.newCScriptVar (fun addr => .object .Error addr) (some c.objectPrototype) none
  CheckRightHandVar := fun s execute _ => .ok (s, execute)
  getPrimitivStringVar := fun s execute v =>
    .ok (s, execute, ((s.c.valOf v).map (ScriptVar.getString intPlatform)).getD "")
  getNumericVar := fun c v =>
    exampleValue c (((c.valOf v).map (ScriptVar.getNumericVar intPlatform)).getD .undefined)

/-- The expressions of the source for the examples.  The body of a script function
is not executed here (`calls` is `exampleEvaluator`); `scriptSource` executes
the bodies. -/
def exampleSource : Expressions Int := sourceExpressions valueExpressions exampleValues 100

/-- Source `CTinyJS::evaluate(Code)` with the expressions of the source: the text
is tokenized and evaluated in `expressionContext`; the result is the string of
the value returned and the strings that were created, or the fault. -/
def sourceEvaluate (Code : String) : Except Fault (String × List String) :=
  match CScriptTokenizer.tokenize Code with
  | .error e => .error e
  | .ok tokens =>
    match evaluateComplex exampleSource (2 * tokens.length + 10) expressionContext tokens with
    | .error e => .error e
    | .ok r =>
      .ok (((r.1.valOf r.2).map (ScriptVar.getString intPlatform)).getD "", stringsOf r.1)

end TinyJS

namespace TinyJS

/-- The statements of a buffer up to the first `for ... in` statement, executed
with `execute_statement`. -/
def statementsBefore : Nat → Exec Int → Except Fault (Exec Int)
  | 0, _ => .error .fuel
  | n + 1, s =>
    if s.tk = LEX_T_FOR_IN ∨ s.tk = LEX_T_FOR_EACH_IN ∨ s.tk = LEX_EOF then .ok s
    else
      match execute_statement exampleSource 20 s true with
      | .ok r => statementsBefore n r.1
      | .error e => .error e

/-- The evaluation of a text whose last statement is a `for ... in` statement: the
statements before it are executed with `execute_statement`, the statement
itself with `execute_for_in`.  The result is the context left. -/
def forInContext (Code : String) : Except Fault (CTinyJS Int) :=
  match CScriptTokenizer.tokenize Code with
  | .error e => .error e
  | .ok tokens =>
    match statementsBefore 20 { c := expressionContext, tokens := tokens, pos := 0, label := "" } with
    | .error e => .error e
    | .ok s =>
      match execute_for_in exampleValues
          (Expression.execute_function_call valueExpressions exampleValues 100)
          (execute_statement exampleSource 20) 20 s true with
      | .ok r => .ok r.1.c
      | .error e => .error e

/-- The strings that the evaluation of a text with a `for ... in` statement
creates, in the order of their creation: the keys in the order in which the
loop variable is bound to them (when the text has no string literal). -/
def forInKeys (Code : String) : Option (List String) :=
  match forInContext Code with
  | .ok c => some (stringsOf c)
  | .error _ => none

/-- The names of the property list of the value of the variable `name` of the root
scope after the evaluation of a text with a `for ... in` statement. -/
def forInChilds (Code : String) (name : String) : Option (List String) :=
  match forInContext Code with
  | .ok c => (c.findChild c.root name).map fun l => childNames (c.childsOf l.var)
  | .error _ => none

end TinyJS

namespace TinyJS

/-- The names of the property list of the value of the variable `name` of the root
scope after the evaluation of a text. -/
def sourceChilds (Code : String) (name : String) : Option (List String) :=
  match CScriptTokenizer.tokenize Code with
  | .error _ => none
  | .ok tokens =>
    match evaluateComplex exampleSource (2 * tokens.length + 10) expressionContext tokens with
    | .error _ => none
    | .ok r => (r.1.findChild r.1.root name).map fun l => childNames (r.1.childsOf l.var)

/-- The flags of the links of the accessor that is the property `name` of the value
of the variable `o` of the root scope after the evaluation of a text. -/
def accessorFlags (Code : String) (name : String) : Option (List (String × Nat)) :=
  match CScriptTokenizer.tokenize Code with
  | .error _ => none
  | .ok tokens =>
    match evaluateComplex exampleSource (2 * tokens.length + 10) expressionContext tokens with
    | .error _ => none
    | .ok r =>
      ((r.1.findChild r.1.root "o").bind fun o => r.1.findChild o.var name).map fun l =>
        (r.1.childsOf l.var).map fun x => (x.name, x.flags)

end TinyJS

namespace TinyJS

/-- An object with the keys `a`, `2` and `10`, and a `for ... in` over it. -/
def program22 : String := "var o = \x7ba: 1, 2: 2, 10: 3\x7d; for (k in o) ;"

/-- The declaration of the object of `program22`. -/
def program22o : String := "var o = \x7ba: 1, 2: 2, 10: 3\x7d"

/-- The context after the evaluation of a text, `expressionContext` when it ends
in a fault. -/
def sourceContext (Code : String) : CTinyJS Int :=
  match CScriptTokenizer.tokenize Code with
  | .error _ => expressionContext
  | .ok tokens =>
    match evaluateComplex exampleSource (2 * tokens.length + 10) expressionContext tokens with
    | .error _ => expressionContext
    | .ok r => r.1

/-- An object literal with a getter `x`, and a `for ... in` over the property `x`. -/
def program24 : String := "var o = \x7b get x() \x7b return 1 \x7d \x7d; for (k in o.x) ;"

/-- The declaration of the object of `program24`. -/
def program24o : String := "var o = \x7b get x() \x7b return 1 \x7d \x7d"

/-- A conditional expression whose branch that is not taken holds `||`. -/
def program27 : String := "true ? 1 : 2 || 3"

/-- An expression statement with `||` after a `break` in the same block. -/
def program27block : String := "do \x7b break; 1 || 2; \x7d while (false)"

/-- The declaration of an object with the property `x`, and `delete o.x` followed by
the statement `5`. -/
def program30 : String := "var o = \x7bx: 1, y: 2\x7d; delete o.x; 5"

/-- The same with `delete o.x` as the last statement. -/
def program30last : String := "var o = \x7bx: 1, y: 2\x7d; delete o.x"

/-- The same with `delete o.x` as the condition of an `if`. -/
def program30if : String := "var o = \x7bx: 1, y: 2\x7d; if (delete o.x) 1"

end TinyJS

namespace TinyJS

/-- A block that holds a `let (...)` statement, followed by the statement `y`. -/
def program26 : String := "\x7b let (x=1) \x7b\x7d \x7d y"

/-- A block without `let (...)`, followed by the statement `y`. -/
def program26plain : String := "\x7b x; \x7b\x7d \x7d y"

/-- A `try` block that throws and then holds a block with a `let (...)` statement
(which is skipped) and an assignment. -/
def program26skip : String :=
  "try \x7b throw 1; \x7b let (y=1) y; \x7d x = 2; \x7d catch (e) \x7b \x7d"

/-- The same text without the `let (...)`. -/
def program26skipPlain : String := "try \x7b throw 1; \x7b y; \x7d x = 2; \x7d catch (e) \x7b \x7d"

/-- The kind and the skip value of every token of the buffer a text is tokenized
to, `none` when the tokenizer throws. -/
def layoutOfText (Code : String) : Option (List (Nat × Int)) :=
  match CScriptTokenizer.tokenize Code with
  | .ok tokens => some (layoutOf tokens)
  | .error _ => none

/-- The position of the cursor after `t->skip(t->getToken().Int())` at token `i` of
the buffer of a text, with the kind of the token there. -/
def skipFrom (Code : String) (i : Nat) : Option (Nat × Nat) :=
  match CScriptTokenizer.tokenize Code with
  | .ok tokens =>
    let s : Exec Int := { c := expressionContext, tokens := tokens, pos := i, label := "" }
    some (s.skip.pos, s.skip.tk)
  | .error _ => none

end TinyJS
namespace TinyJS

/-! ## Boolean coercion, the operator `!`, the length of an array -/

namespace ScriptVar

variable {D : Type}

/-- The virtual `getBool()` of the primitives: `data.length()!=0` for a string,
`data!=0` in `CScriptVarIntegerBase` (integer, boolean, and `Infinity`, whose
`data` is `+1` or `-1`), `data!=0.0` for a double, and `false` in
`CScriptVarPrimitive` (`undefined`, `null`, `NaN`).  (On a value that is no
primitive the source first converts with `getPrimitivVar()`.) -/
def getBool (P : Platform D) : ScriptVar D → Bool
  | string data _ => decide (data.length ≠ 0)
  | integer data _ => decide (data ≠ 0)
  | bool data _ => data
  | infinity _ _ => true
  | double data _ => !P.eq data (P.ofInt 0)
  | _ => false

/-- Source `isArray()`: true in `CScriptVarArray`. -/
def isArray : ScriptVar D → Bool
  | object .Array _ => true
  | _ => false

end ScriptVar

/-- The value of `!a` in `CTinyJS::execute_unary` with `execute` set, for the value
`v` that the operand denotes: `mathsOp(execute, a, constZero, LEX_EQUAL)`, where
`constZero` is `newScriptVar(0)`. -/
def execute_not {D : Type} (P : Platform D)
    (toPrimitive : ObjectClass → Nat → Option (ScriptVar D)) (v : ScriptVar D) : MathsResult D :=
  mathsOp P toPrimitive true v (.integer 0 false) .LEX_EQUAL

/-- Source `int CScriptVar::getArrayLength()` for a value with the property list
`Childs`: `isDecimalNumber(Childs.back()->getName())+1` in `int` arithmetic. -/
def getArrayLength {D : Type} (v : ScriptVar D) (Childs : SCRIPTVAR_CHILDS) : Int :=
  if !v.isArray || Childs.length == 0 then 0
  else
    match Childs.getLast? with
    | some back => wrapInt (isDecimalNumber back.name + 1)
    | none => 0

/-! ## The quoted form of a string -/

/-- Source table `hex` of `getJSString`. -/
def hex : List Char := "0123456789ABCDEF".toList

/-- The text that `getJSString` writes for one character of the string: the
escape sequence of the `switch`, `\xNN` with the two digits of the code
(`(unsigned char)*i`) when the code is below 32 or above 127, else the
character itself. -/
def getJSString_char (ch : Char) : List Char :=
  if ch = '\\' then ['\\', '\\']
  else if ch = '\n' then ['\\', 'n']
  else if ch = '\r' then ['\\', 'r']
  else if ch = Char.ofNat 7 then ['\\', 'a']
  else if ch = Char.ofNat 8 then ['\\', 'b']
  else if ch = Char.ofNat 12 then ['\\', 'f']
  else if ch = '\t' then ['\\', 't']
  else if ch = Char.ofNat 11 then ['\\', 'v']
  else if ch = '"' then ['\\', '"']
  else
    let nCh := ch.toNat % 256
    if nCh < 32 ∨ nCh > 127 then
      ['\\', 'x', hex.getD ((nCh / 16) % 16) NUL, hex.getD (nCh % 16) NUL]
    else [ch]

/-- Source `string getJSString(const string &str)`: the string between double
quotes, character by character. -/
def getJSString (str : String) : String :=
  String.mk ('"' :: (str.toList.flatMap getJSString_char) ++ ['"'])

/-! ## The digits of an integer -/

/-- The character of a digit in `tiny_ltoa`:
`(char) (digval + (digval > 9 ? ('a'-10) : '0'))`. -/
def tiny_ltoa_char (digval : Nat) : Char :=
  Char.ofNat (digval + (if digval > 9 then 'a'.toNat - 10 else '0'.toNat))

/-- The first loop of `tiny_ltoa`,
`do \x7b digval = val % radix; val /= radix; *p++ = ...; \x7d while (val > 0);`:
the buffer with the characters written behind `buf`.  The first argument bounds
the number of passes. -/
def tiny_ltoa_digits (radix : Nat) : Nat → Nat → List Char → List Char
  | 0, _, buf => buf
  | fuel + 1, val, buf =>
    let digval := val % radix
    let val1 := val / radix
    let buf1 := buf ++ [tiny_ltoa_char digval]
    if val1 > 0 then tiny_ltoa_digits radix fuel val1 buf1 else buf1

/-- The second loop of `tiny_ltoa`,
`do \x7b temp = *p; *p = *firstdig; *firstdig = temp; p--; firstdig++; \x7d while (firstdig < p);`,
on the buffer `buf` with the indices `p` and `firstdig`.  The first argument
bounds the number of passes. -/
def tiny_ltoa_reverse : Nat → List Char → Int → Nat → List Char
  | 0, buf, _, _ => buf
  | fuel + 1, buf, p, firstdig =>
    let temp := buf.getD p.toNat NUL
    let buf1 := buf.set p.toNat (buf.getD firstdig NUL)
    let buf2 := buf1.set firstdig temp
    let p1 := p - 1
    let firstdig1 := firstdig + 1
    if (firstdig1 : Int) < p1 then tiny_ltoa_reverse fuel buf2 p1 firstdig1 else buf2

/-- Source `static char *tiny_ltoa(long val, unsigned radix)` for a `val` that holds
an `int` (the `data` of a `CScriptVarInteger`), where `long` is wider than
`int`, so that `-val` does not overflow; the buffer of 64 characters is never
full.  `firstdig` starts at `buf`, the place of the sign. -/
def tiny_ltoa (val : Int) (radix : Nat) : String :=
  let buf0 : List Char := if val < 0 then ['-'] else []
  let val1 : Int := if val < 0 then -val else val
  let buf := tiny_ltoa_digits radix (val1.toNat + 1) val1.toNat buf0
  -- `*p-- = '\0'; firstdig = buf;`
  String.mk (tiny_ltoa_reverse buf.length buf ((buf.length : Int) - 1) 0)

/-- Source `CScriptVarInteger::_toString(execute, radix)`: the string of the value
created. -/
def CScriptVarInteger_toString (data : Int) (radix : Int) : String :=
  tiny_ltoa data (if 2 ≤ radix ∧ radix ≤ 36 then radix.toNat else 10)

end TinyJS
namespace TinyJS

/-! ## Readings of the claims C31 to C40 -/

/-- The words of C38: the character of the digit `d`, "using 0-9 and a-z". -/
def standardDigit (d : Nat) : Char := "0123456789abcdefghijklmnopqrstuvwxyz".toList.getD d '0'

/-- The words of C38: the digits of `n` in base `r`, most significant first,
without leading zeros, and "0" for 0. -/
def standardDigits (n r : Nat) : List Char :=
  if n = 0 then ['0'] else (Nat.digits r n).reverse.map standardDigit

/-- The words of C38: the standard signed representation of `n` in base `r`, a
leading `-` exactly when `n < 0`, followed by the digits of `|n|`. -/
def standardRepresentation (n : Int) (r : Nat) : String :=
  String.mk ((if n < 0 then ['-'] else []) ++ standardDigits n.natAbs r)

end TinyJS
namespace TinyJS

/-! ### Example data for the claims C31 to C40 -/

/-- The property list that the calls `addChild(name, ...)` build from the empty
list, in the order of `names` (the value at 0 owns the links). -/
def childsOfNames (names : List String) : SCRIPTVAR_CHILDS :=
  names.foldl (fun Childs n =>
    (addChild Childs 0 Childs.length 1 n (some 2) SCRIPTVARLINK_DEFAULT).1) []

/-- An array value. -/
def exampleArray : ScriptVar Int := .object .Array 0

end TinyJS

namespace TinyJS

/-- An instance of `Platform` for evaluating examples with a fraction: a `double`
is a multiple of 1/2, given by the integer that is twice its value; products
and quotients are rounded towards zero, `strtol` and `strtod` read an unsigned
decimal numeral. -/
def halvesPlatform : Platform Int where
  ofInt := fun i => 2 * i
  toInt := fun d => Int.tdiv d 2
  add := fun x y => x + y
  sub := fun x y => x - y
  mul := fun x y => Int.tdiv (x * y) 2
  div := fun x y => Int.tdiv (2 * x) y
  eq := fun x y => decide (x = y)
  lt := fun x y => decide (x < y)
  le := fun x y => decide (x ≤ y)
  float2string := fun d =>
    if d % 2 = 0 then int2string (Int.tdiv d 2)
    else (if d < 0 then "-" else "") ++ int2string (Int.tdiv d.natAbs 2) ++ ".5"
  strtol := intPlatform.strtol
  strtod := fun s => (2 * (intPlatform.strtod s).1, (intPlatform.strtod s).2)

/-- The `double` 0.5 of `halvesPlatform`. -/
def oneHalf : ScriptVar Int := .double 1 false

end TinyJS

namespace TinyJS

/-- A conditional expression whose second branch, which is not executed, is a
member access with an index. -/
def program31 : String := "true ? 1 : a[5]"

/-- The evaluator at the start of the buffer of `a[5]`. -/
def start31 : Exec Int :=
  { c := expressionContext, tokens := getOk [] (CScriptTokenizer.tokenize "a[5]"), pos := 0,
    label := "" }

/-- A declaration at the top level: the forwarder of the root is the first token. -/
def program32 : String := "var x;"

/-- The evaluator at the start of the buffer of `program32`. -/
def start32 : Exec Int :=
  { c := expressionContext, tokens := getOk [] (CScriptTokenizer.tokenize program32), pos := 0,
    label := "" }

/-- The evaluator after the first statement of `program32`, the forwarder. -/
def forwarded32 : Exec Int × Bool × Option Nat :=
  getOk (start32, true, none) (execute_statement exampleSource 20 start32 true)

/-- A block with a `let` declaration: its forwarder is the second token. -/
def program32block : String := "\x7b let x; \x7d"

/-- The buffer of `program32block` before and after the block has been executed. -/
def tokens32block : Option (TOKEN_VECT × TOKEN_VECT) :=
  match CScriptTokenizer.tokenize program32block with
  | .ok tokens =>
    match execute_statement exampleSource 20
        { c := expressionContext, tokens := tokens, pos := 0, label := "" } true with
    | .ok r => some (tokens, r.1.tokens)
    | .error _ => none
  | .error _ => none

/-- A `switch` in a block labelled `L`, with `break L` in the `switch`, and an
assignment behind the `switch`. -/
def program33 : String :=
  "L: \x7b switch (1) \x7b case 1: break L; \x7d x = 5; \x7d x"

/-- The same labelled block without the `switch`. -/
def program33plain : String := "L: \x7b break L; x = 5; \x7d x"

/-- The evaluator at the token `switch` of `program33` (token 3). -/
def start33 : Exec Int :=
  { c := expressionContext, tokens := getOk [] (CScriptTokenizer.tokenize program33), pos := 3,
    label := "" }

/-- The discriminant of the `switch` of `program33`, evaluated. -/
def discriminant33 : Exec Int × Bool × Nat :=
  getOk (start33, false, 0) (execute_base exampleSource { start33 with pos := 5 } true)

/-- The evaluator and `execute` after the `switch` statement of `program33`. -/
def switched33 : Exec Int × Bool :=
  getOk (start33, false)
    (execute_switch exampleSource (execute_statement exampleSource 20) 20 start33 true)

/-- The text `getJSString(s)` lexed: the kind of its first token, the codes of the
characters of the token's string, and the kind of the token that follows. -/
def roundTrip (s : String) : Option (Nat × List Nat × Nat) :=
  match CScriptLex.new (getJSString s) 0 anyRegex with
  | .ok l =>
    match l.«match» l.tk none with
    | .ok l2 => some (l.tk, l.tkStr.toList.map Char.toNat, l2.tk)
    | .error _ => none
  | .error _ => none

/-- The codes that `getJSString` does not write as `\xNN`: 32 to 127, and the
characters with an escape sequence of their own. -/
def plainCode (n : Nat) : Bool :=
  (decide (32 ≤ n) && decide (n ≤ 127)) || [7, 8, 9, 10, 11, 12, 13].contains n

/-- The tokenizer at the start of a text, as `tokenizeCode` sets it up: the
forwarder of the root is token 0, `BlockStart` is `[0, 0]`. -/
def tokenizingOf (Code : String) : Tokenizing :=
  CScriptTokenizer.pushForwarder
    { l := getOk emptyLex (CScriptLex.new Code 0 anyRegex), Tokens := [],
      BlockStart := [0], Marks := [], Labels := [], LoopLabels := [] }

/-- The vector `BlockStart` before and after `tokenizeStatement` on the first
statement of a text. -/
def blockStartAfter (Code : String) : Option (List Nat × List Nat) :=
  match CScriptTokenizer.tokenizeStatement (2 * Code.length + 20) (tokenizingOf Code)
      TokenizeFlags.zero with
  | .ok T => some ((tokenizingOf Code).BlockStart, T.BlockStart)
  | .error _ => none

/-- The forwarders of the buffer of a text: the index of each with its sets `lets`
and `vars` and the names of its `functions`. -/
def forwardersOf (Code : String) : Option (List (Nat × List String × List String × List String)) :=
  match CScriptTokenizer.tokenize Code with
  | .ok T =>
    some ((T.enum.filter (fun p => p.2.token == LEX_T_FORWARD)).map fun p =>
      (p.1, p.2.lets, p.2.vars, p.2.functions.map CScriptToken.getString))
  | .error _ => none

end TinyJS
namespace TinyJS

/-! ## The lexer and the text it has not read yet -/

/-- The lexer `l` has the text `t` before it: `currCh` and `nextCh` are its first
two characters (the character of code 0 where the text ends), the characters
that `getNextCh` has not fetched yet are the rest, and the text has no
character of code 0. -/
def CScriptLex.Ahead (l : CScriptLex) (t : List Char) : Prop :=
  l.currCh = t.headD NUL ∧ l.nextCh = t.tail.headD NUL ∧ l.data.drop l.dataPos = t.tail.tail ∧
    ∀ c ∈ t, c ≠ NUL

/-- The characters that `getJSString` writes with an escape sequence of their own,
each with the character that follows the backslash. -/
def escapePairs : List (Char × Char) :=
  [('\\', '\\'), ('\n', 'n'), ('\r', 'r'), (Char.ofNat 7, 'a'), (Char.ofNat 8, 'b'),
   (Char.ofNat 12, 'f'), ('\t', 't'), (Char.ofNat 11, 'v'), ('"', '"')]

end TinyJS
namespace TinyJS

/-! ## Script functions: their definition and the execution of their bodies -/

/-- The parameters of a function token as entries of `Fnc->arguments`: an
identifier by its name.  (The tokenizer of the model ends in a fault at a
destructuring parameter, so no function token holds one.) -/
def fncArguments (arguments : List CScriptToken) : List FncArgument :=
  arguments.map fun a => FncArgument.LEX_ID a.getString

namespace CTinyJS

variable {D : Type}

/-- Source `CTinyJS::parseFunctionDefinition(FncToken)`: `newScriptVar(&Fnc)` makes
the function value, an object whose prototype is `functionPrototype` and whose
`setFunctionData` stores the token data and the child `length`; the scope is
stored as `__function_closure__` unless it is the root, and a new object is
added as `prototype`.  `functionPrototype` is the member of that name of
`CTinyJS`.  For a token that is no function token (`Fnc()` is not defined
there) the context is left as it is. -/
def parseFunctionDefinition (functionPrototype : Nat) (c : CTinyJS D) (FncToken : CScriptToken) :
    CTinyJS D × Nat :=
  match FncToken with
  | .fnc _ name arguments body =>
    let r := c.newCScriptVar (fun addr => .object .Function addr) (some functionPrototype)
      (some { name := name, arguments := fncArguments arguments,
              bodyIsBlock := (body.head?.map CScriptToken.token) == some (tkChar '\x7b'),
              body := body })
    let n := r.1.newScriptVarInteger arguments.length
    let c1 := (n.1.addChildOrReplace r.2 "length" n.2 0).1
    let c2 :=
      if c.scope ≠ c.root then
        (c1.addChild r.2 TINYJS_FUNCTION_CLOSURE_VAR (some c.scope) 0).1
      else c1
    let o := c2.newScriptVarObject
    ((o.1.addChild r.2 TINYJS_PROTOTYPE_CLASS (some o.2) SCRIPTVARLINK_WRITABLE).1, r.2)
  | _ => (c, c.constUndefined)

end CTinyJS

/-- The expressions of the source in which the bodies of the script functions are
run by `run` (context, function and `execute` to the new context, `execute`
and the value of an expression body): `calls` gives the result of a body that
`run` runs to its end, `bodyFault` the fault of one that it does not; a
function definition is `CTinyJS::parseFunctionDefinition`.  No native function
and no destructuring parameter occurs in a tokenized text, so `nativeCall` and
`getter` of `calls` are never called. -/
def scriptExpressionsWith (functionPrototype : Nat)
    (run : CTinyJS Int → Nat → Bool → Except Fault (CTinyJS Int × Bool × Nat)) :
    Expressions Int :=
  sourceExpressions
    { valueExpressions with
      calls :=
        { execute_block := fun c Function execute =>
            match run c Function execute with
            | .ok r => (r.1, r.2.1)
            | .error _ => (c, execute)
          execute_base := fun c Function execute =>
            match run c Function execute with
            | .ok r => r
            | .error _ => (c, execute, c.constUndefined)
          nativeCall := fun c _ _ => (c, none)
          getter := fun c l execute => (c, execute, l.var) }
      bodyFault := fun c Function execute =>
        match run c Function execute with
        | .ok _ => none
        | .error f => some f
      parseFunctionDefinition := CTinyJS.parseFunctionDefinition functionPrototype }
    exampleValues 100

/-- The script branch of `callFunction`, from `t->pushTokenScope(Fnc->body)` on: the
body of the function at `Function` is executed in the context `c` (in which
`callFunction` has pushed the scope of the function) by `execute_block(execute,
false)` when it starts with `\x7b`, and evaluated by `execute_base(execute)`
otherwise; the value is that of an expression body.  The token scope of the
body has to be at its end then (the tokenizer pops it there).  The member
`label` is empty: no statement assigns it (the one assignment follows
`execute = false` and is guarded by `execute`).  The first argument bounds the
nesting of the calls. -/
def scriptBody (functionPrototype : Nat) :
    Nat → CTinyJS Int → Nat → Bool → Except Fault (CTinyJS Int × Bool × Nat)
  | 0 => fun _ _ _ => .error .fuel
  | depth + 1 => fun c Function execute =>
    match (c.vars[Function]?).bind CScriptVar.data with
    | none => .error (.notModelled "null pointer")
    | some Fnc =>
      let E := scriptExpressionsWith functionPrototype (scriptBody functionPrototype depth)
      let fuel := 2 * Fnc.body.length + 10
      let s : Exec Int := { c := c, tokens := Fnc.body, pos := 0, label := "" }
      if Fnc.bodyIsBlock then
        match execute_block (execute_statement E fuel) fuel s execute false with
        | .error f => .error f
        | .ok r =>
          if r.1.pos < Fnc.body.length then .error (.notModelled "token scope left open")
          else .ok (r.1.c, r.2, r.1.c.constUndefined)
      else
        match execute_base E s execute with
        | .error f => .error f
        | .ok r =>
          if r.1.pos < Fnc.body.length then .error (.notModelled "token scope left open")
          else .ok (r.1.c, r.2.1, r.2.2)

/-- The context in which the texts with functions start: `expressionContext` with
one more object, the prototype of the functions (8). -/
def scriptContext : CTinyJS Int :=
  { expressionContext with
    vars := expressionContext.vars ++
      [{ val := .object .Object 8, Childs := [flaggedLink "__proto__" 0 8 2 SCRIPTVARLINK_WRITABLE],
         extensible := true, temporaryID := 0, data := none }]
    nextLink := 3 }

/-- The expressions of the source for the texts with functions: the bodies are
executed, calls nested up to 5 deep. -/
def scriptSource : Expressions Int := scriptExpressionsWith 8 (scriptBody 8 5)

/-- Source `CTinyJS::evaluateComplex` on the tokens of a text, started in
`scriptContext`, with the bodies of the script functions executed: the context
left and the value returned. -/
def scriptRun (Code : String) : Except Fault (CTinyJS Int × Nat) :=
  match CScriptTokenizer.tokenize Code with
  | .error e => .error e
  | .ok tokens => evaluateComplex scriptSource (2 * tokens.length + 10) scriptContext tokens

/-- Source `CTinyJS::evaluate(Code)` with the bodies of the script functions
executed: the string of the value returned and the strings that were created,
or the fault. -/
def scriptEvaluate (Code : String) : Except Fault (String × List String) :=
  match scriptRun Code with
  | .error e => .error e
  | .ok r => .ok (((r.1.valOf r.2).map (ScriptVar.getString intPlatform)).getD "", stringsOf r.1)

end TinyJS
namespace TinyJS

/-! ### Example data for C11: an object literal with a getter -/

/-- The declaration of C11: an object whose property `x` has a getter and no
setter. -/
def program11 : String := "var o = \x7bget x()\x7breturn 42\x7d\x7d"

/-- The context after the declaration `program11` (`scriptContext` when the
evaluation ends in a fault). -/
def context11 : CTinyJS Int :=
  match scriptRun program11 with
  | .ok r => r.1
  | .error _ => scriptContext

/-- The link `x` of the object `o` in `context11`: its value is the accessor (13),
its owner the object `o` (9). -/
def link11 : CScriptVarLink :=
  { name := "x", var := 13, flags := SCRIPTVARLINK_DEFAULT, owner := some 9, owned := true,
    addr := 11 }

/-- The value that `this` is bound to in the scope that `callFunction` builds when
the property behind `link` is read in the context `c`: the call is the one of
`CScriptVarLinkWorkPtr::getter`, with no arguments and the owner of the link
as `This`. -/
def getterThis {D : Type} (E : Evaluator D) (c : CTinyJS D) (link : CScriptVarLink) :
    Option Nat :=
  match c.findChild link.var TINYJS_ACCESSOR_GET_VAR, link.owner with
  | some getter, some owner =>
    match (c.vars[getter.var]?).bind CScriptVar.data with
    | some Fnc => (callFunction_enter E c true getter.var Fnc [] owner).binding "this"
    | none => none
  | _, _ => none

/-- The property list of the object `o` of the root scope and that of the accessor
that is its property `x` after the evaluation of a text: the name, the value
and the flags of every link. -/
def accessorProperties (Code : String) :
    Option (List (String × Nat × Nat) × List (String × Nat × Nat)) :=
  match scriptRun Code with
  | .error _ => none
  | .ok r =>
    (r.1.findChild r.1.root "o").bind fun o =>
      (r.1.findChild o.var "x").map fun x =>
        ((r.1.childsOf o.var).map fun l => (l.name, l.var, l.flags),
         (r.1.childsOf x.var).map fun l => (l.name, l.var, l.flags))

end TinyJS
namespace TinyJS

/-! ### Example data for C13: a `catch` whose variable has the name of the parent link -/

/-- The text of `program13` with the name `__scope_parent__` for the variable of the
`catch`. -/
def program13hidden : String :=
  "try \x7b throw \"v\" \x7d catch(__scope_parent__) \x7b __scope_parent__; \x7d \"z\""

/-- The state in which the evaluation of `program13hidden` starts. -/
def start13hidden : Exec Int :=
  { c := startContext, tokens := getOk [] (CScriptTokenizer.tokenize program13hidden),
    pos := 0, label := "" }

/-- The result of the evaluation of the operand of `throw` in `program13hidden`. -/
def thrown13hidden : Exec Int × Bool × Nat :=
  getOk (start13hidden, false, 0)
    (execute_base exampleExpressions
      { start13hidden with
        pos := 3,
        c := { startContext with
          runtimeFlags := { startContext.runtimeFlags with CAN_THROW := true } } }
      true)

/-- The state in which the block of the `catch` of `program13hidden` ends. -/
def caught13hidden : Exec Int :=
  (getOk (start13hidden, false)
    (execute_block (execute_statement exampleExpressions 3) 3
      (catchEntry thrown13hidden.1 startContext.runtimeFlags "__scope_parent__"
        thrown13hidden.2.2) true false)).1

end TinyJS

namespace TinyJS

/-! ## The order of the links -/

theorem stringLessList_irrefl (a : List Char) : stringLessList a a = false := by
  induction a with
  | nil => rfl
  | cons x xs ih => simp [stringLessList, ih]

theorem stringLessList_trans : ∀ (a b c : List Char),
    stringLessList a b = true → stringLessList b c = true → stringLessList a c = true
  | [], [], _, h, _ => by simp [stringLessList] at h
  | [], _ :: _, [], _, h => by simp [stringLessList] at h
  | [], _ :: _, _ :: _, _, _ => by simp [stringLessList]
  | _ :: _, [], _, h, _ => by simp [stringLessList] at h
  | _ :: _, _ :: _, [], _, h => by simp [stringLessList] at h
  | x :: xs, y :: ys, z :: zs, h1, h2 => by
    simp only [stringLessList] at h1 h2 ⊢
    by_cases hxy : x.toNat < y.toNat
    · by_cases hyz : y.toNat < z.toNat
      · have : x.toNat < z.toNat := by omega
        simp [this]
      · simp only [hyz, if_false] at h2
        by_cases hzy : z.toNat < y.toNat
        · simp [hzy] at h2
        · have : x.toNat < z.toNat := by omega
          simp [this]
    · simp only [hxy, if_false] at h1
      by_cases hyx : y.toNat < x.toNat
      · simp [hyx] at h1
      · simp only [hyx, if_false] at h1
        have hxy' : x.toNat = y.toNat := by omega
        by_cases hyz : y.toNat < z.toNat
        · have : x.toNat < z.toNat := by omega
          simp [this]
        · simp only [hyz, if_false] at h2
          by_cases hzy : z.toNat < y.toNat
          · simp [hzy] at h2
          · simp only [hzy, if_false] at h2
            have h3 : ¬ x.toNat < z.toNat := by omega
            have h4 : ¬ z.toNat < x.toNat := by omega
            simp only [h3, h4, if_false]
            exact stringLessList_trans xs ys zs h1 h2

theorem char_eq_of_toNat_eq {a b : Char} (h : a.toNat = b.toNat) : a = b := by
  apply Char.ext
  apply UInt32.ext
  exact h

theorem stringLessList_total : ∀ (a b : List Char), a ≠ b →
    stringLessList a b = true ∨ stringLessList b a = true
  | [], [], h => absurd rfl h
  | [], _ :: _, _ => by simp [stringLessList]
  | _ :: _, [], _ => by simp [stringLessList]
  | x :: xs, y :: ys, h => by
    simp only [stringLessList]
    by_cases hxy : x.toNat < y.toNat
    · simp [hxy]
    · by_cases hyx : y.toNat < x.toNat
      · simp [hyx]
      · simp only [hxy, hyx, if_false]
        have hxy' : x = y := char_eq_of_toNat_eq (by omega)
        subst hxy'
        have : xs ≠ ys := fun e => h (by rw [e])
        exact stringLessList_total xs ys this

theorem nameLess_eq (l : CScriptVarLink) (rhs : String) :
    CScriptVarLinkPtr.lt l rhs = nameLess l.name rhs := rfl

theorem nameLess_irrefl (a : String) : nameLess a a = false := by
  unfold nameLess CScriptVarLinkPtr.lt
  by_cases h : isDecimalNumber a < 0
  · simp [h, stringLess, stringLessList_irrefl]
  · simp [h]

theorem nameLess_trans {a b c : String} (h1 : nameLess a b = true) (h2 : nameLess b c = true) :
    nameLess a c = true := by
  unfold nameLess CScriptVarLinkPtr.lt at *
  simp only at h1 h2 ⊢
  by_cases ha : isDecimalNumber a < 0 <;> by_cases hb : isDecimalNumber b < 0 <;>
    by_cases hc : isDecimalNumber c < 0 <;>
    simp only [ha, hb, hc, and_self, and_true, and_false, false_and, true_and, if_true, if_false,
      decide_eq_true_eq] at h1 h2 ⊢
  · exact stringLessList_trans _ _ _ h1 h2
  all_goals omega

theorem nameLess_asymm {a b : String} (h1 : nameLess a b = true) : nameLess b a = false := by
  cases h : nameLess b a
  · rfl
  · have := nameLess_trans h1 h
    rw [nameLess_irrefl] at this
    exact absurd this (by simp)

theorem nameLess_total_of_neg {a b : String} (ha : isDecimalNumber a < 0) (hab : a ≠ b) :
    nameLess a b = true ∨ nameLess b a = true := by
  unfold nameLess CScriptVarLinkPtr.lt
  simp only
  by_cases hb : isDecimalNumber b < 0
  · simp only [ha, hb, and_self, if_true]
    apply stringLessList_total
    intro e
    apply hab
    exact String.ext e
  · left
    simp only [ha, hb, and_false, if_false, decide_eq_true_eq]
    omega

theorem nameLess_total_of_key_ne {a b : String} (h : isDecimalNumber a ≠ isDecimalNumber b) :
    nameLess a b = true ∨ nameLess b a = true := by
  by_cases ha : isDecimalNumber a < 0
  · exact nameLess_total_of_neg ha (fun e => h (by rw [e]))
  · by_cases hb : isDecimalNumber b < 0
    · exact (nameLess_total_of_neg hb (fun e => h (by rw [e]))).symm
    · unfold nameLess CScriptVarLinkPtr.lt
      simp only [ha, hb, and_self, if_false, decide_eq_true_eq]
      omega

end TinyJS

namespace TinyJS

/-! ## The binary search on a strictly sorted property list -/

theorem lower_bound_loop_spec (Childs : SCRIPTVAR_CHILDS) (val : String) (k : Nat)
    (hlt : ∀ i l, Childs[i]? = some l → i < k → CScriptVarLinkPtr.lt l val = true)
    (hge : ∀ i l, Childs[i]? = some l → k ≤ i → CScriptVarLinkPtr.lt l val = false) :
    ∀ fuel first len, len ≤ fuel → first ≤ k → k ≤ first + len → first + len ≤ Childs.length →
      lower_bound_loop Childs val fuel first len = k := by
  intro fuel
  induction fuel with
  | zero =>
    intro first len h1 h2 h3 _
    simp only [lower_bound_loop]
    omega
  | succ fuel ih =>
    intro first len h1 h2 h3 h4
    simp only [lower_bound_loop]
    by_cases hlen : len = 0
    · simp only [hlen, if_true]
      omega
    · simp only [hlen, if_false]
      have hmid : first + len / 2 < Childs.length := by omega
      have hget : Childs[first + len / 2]? = some (Childs[first + len / 2]) :=
        List.getElem?_eq_getElem hmid
      rw [hget]
      simp only
      by_cases hl : CScriptVarLinkPtr.lt (Childs[first + len / 2]) val = true
      · simp only [hl, if_true]
        have hk : first + len / 2 < k := by
          by_contra hcon
          have := hge _ _ hget (by omega)
          rw [hl] at this
          exact absurd this (by simp)
        exact ih _ _ (by omega) (by omega) (by omega) (by omega)
      · simp only [hl, if_false]
        have hk : k ≤ first + len / 2 := by
          by_contra hcon
          exact hl (hlt _ _ hget (by omega))
        exact ih _ _ (by omega) (by omega) (by omega) (by omega)

theorem lower_bound_append (l1 l2 : SCRIPTVAR_CHILDS) (val : String)
    (h1 : ∀ x ∈ l1, CScriptVarLinkPtr.lt x val = true)
    (h2 : ∀ x ∈ l2, CScriptVarLinkPtr.lt x val = false) :
    lower_bound (l1 ++ l2) val = l1.length := by
  unfold lower_bound
  apply lower_bound_loop_spec (l1 ++ l2) val l1.length
  · intro i l hget hi
    rw [List.getElem?_append_left hi] at hget
    exact h1 l (List.getElem?_mem hget)
  · intro i l hget hi
    rw [List.getElem?_append_right hi] at hget
    exact h2 l (List.getElem?_mem hget)
  · exact le_refl _
  · exact Nat.zero_le _
  · simp
  · simp

theorem StrictSorted.partition {Childs : SCRIPTVAR_CHILDS} (h : StrictSorted Childs)
    (val : String) :
    ∃ l1 l2, Childs = l1 ++ l2 ∧ (∀ x ∈ l1, CScriptVarLinkPtr.lt x val = true) ∧
      (∀ x ∈ l2, CScriptVarLinkPtr.lt x val = false) := by
  induction Childs with
  | nil => exact ⟨[], [], rfl, by simp, by simp⟩
  | cons x xs ih =>
    have hp := List.pairwise_cons.mp h
    by_cases hx : CScriptVarLinkPtr.lt x val = true
    · obtain ⟨l1, l2, e, a1, a2⟩ := ih hp.2
      refine ⟨x :: l1, l2, by rw [e]; rfl, ?_, a2⟩
      intro y hy
      rcases List.mem_cons.mp hy with e1 | e1
      · rw [e1]; exact hx
      · exact a1 y e1
    · refine ⟨[], x :: xs, rfl, by simp, ?_⟩
      intro y hy
      rcases List.mem_cons.mp hy with e1 | e1
      · rw [e1]; simpa using hx
      · cases hy2 : CScriptVarLinkPtr.lt y val
        · rfl
        · exfalso
          apply hx
          have hxy := hp.1 y e1
          rw [nameLess_eq] at hxy hy2 ⊢
          exact nameLess_trans hxy hy2

theorem getElem?_append_length {α : Type} (l1 l2 : List α) :
    (l1 ++ l2)[l1.length]? = l2.head? := by
  rw [List.getElem?_append_right (le_refl _)]
  cases l2 <;> simp

theorem insertIdx_append_length {α : Type} (l1 l2 : List α) (a : α) :
    (l1 ++ l2).insertIdx l1.length a = l1 ++ a :: l2 := by
  induction l1 with
  | nil => simp
  | cons x xs ih => simp [ih]

theorem set_append_length {α : Type} (l1 l2 : List α) (y a : α) :
    (l1 ++ y :: l2).set l1.length a = l1 ++ a :: l2 := by
  induction l1 with
  | nil => simp
  | cons x xs ih => simp [ih]

theorem eraseIdx_append_length {α : Type} (l1 l2 : List α) (y : α) :
    (l1 ++ y :: l2).eraseIdx l1.length = l1 ++ l2 := by
  induction l1 with
  | nil => simp
  | cons x xs ih => simp [ih]

/-- The shape of a strictly sorted list around the place of a name `n`: the
links before it are smaller than `n`, the links from it on are not, and only
the first of these can carry the name `n`. -/
theorem StrictSorted.split {Childs : SCRIPTVAR_CHILDS} (h : StrictSorted Childs) (n : String) :
    ∃ l1 l2, Childs = l1 ++ l2 ∧ lower_bound Childs n = l1.length ∧
      (∀ x ∈ l1, CScriptVarLinkPtr.lt x n = true ∧ x.name ≠ n) ∧
      (∀ x ∈ l2, CScriptVarLinkPtr.lt x n = false) ∧
      (∀ x ∈ l2.tail, x.name ≠ n) := by
  obtain ⟨l1, l2, e, a1, a2⟩ := h.partition n
  refine ⟨l1, l2, e, ?_, ?_, a2, ?_⟩
  · rw [e]; exact lower_bound_append l1 l2 n a1 a2
  · intro x hx
    refine ⟨a1 x hx, ?_⟩
    intro hn
    have := a1 x hx
    rw [nameLess_eq, hn, nameLess_irrefl] at this
    exact absurd this (by simp)
  · intro x hx
    cases l2 with
    | nil => simp at hx
    | cons y ys =>
      simp only [List.tail_cons] at hx
      intro hn
      rw [e] at h
      have h2 := (List.pairwise_append.mp h).2.1
      have h3 := (List.pairwise_cons.mp h2).1 x hx
      rw [hn] at h3
      have h4 := a2 y (List.mem_cons_self _ _)
      rw [h3] at h4
      exact absurd h4 (by simp)

/-! ## `findChild`, `addChild`, `addChildOrReplace` and `removeLink` on a strictly sorted list -/

theorem findChild_iff {Childs : SCRIPTVAR_CHILDS} (h : StrictSorted Childs) (n : String)
    (l : CScriptVarLink) : findChild Childs n = some l ↔ l ∈ Childs ∧ l.name = n := by
  obtain ⟨l1, l2, e, hlb, a1, a2, a3⟩ := h.split n
  unfold findChild
  simp only [hlb]
  subst e
  rw [getElem?_append_length]
  cases l2 with
  | nil =>
    simp only [List.append_nil, List.head?_nil]
    constructor
    · intro hh
      split at hh <;> simp at hh
    · rintro ⟨hm, hn⟩
      exact absurd hn (a1 l (by simpa using hm)).2
  | cons y ys =>
    simp only [List.head?_cons]
    have hne : (l1 ++ y :: ys).isEmpty = false := by cases l1 <;> rfl
    simp only [hne, Bool.false_eq_true, if_false]
    constructor
    · intro hh
      by_cases hy : y.name = n
      · simp only [hy, if_true, Option.some.injEq] at hh
        subst hh
        exact ⟨by simp, hy⟩
      · simp [hy] at hh
    · rintro ⟨hm, hn⟩
      rcases List.mem_append.mp hm with hm1 | hm1
      · exact absurd hn (a1 l hm1).2
      · rcases List.mem_cons.mp hm1 with e1 | e1
        · subst e1
          simp [hn]
        · exact absurd hn (a3 l (by simpa using e1))

theorem findChild_eq_none {Childs : SCRIPTVAR_CHILDS} (h : StrictSorted Childs) (n : String) :
    findChild Childs n = none ↔ ∀ l ∈ Childs, l.name ≠ n := by
  constructor
  · intro hn l hl e
    have := (findChild_iff h n l).mpr ⟨hl, e⟩
    rw [hn] at this
    exact absurd this (by simp)
  · intro hall
    cases hf : findChild Childs n with
    | none => rfl
    | some l =>
      have := (findChild_iff h n l).mp hf
      exact absurd this.2 (hall l this.1)

theorem StrictSorted.name_inj {Childs : SCRIPTVAR_CHILDS} (h : StrictSorted Childs)
    {a b : CScriptVarLink} (ha : a ∈ Childs) (hb : b ∈ Childs) (e : a.name = b.name) : a = b := by
  have h1 := (findChild_iff h a.name a).mpr ⟨ha, rfl⟩
  have h2 := (findChild_iff h a.name b).mpr ⟨hb, e.symm⟩
  rw [h1] at h2
  exact Option.some.inj h2

/-- On a strictly sorted property list the binary search of `findChild` returns
what a linear scan for the name returns. -/
theorem findChild_eq_linearScan {Childs : SCRIPTVAR_CHILDS} (h : StrictSorted Childs)
    (n : String) : findChild Childs n = linearScan Childs n := by
  unfold linearScan
  cases hs : Childs.find? (fun l => l.name = n) with
  | none =>
    rw [findChild_eq_none h]
    intro l hl e
    have := List.find?_eq_none.mp hs l hl
    simp [e] at this
  | some l =>
    rw [findChild_iff h]
    have h1 := List.find?_some hs
    exact ⟨List.mem_of_find?_eq_some hs, by simpa using h1⟩

end TinyJS

namespace TinyJS

theorem strictSorted_insert {l1 l2 : SCRIPTVAR_CHILDS} {link : CScriptVarLink}
    (h : StrictSorted (l1 ++ l2))
    (a1 : ∀ x ∈ l1, CScriptVarLinkPtr.lt x link.name = true)
    (a2 : ∀ x ∈ l2, nameLess link.name x.name = true) :
    StrictSorted (l1 ++ link :: l2) := by
  unfold StrictSorted at *
  rw [List.pairwise_append] at h ⊢
  refine ⟨h.1, ?_, ?_⟩
  · rw [List.pairwise_cons]
    exact ⟨fun x hx => by rw [nameLess_eq]; exact a2 x hx, h.2.1⟩
  · intro a ha b hb
    rcases List.mem_cons.mp hb with e | e
    · rw [e]; exact a1 a ha
    · exact h.2.2 a ha b e

theorem strictSorted_replace {l1 l2 : SCRIPTVAR_CHILDS} {y y1 : CScriptVarLink}
    (h : StrictSorted (l1 ++ y :: l2)) (e : y1.name = y.name) :
    StrictSorted (l1 ++ y1 :: l2) := by
  unfold StrictSorted at *
  rw [List.pairwise_append, List.pairwise_cons] at h ⊢
  refine ⟨h.1, ⟨?_, h.2.1.2⟩, ?_⟩
  · intro x hx
    have := h.2.1.1 x hx
    rw [nameLess_eq] at this ⊢
    rw [e]; exact this
  · intro a ha b hb
    rcases List.mem_cons.mp hb with e1 | e1
    · rw [e1, e]; exact h.2.2 a ha y (List.mem_cons_self _ _)
    · exact h.2.2 a ha b (List.mem_cons_of_mem _ e1)

/-- What `addChild` does to a strictly sorted list with which the new name is
comparable: nothing when the name is present; otherwise the link is inserted,
and the list stays strictly sorted. -/
theorem addChild_spec {Childs : SCRIPTVAR_CHILDS} (h : StrictSorted Childs) {n : String}
    (hc : Comparable n Childs) (this nl u : Nat) (child : Option Nat) (fl : Nat) :
    ((∃ x ∈ Childs, x.name = n) ∧ addChild Childs this nl u n child fl = (Childs, none)) ∨
    ((∀ x ∈ Childs, x.name ≠ n) ∧ ∃ l1 l2, Childs = l1 ++ l2 ∧
      addChild Childs this nl u n child fl =
        (l1 ++ { name := n, var := child.getD u, flags := fl, owner := some this, owned := true,
                 addr := nl } :: l2,
         some { name := n, var := child.getD u, flags := fl, owner := some this, owned := true,
                addr := nl }) ∧
      StrictSorted (l1 ++ { name := n, var := child.getD u, flags := fl, owner := some this,
                            owned := true, addr := nl } :: l2)) := by
  obtain ⟨l1, l2, e, hlb, a1, a2, a3⟩ := h.split n
  unfold addChild
  simp only [hlb]
  subst e
  rw [getElem?_append_length, insertIdx_append_length]
  cases l2 with
  | nil =>
    right
    refine ⟨?_, l1, [], rfl, by simp, ?_⟩
    · intro x hx
      exact (a1 x (by simpa using hx)).2
    · apply strictSorted_insert h (fun x hx => (a1 x hx).1)
      simp
  | cons y ys =>
    by_cases hy : y.name = n
    · left
      refine ⟨⟨y, by simp, hy⟩, ?_⟩
      simp [hy]
    · right
      have hall : ∀ x ∈ y :: ys, x.name ≠ n := by
        intro x hx
        rcases List.mem_cons.mp hx with e1 | e1
        · rw [e1]; exact hy
        · exact a3 x (by simpa using e1)
      refine ⟨?_, l1, y :: ys, rfl, by simp [hy], ?_⟩
      · intro x hx
        rcases List.mem_append.mp hx with e1 | e1
        · exact (a1 x e1).2
        · exact hall x e1
      · apply strictSorted_insert h (fun x hx => (a1 x hx).1)
        intro x hx
        rcases hc x (List.mem_append_right _ hx) with c1 | c1 | c1
        · exact absurd c1 (hall x hx)
        · rw [a2 x hx] at c1; exact absurd c1 (by simp)
        · exact c1

/-- What `addChildOrReplace` does to a strictly sorted list with which the name
is comparable: the value of the link of that name is replaced, or a new link is
inserted; the list stays strictly sorted. -/
theorem addChildOrReplace_spec {Childs : SCRIPTVAR_CHILDS} (h : StrictSorted Childs) {n : String}
    (hc : Comparable n Childs) (this nl child fl : Nat) :
    (∃ l1 y l2, Childs = l1 ++ y :: l2 ∧ y.name = n ∧
      addChildOrReplace Childs this nl n child fl =
        (l1 ++ { y with var := child } :: l2, { y with var := child }) ∧
      StrictSorted (l1 ++ { y with var := child } :: l2)) ∨
    ((∀ x ∈ Childs, x.name ≠ n) ∧ ∃ l1 l2, Childs = l1 ++ l2 ∧
      addChildOrReplace Childs this nl n child fl =
        (l1 ++ { name := n, var := child, flags := fl, owner := some this, owned := true,
                 addr := nl } :: l2,
         { name := n, var := child, flags := fl, owner := some this, owned := true,
           addr := nl }) ∧
      StrictSorted (l1 ++ { name := n, var := child, flags := fl, owner := some this,
                            owned := true, addr := nl } :: l2)) := by
  obtain ⟨l1, l2, e, hlb, a1, a2, a3⟩ := h.split n
  unfold addChildOrReplace
  simp only [hlb]
  subst e
  rw [getElem?_append_length, insertIdx_append_length]
  cases l2 with
  | nil =>
    right
    refine ⟨?_, l1, [], rfl, by simp, ?_⟩
    · intro x hx
      exact (a1 x (by simpa using hx)).2
    · apply strictSorted_insert h (fun x hx => (a1 x hx).1)
      simp
  | cons y ys =>
    by_cases hy : y.name = n
    · left
      refine ⟨l1, y, ys, rfl, hy, ?_, strictSorted_replace h rfl⟩
      simp [hy, set_append_length]
    · right
      have hall : ∀ x ∈ y :: ys, x.name ≠ n := by
        intro x hx
        rcases List.mem_cons.mp hx with e1 | e1
        · rw [e1]; exact hy
        · exact a3 x (by simpa using e1)
      refine ⟨?_, l1, y :: ys, rfl, by simp [hy], ?_⟩
      · intro x hx
        rcases List.mem_append.mp hx with e1 | e1
        · exact (a1 x e1).2
        · exact hall x e1
      · apply strictSorted_insert h (fun x hx => (a1 x hx).1)
        intro x hx
        rcases hc x (List.mem_append_right _ hx) with c1 | c1 | c1
        · exact absurd c1 (hall x hx)
        · rw [a2 x hx] at c1; exact absurd c1 (by simp)
        · exact c1

theorem removeLink_sublist (Childs : SCRIPTVAR_CHILDS) (link : Option CScriptVarLink) :
    (removeLink Childs link).1.Sublist Childs := by
  unfold removeLink
  cases link with
  | none => exact List.Sublist.refl _
  | some l =>
    simp only
    split
    · split
      · exact List.eraseIdx_sublist _ _
      · exact List.Sublist.refl _
    · exact List.Sublist.refl _

/-! ### Consequences: the invariant of the property list -/

theorem addChild_strictSorted {Childs : SCRIPTVAR_CHILDS} (h : StrictSorted Childs) {n : String}
    (hc : Comparable n Childs) (this nl u : Nat) (child : Option Nat) (fl : Nat) :
    StrictSorted (addChild Childs this nl u n child fl).1 := by
  rcases addChild_spec h hc this nl u child fl with ⟨_, e⟩ | ⟨_, l1, l2, _, e, hs⟩
  · rw [e]; exact h
  · rw [e]; exact hs

theorem addChildOrReplace_strictSorted {Childs : SCRIPTVAR_CHILDS} (h : StrictSorted Childs)
    {n : String} (hc : Comparable n Childs) (this nl child fl : Nat) :
    StrictSorted (addChildOrReplace Childs this nl n child fl).1 := by
  rcases addChildOrReplace_spec h hc this nl child fl with
    ⟨l1, y, l2, _, _, e, hs⟩ | ⟨_, l1, l2, _, e, hs⟩
  · rw [e]; exact hs
  · rw [e]; exact hs

theorem removeLink_strictSorted {Childs : SCRIPTVAR_CHILDS} (h : StrictSorted Childs)
    (link : Option CScriptVarLink) : StrictSorted (removeLink Childs link).1 :=
  List.Pairwise.sublist (removeLink_sublist Childs link) h

theorem StrictSorted.nodup_names {Childs : SCRIPTVAR_CHILDS} (h : StrictSorted Childs) :
    (childNames Childs).Nodup := by
  unfold childNames
  rw [List.Nodup, List.pairwise_map]
  refine List.Pairwise.imp ?_ h
  intro a b hab e
  rw [nameLess_eq, e, nameLess_irrefl] at hab
  exact absurd hab (by simp)

/-! ### Consequences: what the links bind -/

theorem Binds.findChild_var {Childs : SCRIPTVAR_CHILDS} (h : StrictSorted Childs) {n : String}
    {v : Nat} (hb : Binds Childs n v) : (findChild Childs n).map CScriptVarLink.var = some v := by
  obtain ⟨l, hl, hn, hv⟩ := hb
  rw [(findChild_iff h n l).mpr ⟨hl, hn⟩]
  simp [hv]

theorem Binds.unique {Childs : SCRIPTVAR_CHILDS} (h : StrictSorted Childs) {n : String}
    {v w : Nat} (hv : Binds Childs n v) (hw : Binds Childs n w) : v = w := by
  have h1 := hv.findChild_var h
  rw [hw.findChild_var h] at h1
  exact (Option.some.inj h1).symm

theorem addChild_binds_old {Childs : SCRIPTVAR_CHILDS} (h : StrictSorted Childs) {n : String}
    (hc : Comparable n Childs) (this nl u : Nat) (child : Option Nat) (fl : Nat) {m : String}
    {v : Nat} (hb : Binds Childs m v) : Binds (addChild Childs this nl u n child fl).1 m v := by
  obtain ⟨l, hl, hn, hv⟩ := hb
  rcases addChild_spec h hc this nl u child fl with ⟨_, e⟩ | ⟨_, l1, l2, e0, e, _⟩
  · rw [e]; exact ⟨l, hl, hn, hv⟩
  · rw [e]
    refine ⟨l, ?_, hn, hv⟩
    rw [e0] at hl
    rcases List.mem_append.mp hl with h1 | h1
    · exact List.mem_append_left _ h1
    · exact List.mem_append_right _ (List.mem_cons_of_mem _ h1)

theorem addChild_binds_new {Childs : SCRIPTVAR_CHILDS} (h : StrictSorted Childs) {n : String}
    (hc : Comparable n Childs) (this nl u : Nat) (child : Option Nat) (fl : Nat)
    (hn : ∀ x ∈ Childs, x.name ≠ n) :
    Binds (addChild Childs this nl u n child fl).1 n (child.getD u) ∧
    (addChild Childs this nl u n child fl).2.map CScriptVarLink.var = some (child.getD u) := by
  rcases addChild_spec h hc this nl u child fl with ⟨⟨x, hx, e1⟩, _⟩ | ⟨_, l1, l2, e0, e, _⟩
  · exact absurd e1 (hn x hx)
  · rw [e]
    exact ⟨⟨_, List.mem_append_right _ (List.mem_cons_self _ _), rfl, rfl⟩, rfl⟩

theorem addChild_names {Childs : SCRIPTVAR_CHILDS} (this nl u : Nat) (n : String)
    (child : Option Nat) (fl : Nat) :
    ∀ x ∈ (addChild Childs this nl u n child fl).1, x.name = n ∨ x ∈ Childs := by
  intro x hx
  unfold addChild at hx
  simp only at hx
  split at hx
  · have := List.mem_insertIdx (a := x)
      (b := ({ name := n, var := child.getD u, flags := fl, owner := some this, owned := true,
               addr := nl } : CScriptVarLink)) (l := Childs)
      (n := lower_bound Childs n)
    by_cases hle : lower_bound Childs n ≤ Childs.length
    · rcases (this hle).mp hx with e | e
      · left; rw [e]
      · right; exact e
    · rw [List.insertIdx_of_length_lt _ _ _ (by omega)] at hx
      right; exact hx
  · right; exact hx

theorem addChildOrReplace_binds_self {Childs : SCRIPTVAR_CHILDS} (h : StrictSorted Childs)
    {n : String} (hc : Comparable n Childs) (this nl child fl : Nat) :
    Binds (addChildOrReplace Childs this nl n child fl).1 n child := by
  rcases addChildOrReplace_spec h hc this nl child fl with
    ⟨l1, y, l2, _, hy, e, _⟩ | ⟨_, l1, l2, _, e, _⟩
  · rw [e]
    exact ⟨_, List.mem_append_right _ (List.mem_cons_self _ _), hy, rfl⟩
  · rw [e]
    exact ⟨_, List.mem_append_right _ (List.mem_cons_self _ _), rfl, rfl⟩

theorem addChildOrReplace_binds_other {Childs : SCRIPTVAR_CHILDS} (h : StrictSorted Childs)
    {n : String} (hc : Comparable n Childs) (this nl child fl : Nat) {m : String} {v : Nat}
    (hm : m ≠ n) (hb : Binds Childs m v) :
    Binds (addChildOrReplace Childs this nl n child fl).1 m v := by
  obtain ⟨l, hl, hn, hv⟩ := hb
  rcases addChildOrReplace_spec h hc this nl child fl with
    ⟨l1, y, l2, e0, hy, e, _⟩ | ⟨_, l1, l2, e0, e, _⟩
  · rw [e]
    refine ⟨l, ?_, hn, hv⟩
    rw [e0] at hl
    rcases List.mem_append.mp hl with h1 | h1
    · exact List.mem_append_left _ h1
    · rcases List.mem_cons.mp h1 with h2 | h2
      · rw [h2] at hn; exact absurd (hn.symm.trans hy) hm
      · exact List.mem_append_right _ (List.mem_cons_of_mem _ h2)
  · rw [e]
    refine ⟨l, ?_, hn, hv⟩
    rw [e0] at hl
    rcases List.mem_append.mp hl with h1 | h1
    · exact List.mem_append_left _ h1
    · exact List.mem_append_right _ (List.mem_cons_of_mem _ h1)

theorem addChildOrReplace_names {Childs : SCRIPTVAR_CHILDS} (h : StrictSorted Childs)
    {n : String} (hc : Comparable n Childs) (this nl child fl : Nat) :
    ∀ x ∈ (addChildOrReplace Childs this nl n child fl).1,
      x.name = n ∨ ∃ y ∈ Childs, y.name = x.name := by
  intro x hx
  rcases addChildOrReplace_spec h hc this nl child fl with
    ⟨l1, y, l2, e0, hy, e, _⟩ | ⟨_, l1, l2, e0, e, _⟩
  · rw [e] at hx
    rcases List.mem_append.mp hx with h1 | h1
    · right; exact ⟨x, by rw [e0]; exact List.mem_append_left _ h1, rfl⟩
    · rcases List.mem_cons.mp h1 with h2 | h2
      · left; rw [h2]; exact hy
      · right; exact ⟨x, by rw [e0]; exact List.mem_append_right _ (List.mem_cons_of_mem _ h2), rfl⟩
  · rw [e] at hx
    rcases List.mem_append.mp hx with h1 | h1
    · right; exact ⟨x, by rw [e0]; exact List.mem_append_left _ h1, rfl⟩
    · rcases List.mem_cons.mp h1 with h2 | h2
      · left; rw [h2]
      · right; exact ⟨x, by rw [e0]; exact List.mem_append_right _ h2, rfl⟩

theorem comparable_of_neg {n : String} (hn : isDecimalNumber n < 0) (Childs : SCRIPTVAR_CHILDS) :
    Comparable n Childs := by
  intro x _
  by_cases e : x.name = n
  · left; exact e
  · right
    rcases nameLess_total_of_neg hn (fun e1 => e e1.symm) with h | h
    · right; exact h
    · left; rw [nameLess_eq]; exact h

theorem comparable_of_all_neg {Childs : SCRIPTVAR_CHILDS}
    (h : ∀ x ∈ Childs, isDecimalNumber x.name < 0) (n : String) : Comparable n Childs := by
  intro x hx
  by_cases e : x.name = n
  · left; exact e
  · right
    rcases nameLess_total_of_neg (h x hx) e with h1 | h1
    · left; rw [nameLess_eq]; exact h1
    · right; exact h1

end TinyJS

namespace TinyJS

/-! ## Decimal names: `isDecimalNumber` on `int2string` and on identifiers -/

theorem digit_char (k : Nat) (hk : k < 10) :
    isNumeric (Char.ofNat ('0'.toNat + k)) = true ∧
    ((Char.ofNat ('0'.toNat + k)).toNat : Int) - ('0'.toNat : Int) = k ∧
    (Char.ofNat ('0'.toNat + k) = '0' → k = 0) := by
  interval_cases k <;> decide

theorem wrapInt_of_range {x : Int} (h0 : 0 ≤ x) (h1 : x < 2147483648) : wrapInt x = x := by
  unfold wrapInt
  omega

theorem isDecimalNumberLoop_digits : ∀ (fuel n : Nat) (acc : List Char), n < fuel →
    n < 2147483648 →
    isDecimalNumberLoop (int2stringDigits fuel n acc) 0 = isDecimalNumberLoop acc n := by
  intro fuel
  induction fuel with
  | zero => intro n acc h; omega
  | succ fuel ih =>
    intro n acc h hn
    have hd := digit_char (n % 10) (Nat.mod_lt _ (by decide))
    simp only [int2stringDigits]
    by_cases h10 : n / 10 = 0
    · simp only [h10, if_true, isDecimalNumberLoop, hd.1, Bool.not_true, Bool.false_eq_true,
        if_false]
      congr 1
      have e : (0 : Int) * 10 + ((Char.ofNat ('0'.toNat + n % 10)).toNat : Int) - ('0'.toNat : Int)
          = ((n % 10 : Nat) : Int) := by
        have := hd.2.1
        omega
      rw [e]
      have hn10 : n % 10 = n := by omega
      rw [hn10]
      exact wrapInt_of_range (by omega) (by omega)
    · simp only [h10, if_false]
      rw [ih (n / 10) _ (by omega) (by omega)]
      simp only [isDecimalNumberLoop, hd.1, Bool.not_true, Bool.false_eq_true, if_false]
      congr 1
      have e : ((n / 10 : Nat) : Int) * 10 +
          ((Char.ofNat ('0'.toNat + n % 10)).toNat : Int) - ('0'.toNat : Int) = (n : Int) := by
        have := hd.2.1
        omega
      rw [e]
      exact wrapInt_of_range (by omega) (by omega)

theorem int2stringDigits_head : ∀ (fuel n : Nat) (acc : List Char), n < fuel →
    ∃ d rest, int2stringDigits fuel n acc = d :: rest ∧ (d = '0' → rest = acc) := by
  intro fuel
  induction fuel with
  | zero => intro n acc h; omega
  | succ fuel ih =>
    intro n acc h
    have hd := digit_char (n % 10) (Nat.mod_lt _ (by decide))
    simp only [int2stringDigits]
    by_cases h10 : n / 10 = 0
    · simp only [h10, if_true]
      exact ⟨_, _, rfl, fun _ => rfl⟩
    · simp only [h10, if_false]
      obtain ⟨d, rest, e, hz⟩ := ih (n / 10) (Char.ofNat ('0'.toNat + n % 10) :: acc) (by omega)
      refine ⟨d, rest, e, ?_⟩
      intro hd0
      exfalso
      -- the leading digit of a number that is not 0 is not '0'
      have key : ∀ (f m : Nat) (a : List Char), m < f → m ≠ 0 →
          ∀ d1 r1, int2stringDigits f m a = d1 :: r1 → d1 ≠ '0' := by
        intro f
        induction f with
        | zero => intro m a hm; omega
        | succ f ihf =>
          intro m a hm hm0 d1 r1 he
          have hdm := digit_char (m % 10) (Nat.mod_lt _ (by decide))
          simp only [int2stringDigits] at he
          by_cases hm10 : m / 10 = 0
          · simp only [hm10, if_true, List.cons.injEq] at he
            intro hz1
            rw [← he.1] at hz1
            have := hdm.2.2 hz1
            omega
          · simp only [hm10, if_false] at he
            exact ihf (m / 10) _ (by omega) hm10 d1 r1 he
      exact key fuel (n / 10) _ (by omega) h10 d rest e hd0

theorem isDecimalNumber_int2string (i : Nat) (hi : i < 2147483648) :
    isDecimalNumber (int2string (i : Int)) = (i : Int) := by
  unfold int2string
  have hneg : ¬ ((i : Int) < 0) := by omega
  simp only [hneg, if_false, Int.natAbs_ofNat]
  unfold isDecimalNumber
  obtain ⟨d, rest, e, hz⟩ := int2stringDigits_head (i + 1) i [] (by omega)
  have hloop := isDecimalNumberLoop_digits (i + 1) i [] (by omega) hi
  have hlen : (String.mk (int2stringDigits (i + 1) i [])).length
      = (int2stringDigits (i + 1) i []).length := rfl
  have hlist : (String.mk (int2stringDigits (i + 1) i [])).toList
      = int2stringDigits (i + 1) i [] := rfl
  rw [hlen, hlist, hloop]
  rw [e]
  have hcond : ¬ ((d :: rest).length = 0 ∨ ((d :: rest).length > 1 ∧
      (d :: rest).head? = some '0')) := by
    intro hc
    rcases hc with h1 | ⟨h1, h2⟩
    · simp at h1
    · simp only [List.head?_cons, Option.some.injEq] at h2
      have := hz h2
      rw [this] at h1
      simp at h1
  simp only [hcond, if_false, isDecimalNumberLoop]

theorem isNumeric_of_isAlpha {c : Char} (h : isAlpha c = true) : isNumeric c = false := by
  unfold isAlpha at h
  unfold isNumeric
  have e1 : 'a'.toNat = 97 := by decide
  have e2 : 'z'.toNat = 122 := by decide
  have e3 : 'A'.toNat = 65 := by decide
  have e4 : 'Z'.toNat = 90 := by decide
  have e5 : '0'.toNat = 48 := by decide
  have e6 : '9'.toNat = 57 := by decide
  rw [e1, e2, e3, e4] at h
  rw [e5, e6]
  simp only [Bool.or_eq_true, Bool.and_eq_true, decide_eq_true_eq, beq_iff_eq] at h
  rcases h with ((h | h) | h) | h
  · simp; omega
  · simp; omega
  · subst h; decide
  · subst h; decide

theorem isDecimalNumber_of_isIDString {s : String} (h : isIDString s = true) :
    isDecimalNumber s = -1 := by
  unfold isIDString at h
  unfold isDecimalNumber
  cases hs : s.toList with
  | nil => rw [hs] at h; simp at h
  | cons c cs =>
    rw [hs] at h
    simp only [Bool.and_eq_true] at h
    have hc := isNumeric_of_isAlpha h.1
    split
    · rfl
    · simp [isDecimalNumberLoop, hc]

theorem isDecimalNumber_neg_of_isIDString {s : String} (h : isIDString s = true) :
    isDecimalNumber s < 0 := by
  rw [isDecimalNumber_of_isIDString h]; decide

end TinyJS

namespace TinyJS

/-! ## The heap operations: what they change and what they leave -/

namespace CTinyJS

variable {D : Type}

theorem setChilds_length (c : CTinyJS D) (a : Nat) (cs : SCRIPTVAR_CHILDS) :
    (c.setChilds a cs).vars.length = c.vars.length := by
  unfold setChilds
  split <;> simp

theorem setChilds_childsOf (c : CTinyJS D) (a b : Nat) (cs : SCRIPTVAR_CHILDS)
    (ha : a < c.vars.length) :
    (c.setChilds a cs).childsOf b = if b = a then cs else c.childsOf b := by
  unfold setChilds childsOf
  have hget : c.vars[a]? = some (c.vars[a]) := List.getElem?_eq_getElem ha
  rw [hget]
  simp only
  by_cases hb : b = a
  · subst hb
    simp [List.getElem?_set, ha]
  · simp only [hb, if_false]
    rw [List.getElem?_set_ne (fun e => hb e.symm)]

theorem setChilds_valOf (c : CTinyJS D) (a b : Nat) (cs : SCRIPTVAR_CHILDS) :
    (c.setChilds a cs).valOf b = c.valOf b := by
  unfold setChilds valOf
  split
  · rename_i v hv
    by_cases hb : a = b
    · subst hb
      have ha : a < c.vars.length := by
        by_contra hcon
        rw [List.getElem?_eq_none (by omega)] at hv
        exact absurd hv (by simp)
      simp [List.getElem?_set, ha, hv]
    · simp only
      rw [List.getElem?_set_ne hb]
  · rfl

theorem setChilds_fields (c : CTinyJS D) (a : Nat) (cs : SCRIPTVAR_CHILDS) :
    (c.setChilds a cs).constUndefined = c.constUndefined ∧
    (c.setChilds a cs).scopes = c.scopes ∧
    (c.setChilds a cs).nextLink = c.nextLink ∧
    (c.setChilds a cs).objectPrototype = c.objectPrototype ∧
    (c.setChilds a cs).numberPrototype = c.numberPrototype ∧
    (c.setChilds a cs).runtimeFlags = c.runtimeFlags := by
  unfold setChilds
  split <;> simp

theorem addChild_length (c : CTinyJS D) (a : Nat) (n : String) (ch : Option Nat) (fl : Nat) :
    (c.addChild a n ch fl).1.vars.length = c.vars.length := by
  simp [addChild, setChilds_length]

theorem addChild_childsOf (c : CTinyJS D) (a b : Nat) (n : String) (ch : Option Nat) (fl : Nat)
    (ha : a < c.vars.length) :
    (c.addChild a n ch fl).1.childsOf b =
      if b = a then (TinyJS.addChild (c.childsOf a) a c.nextLink c.constUndefined n ch fl).1
      else c.childsOf b := by
  have := setChilds_childsOf c a b
    (TinyJS.addChild (c.childsOf a) a c.nextLink c.constUndefined n ch fl).1 ha
  simpa [addChild, childsOf] using this

theorem addChild_link (c : CTinyJS D) (a : Nat) (n : String) (ch : Option Nat) (fl : Nat) :
    (c.addChild a n ch fl).2 =
      (TinyJS.addChild (c.childsOf a) a c.nextLink c.constUndefined n ch fl).2 := rfl

theorem addChild_valOf (c : CTinyJS D) (a b : Nat) (n : String) (ch : Option Nat) (fl : Nat) :
    (c.addChild a n ch fl).1.valOf b = c.valOf b := by
  have := setChilds_valOf c a b
    (TinyJS.addChild (c.childsOf a) a c.nextLink c.constUndefined n ch fl).1
  simpa [addChild, valOf] using this

theorem addChild_fields (c : CTinyJS D) (a : Nat) (n : String) (ch : Option Nat) (fl : Nat) :
    (c.addChild a n ch fl).1.constUndefined = c.constUndefined ∧
    (c.addChild a n ch fl).1.scopes = c.scopes ∧
    (c.addChild a n ch fl).1.objectPrototype = c.objectPrototype ∧
    (c.addChild a n ch fl).1.numberPrototype = c.numberPrototype ∧
    (c.addChild a n ch fl).1.runtimeFlags = c.runtimeFlags := by
  have := setChilds_fields c a
    (TinyJS.addChild (c.childsOf a) a c.nextLink c.constUndefined n ch fl).1
  simp only [addChild]
  exact ⟨this.1, this.2.1, this.2.2.2.1, this.2.2.2.2.1, this.2.2.2.2.2⟩

theorem addChildOrReplace_length (c : CTinyJS D) (a : Nat) (n : String) (ch fl : Nat) :
    (c.addChildOrReplace a n ch fl).1.vars.length = c.vars.length := by
  simp [addChildOrReplace, setChilds_length]

theorem addChildOrReplace_childsOf (c : CTinyJS D) (a b : Nat) (n : String) (ch fl : Nat)
    (ha : a < c.vars.length) :
    (c.addChildOrReplace a n ch fl).1.childsOf b =
      if b = a then (TinyJS.addChildOrReplace (c.childsOf a) a c.nextLink n ch fl).1
      else c.childsOf b := by
  have := setChilds_childsOf c a b
    (TinyJS.addChildOrReplace (c.childsOf a) a c.nextLink n ch fl).1 ha
  simpa [addChildOrReplace, childsOf] using this

theorem addChildOrReplace_valOf (c : CTinyJS D) (a b : Nat) (n : String) (ch fl : Nat) :
    (c.addChildOrReplace a n ch fl).1.valOf b = c.valOf b := by
  have := setChilds_valOf c a b
    (TinyJS.addChildOrReplace (c.childsOf a) a c.nextLink n ch fl).1
  simpa [addChildOrReplace, valOf] using this

theorem addChildOrReplace_fields (c : CTinyJS D) (a : Nat) (n : String) (ch fl : Nat) :
    (c.addChildOrReplace a n ch fl).1.constUndefined = c.constUndefined ∧
    (c.addChildOrReplace a n ch fl).1.scopes = c.scopes ∧
    (c.addChildOrReplace a n ch fl).1.objectPrototype = c.objectPrototype ∧
    (c.addChildOrReplace a n ch fl).1.numberPrototype = c.numberPrototype ∧
    (c.addChildOrReplace a n ch fl).1.runtimeFlags = c.runtimeFlags := by
  have := setChilds_fields c a
    (TinyJS.addChildOrReplace (c.childsOf a) a c.nextLink n ch fl).1
  simp only [addChildOrReplace]
  exact ⟨this.1, this.2.1, this.2.2.2.1, this.2.2.2.2.1, this.2.2.2.2.2⟩

/-- The value that `newCScriptVar` allocates: it gets the address
`c.vars.length`, its only child is `__proto__`, and nothing else changes. -/
theorem newCScriptVar_spec (c : CTinyJS D) (val : Nat → ScriptVar D) (p : Nat)
    (data : Option CScriptTokenDataFnc) :
    (c.newCScriptVar val (some p) data).2 = c.vars.length ∧
    (c.newCScriptVar val (some p) data).1.vars.length = c.vars.length + 1 ∧
    (c.newCScriptVar val (some p) data).1.childsOf c.vars.length =
      [{ name := TINYJS___PROTO___VAR, var := p, flags := SCRIPTVARLINK_WRITABLE,
         owner := some c.vars.length, owned := true, addr := c.nextLink }] ∧
    (c.newCScriptVar val (some p) data).1.valOf c.vars.length = some (val c.vars.length) ∧
    (∀ b, b < c.vars.length →
      (c.newCScriptVar val (some p) data).1.childsOf b = c.childsOf b ∧
      (c.newCScriptVar val (some p) data).1.valOf b = c.valOf b) ∧
    (c.newCScriptVar val (some p) data).1.constUndefined = c.constUndefined ∧
    (c.newCScriptVar val (some p) data).1.scopes = c.scopes ∧
    (c.newCScriptVar val (some p) data).1.objectPrototype = c.objectPrototype ∧
    (c.newCScriptVar val (some p) data).1.numberPrototype = c.numberPrototype ∧
    (c.newCScriptVar val (some p) data).1.runtimeFlags = c.runtimeFlags := by
  unfold newCScriptVar
  simp only
  set c1 : CTinyJS D :=
    { c with vars := c.vars ++ [{ val := val c.vars.length, Childs := [], extensible := true,
                                  temporaryID := 0, data := data }] } with hc1
  have hlen : c1.vars.length = c.vars.length + 1 := by simp [hc1]
  have hlt : c.vars.length < c1.vars.length := by omega
  have hch : c1.childsOf c.vars.length = [] := by
    simp [hc1, childsOf]
  have hval : c1.valOf c.vars.length = some (val c.vars.length) := by
    simp [hc1, valOf]
  have hold : ∀ b, b < c.vars.length → c1.childsOf b = c.childsOf b ∧ c1.valOf b = c.valOf b := by
    intro b hb
    simp [hc1, childsOf, valOf, List.getElem?_append_left hb]
  have hf := addChild_fields c1 c.vars.length TINYJS___PROTO___VAR (some p) SCRIPTVARLINK_WRITABLE
  refine ⟨trivial, ?_, ?_, ?_, ?_, hf.1, hf.2.1, hf.2.2.1, hf.2.2.2.1, hf.2.2.2.2⟩
  · rw [addChild_length]; exact hlen
  · rw [addChild_childsOf _ _ _ _ _ _ hlt]
    simp only [if_true, hch]
    rfl
  · rw [addChild_valOf]; exact hval
  · intro b hb
    rw [addChild_childsOf _ _ _ _ _ _ hlt, addChild_valOf]
    have hne : b ≠ c.vars.length := by omega
    simp only [hne, if_false]
    exact hold b hb

end CTinyJS

end TinyJS

namespace TinyJS

/-! ## `callFunction`: the function scope and the `arguments` object -/

section CallFunction

variable {D : Type}

theorem int2string_ne_proto (j : Nat) (hj : j < 2147483648) :
    isDecimalNumber (int2string (j : Int)) ≠ isDecimalNumber TINYJS___PROTO___VAR := by
  rw [isDecimalNumber_int2string j hj]
  have : isDecimalNumber TINYJS___PROTO___VAR = -1 := by decide
  rw [this]
  omega

/-- One pass of the loop, first half: the argument `ia` is added to `arguments`. -/
theorem EnterInv.step_arg {c : CTinyJS D} {U : Nat} {S : List Nat} {fr ar : Nat} {ps : List String}
    {Arguments : List Nat} {ia ip : Nat} (h : EnterInv c U S fr ar ps Arguments ia ip)
    (hk : Arguments.length < 2147483648) (arg : Nat) (harg : Arguments[ia]? = some arg) :
    EnterInv (c.addChild ar (int2string (ia : Int)) (some arg) SCRIPTVARLINK_DEFAULT).1 U S fr ar
      ps Arguments (ia + 1) ip ∧
    (c.addChild ar (int2string (ia : Int)) (some arg) SCRIPTVARLINK_DEFAULT).2.map
      CScriptVarLink.var = some arg := by
  obtain ⟨h1, h2, h3, h4, h5, h6, h7, h8, h9, h10, h11, h12, h13⟩ := h
  have hia : ia < Arguments.length := by
    by_contra hcon
    rw [List.getElem?_eq_none (by omega)] at harg
    exact absurd harg (by simp)
  have hkey : isDecimalNumber (int2string (ia : Int)) = (ia : Int) :=
    isDecimalNumber_int2string ia (by omega)
  have hne : ∀ x ∈ c.childsOf ar, isDecimalNumber x.name ≠ isDecimalNumber (int2string (ia : Int)) := by
    intro x hx
    rcases h8 x hx with e | ⟨j, hj1, hj2, e⟩
    · rw [e]; exact (int2string_ne_proto ia (by omega)).symm
    · rw [e, hkey, isDecimalNumber_int2string j (by omega)]
      omega
  have hcomp : Comparable (int2string (ia : Int)) (c.childsOf ar) := by
    intro x hx
    right
    rcases nameLess_total_of_key_ne (hne x hx) with t | t
    · left; rw [nameLess_eq]; exact t
    · right; exact t
  have hnew : ∀ x ∈ c.childsOf ar, x.name ≠ int2string (ia : Int) := by
    intro x hx e
    exact hne x hx (by rw [e])
  have hch := CTinyJS.addChild_childsOf c ar ar (int2string (ia : Int)) (some arg)
    SCRIPTVARLINK_DEFAULT h2
  simp only [if_true] at hch
  have hchf := CTinyJS.addChild_childsOf c ar fr (int2string (ia : Int)) (some arg)
    SCRIPTVARLINK_DEFAULT h2
  simp only [h3, if_false] at hchf
  have hf := CTinyJS.addChild_fields c ar (int2string (ia : Int)) (some arg) SCRIPTVARLINK_DEFAULT
  have hb := addChild_binds_new h7 hcomp ar c.nextLink c.constUndefined (some arg)
    SCRIPTVARLINK_DEFAULT hnew
  refine ⟨⟨?_, ?_, h3, ?_, ?_, ?_, ?_, ?_, ?_, ?_, ?_, ?_, ?_⟩, ?_⟩
  · rw [CTinyJS.addChild_length]; exact h1
  · rw [CTinyJS.addChild_length]; exact h2
  · rw [hf.1]; exact h4
  · rw [hf.2.1]; exact h5
  · rw [hchf]; exact h6
  · rw [hch]; exact addChild_strictSorted h7 hcomp _ _ _ _ _
  · intro x hx
    rw [hch] at hx
    rcases addChild_names _ _ _ _ _ _ x hx with e | e
    · right; exact ⟨ia, by omega, hia, e⟩
    · rcases h8 x e with e1 | ⟨j, hj1, hj2, e1⟩
      · left; exact e1
      · right; exact ⟨j, by omega, hj2, e1⟩
  · intro j a hj ha
    rw [hch]
    by_cases hji : j = ia
    · subst hji
      rw [harg] at ha
      have : arg = a := Option.some.inj ha
      subst this
      exact hb.1
    · exact addChild_binds_old h7 hcomp _ _ _ _ _ (h9 j a (by omega) ha)
  · intro j p hj hp
    rw [hchf]
    exact h10 j p hj hp
  · intro hno
    rw [hchf]
    exact h11 hno
  · rw [CTinyJS.addChild_valOf]; exact h12
  · rw [CTinyJS.addChild_valOf]; exact h13
  · rw [CTinyJS.addChild_link]
    exact hb.2

/-- One pass of the loop, first half, when there is no argument `ia`. -/
theorem EnterInv.skip_arg {c : CTinyJS D} {U : Nat} {S : List Nat} {fr ar : Nat} {ps : List String}
    {Arguments : List Nat} {ia ip : Nat} (h : EnterInv c U S fr ar ps Arguments ia ip)
    (harg : Arguments[ia]? = none) : EnterInv c U S fr ar ps Arguments (ia + 1) ip := by
  obtain ⟨h1, h2, h3, h4, h5, h6, h7, h8, h9, h10, h11, h12, h13⟩ := h
  refine ⟨h1, h2, h3, h4, h5, h6, h7, ?_, ?_, h10, h11, h12, h13⟩
  · intro x hx
    rcases h8 x hx with e1 | ⟨j, hj1, hj2, e1⟩
    · left; exact e1
    · right; exact ⟨j, by omega, hj2, e1⟩
  · intro j a hj ha
    by_cases hji : j = ia
    · subst hji
      rw [harg] at ha
      exact absurd ha (by simp)
    · exact h9 j a (by omega) ha

/-- One pass of the loop, second half: the parameter `ip` is bound to `v`. -/
theorem EnterInv.step_param {c : CTinyJS D} {U : Nat} {S : List Nat} {fr ar : Nat}
    {ps : List String} {Arguments : List Nat} {ia ip : Nat}
    (h : EnterInv c U S fr ar ps Arguments ia ip)
    (hid : ∀ p ∈ ps, isIDString p = true) (hnd : ps.Nodup) (p : String)
    (hp : ps[ip]? = some p) :
    EnterInv (c.addChildOrReplace fr p ((Arguments[ip]?).getD U) SCRIPTVARLINK_DEFAULT).1 U S fr ar
      ps Arguments ia (ip + 1) := by
  obtain ⟨h1, h2, h3, h4, h5, h6, h7, h8, h9, h10, h11, h12, h13⟩ := h
  have hpm : p ∈ ps := List.getElem?_mem hp
  have hcomp : Comparable p (c.childsOf fr) :=
    comparable_of_neg (isDecimalNumber_neg_of_isIDString (hid p hpm)) _
  have hch := CTinyJS.addChildOrReplace_childsOf c fr fr p ((Arguments[ip]?).getD U)
    SCRIPTVARLINK_DEFAULT h1
  simp only [if_true] at hch
  have hcha := CTinyJS.addChildOrReplace_childsOf c fr ar p ((Arguments[ip]?).getD U)
    SCRIPTVARLINK_DEFAULT h1
  have h3' : ar ≠ fr := fun e => h3 e.symm
  simp only [h3', if_false] at hcha
  have hf := CTinyJS.addChildOrReplace_fields c fr p ((Arguments[ip]?).getD U)
    SCRIPTVARLINK_DEFAULT
  refine ⟨?_, ?_, h3, ?_, ?_, ?_, ?_, ?_, ?_, ?_, ?_, ?_, ?_⟩
  · rw [CTinyJS.addChildOrReplace_length]; exact h1
  · rw [CTinyJS.addChildOrReplace_length]; exact h2
  · rw [hf.1]; exact h4
  · rw [hf.2.1]; exact h5
  · rw [hch]; exact addChildOrReplace_strictSorted h6 hcomp _ _ _ _
  · rw [hcha]; exact h7
  · intro x hx
    rw [hcha] at hx
    exact h8 x hx
  · intro j a hj ha
    rw [hcha]
    exact h9 j a hj ha
  · intro j q hj hq
    rw [hch]
    by_cases hji : j = ip
    · subst hji
      rw [hp] at hq
      have : p = q := Option.some.inj hq
      subst this
      exact addChildOrReplace_binds_self h6 hcomp _ _ _ _
    · have hqp : q ≠ p := by
        intro e
        subst e
        have hj1 : j < ps.length := by
          by_contra hcon
          rw [List.getElem?_eq_none (by omega)] at hq
          exact absurd hq (by simp)
        have hj2 : ip < ps.length := by
          by_contra hcon
          rw [List.getElem?_eq_none (by omega)] at hp
          exact absurd hp (by simp)
        rw [List.getElem?_eq_getElem hj1] at hq
        rw [List.getElem?_eq_getElem hj2] at hp
        have := (List.Nodup.getElem_inj_iff hnd).mp ((Option.some.inj hq).trans (Option.some.inj hp).symm)
        exact hji this
      exact addChildOrReplace_binds_other h6 hcomp _ _ _ _ hqp (h10 j q (by omega) hq)
  · intro hno
    rw [hch]
    have hne : TINYJS_ARGUMENTS_VAR ≠ p := by
      intro e
      exact hno ip (by omega) (by rw [hp, e])
    exact addChildOrReplace_binds_other h6 hcomp _ _ _ _ hne
      (h11 (fun j hj => hno j (by omega)))
  · rw [CTinyJS.addChildOrReplace_valOf]; exact h12
  · rw [CTinyJS.addChildOrReplace_valOf]; exact h13

/-- One pass of the loop, second half, when there is no parameter `ip`. -/
theorem EnterInv.skip_param {c : CTinyJS D} {U : Nat} {S : List Nat} {fr ar : Nat}
    {ps : List String} {Arguments : List Nat} {ia ip : Nat}
    (h : EnterInv c U S fr ar ps Arguments ia ip) (hp : ps[ip]? = none) :
    EnterInv c U S fr ar ps Arguments ia (ip + 1) := by
  obtain ⟨h1, h2, h3, h4, h5, h6, h7, h8, h9, h10, h11, h12, h13⟩ := h
  refine ⟨h1, h2, h3, h4, h5, h6, h7, h8, h9, ?_, ?_, h12, h13⟩
  · intro j q hj hq
    by_cases hji : j = ip
    · subst hji
      rw [hp] at hq
      exact absurd hq (by simp)
    · exact h10 j q (by omega) hq
  · intro hno
    exact h11 (fun j hj => hno j (by omega))

end CallFunction

end TinyJS

namespace TinyJS

section CallFunction2

variable {D : Type}

/-- The parameter loop of `callFunction` for a function whose parameters are the
identifiers `ps`: it runs to its end and establishes `EnterInv` for all
arguments and all parameters. -/
theorem callFunction_loop_ids (E : Evaluator D) (Fnc : CScriptTokenDataFnc) (ps : List String)
    (hps : Fnc.arguments = ps.map FncArgument.LEX_ID) (hid : ∀ p ∈ ps, isIDString p = true)
    (hnd : ps.Nodup) (Arguments : List Nat) (hk : Arguments.length < 2147483648)
    (U : Nat) (S : List Nat) (fr ar : Nat) (ex : Bool) :
    ∀ (rem idx : Nat) (c : CTinyJS D), EnterInv c U S fr ar ps Arguments idx idx →
      ∃ c1, callFunction_loop E Fnc Arguments fr ar rem idx c ex = .done c1 ex ∧
        EnterInv c1 U S fr ar ps Arguments (idx + rem) (idx + rem) := by
  intro rem
  induction rem with
  | zero =>
    intro idx c h
    exact ⟨c, rfl, h⟩
  | succ rem ih =>
    intro idx c h
    have hU : c.constUndefined = U := h.2.2.2.1
    have hFa : Fnc.arguments[idx]? = (ps[idx]?).map FncArgument.LEX_ID := by
      rw [hps, List.getElem?_map]
    have hadd : idx + (rem + 1) = idx + 1 + rem := by omega
    rw [hadd]
    cases hA : Arguments[idx]? with
    | none =>
      have hJ1 := h.skip_arg hA
      cases hP : ps[idx]? with
      | none =>
        have hJ2 := hJ1.skip_param hP
        obtain ⟨c1, e1, J1⟩ := ih (idx + 1) c hJ2
        refine ⟨c1, ?_, J1⟩
        rw [← e1]
        simp only [callFunction_loop, hA, hFa, hP, Option.map_none']
      | some p =>
        have hJ2 := hJ1.step_param hid hnd p hP
        obtain ⟨c1, e1, J1⟩ := ih (idx + 1) _ hJ2
        refine ⟨c1, ?_, J1⟩
        rw [← e1]
        simp only [callFunction_loop, hA, hFa, hP, Option.map_some', Option.getD_none, hU]
    | some arg =>
      obtain ⟨hJ1, hl⟩ := h.step_arg hk arg hA
      cases hP : ps[idx]? with
      | none =>
        have hJ2 := hJ1.skip_param hP
        obtain ⟨c1, e1, J1⟩ := ih (idx + 1) _ hJ2
        refine ⟨c1, ?_, J1⟩
        rw [← e1]
        simp only [callFunction_loop, hA, hFa, hP, Option.map_none']
      | some p =>
        have hJ2 := hJ1.step_param hid hnd p hP
        obtain ⟨c1, e1, J1⟩ := ih (idx + 1) _ hJ2
        refine ⟨c1, ?_, J1⟩
        rw [← e1]
        simp only [callFunction_loop, hA, hFa, hP, Option.map_some', hl, Option.getD_some]

end CallFunction2

end TinyJS

namespace TinyJS

section CallFunction3

variable {D : Type}

/-- The method `addChild` on the heap, for a strictly sorted property list with which the
name is comparable. -/
theorem CTinyJS.heap_addChild_spec (c : CTinyJS D) (a : Nat) (n : String) (ch : Option Nat) (fl : Nat)
    (ha : a < c.vars.length) (hs : StrictSorted (c.childsOf a))
    (hc : Comparable n (c.childsOf a)) :
    (c.addChild a n ch fl).1.vars.length = c.vars.length ∧
    StrictSorted ((c.addChild a n ch fl).1.childsOf a) ∧
    (∀ x ∈ (c.addChild a n ch fl).1.childsOf a, x.name = n ∨ x ∈ c.childsOf a) ∧
    (∀ b, b ≠ a → (c.addChild a n ch fl).1.childsOf b = c.childsOf b) ∧
    (∀ b, (c.addChild a n ch fl).1.valOf b = c.valOf b) ∧
    (∀ m v, Binds (c.childsOf a) m v → Binds ((c.addChild a n ch fl).1.childsOf a) m v) ∧
    ((∀ x ∈ c.childsOf a, x.name ≠ n) →
      Binds ((c.addChild a n ch fl).1.childsOf a) n (ch.getD c.constUndefined) ∧
      (c.addChild a n ch fl).2.map CScriptVarLink.var = some (ch.getD c.constUndefined)) := by
  have hch := CTinyJS.addChild_childsOf c a a n ch fl ha
  simp only [if_true] at hch
  refine ⟨CTinyJS.addChild_length _ _ _ _ _, ?_, ?_, ?_, ?_, ?_, ?_⟩
  · rw [hch]; exact addChild_strictSorted hs hc _ _ _ _ _
  · intro x hx
    rw [hch] at hx
    exact addChild_names _ _ _ _ _ _ x hx
  · intro b hb
    rw [CTinyJS.addChild_childsOf c a b n ch fl ha]
    simp [hb]
  · intro b
    exact CTinyJS.addChild_valOf _ _ _ _ _ _
  · intro m v hb
    rw [hch]
    exact addChild_binds_old hs hc _ _ _ _ _ hb
  · intro hn
    rw [hch, CTinyJS.addChild_link]
    exact addChild_binds_new hs hc _ _ _ _ _ hn

theorem strictSorted_singleton (l : CScriptVarLink) : StrictSorted [l] := by
  unfold StrictSorted
  simp

/-- The function scope that `newScriptVarScopeFnc` allocates. -/
theorem CTinyJS.newScriptVarScopeFnc_spec (c : CTinyJS D) (closure : Option Nat) :
    (c.newScriptVarScopeFnc closure).2 = c.vars.length ∧
    (c.newScriptVarScopeFnc closure).1.vars.length = c.vars.length + 1 ∧
    StrictSorted ((c.newScriptVarScopeFnc closure).1.childsOf c.vars.length) ∧
    (∀ x ∈ (c.newScriptVarScopeFnc closure).1.childsOf c.vars.length,
      x.name = TINYJS___PROTO___VAR ∨ x.name = TINYJS_FUNCTION_CLOSURE_VAR) ∧
    (c.newScriptVarScopeFnc closure).1.valOf c.vars.length
      = some (.object .ScopeFnc c.vars.length) ∧
    (c.newScriptVarScopeFnc closure).1.constUndefined = c.constUndefined ∧
    (c.newScriptVarScopeFnc closure).1.scopes = c.scopes ∧
    (c.newScriptVarScopeFnc closure).1.objectPrototype = c.objectPrototype ∧
    (c.newScriptVarScopeFnc closure).1.numberPrototype = c.numberPrototype := by
  obtain ⟨s1, s2, s3, s4, _, s6, s7, s8, s9, _⟩ :=
    CTinyJS.newCScriptVar_spec c (fun addr => ScriptVar.object ObjectClass.ScopeFnc addr)
      c.objectPrototype none
  unfold CTinyJS.newScriptVarScopeFnc
  cases closure with
  | none =>
    simp only
    refine ⟨s1, s2, ?_, ?_, s4, s6, s7, s8, s9⟩
    · rw [s3]; exact strictSorted_singleton _
    · intro x hx
      rw [s3] at hx
      left
      simpa using congrArg CScriptVarLink.name (List.mem_singleton.mp hx)
  | some cl =>
    simp only
    rw [s1]
    have hlt : c.vars.length <
        (c.newCScriptVar (fun addr => ScriptVar.object ObjectClass.ScopeFnc addr)
          (some c.objectPrototype) none).1.vars.length := by omega
    have hss : StrictSorted ((c.newCScriptVar
        (fun addr => ScriptVar.object ObjectClass.ScopeFnc addr)
        (some c.objectPrototype) none).1.childsOf c.vars.length) := by
      rw [s3]; exact strictSorted_singleton _
    have hneg : isDecimalNumber TINYJS_FUNCTION_CLOSURE_VAR < 0 := by decide
    obtain ⟨a1, a2, a3, _, a5, _, _⟩ :=
      CTinyJS.heap_addChild_spec _ c.vars.length TINYJS_FUNCTION_CLOSURE_VAR (some cl) 0 hlt hss
        (comparable_of_neg hneg _)
    have hf := CTinyJS.addChild_fields (c.newCScriptVar
        (fun addr => ScriptVar.object ObjectClass.ScopeFnc addr)
        (some c.objectPrototype) none).1 c.vars.length TINYJS_FUNCTION_CLOSURE_VAR (some cl) 0
    refine ⟨rfl, by rw [a1]; exact s2, a2, ?_, by rw [a5]; exact s4, by rw [hf.1]; exact s6,
      by rw [hf.2.1]; exact s7, by rw [hf.2.2.1]; exact s8, by rw [hf.2.2.2.1]; exact s9⟩
    intro x hx
    rcases a3 x hx with e | e
    · right; exact e
    · rw [s3] at e
      left
      simpa using congrArg CScriptVarLink.name (List.mem_singleton.mp e)

end CallFunction3

end TinyJS

namespace TinyJS

section CallFunction4

variable {D : Type}

/-- The first part of `callFunction` for a function whose parameters are the
identifiers `ps`, pairwise distinct: the scope is the fresh value at
`c.vars.length`, the `arguments` object the fresh value after it; the scope
binds the parameters, `arguments` holds the arguments under their indices and
their number under `length`. -/
theorem callFunction_enter_ids (E : Evaluator D) (c : CTinyJS D) (ex : Bool) (F : Nat)
    (Fnc : CScriptTokenDataFnc) (Arguments : List Nat) (This : Nat) (ps : List String)
    (hps : Fnc.arguments = ps.map FncArgument.LEX_ID) (hid : ∀ p ∈ ps, isIDString p = true)
    (hnd : ps.Nodup) (hname : Fnc.name ≠ TINYJS_ARGUMENTS_VAR)
    (hk : Arguments.length < 2147483648) :
    ∃ c8 lengthVar,
      callFunction_enter E c ex F Fnc Arguments This
        = .entered c8 ex c.vars.length (c.vars.length + 1) ∧
      c8.scopes = c.vars.length :: c.scopes ∧
      c8.constUndefined = c.constUndefined ∧
      c8.valOf c.vars.length = some (.object .ScopeFnc c.vars.length) ∧
      c8.valOf (c.vars.length + 1) = some (.object .Object (c.vars.length + 1)) ∧
      (∀ (i : Nat) p, ps[i]? = some p → (c8.findChild c.vars.length p).map CScriptVarLink.var
        = some ((Arguments[i]?).getD c.constUndefined)) ∧
      (∀ (i : Nat) a, Arguments[i]? = some a →
        (c8.findChild (c.vars.length + 1) (int2string (i : Int))).map CScriptVarLink.var
          = some a) ∧
      (c8.findChild (c.vars.length + 1) "length").map CScriptVarLink.var = some lengthVar ∧
      c8.valOf lengthVar = some (.integer (Arguments.length : Int) false) ∧
      (TINYJS_ARGUMENTS_VAR ∉ ps →
        (c8.findChild c.vars.length TINYJS_ARGUMENTS_VAR).map CScriptVarLink.var
          = some (c.vars.length + 1)) := by
  unfold callFunction_enter
  dsimp only
  -- the scope
  obtain ⟨p1, p2, p3, p4, p5, p6, p7, p8, p9⟩ :=
    CTinyJS.newScriptVarScopeFnc_spec c
      ((c.findChild F TINYJS_FUNCTION_CLOSURE_VAR).map CScriptVarLink.var)
  generalize c.newScriptVarScopeFnc
    ((c.findChild F TINYJS_FUNCTION_CLOSURE_VAR).map CScriptVarLink.var) = r0 at *
  rw [p1]
  have hn0 : c.vars.length < r0.1.vars.length := by omega
  have hnegP : isDecimalNumber TINYJS___PROTO___VAR < 0 := by decide
  have hnegC : isDecimalNumber TINYJS_FUNCTION_CLOSURE_VAR < 0 := by decide
  -- the name of the function
  have q : ∃ c1 : CTinyJS D,
      (if Fnc.name.length ≠ 0 then
        (r0.1.addChild c.vars.length Fnc.name (some F) SCRIPTVARLINK_DEFAULT).1 else r0.1) = c1 ∧
      c1.vars.length = c.vars.length + 1 ∧ StrictSorted (c1.childsOf c.vars.length) ∧
      (∀ x ∈ c1.childsOf c.vars.length, x.name = TINYJS___PROTO___VAR ∨
        x.name = TINYJS_FUNCTION_CLOSURE_VAR ∨ x.name = Fnc.name) ∧
      c1.valOf c.vars.length = some (.object .ScopeFnc c.vars.length) ∧
      c1.constUndefined = c.constUndefined ∧ c1.scopes = c.scopes ∧
      c1.objectPrototype = c.objectPrototype ∧ c1.numberPrototype = c.numberPrototype := by
    by_cases hnm : Fnc.name.length ≠ 0
    · rw [if_pos hnm]
      have hcomp : Comparable Fnc.name (r0.1.childsOf c.vars.length) := by
        apply comparable_of_all_neg
        intro x hx
        rcases p4 x hx with e | e
        · rw [e]; exact hnegP
        · rw [e]; exact hnegC
      obtain ⟨a1, a2, a3, _, a5, _, _⟩ :=
        CTinyJS.heap_addChild_spec r0.1 c.vars.length Fnc.name (some F) SCRIPTVARLINK_DEFAULT hn0 p3 hcomp
      have hf := CTinyJS.addChild_fields r0.1 c.vars.length Fnc.name (some F) SCRIPTVARLINK_DEFAULT
      refine ⟨_, rfl, by rw [a1]; exact p2, a2, ?_, by rw [a5]; exact p5, by rw [hf.1]; exact p6,
        by rw [hf.2.1]; exact p7, by rw [hf.2.2.1]; exact p8, by rw [hf.2.2.2.1]; exact p9⟩
      intro x hx
      rcases a3 x hx with e | e
      · right; right; exact e
      · rcases p4 x e with e1 | e1
        · left; exact e1
        · right; left; exact e1
    · rw [if_neg hnm]
      refine ⟨_, rfl, p2, p3, ?_, p5, p6, p7, p8, p9⟩
      intro x hx
      rcases p4 x hx with e1 | e1
      · left; exact e1
      · right; left; exact e1
  obtain ⟨c1, hc1, q2, q3, q4, q5, q6, q7, q8, q9⟩ := q
  rw [hc1]
  clear hc1 p2 p3 p4 p5 p6 p7 p8 p9 hn0 p1 r0
  -- this
  have hn1 : c.vars.length < c1.vars.length := by omega
  have hnegT : isDecimalNumber "this" < 0 := by decide
  obtain ⟨t1, t2, t3, _, t5, _, _⟩ :=
    CTinyJS.heap_addChild_spec c1 c.vars.length "this" (some This) SCRIPTVARLINK_DEFAULT hn1 q3
      (comparable_of_neg hnegT _)
  have tf := CTinyJS.addChild_fields c1 c.vars.length "this" (some This) SCRIPTVARLINK_DEFAULT
  generalize (c1.addChild c.vars.length "this" (some This) SCRIPTVARLINK_DEFAULT).1 = c2 at *
  have t4 : ∀ x ∈ c2.childsOf c.vars.length, x.name ≠ TINYJS_ARGUMENTS_VAR := by
    intro x hx
    rcases t3 x hx with e | e
    · rw [e]; decide
    · rcases q4 x e with e1 | e1 | e1
      · rw [e1]; decide
      · rw [e1]; decide
      · rw [e1]; exact hname
  -- the arguments object
  obtain ⟨o1, o2, o3, o4, o5, o6, o7, o8, o9, _⟩ :=
    CTinyJS.newCScriptVar_spec c2 (fun addr => ScriptVar.object ObjectClass.Object addr)
      c2.objectPrototype none
  unfold CTinyJS.newScriptVarObject
  generalize c2.newCScriptVar (fun addr => ScriptVar.object ObjectClass.Object addr)
    (some c2.objectPrototype) none = r3 at *
  have hlen2 : c2.vars.length = c.vars.length + 1 := by rw [t1]; exact q2
  rw [hlen2] at o1 o2 o3 o4 o5
  rw [o1]
  have hn3 : c.vars.length < r3.1.vars.length := by omega
  have hnegA : isDecimalNumber TINYJS_ARGUMENTS_VAR < 0 := by decide
  have hfr3 := o5 c.vars.length (by omega)
  have hss3 : StrictSorted (r3.1.childsOf c.vars.length) := by rw [hfr3.1]; exact t2
  obtain ⟨g1, g2, _, g4, g5, _, g7⟩ :=
    CTinyJS.heap_addChild_spec r3.1 c.vars.length TINYJS_ARGUMENTS_VAR (some (c.vars.length + 1))
      SCRIPTVARLINK_DEFAULT hn3 hss3 (comparable_of_neg hnegA _)
  have gf := CTinyJS.addChild_fields r3.1 c.vars.length TINYJS_ARGUMENTS_VAR
    (some (c.vars.length + 1)) SCRIPTVARLINK_DEFAULT
  have g8 := g7 (by rw [hfr3.1]; exact t4)
  simp only [Option.getD_some] at g8
  obtain ⟨g8a, g8b⟩ := g8
  -- the link returned for `arguments`
  cases hlink : (r3.1.addChild c.vars.length TINYJS_ARGUMENTS_VAR (some (c.vars.length + 1))
      SCRIPTVARLINK_DEFAULT).2 with
  | none => rw [hlink] at g8b; simp at g8b
  | some argumentsLink =>
    rw [hlink] at g8b
    simp only [Option.map_some', Option.some.injEq] at g8b
    simp only
    rw [g8b]
    generalize (r3.1.addChild c.vars.length TINYJS_ARGUMENTS_VAR (some (c.vars.length + 1))
      SCRIPTVARLINK_DEFAULT).1 = c4 at *
    -- the invariant before the loop
    have hinv : EnterInv c4 c.constUndefined c.scopes c.vars.length (c.vars.length + 1) ps
        Arguments 0 0 := by
      refine ⟨by omega, by omega, by omega, ?_, ?_, g2, ?_, ?_, ?_, ?_, ?_, ?_, ?_⟩
      · rw [gf.1, o6, tf.1]; exact q6
      · rw [gf.2.1, o7, tf.2.1]; exact q7
      · rw [g4 _ (by omega), o3]; exact strictSorted_singleton _
      · intro x hx
        rw [g4 _ (by omega), o3] at hx
        left
        simpa using congrArg CScriptVarLink.name (List.mem_singleton.mp hx)
      · intro j a hj; omega
      · intro j p hj; omega
      · intro _; exact g8a
      · rw [g5, hfr3.2, t5]; exact q5
      · rw [g5]; exact o4
    -- the loop
    obtain ⟨c5, e5, J5⟩ := callFunction_loop_ids E Fnc ps hps hid hnd Arguments hk
      c.constUndefined c.scopes c.vars.length (c.vars.length + 1) ex
      (max Fnc.arguments.length Arguments.length) 0 c4 hinv
    rw [e5]
    simp only
    clear e5 hinv
    obtain ⟨j1, j2, j3, j4, j5, j6, j7, j8, j9, j10, j11, j12, j13⟩ := J5
    have hmax : 0 + max Fnc.arguments.length Arguments.length
        = max ps.length Arguments.length := by
      rw [hps]; simp
    rw [hmax] at j8 j9 j10 j11
    -- the length
    obtain ⟨l1, l2, l3, l4, l5, l6, l7, _, _, _⟩ :=
      CTinyJS.newCScriptVar_spec c5
        (fun _ => ScriptVar.integer (Arguments.length : Int) false) c5.numberPrototype none
    unfold CTinyJS.newScriptVarInteger
    generalize c5.newCScriptVar (fun _ => ScriptVar.integer (Arguments.length : Int) false)
      (some c5.numberPrototype) none = r6 at *
    rw [l1]
    have hn6 : c.vars.length + 1 < r6.1.vars.length := by omega
    have hnegL : isDecimalNumber "length" < 0 := by decide
    have har6 := l5 (c.vars.length + 1) j2
    have hfr6 := l5 c.vars.length j1
    have hss6 : StrictSorted (r6.1.childsOf (c.vars.length + 1)) := by rw [har6.1]; exact j7
    obtain ⟨m1, m2, _, m4, m5, m6, m7⟩ :=
      CTinyJS.heap_addChild_spec r6.1 (c.vars.length + 1) "length" (some c5.vars.length)
        SCRIPTVARLINK_DEFAULT hn6 hss6 (comparable_of_neg hnegL _)
    have mf := CTinyJS.addChild_fields r6.1 (c.vars.length + 1) "length" (some c5.vars.length)
      SCRIPTVARLINK_DEFAULT
    have hnolen : ∀ x ∈ r6.1.childsOf (c.vars.length + 1), x.name ≠ "length" := by
      intro x hx
      rw [har6.1] at hx
      rcases j8 x hx with e | ⟨j, _, hj2, e⟩
      · rw [e]; decide
      · intro e2
        have hkey := isDecimalNumber_int2string j (by omega)
        rw [← e, e2] at hkey
        have : isDecimalNumber "length" = -1 := by decide
        rw [this] at hkey
        omega
    have m8 := (m7 hnolen).1
    simp only [Option.getD_some] at m8
    generalize (r6.1.addChild (c.vars.length + 1) "length" (some c5.vars.length)
      SCRIPTVARLINK_DEFAULT).1 = c7 at *
    have hfr7 : c7.childsOf c.vars.length = c5.childsOf c.vars.length := by
      rw [m4 _ (by omega), hfr6.1]
    refine ⟨_, c5.vars.length, rfl, ?_, ?_, ?_, ?_, ?_, ?_, ?_, ?_, ?_⟩
    · show c.vars.length :: c7.scopes = c.vars.length :: c.scopes
      rw [mf.2.1, l7, j5]
    · show c7.constUndefined = c.constUndefined
      rw [mf.1, l6, j4]
    · show c7.valOf c.vars.length = _
      rw [m5, hfr6.2]; exact j12
    · show c7.valOf (c.vars.length + 1) = _
      rw [m5, har6.2]; exact j13
    · intro i p hp
      show (TinyJS.findChild (c7.childsOf c.vars.length) p).map CScriptVarLink.var = _
      rw [hfr7]
      have hi : i < ps.length := by
        by_contra hcon
        rw [List.getElem?_eq_none (by omega)] at hp
        exact absurd hp (by simp)
      exact (j10 i p (lt_of_lt_of_le hi (le_max_left _ _)) hp).findChild_var j6
    · intro i a ha
      show (TinyJS.findChild (c7.childsOf (c.vars.length + 1)) _).map CScriptVarLink.var = _
      have hi : i < Arguments.length := by
        by_contra hcon
        rw [List.getElem?_eq_none (by omega)] at ha
        exact absurd ha (by simp)
      have hb := j9 i a (lt_of_lt_of_le hi (le_max_right _ _)) ha
      rw [← har6.1] at hb
      exact (m6 _ _ hb).findChild_var m2
    · show (TinyJS.findChild (c7.childsOf (c.vars.length + 1)) _).map CScriptVarLink.var = _
      exact m8.findChild_var m2
    · show c7.valOf c5.vars.length = _
      rw [m5]; exact l4
    · intro hno
      show (TinyJS.findChild (c7.childsOf c.vars.length) _).map CScriptVarLink.var = _
      rw [hfr7]
      refine (j11 ?_).findChild_var j6
      intro j _ e
      exact hno (List.getElem?_mem e)

end CallFunction4

end TinyJS

namespace TinyJS

/-! ## The search of the table before a regular expression -/

theorem regexpOrSlash_append (k : Nat) (ps rest : List Nat) (h : ∀ p ∈ ps, p ≠ 0) :
    regexpOrSlash k (ps ++ 0 :: rest) = if k ∈ ps then tkChar '/' else LEX_REGEXP := by
  induction ps with
  | nil => simp [regexpOrSlash]
  | cons p ps ih =>
    have hp : p ≠ 0 := h p (List.mem_cons_self _ _)
    have ih1 := ih (fun q hq => h q (List.mem_cons_of_mem _ hq))
    rw [List.cons_append, regexpOrSlash, if_neg hp]
    by_cases hpk : p = k
    · rw [if_pos hpk, if_pos (by rw [hpk]; exact List.mem_cons_self _ _)]
    · rw [if_neg hpk, ih1]
      have hkp : ¬ k = p := fun e => hpk e.symm
      simp only [List.mem_cons, hkp, false_or]

theorem not_allowed_tokens_befor_regexp_eq :
    not_allowed_tokens_befor_regexp = noRegexpAfter ++ 0 :: [] := rfl

theorem noRegexpAfter_ne_zero : ∀ p ∈ noRegexpAfter, p ≠ 0 := by decide

end TinyJS

namespace TinyJS

/-! ## Facts on the tokenizer and the statements, for every input -/

/-- Source `pushToken(Tokens, ';')` at a token that is no `;`: a `;` is put into the
buffer and the lexer stays where it is when a line break is recorded before the
token or the token is `\x7d` or the end of the text; otherwise the call throws a
`SyntaxError` (and gives no buffer). -/
theorem pushToken_semicolon (T : Tokenizing) (h : T.l.tk ≠ tkChar ';') :
    (T.l.lineBreakBeforeToken = true ∨ T.l.tk = tkChar '\x7d' ∨ T.l.tk = LEX_EOF →
      CScriptTokenizer.pushToken T (some (tkChar ';')) none =
        .ok ({ T with Tokens := T.Tokens ++ [CScriptToken.simple (tkChar ';') 0] },
          T.Tokens.length)) ∧
    (¬ (T.l.lineBreakBeforeToken = true ∨ T.l.tk = tkChar '\x7d' ∨ T.l.tk = LEX_EOF) →
      ∃ msg, CScriptTokenizer.pushToken T (some (tkChar ';')) none =
        .error (.exception "SyntaxError" msg)) := by
  constructor
  · intro hc
    simp only [CScriptTokenizer.pushToken]
    rw [if_pos (And.intro trivial (And.intro h hc))]
  · intro hc
    have heof : T.l.tk ≠ LEX_EOF := fun e => hc (Or.inr (Or.inr e))
    simp only [CScriptTokenizer.pushToken]
    rw [if_neg (fun x => hc x.2.2)]
    have hchk : T.l.check (tkChar ';') none = some (.exception "SyntaxError"
        ("Got '" ++ getTokenStr T.l.tk ++ "' expected '" ++ getTokenStr (tkChar ';') ++ "'" ++
          "")) := by
      simp only [CScriptLex.check]
      rw [if_neg (fun x => heof x.2), if_pos (And.intro h (by simp)),
        if_neg (by decide)]
    simp only [CScriptTokenizer.tokenOfLex, CScriptLex.«match», hchk]
    exact ⟨_, rfl⟩

/-- Source `break L;` and `continue L;`: the statement leaves `label` as it was (it
clears `execute` before `if(execute) label = t->tkStr();`). -/
theorem execute_break_keeps_label {D : Type} (s : Exec D) (execute : Bool)
    (r : Exec D × Bool) (h : execute_break s execute = .ok r) : r.1.label = s.label := by
  unfold execute_break at h
  cases execute with
  | false =>
    simp only [Bool.false_eq_true, if_false, Except.ok.injEq] at h
    rw [← h]; rfl
  | true =>
    simp only [if_true, bind, Except.bind, Bool.false_eq_true, if_false] at h
    have hm : ∀ (a b : Exec D) (e : Nat) (alt : Option Nat), a.«match» e alt = .ok b →
        b.label = a.label := by
      intro a b e alt hab
      unfold Exec.«match» at hab
      cases hc : a.check e alt with
      | error x => rw [hc] at hab; cases hab
      | ok v =>
        rw [hc] at hab
        cases v with
        | false => simp only [Except.ok.injEq] at hab; rw [← hab]
        | true =>
          simp only [Except.ok.injEq] at hab
          rw [← hab]; unfold Exec.getNextToken; split <;> rfl
    split at h
    · cases h
    · rename_i s1 h1
      split at h
      · cases h
      · rename_i s3 h3
        split at h
        · cases h
        · rename_i s4 h4
          simp only [Except.ok.injEq] at h
          have e3 : s3.label = s1.label := by
            split at h3
            · exact hm _ _ _ _ h3
            · simp only [Except.ok.injEq] at h3
              rw [h3]
          rw [← h]
          simp only
          rw [hm _ _ _ _ h4, e3, hm _ _ _ _ h1]

/-- A statement that begins with the token `LEX_T_DUMMY_LABEL` (a label before a
loop or a `try`) throws a `SyntaxError`, whatever the rest is. -/
theorem dummy_label_statement_throws {D : Type} (E : Expressions D) (fuel : Nat) (s : Exec D)
    (execute : Bool) (h : s.tk = LEX_T_DUMMY_LABEL) :
    execute_statement E (fuel + 1) s execute =
      .error (.exception "SyntaxError" "Got unexpected LABEL") := by
  unfold execute_statement execute_statement_step
  simp only [h]
  have hs : startsExpression LEX_T_DUMMY_LABEL = false := by decide
  have hstr : getTokenStr LEX_T_DUMMY_LABEL = "LABEL" := by decide
  have hm : s.«match» LEX_EOF none = .error (.exception "SyntaxError" "Got unexpected LABEL") := by
    simp only [Exec.«match», Exec.check, h, hstr]
    rw [if_neg (by decide), if_pos (by decide), if_pos trivial]
    rfl
  simp [execute_base, h, hs, hm, bind, Except.bind, tkChar]

/-- Source `case LEX_T_FORWARD`: after the statement the set `lets` of the forwarder
token is its set `vars`. -/
theorem execute_forward_overwrites_lets {D : Type} (E : Expressions D) (s s1 : Exec D)
    (lets vars vl : List String) (functions : List CScriptToken)
    (htok : s.tokens[s.pos]? = some (.forwarder lets vars vl functions))
    (h : execute_forward E s = .ok s1) :
    s1.tokens[s.pos]? = some (.forwarder vars vars vl functions) := by
  have hget : s.getToken = .forwarder lets vars vl functions := by
    unfold Exec.getToken; rw [htok]; rfl
  have hlt : s.pos < s.tokens.length := by
    rcases List.getElem?_eq_some_iff.mp htok with ⟨hl, _⟩
    exact hl
  unfold execute_forward at h
  rw [hget] at h
  simp only at h
  split at h
  · cases h
  · split at h
    · cases h
    · unfold Exec.«match» at h
      split at h
      · rename_i v hv
        simp only [Except.ok.injEq] at h
        rw [← h]
        unfold Exec.getNextToken
        split <;> simp [List.getElem?_set, hlt]
      · simp only [Except.ok.injEq] at h
        rw [← h]
        simp [List.getElem?_set, hlt]
      · cases h

/-- A `try` statement returns no link, whatever it executes: `execute_statement`
sets `ret` in the cases of an expression statement only. -/
theorem try_statement_gives_no_link {D : Type} (E : Expressions D) (fuel : Nat) (s : Exec D)
    (execute : Bool) (r : Exec D × Bool × Option Nat) (htk : s.tk = LEX_R_TRY)
    (h : execute_statement E (fuel + 1) s execute = .ok r) : r.2.2 = none := by
  unfold execute_statement execute_statement_step at h
  simp only [htk] at h
  simp only [show ¬ (LEX_R_TRY = tkChar '\x7b') by decide, show ¬ (LEX_R_TRY = tkChar ';') by decide,
    show ¬ (LEX_R_TRY = LEX_T_FORWARD) by decide,
    show ¬ (LEX_R_TRY = LEX_R_VAR ∨ LEX_R_TRY = LEX_R_LET) by decide,
    show ¬ (LEX_R_TRY = LEX_R_WITH) by decide, show ¬ (LEX_R_TRY = LEX_R_IF) by decide,
    show ¬ (LEX_R_TRY = LEX_R_DO) by decide, show ¬ (LEX_R_TRY = LEX_R_WHILE) by decide,
    show ¬ (LEX_R_TRY = LEX_T_FOR_IN ∨ LEX_R_TRY = LEX_T_FOR_EACH_IN) by decide,
    show ¬ (LEX_R_TRY = LEX_R_FOR) by decide,
    show ¬ (LEX_R_TRY = LEX_R_BREAK ∨ LEX_R_TRY = LEX_R_CONTINUE) by decide,
    show ¬ (LEX_R_TRY = LEX_R_RETURN) by decide,
    show ¬ (LEX_R_TRY = LEX_R_FUNCTION ∨ LEX_R_TRY = LEX_R_FUNCTION_PLACEHOLDER) by decide,
    if_false, if_true] at h
  cases ht : execute_try E (execute_statement E fuel) fuel s execute with
  | error e => rw [ht] at h; cases h
  | ok v =>
    rw [ht] at h
    simp only [Except.map, Except.ok.injEq] at h
    rw [← h]

/-! ## Steps of the evaluator of statements -/

theorem Exec.tk_eq {D : Type} (s : Exec D) : s.tk = kindAt s.tokens s.pos := rfl

/-- Source `t->match(tk)` at a token of the kind expected: the cursor moves on by
one token. -/
theorem Exec.match_same {D : Type} (s : Exec D) (t : Nat) (h : kindAt s.tokens s.pos = t)
    (h0 : t ≠ LEX_EOF) :
    s.«match» t none = .ok { s with pos := s.pos + 1 } := by
  have htk : s.tk = t := h
  have hne : tkChar ';' ≠ tkChar '\x7d' := by decide
  unfold Exec.«match» Exec.check
  rw [if_neg (by rw [htk]; exact fun x => x.2.elim h0 (fun y => hne (x.1.symm.trans y))),
    if_neg (by rw [htk]; simp)]
  simp only [Exec.getNextToken]
  rw [if_neg (by rw [htk]; exact h0)]

theorem execute_statement_step_try {D : Type} (E : Expressions D) (stmt : StatementFn D)
    (fuel : Nat) (s : Exec D) (execute : Bool) (h : kindAt s.tokens s.pos = LEX_R_TRY) :
    execute_statement_step E stmt fuel s execute =
      (execute_try E stmt fuel s execute).map fun x => (x.1, x.2, none) := by
  have htk : s.tk = LEX_R_TRY := h
  unfold execute_statement_step
  simp only [htk]
  rfl

theorem execute_statement_step_throw {D : Type} (E : Expressions D) (stmt : StatementFn D)
    (fuel : Nat) (s : Exec D) (execute : Bool) (h : kindAt s.tokens s.pos = LEX_R_THROW) :
    execute_statement_step E stmt fuel s execute =
      (execute_throw E s execute).map fun x => (x.1, x.2, none) := by
  have htk : s.tk = LEX_R_THROW := h
  unfold execute_statement_step
  simp only [htk]
  rfl

theorem execute_statement_step_semicolon {D : Type} (E : Expressions D) (stmt : StatementFn D)
    (fuel : Nat) (s : Exec D) (execute : Bool) (h : kindAt s.tokens s.pos = tkChar ';') :
    execute_statement_step E stmt fuel s execute = .ok ({ s with pos := s.pos + 1 }, execute, none) := by
  have htk : s.tk = tkChar ';' := h
  unfold execute_statement_step
  simp only [htk]
  rw [Exec.match_same s _ h (by decide)]
  rfl

/-- The let-scope that `addLetScope` pushes: a new value of the class `ScopeLet`
whose children are `__proto__` and the link to the scope that was innermost. -/
theorem CTinyJS.addLetScope_spec {D : Type} (c : CTinyJS D) :
    c.addLetScope.scopes = c.vars.length :: c.scopes ∧
    c.addLetScope.vars.length = c.vars.length + 1 ∧
    StrictSorted (c.addLetScope.childsOf c.vars.length) ∧
    (∀ x ∈ c.addLetScope.childsOf c.vars.length,
      x.name = TINYJS___PROTO___VAR ∨ x.name = TINYJS_SCOPE_PARENT_VAR) ∧
    c.addLetScope.valOf c.vars.length = some (.object .ScopeLet c.vars.length) ∧
    Binds (c.addLetScope.childsOf c.vars.length) TINYJS_SCOPE_PARENT_VAR c.scope ∧
    c.addLetScope.runtimeFlags = c.runtimeFlags ∧
    c.addLetScope.constUndefined = c.constUndefined := by
  obtain ⟨s1, s2, s3, s4, _, s6, s7, _, _, s10⟩ :=
    CTinyJS.newCScriptVar_spec c (fun addr => ScriptVar.object ObjectClass.ScopeLet addr)
      c.objectPrototype none
  have hlt : c.vars.length <
      (c.newCScriptVar (fun addr => ScriptVar.object ObjectClass.ScopeLet addr)
        (some c.objectPrototype) none).1.vars.length := by omega
  have hss : StrictSorted ((c.newCScriptVar
      (fun addr => ScriptVar.object ObjectClass.ScopeLet addr)
      (some c.objectPrototype) none).1.childsOf c.vars.length) := by
    rw [s3]; exact strictSorted_singleton _
  have hneg : isDecimalNumber TINYJS_SCOPE_PARENT_VAR < 0 := by decide
  obtain ⟨a1, a2, a3, _, a5, _, a7⟩ :=
    CTinyJS.heap_addChild_spec _ c.vars.length TINYJS_SCOPE_PARENT_VAR (some c.scope) 0 hlt hss
      (comparable_of_neg hneg _)
  have hf := CTinyJS.addChild_fields (c.newCScriptVar
      (fun addr => ScriptVar.object ObjectClass.ScopeLet addr)
      (some c.objectPrototype) none).1 c.vars.length TINYJS_SCOPE_PARENT_VAR (some c.scope) 0
  have hnew : ∀ x ∈ (c.newCScriptVar (fun addr => ScriptVar.object ObjectClass.ScopeLet addr)
      (some c.objectPrototype) none).1.childsOf c.vars.length,
      x.name ≠ TINYJS_SCOPE_PARENT_VAR := by
    intro x hx
    rw [s3] at hx
    rw [List.mem_singleton.mp hx]
    show TINYJS___PROTO___VAR ≠ TINYJS_SCOPE_PARENT_VAR
    decide
  unfold CTinyJS.addLetScope
  simp only [s1]
  refine ⟨?_, a1.trans s2, a2, ?_, (a5 _).trans s4, (a7 hnew).1, hf.2.2.2.2.trans s10,
    hf.1.trans s6⟩
  · show _ :: _ = _
    rw [hf.2.1, s7]
  · intro x hx
    rcases a3 x hx with e | e
    · right; exact e
    · rw [s3] at e
      left
      simpa using congrArg CScriptVarLink.name (List.mem_singleton.mp e)

/-- The new let-scope of `addLetScope` has the child `__proto__`, the prototype of
the objects. -/
theorem addLetScope_binds_proto {D : Type} (c : CTinyJS D) :
    Binds (c.addLetScope.childsOf c.vars.length) TINYJS___PROTO___VAR c.objectPrototype := by
  obtain ⟨s1, s2, s3, _, _, _, _, _, _, _⟩ :=
    CTinyJS.newCScriptVar_spec c (fun addr => ScriptVar.object ObjectClass.ScopeLet addr)
      c.objectPrototype none
  have hlt : c.vars.length <
      (c.newCScriptVar (fun addr => ScriptVar.object ObjectClass.ScopeLet addr)
        (some c.objectPrototype) none).1.vars.length := by omega
  have hss : StrictSorted ((c.newCScriptVar
      (fun addr => ScriptVar.object ObjectClass.ScopeLet addr)
      (some c.objectPrototype) none).1.childsOf c.vars.length) := by
    rw [s3]; exact strictSorted_singleton _
  have hneg : isDecimalNumber TINYJS_SCOPE_PARENT_VAR < 0 := by decide
  obtain ⟨_, _, _, _, _, a6, _⟩ :=
    CTinyJS.heap_addChild_spec _ c.vars.length TINYJS_SCOPE_PARENT_VAR (some c.scope) 0 hlt hss
      (comparable_of_neg hneg _)
  have hold : Binds ((c.newCScriptVar (fun addr => ScriptVar.object ObjectClass.ScopeLet addr)
      (some c.objectPrototype) none).1.childsOf c.vars.length) TINYJS___PROTO___VAR
      c.objectPrototype := by
    rw [s3]
    exact ⟨_, List.mem_singleton.mpr rfl, rfl, rfl⟩
  unfold CTinyJS.addLetScope
  simp only [s1]
  exact a6 _ _ hold

/-- The variable of a `catch` after `addLetScope` and `addChild(e, a)` on the new
scope: the innermost scope is a new let-scope, and the name `e` is found there
with the value `a`, unless `e` is the name of one of the two children that
every let-scope has: `addChild` adds nothing then, and the name is found with
the value of that child, the prototype of the objects or the scope before. -/
theorem catch_scope_binds {D : Type} (c : CTinyJS D) (e : String) (a : Nat) :
    (c.addLetScope.addChild c.vars.length e (some a) SCRIPTVARLINK_DEFAULT).1.scopes =
      c.vars.length :: c.scopes ∧
    (c.addLetScope.addChild c.vars.length e (some a) SCRIPTVARLINK_DEFAULT).1.scopeClass
      c.vars.length = some .ScopeLet ∧
    ((c.addLetScope.addChild c.vars.length e (some a) SCRIPTVARLINK_DEFAULT).1.findInScopes
      e).map CScriptVarLink.var =
        some (if e = TINYJS___PROTO___VAR then c.objectPrototype
          else if e = TINYJS_SCOPE_PARENT_VAR then c.scope else a) ∧
    (c.addLetScope.addChild c.vars.length e (some a) SCRIPTVARLINK_DEFAULT).1.runtimeFlags =
      c.runtimeFlags := by
  obtain ⟨l1, l2, l3, l4, l5, l6, l7, _⟩ := CTinyJS.addLetScope_spec c
  have lp := addLetScope_binds_proto c
  have hneg : ∀ x ∈ c.addLetScope.childsOf c.vars.length, isDecimalNumber x.name < 0 := by
    intro x hx
    rcases l4 x hx with h | h <;> rw [h] <;> decide
  obtain ⟨a1, a2, _, _, a5, a6, a7⟩ := CTinyJS.heap_addChild_spec c.addLetScope c.vars.length e
    (some a) SCRIPTVARLINK_DEFAULT (by rw [l2]; omega) l3 (comparable_of_all_neg hneg e)
  have hf := CTinyJS.addChild_fields c.addLetScope c.vars.length e (some a) SCRIPTVARLINK_DEFAULT
  have hsc : (c.addLetScope.addChild c.vars.length e (some a) SCRIPTVARLINK_DEFAULT).1.scopes =
      c.vars.length :: c.scopes := by
    rw [hf.2.1, l1]
  have hb : Binds ((c.addLetScope.addChild c.vars.length e (some a)
      SCRIPTVARLINK_DEFAULT).1.childsOf c.vars.length) e
      (if e = TINYJS___PROTO___VAR then c.objectPrototype
        else if e = TINYJS_SCOPE_PARENT_VAR then c.scope else a) := by
    by_cases h1 : e = TINYJS___PROTO___VAR
    · subst h1
      rw [if_pos rfl]
      exact a6 _ _ lp
    · rw [if_neg h1]
      by_cases h2 : e = TINYJS_SCOPE_PARENT_VAR
      · subst h2
        rw [if_pos rfl]
        exact a6 _ _ l6
      · rw [if_neg h2]
        have hne : ∀ x ∈ c.addLetScope.childsOf c.vars.length, x.name ≠ e := by
          intro x hx
          rcases l4 x hx with h | h <;> rw [h]
          · exact fun x => h1 x.symm
          · exact fun x => h2 x.symm
        exact (a7 hne).1
  refine ⟨hsc, ?_, ?_, ?_⟩
  · unfold CTinyJS.scopeClass
    rw [a5, l5]
  · have hv := hb.findChild_var a2
    have hscope : (c.addLetScope.addChild c.vars.length e (some a)
        SCRIPTVARLINK_DEFAULT).1.scope = c.vars.length := by
      unfold CTinyJS.scope
      rw [hsc]
      rfl
    unfold CTinyJS.findInScopes
    rw [hscope]
    simp only [CTinyJS.findInScopesFrom, CTinyJS.findChild]
    cases hfe : findChild ((c.addLetScope.addChild c.vars.length e (some a)
        SCRIPTVARLINK_DEFAULT).1.childsOf c.vars.length) e with
    | none => rw [hfe] at hv; simp at hv
    | some link => rw [hfe] at hv; simpa using hv
  · rw [hf.2.2.2.2, l7]

end TinyJS

namespace TinyJS

/-! ## The loop of the statement `switch` -/

section

variable {D : Type}

theorem kindAt_layout (T : TOKEN_VECT) (i : Nat) : kindAt T i = kindIn (layoutOf T) i := by
  unfold kindAt kindIn layoutOf
  rw [List.getElem?_map]
  cases T[i]? <;> rfl

theorem Exec.tk_layout (s : Exec D) : s.tk = kindIn (layoutOf s.tokens) s.pos := by
  unfold Exec.tk Exec.getToken kindIn layoutOf
  rw [List.getElem?_map]
  cases s.tokens[s.pos]? <;> rfl

theorem Exec.skip_layout (s : Exec D) :
    s.skip = s.setPos ((s.pos + skipIn (layoutOf s.tokens) s.pos).toNat) := by
  unfold Exec.skip Exec.getToken skipIn layoutOf Exec.setPos
  rw [List.getElem?_map]
  cases s.tokens[s.pos]? <;> rfl

theorem kindIn_of {L : List (Nat × Int)} {i k : Nat} {n : Int} (h : L[i]? = some (k, n)) :
    kindIn L i = k := by
  unfold kindIn
  rw [h]
  rfl

theorem skipIn_of {L : List (Nat × Int)} {i k : Nat} {n : Int} (h : L[i]? = some (k, n)) :
    skipIn L i = n := by
  unfold skipIn
  rw [h]
  rfl

theorem Exec.setPos_pos (s : Exec D) : s.setPos s.pos = s := rfl

theorem Exec.setPos_of_pos (s : Exec D) (p : Nat) (h : s.pos = p) : s.setPos p = s := by
  subst h
  rfl

/-- Source `t->match(tk)` at a token of the kind expected, by the layout. -/
theorem Exec.match_layout (s : Exec D) (t : Nat) (h : kindIn (layoutOf s.tokens) s.pos = t)
    (h0 : t ≠ LEX_EOF) : s.«match» t none = .ok (s.setPos (s.pos + 1)) :=
  Exec.match_same s t ((Exec.tk_eq s).symm.trans ((Exec.tk_layout s).trans h)) h0

/-- Source `t->skip(t->getToken().Int())` at a token that skips to the index `q`. -/
theorem Exec.skip_to (s : Exec D) (p q k : Nat) (hp : s.pos = p)
    (h : (layoutOf s.tokens)[p]? = some (k, (q : Int) - (p : Int))) : s.skip = s.setPos q := by
  rw [Exec.skip_layout, hp, skipIn_of h]
  congr 1
  omega

/-- One pass of the loop at a token of a statement. -/
theorem switch_loop_statement (E : Expressions D) (stmt : StatementFn D) (d fuel : Nat)
    (s : Exec D) (execute found hd : Bool) (ds : Nat)
    (h : isStatementKind (kindIn (layoutOf s.tokens) s.pos) = true) :
    execute_switch_loop E stmt d (fuel + 1) s execute found hd ds =
      match stmt s (if found then execute else false) with
      | .ok r => execute_switch_loop E stmt d fuel r.1 (if found then r.2.1 else execute) found hd ds
      | .error e => .error e := by
  rw [← Exec.tk_layout] at h
  simp only [isStatementKind, Bool.and_eq_true, bne_iff_ne, ne_eq] at h
  rw [execute_switch_loop, if_neg h.1.1.1, if_neg h.1.1.2, if_neg h.1.2, if_neg h.2]
  simp only [bind, Except.bind]
  cases stmt s (if found then execute else false) <;> rfl

/-- One pass of the loop at `case` or `default` with `execute` unset. -/
theorem switch_loop_label_skip (E : Expressions D) (stmt : StatementFn D) (d fuel : Nat)
    (s : Exec D) (found hd : Bool) (ds : Nat)
    (h : kindIn (layoutOf s.tokens) s.pos = LEX_R_CASE ∨
      kindIn (layoutOf s.tokens) s.pos = LEX_R_DEFAULT) :
    execute_switch_loop E stmt d (fuel + 1) s false found hd ds =
      execute_switch_loop E stmt d fuel s.skip false found hd ds := by
  rw [← Exec.tk_layout] at h
  rw [execute_switch_loop]
  rcases h with h | h
  · rw [if_neg (by rw [h]; decide), if_pos h]
    rfl
  · rw [if_neg (by rw [h]; decide), if_neg (by rw [h]; decide), if_pos h]
    rfl

/-- The pass of the loop at the `\x7d` of the switch that ends it. -/
theorem switch_loop_closing (E : Expressions D) (stmt : StatementFn D) (d fuel : Nat)
    (s : Exec D) (execute found hd : Bool) (ds : Nat)
    (h : kindIn (layoutOf s.tokens) s.pos = tkChar '\x7d')
    (hend : (execute && !found && hd) = false) :
    execute_switch_loop E stmt d (fuel + 1) s execute found hd ds = .ok (s, execute) := by
  rw [← Exec.tk_layout] at h
  rw [execute_switch_loop, if_neg (by rw [h]; decide), if_neg (by rw [h]; decide),
    if_neg (by rw [h]; decide), if_pos h, hend]
  rfl

/-- The pass of the loop at the `\x7d` of the switch that goes back to `default`. -/
theorem switch_loop_closing_default (E : Expressions D) (stmt : StatementFn D) (d fuel : Nat)
    (s : Exec D) (ds : Nat) (h : kindIn (layoutOf s.tokens) s.pos = tkChar '\x7d')
    (hc : kindIn (layoutOf s.tokens) ds = tkChar ':') :
    execute_switch_loop E stmt d (fuel + 1) s true false true ds =
      execute_switch_loop E stmt d fuel (s.setPos (ds + 1)) true true true ds := by
  rw [← Exec.tk_layout] at h
  rw [execute_switch_loop, if_neg (by rw [h]; decide), if_neg (by rw [h]; decide),
    if_neg (by rw [h]; decide), if_pos h]
  simp only [Bool.not_false, Bool.and_self, if_true, bind, Except.bind]
  rw [Exec.match_layout (s.setPos ds) (tkChar ':') hc (by decide)]
  rfl

/-- The pass of the loop at a `case` that is passed in the fall through. -/
theorem switch_loop_case_found (E : Expressions D) (stmt : StatementFn D) (d fuel : Nat)
    (s : Exec D) (hd : Bool) (ds colon : Nat)
    (h : kindIn (layoutOf s.tokens) s.pos = LEX_R_CASE)
    (hs : (layoutOf s.tokens)[s.pos + 1]? =
      some (LEX_T_SKIP, (colon : Int) - ((s.pos : Int) + 1)))
    (hc : kindIn (layoutOf s.tokens) colon = tkChar ':') :
    execute_switch_loop E stmt d (fuel + 1) s true true hd ds =
      execute_switch_loop E stmt d fuel (s.setPos (colon + 1)) true true hd ds := by
  have htk := (Exec.tk_layout s).trans h
  rw [execute_switch_loop, if_neg (by rw [htk]; decide), if_pos htk]
  simp only [Bool.not_true, Bool.false_eq_true, if_false, if_true, bind, Except.bind]
  rw [Exec.match_layout s LEX_R_CASE h (by decide)]
  simp only
  rw [Exec.skip_to (s.setPos (s.pos + 1)) (s.pos + 1) colon LEX_T_SKIP rfl
    (by simpa using hs)]
  rw [Exec.match_layout _ (tkChar ':') hc (by decide)]
  rfl

/-- The pass of the loop at the `default` that is passed in the fall through. -/
theorem switch_loop_default_found (E : Expressions D) (stmt : StatementFn D) (d fuel : Nat)
    (s : Exec D) (hd : Bool) (ds : Nat)
    (h : kindIn (layoutOf s.tokens) s.pos = LEX_R_DEFAULT)
    (hc : kindIn (layoutOf s.tokens) (s.pos + 1) = tkChar ':') :
    execute_switch_loop E stmt d (fuel + 1) s true true hd ds =
      execute_switch_loop E stmt d fuel (s.setPos (s.pos + 1 + 1)) true true hd ds := by
  have htk := (Exec.tk_layout s).trans h
  rw [execute_switch_loop, if_neg (by rw [htk]; decide), if_neg (by rw [htk]; decide),
    if_pos htk]
  simp only [Bool.not_true, Bool.false_eq_true, if_false, if_true, bind, Except.bind]
  rw [Exec.match_layout s LEX_R_DEFAULT h (by decide)]
  simp only
  rw [Exec.match_layout _ (tkChar ':') hc (by decide)]
  rfl

/-- The pass of the loop at the `default` while the cases are searched. -/
theorem switch_loop_default_search (E : Expressions D) (stmt : StatementFn D) (d fuel : Nat)
    (s : Exec D) (hd : Bool) (ds next : Nat)
    (h : kindIn (layoutOf s.tokens) s.pos = LEX_R_DEFAULT)
    (hc : (layoutOf s.tokens)[s.pos + 1]? =
      some (tkChar ':', (next : Int) - ((s.pos : Int) + 1))) :
    execute_switch_loop E stmt d (fuel + 1) s true false hd ds =
      execute_switch_loop E stmt d fuel (s.setPos next) true false true (s.pos + 1) := by
  have htk := (Exec.tk_layout s).trans h
  rw [execute_switch_loop, if_neg (by rw [htk]; decide), if_neg (by rw [htk]; decide),
    if_pos htk]
  simp only [Bool.not_true, Bool.false_eq_true, if_false, bind, Except.bind]
  rw [Exec.match_layout s LEX_R_DEFAULT h (by decide)]
  simp only
  rw [Exec.skip_to (s.setPos (s.pos + 1)) (s.pos + 1) next (tkChar ':') rfl (by simpa using hc)]
  rfl

/-- The pass of the loop at a `case` while the cases are searched. -/
theorem switch_loop_case_search (E : Expressions D) (stmt : StatementFn D) (d fuel : Nat)
    (s : Exec D) (hd : Bool) (ds : Nat)
    (h : kindIn (layoutOf s.tokens) s.pos = LEX_R_CASE)
    (hs : kindIn (layoutOf s.tokens) (s.pos + 1) = LEX_T_SKIP) :
    execute_switch_loop E stmt d (fuel + 1) s true false hd ds =
      match execute_base E (s.setPos (s.pos + 2)) true with
      | .error x => .error x
      | .ok v =>
        match E.mathsOp v.1 v.2.1 v.2.2 d .LEX_EQUAL with
        | .error x => .error x
        | .ok m =>
          if m.2.1 then
            if E.getBool m.1.c m.2.2 then
              match m.1.«match» (tkChar ':') none with
              | .error x => .error x
              | .ok s3 => execute_switch_loop E stmt d fuel s3 m.2.1 true hd ds
            else execute_switch_loop E stmt d fuel m.1.skip m.2.1 false hd ds
          else execute_switch_loop E stmt d fuel m.1.skip m.2.1 false hd ds := by
  have htk := (Exec.tk_layout s).trans h
  rw [execute_switch_loop, if_neg (by rw [htk]; decide), if_pos htk]
  simp only [Bool.not_true, Bool.false_eq_true, if_false, bind, Except.bind]
  rw [Exec.match_layout s LEX_R_CASE h (by decide)]
  simp only
  rw [Exec.match_layout (s.setPos (s.pos + 1)) LEX_T_SKIP hs (by decide)]
  simp only
  have e2 : (s.setPos (s.pos + 1)).setPos ((s.setPos (s.pos + 1)).pos + 1) = s.setPos (s.pos + 2) :=
    rfl
  rw [e2]
  cases execute_base E (s.setPos (s.pos + 2)) true with
  | error x => rfl
  | ok v =>
    simp only
    cases E.mathsOp v.1 v.2.1 v.2.2 d Op.LEX_EQUAL with
    | error x => rfl
    | ok m =>
      simp only
      cases m.2.1 with
      | false => rfl
      | true =>
        simp only [if_true]
        cases E.getBool m.1.c m.2.2 with
        | false => rfl
        | true =>
          simp only [if_true]
          cases m.1.«match» (tkChar ':') none <;> rfl

/-! ### The three phases of the loop -/

/-- With `execute` unset the loop passes the statements of a clause. -/
theorem switch_skip_statements (E : Expressions D) (stmt : StatementFn D) (d : Nat)
    (L : List (Nat × Int)) (found hd : Bool) (ds : Nat) :
    ∀ (body : List Nat) (p fuel : Nat) (s : Exec D), statementsAt L p body = true →
      StatementsOK stmt L p body → layoutOf s.tokens = L →
      execute_switch_loop E stmt d (fuel + body.length) (s.setPos p) false found hd ds =
        execute_switch_loop E stmt d fuel (s.setPos (lastEnd p body)) false found hd ds := by
  intro body
  induction body with
  | nil => intro p fuel s _ _ _; rfl
  | cons e rest ih =>
    intro p fuel s hst hok hl
    simp only [statementsAt, Bool.and_eq_true] at hst
    obtain ⟨hthis, hrest⟩ := hok
    obtain ⟨_, x, hx⟩ := hthis (s.setPos p) hl rfl
    show execute_switch_loop E stmt d (fuel + rest.length + 1) (s.setPos p) false found hd ds = _
    rw [switch_loop_statement _ _ _ _ _ _ _ _ _ (by rw [show (s.setPos p).tokens = s.tokens from rfl, hl]; exact hst.1)]
    simp only [ite_self, hx]
    exact ih e fuel s hst.2 hrest hl

/-- With `execute` unset the loop ends at the `\x7d` of the switch from every label. -/
theorem switch_skip_label (E : Expressions D) (stmt : StatementFn D) (d : Nat)
    (L : List (Nat × Int)) (closing : Nat) (hclose : kindIn L closing = tkChar '\x7d')
    (found hd : Bool) (ds : Nat) (cs : List SwitchClause) (p fuel : Nat) (s : Exec D)
    (hcs : clausesAt L closing p cs = true) (hl : layoutOf s.tokens = L) :
    execute_switch_loop E stmt d (fuel + 2) (s.setPos p) false found hd ds =
      .ok (s.setPos closing, false) := by
  cases cs with
  | nil =>
    simp only [clausesAt, beq_iff_eq] at hcs
    subst hcs
    exact switch_loop_closing _ _ _ _ _ _ _ _ _ (by rw [← hl] at hclose; exact hclose) rfl
  | cons c rest =>
    simp only [clausesAt, clauseAt, Bool.and_eq_true, beq_iff_eq] at hcs
    obtain ⟨⟨hp, ⟨⟨hlab, _⟩, _⟩, _⟩, _⟩ := hcs
    subst hp
    have hk : kindIn (layoutOf (s.setPos c.label).tokens) (s.setPos c.label).pos = LEX_R_CASE ∨
        kindIn (layoutOf (s.setPos c.label).tokens) (s.setPos c.label).pos = LEX_R_DEFAULT := by
      show kindIn (layoutOf s.tokens) c.label = _ ∨ kindIn (layoutOf s.tokens) c.label = _
      rw [hl, kindIn_of hlab]
      cases c.isDefault
      · left; rfl
      · right; rfl
    rw [switch_loop_label_skip _ _ _ _ _ _ _ _ hk,
      Exec.skip_to (s.setPos c.label) c.label closing _ rfl (by rw [← hl] at hlab; exact hlab)]
    exact switch_loop_closing _ _ _ _ _ _ _ _ _ (by rw [← hl] at hclose; exact hclose) rfl

/-- The fall through in one clause: the loop executes the statements of the clause
as `runStatements` says and goes on with what follows (`hrest`). -/
theorem switch_run_statements (E : Expressions D) (stmt : StatementFn D) (d : Nat)
    (L : List (Nat × Int)) (closing : Nat) (hclose : kindIn L closing = tkChar '\x7d')
    (hd : Bool) (ds : Nat) (rest : List SwitchClause) (q : Nat)
    (hq : clausesAt L closing q rest = true)
    (hrest : ∀ (fuel : Nat) (s : Exec D), clauseSteps rest + 2 ≤ fuel → layoutOf s.tokens = L →
      execute_switch_loop E stmt d fuel (s.setPos q) true true hd ds =
        (fallThrough stmt rest s).map fun r => (r.1.setPos closing, r.2)) :
    ∀ (body : List Nat) (p fuel : Nat) (s : Exec D), statementsAt L p body = true →
      StatementsOK stmt L p body → lastEnd p body = q → layoutOf s.tokens = L →
      body.length + clauseSteps rest + 2 ≤ fuel →
      execute_switch_loop E stmt d fuel (s.setPos p) true true hd ds =
        (match runStatements stmt p body s with
         | .error x => .error x
         | .ok r => if r.2 then fallThrough stmt rest r.1 else .ok r :
          Except Fault (Exec D × Bool)).map
          fun r => (r.1.setPos closing, r.2) := by
  intro body
  induction body with
  | nil =>
    intro p fuel s _ _ hlast hl hfuel
    simp only [lastEnd] at hlast
    subst hlast
    simp only [runStatements, if_true]
    exact hrest fuel s (by simpa using hfuel) hl
  | cons e body1 ih =>
    intro p fuel s hst hok hlast hl hfuel
    simp only [statementsAt, Bool.and_eq_true] at hst
    simp only [lastEnd] at hlast
    obtain ⟨hthis, hokrest⟩ := hok
    obtain ⟨hrun, _⟩ := hthis (s.setPos p) hl rfl
    obtain ⟨f, rfl⟩ : ∃ f, fuel = f + 1 := ⟨fuel - 1, by simp only [List.length_cons] at hfuel; omega⟩
    rw [switch_loop_statement _ _ _ _ _ _ _ _ _
      (by rw [show (s.setPos p).tokens = s.tokens from rfl, hl]; exact hst.1)]
    simp only [if_true, runStatements]
    cases hres : stmt (s.setPos p) true with
    | error x => rfl
    | ok r =>
      obtain ⟨hl1, hp1⟩ := hrun r hres
      simp only
      have hr1 : r.1 = r.1.setPos e := (Exec.setPos_of_pos r.1 e hp1).symm
      cases hex : r.2.1 with
      | true =>
        simp only [if_true]
        have h := ih e f r.1 hst.2 hokrest hlast hl1
          (by simp only [List.length_cons] at hfuel; omega)
        rw [← hr1] at h
        exact h
      | false =>
        simp only [Bool.false_eq_true, if_false]
        obtain ⟨g, rfl⟩ : ∃ g, f = g + 2 + body1.length :=
          ⟨f - 2 - body1.length, by simp only [List.length_cons] at hfuel; omega⟩
        rw [hr1, switch_skip_statements E stmt d L true hd ds body1 e (g + 2) r.1 hst.2 hokrest hl1,
          hlast, switch_skip_label E stmt d L closing hclose true hd ds rest q g r.1 hq hl1]
        rfl

/-- The fall through from the first statement of a clause. -/
theorem switch_fall_through_body (E : Expressions D) (stmt : StatementFn D) (d : Nat)
    (L : List (Nat × Int)) (closing : Nat) (hclose : kindIn L closing = tkChar '\x7d')
    (hd : Bool) (ds : Nat) (c : SwitchClause) (rest : List SwitchClause)
    (hst : statementsAt L (c.colon + 1) c.body = true)
    (hok : StatementsOK stmt L (c.colon + 1) c.body)
    (hq : clausesAt L closing c.next rest = true)
    (hrest : ∀ (fuel : Nat) (s : Exec D), clauseSteps rest + 2 ≤ fuel → layoutOf s.tokens = L →
      execute_switch_loop E stmt d fuel (s.setPos c.next) true true hd ds =
        (fallThrough stmt rest s).map fun r => (r.1.setPos closing, r.2))
    (fuel : Nat) (s : Exec D) (hl : layoutOf s.tokens = L)
    (hfuel : c.body.length + clauseSteps rest + 2 ≤ fuel) :
    execute_switch_loop E stmt d fuel (s.setPos (c.colon + 1)) true true hd ds =
      (fallThrough stmt (c :: rest) s).map fun r => (r.1.setPos closing, r.2) :=
  switch_run_statements E stmt d L closing hclose hd ds rest c.next hq hrest c.body (c.colon + 1)
    fuel s hst hok rfl hl hfuel

/-- The fall through over the clauses: the loop passes each label and executes the
statements as `fallThrough` says, and ends at the `\x7d` of the switch. -/
theorem switch_fall_through (E : Expressions D) (stmt : StatementFn D) (d : Nat)
    (L : List (Nat × Int)) (closing : Nat) (hclose : kindIn L closing = tkChar '\x7d')
    (hd : Bool) (ds : Nat) :
    ∀ (cs : List SwitchClause) (p fuel : Nat) (s : Exec D), clausesAt L closing p cs = true →
      (∀ c ∈ cs, ClauseOK E stmt L c) → clauseSteps cs + 2 ≤ fuel → layoutOf s.tokens = L →
      execute_switch_loop E stmt d fuel (s.setPos p) true true hd ds =
        (fallThrough stmt cs s).map fun r => (r.1.setPos closing, r.2) := by
  intro cs
  induction cs with
  | nil =>
    intro p fuel s hcs _ hfuel hl
    simp only [clausesAt, beq_iff_eq] at hcs
    subst hcs
    obtain ⟨f, rfl⟩ : ∃ f, fuel = f + 1 := ⟨fuel - 1, by omega⟩
    exact switch_loop_closing _ _ _ _ _ _ _ _ _ (by rw [← hl] at hclose; exact hclose) rfl
  | cons c rest ih =>
    intro p fuel s hcs hok hfuel hl
    simp only [clausesAt, clauseAt, Bool.and_eq_true, beq_iff_eq] at hcs
    obtain ⟨⟨hp, ⟨⟨hlab, hskip⟩, hcolon⟩, hst⟩, hnext⟩ := hcs
    subst hp
    simp only [clauseSteps] at hfuel
    obtain ⟨f, rfl⟩ : ∃ f, fuel = f + 1 := ⟨fuel - 1, by omega⟩
    have hbody := switch_fall_through_body E stmt d L closing hclose hd ds c rest hst
      (hok c (List.mem_cons_self _ _)).2 hnext
      (fun fuel1 s1 hf1 hl1 => ih c.next fuel1 s1 hnext
        (fun c1 hc1 => hok c1 (List.mem_cons_of_mem _ hc1)) hf1 hl1)
      f s hl (by omega)
    rw [← hbody]
    cases hdef : c.isDefault with
    | false =>
      rw [hdef] at hlab hskip
      simp only [Bool.false_eq_true, if_false, beq_iff_eq] at hlab hskip
      exact switch_loop_case_found E stmt d f (s.setPos c.label) hd ds c.colon
        (by show kindIn (layoutOf s.tokens) c.label = _; rw [hl]; exact kindIn_of hlab)
        (by show (layoutOf s.tokens)[c.label + 1]? = _; rw [hl]; exact hskip)
        (by show kindIn (layoutOf s.tokens) c.colon = _; rw [hl]; exact kindIn_of hcolon)
    | true =>
      rw [hdef] at hlab hskip
      simp only [if_true, beq_iff_eq] at hlab hskip
      rw [hskip]
      exact switch_loop_default_found E stmt d f (s.setPos c.label) hd ds
        (by show kindIn (layoutOf s.tokens) c.label = _; rw [hl]; exact kindIn_of hlab)
        (by show kindIn (layoutOf s.tokens) (c.label + 1) = _; rw [hl, ← hskip]; exact kindIn_of hcolon)

end

end TinyJS

namespace TinyJS

section

variable {D : Type}
theorem switchSearch_nil (E : Expressions D) (d : Nat) (s : Exec D) :
    switchSearch E d [] s = .ok (s, true, none) := rfl

theorem switchSearch_cons (E : Expressions D) (d : Nat) (c : SwitchClause)
    (rest : List SwitchClause) (s : Exec D) :
    switchSearch E d (c :: rest) s =
      if c.isDefault then switchSearch E d rest s
      else
        match execute_base E (s.setPos (c.label + 2)) true with
        | .error x => .error x
        | .ok v =>
          match E.mathsOp v.1 v.2.1 v.2.2 d .LEX_EQUAL with
          | .error x => .error x
          | .ok m =>
            if !m.2.1 then .ok (m.1, false, none)
            else if E.getBool m.1.c m.2.2 then .ok (m.1, true, some (c :: rest))
            else switchSearch E d rest m.1 := rfl

theorem defaultFrom_nil (dflt : Option (List SwitchClause)) : defaultFrom dflt [] = dflt := rfl

theorem defaultFrom_cons (dflt : Option (List SwitchClause)) (c : SwitchClause)
    (rest : List SwitchClause) :
    defaultFrom dflt (c :: rest) =
      defaultFrom (if c.isDefault then some (c :: rest) else dflt) rest := rfl


/-- The search of the cases: the loop evaluates the expressions of the `case` clauses
as `switchSearch` says, notes the `default`, and then falls through from the
clause that matched or, at the `\x7d` of the switch, from the `default`. -/
theorem switch_search (E : Expressions D) (stmt : StatementFn D) (d : Nat)
    (L : List (Nat × Int)) (closing : Nat) (hclose : kindIn L closing = tkChar '\x7d')
    (hM : MathsOK E L) (K : Nat) :
    ∀ (cs : List SwitchClause) (p fuel : Nat) (s : Exec D) (hd : Bool) (ds : Nat)
      (dflt : Option (List SwitchClause)), clausesAt L closing p cs = true →
      (∀ c ∈ cs, ClauseOK E stmt L c) → clauseSteps cs + 2 ≤ K →
      DefaultSeen E stmt L closing K hd ds dflt → cs.length + 1 + K ≤ fuel →
      layoutOf s.tokens = L →
      execute_switch_loop E stmt d fuel (s.setPos p) true false hd ds =
        (match switchSearch E d cs s with
         | .error x => .error x
         | .ok f =>
           if !f.2.1 then .ok (f.1, false)
           else
             match f.2.2 with
             | some run => fallThrough stmt run f.1
             | none =>
               match defaultFrom dflt cs with
               | some run => fallThrough stmt run f.1
               | none => .ok (f.1, true) : Except Fault (Exec D × Bool)).map
          fun r => (r.1.setPos closing, r.2) := by
  intro cs
  induction cs with
  | nil =>
    intro p fuel s hd ds dflt hcs _ _ hseen hfuel hl
    simp only [clausesAt, beq_iff_eq] at hcs
    subst hcs
    obtain ⟨f, rfl⟩ : ∃ f, fuel = f + 1 := ⟨fuel - 1, by simp only [List.length_nil] at hfuel; omega⟩
    rw [switchSearch_nil, defaultFrom_nil]
    simp only [Bool.not_true, Bool.false_eq_true, if_false]
    cases dflt with
    | none =>
      have hseen1 : hd = false := hseen
      subst hseen1
      exact switch_loop_closing _ _ _ _ _ _ _ _ _ (by rw [← hl] at hclose; exact hclose) rfl
    | some run =>
      cases run with
      | nil => exact False.elim hseen
      | cons c rest =>
        obtain ⟨h1, h2, h3, h4, h5, h6, h7, h8⟩ := hseen
        subst h1 h2
        simp only
        rw [switch_loop_closing_default E stmt d f (s.setPos p) c.colon
          (by rw [← hl] at hclose; exact hclose)
          (by show kindIn (layoutOf s.tokens) c.colon = _; rw [hl]; exact h3)]
        exact switch_fall_through_body E stmt d L p hclose true c.colon c rest h4 h5 h6
          (fun fuel1 s1 hf1 hl1 => switch_fall_through E stmt d L p hclose true c.colon rest
            c.next fuel1 s1 h6 h7 hf1 hl1)
          f s hl (by simp only [List.length_nil] at hfuel; omega)
  | cons c rest ih =>
    intro p fuel s hd ds dflt hcs hok hK hseen hfuel hl
    simp only [clausesAt, clauseAt, Bool.and_eq_true, beq_iff_eq] at hcs
    obtain ⟨⟨hp, ⟨⟨hlab, hskip⟩, hcolon⟩, hst⟩, hnext⟩ := hcs
    subst hp
    simp only [clauseSteps] at hK
    simp only [List.length_cons] at hfuel
    obtain ⟨f, rfl⟩ : ∃ f, fuel = f + 1 := ⟨fuel - 1, by omega⟩
    have hokrest : ∀ c1 ∈ rest, ClauseOK E stmt L c1 :=
      fun c1 hc1 => hok c1 (List.mem_cons_of_mem _ hc1)
    have hokc := hok c (List.mem_cons_self _ _)
    cases hdef : c.isDefault with
    | true =>
      rw [hdef] at hlab hskip
      simp only [if_true, beq_iff_eq] at hlab hskip
      rw [hskip] at hcolon
      rw [switch_loop_default_search E stmt d f (s.setPos c.label) hd ds c.next
        (by show kindIn (layoutOf s.tokens) c.label = _; rw [hl]; exact kindIn_of hlab)
        (by show (layoutOf s.tokens)[c.label + 1]? = some (_, _ - ((c.label : Int) + 1))
            rw [hl, hcolon]; push_cast; rfl)]
      have h := ih c.next f s true (c.label + 1) (some (c :: rest)) hnext hokrest (by omega)
        ⟨rfl, hskip.symm, by rw [hskip]; exact kindIn_of hcolon, hst, hokc.2, hnext, hokrest,
          by omega⟩ (by omega) hl
      rw [switchSearch_cons, defaultFrom_cons]
      simp only [hdef, if_true]
      exact h
    | false =>
      rw [hdef] at hlab hskip
      simp only [Bool.false_eq_true, if_false, beq_iff_eq] at hlab hskip
      rw [switch_loop_case_search E stmt d f (s.setPos c.label) hd ds
        (by show kindIn (layoutOf s.tokens) c.label = _; rw [hl]; exact kindIn_of hlab)
        (by show kindIn (layoutOf s.tokens) (c.label + 1) = _; rw [hl]; exact kindIn_of hskip)]
      rw [switchSearch_cons, defaultFrom_cons]
      simp only [hdef, Bool.false_eq_true, if_false]
      have e2 : (s.setPos c.label).setPos ((s.setPos c.label).pos + 2) = s.setPos (c.label + 2) :=
        rfl
      rw [e2]
      cases hv : execute_base E (s.setPos (c.label + 2)) true with
      | error x => rfl
      | ok v =>
        obtain ⟨hlv, hpv⟩ := hokc.1 hdef (s.setPos (c.label + 2)) hl rfl v hv
        simp only
        cases hm : E.mathsOp v.1 v.2.1 v.2.2 d Op.LEX_EQUAL with
        | error x => rfl
        | ok m =>
          obtain ⟨hlm, hpm⟩ := hM v.1 v.2.1 v.2.2 d m hlv hm
          rw [hpv] at hpm
          have hm1 : m.1 = m.1.setPos c.colon := (Exec.setPos_of_pos m.1 c.colon hpm).symm
          have hskipm : m.1.skip = m.1.setPos c.next :=
            Exec.skip_to m.1 c.colon c.next _ hpm (by rw [hlm]; exact hcolon)
          simp only
          cases hex : m.2.1 with
          | false =>
            simp only [Bool.false_eq_true, if_false, Bool.not_false, if_true]
            obtain ⟨g, rfl⟩ : ∃ g, f = g + 2 := ⟨f - 2, by omega⟩
            rw [hskipm, switch_skip_label E stmt d L closing hclose false hd ds rest c.next g m.1
              hnext hlm]
            rfl
          | true =>
            simp only [if_true, Bool.not_true, Bool.false_eq_true, if_false]
            cases hb : E.getBool m.1.c m.2.2 with
            | true =>
              simp only [if_true]
              rw [Exec.match_layout m.1 (tkChar ':')
                (by rw [hlm, hpm]; exact kindIn_of hcolon) (by decide), hpm]
              exact switch_fall_through_body E stmt d L closing hclose hd ds c rest hst hokc.2 hnext
                (fun fuel1 s1 hf1 hl1 => switch_fall_through E stmt d L closing hclose hd ds rest
                  c.next fuel1 s1 hnext hokrest hf1 hl1)
                f m.1 hlm (by omega)
            | false =>
              simp only [Bool.false_eq_true, if_false]
              rw [hskipm]
              exact ih c.next f m.1 hd ds dflt hnext hokrest (by omega)
                (by
                  cases dflt with
                  | none => exact hseen
                  | some run =>
                    cases run with
                    | nil => exact hseen
                    | cons c1 r1 => exact hseen)
                (by omega) hlm

end

end TinyJS

namespace TinyJS

section

variable {D : Type}

/-! ### The specification keeps the layout of the buffer -/

theorem runStatements_layout (stmt : StatementFn D) (L : List (Nat × Int)) :
    ∀ (body : List Nat) (p : Nat) (s : Exec D) (r : Exec D × Bool),
      StatementsOK stmt L p body → layoutOf s.tokens = L →
      runStatements stmt p body s = .ok r → layoutOf r.1.tokens = L := by
  intro body
  induction body with
  | nil =>
    intro p s r _ hl h
    simp only [runStatements, Except.ok.injEq] at h
    rw [← h]
    exact hl
  | cons e rest ih =>
    intro p s r hok hl h
    obtain ⟨hthis, hrest⟩ := hok
    simp only [runStatements] at h
    cases hres : stmt (s.setPos p) true with
    | error x => rw [hres] at h; cases h
    | ok r1 =>
      rw [hres] at h
      simp only at h
      obtain ⟨hl1, _⟩ := (hthis (s.setPos p) hl rfl).1 r1 hres
      cases hex : r1.2.1 with
      | true =>
        rw [hex] at h
        exact ih e r1.1 r hrest hl1 h
      | false =>
        rw [hex] at h
        simp only [Bool.false_eq_true, if_false, Except.ok.injEq] at h
        rw [← h]
        exact hl1

theorem fallThrough_layout (E : Expressions D) (stmt : StatementFn D) (L : List (Nat × Int)) :
    ∀ (cs : List SwitchClause) (s : Exec D) (r : Exec D × Bool),
      (∀ c ∈ cs, ClauseOK E stmt L c) → layoutOf s.tokens = L →
      fallThrough stmt cs s = .ok r → layoutOf r.1.tokens = L := by
  intro cs
  induction cs with
  | nil =>
    intro s r _ hl h
    simp only [fallThrough, Except.ok.injEq] at h
    rw [← h]
    exact hl
  | cons c rest ih =>
    intro s r hok hl h
    simp only [fallThrough] at h
    cases hres : runStatements stmt (c.colon + 1) c.body s with
    | error x => rw [hres] at h; cases h
    | ok r1 =>
      rw [hres] at h
      simp only at h
      have hl1 := runStatements_layout stmt L c.body (c.colon + 1) s r1
        (hok c (List.mem_cons_self _ _)).2 hl hres
      cases hex : r1.2 with
      | true =>
        rw [hex] at h
        exact ih r1.1 r (fun c1 hc1 => hok c1 (List.mem_cons_of_mem _ hc1)) hl1 h
      | false =>
        rw [hex] at h
        simp only [Bool.false_eq_true, if_false, Except.ok.injEq] at h
        rw [← h]
        exact hl1

theorem switchSearch_layout (E : Expressions D) (stmt : StatementFn D) (d : Nat)
    (L : List (Nat × Int)) (hM : MathsOK E L) :
    ∀ (cs : List SwitchClause) (s : Exec D) (f : Exec D × Bool × Option (List SwitchClause)),
      (∀ c ∈ cs, ClauseOK E stmt L c) → layoutOf s.tokens = L →
      switchSearch E d cs s = .ok f →
      layoutOf f.1.tokens = L ∧ ∀ run, f.2.2 = some run → ∀ c ∈ run, c ∈ cs := by
  intro cs
  induction cs with
  | nil =>
    intro s f _ hl h
    rw [switchSearch_nil] at h
    simp only [Except.ok.injEq] at h
    rw [← h]
    exact ⟨hl, fun run hrun => by cases hrun⟩
  | cons c rest ih =>
    intro s f hok hl h
    have hokrest : ∀ c1 ∈ rest, ClauseOK E stmt L c1 :=
      fun c1 hc1 => hok c1 (List.mem_cons_of_mem _ hc1)
    rw [switchSearch_cons] at h
    cases hdef : c.isDefault with
    | true =>
      rw [hdef] at h
      obtain ⟨h1, h2⟩ := ih s f hokrest hl h
      exact ⟨h1, fun run hrun c1 hc1 => List.mem_cons_of_mem _ (h2 run hrun c1 hc1)⟩
    | false =>
      rw [hdef] at h
      simp only [Bool.false_eq_true, if_false] at h
      cases hv : execute_base E (s.setPos (c.label + 2)) true with
      | error x => rw [hv] at h; cases h
      | ok v =>
        rw [hv] at h
        simp only at h
        obtain ⟨hlv, _⟩ := (hok c (List.mem_cons_self _ _)).1 hdef (s.setPos (c.label + 2)) hl
          rfl v hv
        cases hm : E.mathsOp v.1 v.2.1 v.2.2 d Op.LEX_EQUAL with
        | error x => rw [hm] at h; cases h
        | ok m =>
          rw [hm] at h
          simp only at h
          obtain ⟨hlm, _⟩ := hM v.1 v.2.1 v.2.2 d m hlv hm
          cases hex : m.2.1 with
          | false =>
            rw [hex] at h
            simp only [Bool.not_false, if_true, Except.ok.injEq] at h
            rw [← h]
            exact ⟨hlm, fun run hrun => by cases hrun⟩
          | true =>
            rw [hex] at h
            simp only [Bool.not_true, Bool.false_eq_true, if_false] at h
            cases hb : E.getBool m.1.c m.2.2 with
            | true =>
              rw [hb] at h
              simp only [if_true, Except.ok.injEq] at h
              rw [← h]
              refine ⟨hlm, fun run hrun c1 hc1 => ?_⟩
              simp only [Option.some.injEq] at hrun
              rw [← hrun] at hc1
              exact hc1
            | false =>
              rw [hb] at h
              simp only [Bool.false_eq_true, if_false] at h
              obtain ⟨h1, h2⟩ := ih m.1 f hokrest hlm h
              exact ⟨h1, fun run hrun c1 hc1 => List.mem_cons_of_mem _ (h2 run hrun c1 hc1)⟩

theorem defaultFrom_mem : ∀ (cs : List SwitchClause) (dflt run : Option (List SwitchClause)),
    defaultFrom dflt cs = run → run = dflt ∨ ∃ r, run = some r ∧ ∀ c ∈ r, c ∈ cs := by
  intro cs
  induction cs with
  | nil =>
    intro dflt run h
    rw [defaultFrom_nil] at h
    exact Or.inl h.symm
  | cons c rest ih =>
    intro dflt run h
    rw [defaultFrom_cons] at h
    rcases ih _ run h with h1 | ⟨r, hr, hmem⟩
    · cases hdef : c.isDefault with
      | true =>
        rw [hdef] at h1
        exact Or.inr ⟨c :: rest, h1, fun c1 hc1 => hc1⟩
      | false =>
        rw [hdef] at h1
        exact Or.inl h1
    · exact Or.inr ⟨r, hr, fun c1 hc1 => List.mem_cons_of_mem _ (hmem c1 hc1)⟩

theorem switchBody_layout (E : Expressions D) (stmt : StatementFn D) (d : Nat)
    (L : List (Nat × Int)) (hM : MathsOK E L) (cs : List SwitchClause) (s : Exec D)
    (r : Exec D × Bool) (hok : ∀ c ∈ cs, ClauseOK E stmt L c) (hl : layoutOf s.tokens = L)
    (h : switchBody E stmt d cs s = .ok r) : layoutOf r.1.tokens = L := by
  unfold switchBody at h
  cases hf : switchSearch E d cs s with
  | error x => rw [hf] at h; cases h
  | ok f =>
    rw [hf] at h
    simp only at h
    obtain ⟨hlf, hrun⟩ := switchSearch_layout E stmt d L hM cs s f hok hl hf
    cases hex : f.2.1 with
    | false =>
      rw [hex] at h
      simp only [Bool.not_false, if_true, Except.ok.injEq] at h
      rw [← h]
      exact hlf
    | true =>
      rw [hex] at h
      simp only [Bool.not_true, Bool.false_eq_true, if_false] at h
      cases hm : f.2.2 with
      | some run =>
        rw [hm] at h
        exact fallThrough_layout E stmt L run f.1 r
          (fun c hc => hok c (hrun run hm c hc)) hlf h
      | none =>
        rw [hm] at h
        simp only at h
        cases hdf : defaultFrom none cs with
        | none =>
          rw [hdf] at h
          simp only [Except.ok.injEq] at h
          rw [← h]
          exact hlf
        | some run =>
          rw [hdf] at h
          rcases defaultFrom_mem cs none (some run) hdf with h1 | ⟨r1, hr1, hmem⟩
          · cases h1
          · simp only [Option.some.injEq] at hr1
            subst hr1
            exact fallThrough_layout E stmt L run f.1 r (fun c hc => hok c (hmem c hc)) hlf h

end

end TinyJS

namespace TinyJS

section

variable {D : Type}

/-! ### Statements and expressions that keep to the layout -/

/-- Source `t->match(t->tk)`: the cursor moves on by one token. -/
theorem Exec.match_tk (s : Exec D) (h0 : s.tk ≠ LEX_EOF) :
    s.«match» s.tk none = .ok { s with pos := s.pos + 1 } :=
  Exec.match_same s s.tk rfl h0

/-- The empty statement `;` leaves the buffer as it is and the cursor after it. -/
theorem statement_semicolon_ok (E : Expressions D) (n : Nat) (L : List (Nat × Int)) (p : Nat)
    (h : kindIn L p = tkChar ';') (s : Exec D) (hl : layoutOf s.tokens = L) (hp : s.pos = p) :
    (∀ r, execute_statement E (n + 1) s true = .ok r → layoutOf r.1.tokens = L ∧ r.1.pos = p + 1) ∧
    (∃ x, execute_statement E (n + 1) s false = .ok (s.setPos (p + 1), false, x)) := by
  have hk : kindAt s.tokens s.pos = tkChar ';' := by
    rw [kindAt_layout, hl, hp]
    exact h
  have hstep : ∀ ex, execute_statement E (n + 1) s ex = .ok ({ s with pos := s.pos + 1 }, ex, none) :=
    fun ex => execute_statement_step_semicolon E (execute_statement E n) n s ex hk
  constructor
  · intro r hr
    rw [hstep true] at hr
    simp only [Except.ok.injEq] at hr
    rw [← hr]
    exact ⟨hl, by rw [← hp]⟩
  · exact ⟨none, by rw [hstep false, ← hp]; rfl⟩

/-- The statement `break;` leaves the buffer as it is and the cursor after it. -/
theorem statement_break_ok (E : Expressions D) (n : Nat) (L : List (Nat × Int)) (p : Nat)
    (h : L[p]? = some (LEX_R_BREAK, 2)) (h2 : kindIn L (p + 1) = tkChar ';') (s : Exec D)
    (hl : layoutOf s.tokens = L) (hp : s.pos = p) :
    (∀ r, execute_statement E (n + 1) s true = .ok r → layoutOf r.1.tokens = L ∧ r.1.pos = p + 2) ∧
    (∃ x, execute_statement E (n + 1) s false = .ok (s.setPos (p + 2), false, x)) := by
  have hk : s.tk = LEX_R_BREAK := by
    rw [Exec.tk_layout, hl, hp]
    exact kindIn_of h
  have hstep : ∀ ex, execute_statement E (n + 1) s ex =
      (execute_break s ex).map fun x => (x.1, x.2, none) := by
    intro ex
    show execute_statement_step E (execute_statement E n) n s ex = _
    unfold execute_statement_step
    simp only [hk]
    rfl
  have hrun : execute_break s true =
      .ok ({ s with pos := s.pos + 1 + 1,
                    c := { s.c with runtimeFlags := { s.c.runtimeFlags with BREAK := true } } },
        false) := by
    unfold execute_break
    simp only [if_true, hk, bind, Except.bind]
    rw [Exec.match_tk _ (by show s.tk ≠ LEX_EOF; rw [hk]; decide)]
    simp only
    rw [if_neg (by rw [Exec.tk_layout]; simp only; rw [hl, hp, h2]; decide)]
    simp only
    rw [Exec.match_same _ (tkChar ';') (by rw [kindAt_layout]; simp only; rw [hl, hp]; exact h2)
      (by decide)]
  constructor
  · intro r hr
    rw [hstep true, hrun] at hr
    simp only [Except.map, Except.ok.injEq] at hr
    rw [← hr]
    exact ⟨hl, by simp only; rw [hp]⟩
  · refine ⟨none, ?_⟩
    rw [hstep false]
    unfold execute_break
    simp only [Bool.false_eq_true, if_false, Except.map]
    rw [Exec.skip_to s p (p + 2) LEX_R_BREAK hp (by rw [hl, h]; simp)]

/-- The expression of a `case` that is one number, for the evaluator of the examples. -/
theorem example_case_ok (L : List (Nat × Int)) (p : Nat) (h1 : kindIn L p = LEX_INT)
    (h2 : kindIn L (p + 1) = tkChar ':') (s : Exec Int) (hl : layoutOf s.tokens = L)
    (hp : s.pos = p) (r : Exec Int × Bool × Nat)
    (hr : execute_base exampleExpressions s true = .ok r) :
    layoutOf r.1.tokens = L ∧ r.1.pos = p + 1 := by
  have hk : s.tk = LEX_INT := by
    rw [Exec.tk_layout, hl, hp]
    exact h1
  have hop : ∃ c v, exampleOperand s true = .ok ({ s with pos := s.pos + 1, c := c }, v, none) := by
    unfold exampleOperand
    simp only [Bool.not_true, Bool.false_eq_true, if_false]
    have ht : s.getToken.token = LEX_INT := hk
    cases hg : s.getToken with
    | object a b c e => rw [hg] at ht; cases ht
    | forwarder a b c e => rw [hg] at ht; cases ht
    | element a b => rw [hg] at ht; cases ht
    | simple a b =>
      rw [hg] at ht
      simp only [exampleLiteral, ht, if_true]
      exact ⟨_, _, rfl⟩
    | string a b =>
      rw [hg] at ht
      simp only [exampleLiteral, ht, if_true]
      exact ⟨_, _, rfl⟩
    | fnc a b c e =>
      rw [hg] at ht
      simp only [exampleLiteral, ht, if_true]
      exact ⟨_, _, rfl⟩
  obtain ⟨c, v, hop⟩ := hop
  unfold execute_base at hr
  rw [hk] at hr
  simp only [show startsExpression LEX_INT = true from by decide, if_true] at hr
  have hk2 : ({ s with pos := s.pos + 1, c := c } : Exec Int).tk = tkChar ':' := by
    rw [Exec.tk_layout]
    simp only
    rw [hl, hp]
    exact h2
  change exampleExpression s true = .ok r at hr
  unfold exampleExpression at hr
  simp only [hop, bind, Except.bind, hk2] at hr
  rw [if_neg (by decide), if_neg (by decide)] at hr
  simp only [Except.ok.injEq] at hr
  rw [← hr]
  exact ⟨hl, by simp only; rw [hp]⟩

/-- The comparison of the evaluator of the examples does not touch the buffer. -/
theorem example_maths_ok (L : List (Nat × Int)) : MathsOK exampleExpressions L := by
  intro s ex a b r hl hr
  simp only [exampleExpressions, Except.ok.injEq] at hr
  rw [← hr]
  exact ⟨hl, rfl⟩

end

end TinyJS

namespace TinyJS

section

variable {D : Type}

/-! ### The functions of a forwarder are bound by the forwarder statement -/

/-- After `FNC_SET_t::insert` the set holds a function of the name inserted. -/
theorem FNC_SET_insert_has_name (fn : CScriptToken) :
    ∀ fs : List CScriptToken, ∃ g ∈ FNC_SET_insert fs fn, g.getString = fn.getString := by
  intro fs
  induction fs with
  | nil => exact ⟨fn, List.mem_singleton.mpr rfl, rfl⟩
  | cons y ys ih =>
    unfold FNC_SET_insert
    by_cases h1 : stringLess fn.getString y.getString = true
    · rw [if_pos h1]
      exact ⟨fn, List.mem_cons_self _ _, rfl⟩
    · rw [if_neg h1]
      by_cases h2 : stringLess y.getString fn.getString = true
      · rw [if_pos h2]
        obtain ⟨g, hg, hn⟩ := ih
        exact ⟨g, List.mem_cons_of_mem _ hg, hn⟩
      · rw [if_neg h2]
        refine ⟨y, List.mem_cons_self _ _, ?_⟩
        by_contra hne
        have hd : y.getString.toList ≠ fn.getString.toList := fun e => hne (String.ext e)
        rcases stringLessList_total _ _ hd with h | h
        · exact h2 h
        · exact h1 h

/-- The loop over `Forwarder().functions` of `case LEX_T_FORWARD`: every function of
the set is bound in `in_scope` after it, when `parseFunctionDefinition` leaves
the children of `in_scope` as they are and the names are identifiers. -/
theorem forward_functions_binds (E : Expressions D) (in_scope : Nat)
    (hE : ∀ (c : CTinyJS D) (fn : CScriptToken),
      (E.parseFunctionDefinition c fn).1.childsOf in_scope = c.childsOf in_scope ∧
      c.vars.length ≤ (E.parseFunctionDefinition c fn).1.vars.length) :
    ∀ (fs : List CScriptToken) (c : CTinyJS D), in_scope < c.vars.length →
      StrictSorted (c.childsOf in_scope) → (∀ g ∈ fs, isDecimalNumber g.getString < 0) →
      StrictSorted ((forward_functions E c in_scope fs).childsOf in_scope) ∧
      (∀ n, (∃ v, Binds (c.childsOf in_scope) n v) →
        ∃ v, Binds ((forward_functions E c in_scope fs).childsOf in_scope) n v) ∧
      ∀ g ∈ fs, ∃ v, Binds ((forward_functions E c in_scope fs).childsOf in_scope) g.getString v := by
  intro fs
  induction fs with
  | nil =>
    intro c _ hs _
    exact ⟨hs, fun n h => h, fun g hg => by cases hg⟩
  | cons f rest ih =>
    intro c hlt hs hneg
    obtain ⟨hch, hlen⟩ := hE c f
    have hlt1 : in_scope < (E.parseFunctionDefinition c f).1.vars.length := by omega
    have hs1 : StrictSorted ((E.parseFunctionDefinition c f).1.childsOf in_scope) := by
      rw [hch]; exact hs
    have hcomp := comparable_of_neg (hneg f (List.mem_cons_self _ _))
      ((E.parseFunctionDefinition c f).1.childsOf in_scope)
    have hchilds := CTinyJS.addChildOrReplace_childsOf (E.parseFunctionDefinition c f).1 in_scope
      in_scope f.getString (E.parseFunctionDefinition c f).2 SCRIPTVARLINK_VARDEFAULT hlt1
    simp only [if_true] at hchilds
    have hstep := ih ((E.parseFunctionDefinition c f).1.addChildOrReplace in_scope f.getString
        (E.parseFunctionDefinition c f).2 SCRIPTVARLINK_VARDEFAULT).1
      (by rw [CTinyJS.addChildOrReplace_length]; exact hlt1)
      (by rw [hchilds]; exact addChildOrReplace_strictSorted hs1 hcomp _ _ _ _)
      (fun g hg => hneg g (List.mem_cons_of_mem _ hg))
    obtain ⟨i1, i2, i3⟩ := hstep
    have hself : ∃ v, Binds (((E.parseFunctionDefinition c f).1.addChildOrReplace in_scope
        f.getString (E.parseFunctionDefinition c f).2 SCRIPTVARLINK_VARDEFAULT).1.childsOf
        in_scope) f.getString v :=
      ⟨_, by rw [hchilds]; exact addChildOrReplace_binds_self hs1 hcomp _ _ _ _⟩
    refine ⟨i1, ?_, ?_⟩
    · intro n hn
      refine i2 n ?_
      by_cases hnf : n = f.getString
      · rw [hnf]; exact hself
      · obtain ⟨v, hv⟩ := hn
        rw [← hch] at hv
        exact ⟨v, by rw [hchilds]; exact addChildOrReplace_binds_other hs1 hcomp _ _ _ _ hnf hv⟩
    · intro g hg
      rcases List.mem_cons.mp hg with h | h
      · rw [h]; exact i2 _ hself
      · exact i3 g h

end

end TinyJS

namespace TinyJS

/-! ## The key function of the link order on numerals -/

theorem isDecimalNumberLoop_not_numeric : ∀ (cs : List Char) (ret : Int),
    cs.all isNumeric = false → isDecimalNumberLoop cs ret = -1
  | [], _, h => by simp at h
  | c :: cs, ret, h => by
    unfold isDecimalNumberLoop
    by_cases hc : isNumeric c = true
    · have hcs : cs.all isNumeric = false := by
        rw [List.all_cons, hc, Bool.true_and] at h
        exact h
      simp only [hc, Bool.not_true, Bool.false_eq_true, if_false]
      exact isDecimalNumberLoop_not_numeric cs _ hcs
    · simp [hc]

theorem numeral_foldl_le : ∀ (cs : List Char) (n : Nat),
    n ≤ cs.foldl (fun n c => n * 10 + (c.toNat - '0'.toNat)) n
  | [], n => by simp
  | c :: cs, n => by
    rw [List.foldl_cons]
    exact le_trans (by omega) (numeral_foldl_le cs _)

theorem wrapInt_of_small {x : Int} (h0 : 0 ≤ x) (h1 : x < 2147483648) : wrapInt x = x := by
  unfold wrapInt
  omega

theorem isDecimalNumberLoop_numeral : ∀ (cs : List Char) (n : Nat),
    cs.all isNumeric = true →
    cs.foldl (fun n c => n * 10 + (c.toNat - '0'.toNat)) n < 2147483648 →
    isDecimalNumberLoop cs (n : Int) =
      ((cs.foldl (fun n c => n * 10 + (c.toNat - '0'.toNat)) n : Nat) : Int)
  | [], n, _, _ => by simp [isDecimalNumberLoop]
  | c :: cs, n, h, hlt => by
    rw [List.all_cons, Bool.and_eq_true] at h
    rw [List.foldl_cons] at hlt ⊢
    have hle := numeral_foldl_le cs (n * 10 + (c.toNat - '0'.toNat))
    have hc : '0'.toNat ≤ c.toNat := by
      have := h.1
      simp only [isNumeric, Bool.and_eq_true, decide_eq_true_eq] at this
      exact this.1
    have hcast : ((n : Int) * 10 + (c.toNat : Int) - ('0'.toNat : Int)) =
        ((n * 10 + (c.toNat - '0'.toNat) : Nat) : Int) := by
      have h48 : ('0'.toNat : Nat) = 48 := rfl
      rw [h48] at hc ⊢
      omega
    unfold isDecimalNumberLoop
    simp only [h.1, Bool.not_true, Bool.false_eq_true, if_false]
    rw [hcast, wrapInt_of_small (by positivity) (by exact_mod_cast lt_of_le_of_lt hle hlt)]
    exact isDecimalNumberLoop_numeral cs _ h.2 hlt

/-- A string that is no numeral has the key -1. -/
theorem isDecimalNumber_not_numeral {s : String} (h : isNumeral s = false) :
    isDecimalNumber s = -1 := by
  unfold isDecimalNumber
  split
  · rfl
  · rename_i hg
    push_neg at hg
    apply isDecimalNumberLoop_not_numeric
    have hlen : s.toList.length = s.length := rfl
    unfold isNumeral at h
    rcases hs : s.toList with _ | ⟨c, cs⟩
    · rw [hs] at hlen
      exact absurd hlen.symm hg.1
    · rw [hs] at h hlen
      have h2 := hg.2
      rw [hs, ← hlen] at h2
      by_contra hall
      rw [Bool.not_eq_false] at hall
      rw [hall] at h
      simp only [List.isEmpty_cons, Bool.not_false, Bool.true_and, List.length_cons,
        List.head?_cons, Bool.or_eq_false_iff, beq_eq_false_iff_ne, ne_eq, bne_eq_false_iff_eq,
        Option.some.injEq] at h
      have : (cs.length + 1 > 1) := by
        have := h.1
        omega
      exact h2 this (by rw [h.2]; rfl)

/-- A numeral below 2^31 has its value as key. -/
theorem isDecimalNumber_numeral {s : String} (h : isNumeral s = true)
    (hlt : numeralValue s < 2147483648) : isDecimalNumber s = (numeralValue s : Int) := by
  unfold isNumeral at h
  simp only [Bool.and_eq_true, Bool.not_eq_true', Bool.or_eq_true, beq_iff_eq, bne_iff_ne,
    ne_eq] at h
  obtain ⟨⟨hne, hall⟩, hz⟩ := h
  have hlen : s.toList.length = s.length := rfl
  unfold isDecimalNumber
  rw [if_neg]
  · have := isDecimalNumberLoop_numeral s.toList 0 hall hlt
    simpa [numeralValue] using this
  · rintro (h0 | ⟨h1, h2⟩)
    · rw [← hlen] at h0
      rw [List.length_eq_zero] at h0
      rw [h0] at hne
      simp at hne
    · rcases hz with hz | hz
      · rw [← hlen] at h1
        omega
      · exact hz h2

end TinyJS

namespace TinyJS

/-! ## The walks along the prototype chain -/

section

variable {D : Type}

theorem childsOf_setTemporaryID (c : CTinyJS D) (o ID a : Nat) :
    (c.setTemporaryID o ID).childsOf a = c.childsOf a := by
  unfold CTinyJS.setTemporaryID
  cases h : c.vars[o]? with
  | none => rfl
  | some v =>
    simp only [CTinyJS.childsOf]
    by_cases hao : o = a
    · subst hao
      have ho : o < c.vars.length := (List.getElem?_eq_some_iff.mp h).1
      simp [List.getElem?_set_self ho, h]
    · rw [List.getElem?_set_ne hao]

theorem findChild_setTemporaryID (c : CTinyJS D) (o ID a : Nat) (n : String) :
    (c.setTemporaryID o ID).findChild a n = c.findChild a n := by
  unfold CTinyJS.findChild
  rw [childsOf_setTemporaryID]

theorem length_setTemporaryID (c : CTinyJS D) (o ID : Nat) :
    (c.setTemporaryID o ID).vars.length = c.vars.length := by
  unfold CTinyJS.setTemporaryID
  cases h : c.vars[o]? with
  | none => rfl
  | some v => simp

theorem getTempraryID_setTemporaryID_self (c : CTinyJS D) (o ID : Nat) (ho : o < c.vars.length) :
    (c.setTemporaryID o ID).getTempraryID o = ID := by
  unfold CTinyJS.setTemporaryID
  have h : c.vars[o]? = some c.vars[o] := List.getElem?_eq_getElem ho
  rw [h]
  simp [CTinyJS.getTempraryID, List.getElem?_set_self ho]

theorem getTempraryID_setTemporaryID_ne (c : CTinyJS D) (o ID a : Nat) (hao : o ≠ a) :
    (c.setTemporaryID o ID).getTempraryID a = c.getTempraryID a := by
  unfold CTinyJS.setTemporaryID
  cases h : c.vars[o]? with
  | none => rfl
  | some v =>
    simp only [CTinyJS.getTempraryID]
    rw [List.getElem?_set_ne hao]

theorem getTempraryID_dangling (c : CTinyJS D) (a : Nat) (h : c.vars.length ≤ a) :
    c.getTempraryID a = 0 := by
  unfold CTinyJS.getTempraryID
  rw [List.getElem?_eq_none h]

theorem findChild_nil (n : String) : TinyJS.findChild [] n = none := by
  simp [TinyJS.findChild, lower_bound, lower_bound_loop]

theorem findChild_dangling (c : CTinyJS D) (a : Nat) (n : String) (h : c.vars.length ≤ a) :
    c.findChild a n = none := by
  unfold CTinyJS.findChild CTinyJS.childsOf
  rw [List.getElem?_eq_none h]
  exact findChild_nil n

theorem findChild_congr {c c0 : CTinyJS D} (hch : ∀ a, c.childsOf a = c0.childsOf a) (a : Nat)
    (n : String) : c.findChild a n = c0.findChild a n := by
  unfold CTinyJS.findChild
  rw [hch]

theorem protoAt_none (c : CTinyJS D) : ∀ k, c.protoAt k none = none
  | 0 => rfl
  | k + 1 => by
    show c.protoAt k (Option.bind none c.protoOf) = none
    exact protoAt_none c k

theorem protoAt_add (c : CTinyJS D) : ∀ (a b : Nat) (s : Option Nat),
    c.protoAt (a + b) s = c.protoAt b (c.protoAt a s)
  | 0, b, s => by rw [Nat.zero_add]; rfl
  | a + 1, b, s => by
    have h : a + 1 + b = (a + b) + 1 := by omega
    rw [h]
    show c.protoAt (a + b) (s.bind c.protoOf) = c.protoAt b (c.protoAt a (s.bind c.protoOf))
    exact protoAt_add c a b _

theorem protoAt_succ (c : CTinyJS D) (k : Nat) (s : Option Nat) :
    c.protoAt (k + 1) s = (c.protoAt k s).bind c.protoOf := by
  rw [protoAt_add c k 1 s]
  rfl

theorem nodup_length_le {vs : List Nat} {n : Nat} (hnd : vs.Nodup) (hlt : ∀ a ∈ vs, a < n) :
    vs.length ≤ n := by
  have h1 : vs.toFinset.card = vs.length := List.toFinset_card_of_nodup hnd
  have h2 : vs.toFinset ⊆ Finset.range n := by
    intro a ha
    rw [List.mem_toFinset] at ha
    exact Finset.mem_range.mpr (hlt a ha)
  have h3 := Finset.card_le_card h2
  rw [Finset.card_range] at h3
  omega

/-- When the chain from `start` comes back at step `k` to the value of an earlier
step `j`, and no value before step `k` (from step `m` on) has the property, no
value from step `m` on has it. -/
theorem chain_closed (c0 : CTinyJS D) (name : String) (start : Option Nat) (m j k : Nat)
    (hjk : j < k) (hmj : m ≤ j) (hsame : c0.protoAt k start = c0.protoAt j start)
    (hnone : ∀ i, m ≤ i → i < k → ∀ p, c0.protoAt i start = some p →
      c0.findChild p name = none) :
    ∀ n, m ≤ n → ∀ p, c0.protoAt n start = some p → c0.findChild p name = none := by
  intro n
  induction n using Nat.strong_induction_on with
  | _ n ih =>
    intro hmn p hp
    by_cases hnk : n < k
    · exact hnone n hmn hnk p hp
    · have hn : n = k + (n - k) := by omega
      have e : c0.protoAt n start = c0.protoAt (j + (n - k)) start := by
        rw [hn, protoAt_add, hsame, ← protoAt_add]
        congr 1
        omega
      rw [e] at hp
      exact ih (j + (n - k)) (by omega) (by omega) p hp

/-- The loop of `findChildWithPrototypeChain` from a state in which the values
stamped are those of the first `k` steps of the chain, none of which has the
property. -/
theorem findChildWithPrototypeChain_loop_spec (c0 : CTinyJS D) (name : String) (ID : Nat)
    (start : Option Nat) :
    ∀ (fuel : Nat) (c : CTinyJS D) (object : Option Nat) (vs : List Nat) (k : Nat),
      (∀ a, c.childsOf a = c0.childsOf a) →
      c0.protoAt k start = object →
      (∀ j < k, ∃ p, c0.protoAt j start = some p ∧ c0.findChild p name = none) →
      (∀ a ∈ vs, (∃ j < k, c0.protoAt j start = some a) ∧ a < c.vars.length ∧
        c.getTempraryID a = ID) →
      (∀ a, c.getTempraryID a = ID → a ∈ vs) →
      vs.Nodup →
      c.vars.length + 2 ≤ fuel + vs.length →
      ∃ c1 r vs1, CTinyJS.findChildWithPrototypeChain_loop name ID fuel c object vs =
          .ok (c1, r, vs1) ∧ vs1.Nodup ∧ c0.FirstOwn name start r ∧
          ∀ a, c1.childsOf a = c0.childsOf a := by
  intro fuel
  induction fuel with
  | zero =>
    intro c object vs k _ _ _ hvs2 _ hnd hfuel
    have := nodup_length_le hnd (fun a ha => (hvs2 a ha).2.1)
    omega
  | succ fuel ih =>
    intro c object vs k hch hobj hvs1 hvs2 hst hnd hfuel
    have hlen := nodup_length_le hnd (fun a ha => (hvs2 a ha).2.1)
    have hbefore : ∀ i, 0 ≤ i → i < k → ∀ p, c0.protoAt i start = some p →
        c0.findChild p name = none := by
      intro i _ hik p hp
      obtain ⟨q, hq, hqn⟩ := hvs1 i hik
      rw [hq] at hp
      cases hp
      exact hqn
    cases object with
    | none =>
      refine ⟨c, none, vs, rfl, hnd, ?_, hch⟩
      intro n p hp
      by_cases hnk : n < k
      · exact hbefore n (Nat.zero_le _) hnk p hp
      · have hn : n = k + (n - k) := by omega
        rw [hn, protoAt_add, hobj, protoAt_none] at hp
        cases hp
    | some o =>
      by_cases hstamp : c.getTempraryID o = ID
      · have hmem := hst o hstamp
        obtain ⟨⟨j, hjk, hj⟩, _, _⟩ := hvs2 o hmem
        refine ⟨c, none, vs, ?_, hnd, ?_, hch⟩
        · simp [CTinyJS.findChildWithPrototypeChain_loop, hstamp]
        · intro n p hp
          exact chain_closed c0 name start 0 j k hjk (Nat.zero_le _) (by rw [hobj, hj]) hbefore n
            (Nat.zero_le _) p hp
      · have hnotin : o ∉ vs := fun hmem => hstamp (hvs2 o hmem).2.2
        cases hfind : c.findChild o name with
        | some impl =>
          refine ⟨c, some impl, o :: vs, ?_, List.nodup_cons.mpr ⟨hnotin, hnd⟩, ?_, hch⟩
          · simp [CTinyJS.findChildWithPrototypeChain_loop, hstamp, hfind]
          · refine ⟨k, o, hobj, ?_, fun j hj p hp => hbefore j (Nat.zero_le _) hj p hp⟩
            rw [← findChild_congr hch]
            exact hfind
        | none =>
          have hfind0 : c0.findChild o name = none := by
            rw [← findChild_congr hch]
            exact hfind
          have hstep : CTinyJS.findChildWithPrototypeChain_loop name ID (fuel + 1) c (some o) vs =
              CTinyJS.findChildWithPrototypeChain_loop name ID fuel (c.setTemporaryID o ID)
                (c0.protoOf o) (o :: vs) := by
            simp only [CTinyJS.findChildWithPrototypeChain_loop, ne_eq, hstamp, not_false_eq_true,
              if_true, hfind, findChild_setTemporaryID, findChild_congr hch, CTinyJS.protoOf]
          rw [hstep]
          have hnext : c0.protoAt (k + 1) start = c0.protoOf o := by
            rw [protoAt_succ, hobj]
            rfl
          by_cases ho : o < c.vars.length
          · apply ih (c.setTemporaryID o ID) (c0.protoOf o) (o :: vs) (k + 1)
            · intro a
              rw [childsOf_setTemporaryID, hch]
            · exact hnext
            · intro j hj
              by_cases hjk : j < k
              · exact hvs1 j hjk
              · have : j = k := by omega
                subst this
                exact ⟨o, hobj, hfind0⟩
            · intro a ha
              rw [length_setTemporaryID]
              rcases List.mem_cons.mp ha with rfl | ha
              · exact ⟨⟨k, Nat.lt_succ_self k, hobj⟩, ho,
                  getTempraryID_setTemporaryID_self c a ID ho⟩
              · obtain ⟨⟨j, hj, hj2⟩, h2, h3⟩ := hvs2 a ha
                refine ⟨⟨j, Nat.lt_succ_of_lt hj, hj2⟩, h2, ?_⟩
                have hne : o ≠ a := fun e => hnotin (e ▸ ha)
                rw [getTempraryID_setTemporaryID_ne c o ID a hne]
                exact h3
            · intro a ha
              by_cases hao : o = a
              · exact List.mem_cons.mpr (Or.inl hao.symm)
              · rw [getTempraryID_setTemporaryID_ne c o ID a hao] at ha
                exact List.mem_cons_of_mem _ (hst a ha)
            · exact List.nodup_cons.mpr ⟨hnotin, hnd⟩
            · rw [length_setTemporaryID, List.length_cons]
              omega
          · have hd : c0.protoOf o = none := by
              unfold CTinyJS.protoOf
              rw [← findChild_congr hch, findChild_dangling c o _ (by omega)]
              rfl
            rw [hd]
            obtain ⟨fuel1, rfl⟩ : ∃ f, fuel = f + 1 := ⟨fuel - 1, by omega⟩
            refine ⟨c.setTemporaryID o ID, none, o :: vs, rfl,
              List.nodup_cons.mpr ⟨hnotin, hnd⟩, ?_, ?_⟩
            · intro n p hp
              by_cases hnk : n < k + 1
              · by_cases hnk2 : n < k
                · exact hbefore n (Nat.zero_le _) hnk2 p hp
                · have : n = k := by omega
                  subst this
                  rw [hobj] at hp
                  cases hp
                  exact hfind0
              · have hn : n = (k + 1) + (n - (k + 1)) := by omega
                rw [hn, protoAt_add, hnext, hd, protoAt_none] at hp
                cases hp
            · intro a
              rw [childsOf_setTemporaryID, hch]


theorem findChild_in_heap (c : CTinyJS D) (a : Nat) (n : String) (l : CScriptVarLink)
    (h : c.findChild a n = some l) : a < c.vars.length := by
  by_contra hlt
  rw [findChild_dangling c a n (by omega)] at h
  cases h

/-- The loop of `findChildInPrototypeChain` from a state in which the values
stamped are those of the first `k` steps of the chain from `this`, and none of
the steps 1 to `k` has the property. -/
theorem findChildInPrototypeChain_loop_spec (c0 : CTinyJS D) (name : String) (ID : Nat)
    (this : Nat) :
    ∀ (fuel : Nat) (c : CTinyJS D) (o : Nat) (vs : List Nat) (k : Nat),
      (∀ a, c.childsOf a = c0.childsOf a) →
      c0.protoAt k (some this) = some o →
      (∀ j, 1 ≤ j → j < k + 1 → ∀ p, c0.protoAt j (some this) = some p →
        c0.findChild p name = none) →
      (∀ a ∈ vs, (∃ j < k, c0.protoAt j (some this) = some a) ∧ a < c.vars.length ∧
        c.getTempraryID a = ID) →
      (∀ a, c.getTempraryID a = ID → a ∈ vs) →
      vs.Nodup →
      c.vars.length + 2 ≤ fuel + vs.length →
      ∃ c1 r vs1, CTinyJS.findChildInPrototypeChain_loop name ID fuel c o vs =
          .ok (c1, r, vs1) ∧ vs1.Nodup ∧ c0.FirstOwn name (c0.protoOf this) r ∧
          ∀ a, c1.childsOf a = c0.childsOf a := by
  have hshift : ∀ n, c0.protoAt n (c0.protoOf this) = c0.protoAt (n + 1) (some this) := by
    intro n
    rw [Nat.add_comm, protoAt_add]
    rfl
  intro fuel
  induction fuel with
  | zero =>
    intro c o vs k _ _ _ hvs2 _ hnd hfuel
    have := nodup_length_le hnd (fun a ha => (hvs2 a ha).2.1)
    omega
  | succ fuel ih =>
    intro c o vs k hch hobj hnone hvs2 hst hnd hfuel
    by_cases hstamp : c.getTempraryID o = ID
    · have hmem := hst o hstamp
      obtain ⟨⟨j, hjk, hj⟩, _, _⟩ := hvs2 o hmem
      refine ⟨c, none, vs, ?_, hnd, ?_, hch⟩
      · simp [CTinyJS.findChildInPrototypeChain_loop, hstamp]
      · intro n p hp
        rw [hshift] at hp
        by_cases hnk : n + 1 < k + 1
        · exact hnone (n + 1) (by omega) hnk p hp
        · -- the chain is periodic from step `j`
          have hper : ∀ m, 1 ≤ m → ∀ q, c0.protoAt m (some this) = some q →
              c0.findChild q name = none := by
            intro m
            induction m using Nat.strong_induction_on with
            | _ m ihm =>
              intro hm q hq
              by_cases hmk : m < k + 1
              · exact hnone m hm hmk q hq
              · have hm2 : m = k + (m - k) := by omega
                have e : c0.protoAt m (some this) = c0.protoAt (j + (m - k)) (some this) := by
                  rw [hm2, protoAt_add, hobj, ← hj, ← protoAt_add]
                  congr 1
                  omega
                rw [e] at hq
                exact ihm (j + (m - k)) (by omega) (by omega) q hq
          exact hper (n + 1) (by omega) p hp
    · have hnotin : o ∉ vs := fun hmem => hstamp (hvs2 o hmem).2.2
      cases hproto : c.findChild o TINYJS___PROTO___VAR with
      | none =>
        refine ⟨c, none, vs, ?_, hnd, ?_, hch⟩
        · simp [CTinyJS.findChildInPrototypeChain_loop, hstamp, hproto]
        · intro n p hp
          rw [hshift] at hp
          by_cases hnk : n + 1 < k + 1
          · exact hnone (n + 1) (by omega) hnk p hp
          · have hnext : c0.protoAt (k + 1) (some this) = none := by
              rw [protoAt_succ, hobj]
              show c0.protoOf o = none
              unfold CTinyJS.protoOf
              rw [← findChild_congr hch, hproto]
              rfl
            have hn : n + 1 = (k + 1) + (n - k) := by omega
            rw [hn, protoAt_add, hnext, protoAt_none] at hp
            cases hp
      | some P =>
        have ho : o < c.vars.length := findChild_in_heap c o _ P hproto
        have hnext : c0.protoAt (k + 1) (some this) = some P.var := by
          rw [protoAt_succ, hobj]
          show c0.protoOf o = some P.var
          unfold CTinyJS.protoOf
          rw [← findChild_congr hch, hproto]
          rfl
        cases hfind : c.findChild P.var name with
        | some impl =>
          refine ⟨c, some impl, o :: vs, ?_, List.nodup_cons.mpr ⟨hnotin, hnd⟩, ?_, hch⟩
          · simp [CTinyJS.findChildInPrototypeChain_loop, hstamp, hproto, hfind]
          · refine ⟨k, P.var, ?_, ?_, ?_⟩
            · rw [hshift]
              exact hnext
            · rw [← findChild_congr hch]
              exact hfind
            · intro j hj p hp
              rw [hshift] at hp
              exact hnone (j + 1) (by omega) (by omega) p hp
        | none =>
          have hfind0 : c0.findChild P.var name = none := by
            rw [← findChild_congr hch]
            exact hfind
          have hstep : CTinyJS.findChildInPrototypeChain_loop name ID (fuel + 1) c o vs =
              CTinyJS.findChildInPrototypeChain_loop name ID fuel (c.setTemporaryID o ID)
                P.var (o :: vs) := by
            simp only [CTinyJS.findChildInPrototypeChain_loop, ne_eq, hstamp, not_false_eq_true,
              if_true, hproto, hfind]
          rw [hstep]
          apply ih (c.setTemporaryID o ID) P.var (o :: vs) (k + 1)
          · intro a
            rw [childsOf_setTemporaryID, hch]
          · exact hnext
          · intro j hj1 hj2 p hp
            by_cases hjk : j < k + 1
            · exact hnone j hj1 hjk p hp
            · have : j = k + 1 := by omega
              subst this
              rw [hnext] at hp
              cases hp
              exact hfind0
          · intro a ha
            rw [length_setTemporaryID]
            rcases List.mem_cons.mp ha with rfl | ha
            · exact ⟨⟨k, Nat.lt_succ_self k, hobj⟩, ho,
                getTempraryID_setTemporaryID_self c a ID ho⟩
            · obtain ⟨⟨j, hj, hj2⟩, h2, h3⟩ := hvs2 a ha
              refine ⟨⟨j, Nat.lt_succ_of_lt hj, hj2⟩, h2, ?_⟩
              have hne : o ≠ a := fun e => hnotin (e ▸ ha)
              rw [getTempraryID_setTemporaryID_ne c o ID a hne]
              exact h3
          · intro a ha
            by_cases hao : o = a
            · exact List.mem_cons.mpr (Or.inl hao.symm)
            · rw [getTempraryID_setTemporaryID_ne c o ID a hao] at ha
              exact List.mem_cons_of_mem _ (hst a ha)
          · exact List.nodup_cons.mpr ⟨hnotin, hnd⟩
          · rw [length_setTemporaryID, List.length_cons]
            omega

/-- No value carries the identifier that `getUniqueID` hands out next. -/
theorem fresh_stamp (c : CTinyJS D) (hfresh : ∀ v ∈ c.vars, v.temporaryID ≠ c.getUniqueID.2)
    (a : Nat) : c.getUniqueID.1.getTempraryID a ≠ c.getUniqueID.2 := by
  show (match c.vars[a]? with
    | some v => v.temporaryID
    | none => 0) ≠ c.uniqueID + 1
  cases h : c.vars[a]? with
  | none => exact (Nat.succ_ne_zero _).symm
  | some v => exact hfresh v (List.getElem?_mem h)

end

end TinyJS

namespace TinyJS

/-! ## The keys of `for ... in` -/

theorem stringLess_total {a b : String} (h : a ≠ b) :
    stringLess a b = true ∨ stringLess b a = true := by
  apply stringLessList_total
  intro e
  exact h (String.ext e)

theorem mem_STRING_SET_insert (x : String) : ∀ (K : List String) (n : String),
    n ∈ STRING_SET_insert K x ↔ n = x ∨ n ∈ K
  | [], n => by simp [STRING_SET_insert]
  | y :: ys, n => by
    unfold STRING_SET_insert
    by_cases h1 : stringLess x y = true
    · simp [h1]
    · by_cases h2 : stringLess y x = true
      · simp only [h1, h2, if_true, if_false, Bool.false_eq_true, List.mem_cons,
          mem_STRING_SET_insert x ys n]
        tauto
      · have hxy : x = y := by
          by_contra hne
          rcases stringLess_total hne with h | h
          · exact h1 h
          · exact h2 h
        subst hxy
        simp only [h1, if_false, Bool.false_eq_true, List.mem_cons]
        tauto

theorem sorted_STRING_SET_insert (x : String) : ∀ (K : List String),
    K.Pairwise (fun a b => stringLess a b = true) →
    (STRING_SET_insert K x).Pairwise (fun a b => stringLess a b = true)
  | [], _ => by simp [STRING_SET_insert]
  | y :: ys, h => by
    unfold STRING_SET_insert
    rw [List.pairwise_cons] at h
    by_cases h1 : stringLess x y = true
    · simp only [h1, if_true]
      refine List.pairwise_cons.mpr ⟨?_, List.pairwise_cons.mpr h⟩
      intro b hb
      rcases List.mem_cons.mp hb with rfl | hb
      · exact h1
      · exact stringLessList_trans _ _ _ h1 (h.1 b hb)
    · by_cases h2 : stringLess y x = true
      · simp only [h1, h2, if_true, if_false, Bool.false_eq_true]
        refine List.pairwise_cons.mpr ⟨?_, sorted_STRING_SET_insert x ys h.2⟩
        intro b hb
        rcases (mem_STRING_SET_insert x ys b).mp hb with rfl | hb
        · exact h2
        · exact h.1 b hb
      · simp only [h1, h2, if_false, Bool.false_eq_true]
        exact List.pairwise_cons.mpr h

/-- The loop over `Childs` of `keys`. -/
theorem keys_fold_spec (OnlyEnumerable : Bool) : ∀ (Childs : SCRIPTVAR_CHILDS) (Keys : List String),
    Keys.Pairwise (fun a b => stringLess a b = true) →
    (Childs.foldl (fun K it =>
      if !OnlyEnumerable || it.isEnumerable then STRING_SET_insert K it.name else K) Keys).Pairwise
        (fun a b => stringLess a b = true) ∧
    ∀ n, n ∈ Childs.foldl (fun K it =>
      if !OnlyEnumerable || it.isEnumerable then STRING_SET_insert K it.name else K) Keys ↔
      n ∈ Keys ∨ ∃ l ∈ Childs, (!OnlyEnumerable || l.isEnumerable) = true ∧ l.name = n
  | [], Keys, h => by simp [h]
  | it :: Childs, Keys, h => by
    rw [List.foldl_cons]
    by_cases hp : (!OnlyEnumerable || it.isEnumerable) = true
    · rw [if_pos hp]
      obtain ⟨h1, h2⟩ := keys_fold_spec OnlyEnumerable Childs _
        (sorted_STRING_SET_insert it.name Keys h)
      refine ⟨h1, fun n => ?_⟩
      rw [h2 n, mem_STRING_SET_insert]
      constructor
      · rintro ((rfl | h) | ⟨l, hl, hpl, rfl⟩)
        · exact Or.inr ⟨it, List.mem_cons_self _ _, hp, rfl⟩
        · exact Or.inl h
        · exact Or.inr ⟨l, List.mem_cons_of_mem _ hl, hpl, rfl⟩
      · rintro (h | ⟨l, hl, hpl, rfl⟩)
        · exact Or.inl (Or.inr h)
        · rcases List.mem_cons.mp hl with rfl | hl
          · exact Or.inl (Or.inl rfl)
          · exact Or.inr ⟨l, hl, hpl, rfl⟩
    · rw [if_neg hp]
      obtain ⟨h1, h2⟩ := keys_fold_spec OnlyEnumerable Childs Keys h
      refine ⟨h1, fun n => ?_⟩
      rw [h2 n]
      constructor
      · rintro (h | ⟨l, hl, hpl, rfl⟩)
        · exact Or.inl h
        · exact Or.inr ⟨l, List.mem_cons_of_mem _ hl, hpl, rfl⟩
      · rintro (h | ⟨l, hl, hpl, rfl⟩)
        · exact Or.inl h
        · rcases List.mem_cons.mp hl with rfl | hl
          · exact absurd hpl hp
          · exact Or.inr ⟨l, hl, hpl, rfl⟩

section

variable {D : Type}

/-- When the chain from `start` comes back at step `k` to the value of an earlier
step `j`, a property of the values before step `k` is one of all its values. -/
theorem chain_periodic (c0 : CTinyJS D) (Q : Nat → Prop) (start : Option Nat) (j k : Nat)
    (hjk : j < k) (hsame : c0.protoAt k start = c0.protoAt j start)
    (hQ : ∀ i, i < k → ∀ p, c0.protoAt i start = some p → Q p) :
    ∀ n, ∀ p, c0.protoAt n start = some p → Q p := by
  intro n
  induction n using Nat.strong_induction_on with
  | _ n ih =>
    intro p hp
    by_cases hnk : n < k
    · exact hQ n hnk p hp
    · have hn : n = k + (n - k) := by omega
      have e : c0.protoAt n start = c0.protoAt (j + (n - k)) start := by
        rw [hn, protoAt_add, hsame, ← protoAt_add]
        congr 1
        omega
      rw [e] at hp
      exact ih (j + (n - k)) (by omega) p hp

/-- `CScriptVar::keys` from a state in which the values stamped are those of the
first `k` steps of the chain, whose names are in `Keys`. -/
theorem keys_spec (c0 : CTinyJS D) (OnlyEnumerable : Bool) (ID : Nat) (hID : ID ≠ 0)
    (start : Option Nat) :
    ∀ (fuel : Nat) (c : CTinyJS D) (this : Nat) (Keys : List String) (vs : List Nat) (k : Nat),
      (∀ a, c.childsOf a = c0.childsOf a) →
      c0.protoAt k start = some this →
      (∀ a ∈ vs, a < c.vars.length ∧ c.getTempraryID a = ID ∧
        ∃ j < k, c0.protoAt j start = some a) →
      (∀ a, c.getTempraryID a = ID → a ∈ vs) →
      vs.Nodup →
      c.getTempraryID this ≠ ID →
      (∀ j < k, ∀ p, c0.protoAt j start = some p → ∀ l ∈ c0.childsOf p,
        (!OnlyEnumerable || l.isEnumerable) = true → l.name ∈ Keys) →
      Keys.Pairwise (fun a b => stringLess a b = true) →
      c.vars.length + 1 ≤ fuel + vs.length →
      ∃ c1 K, CTinyJS.keys OnlyEnumerable ID fuel c this Keys = .ok (c1, K) ∧
        K.Pairwise (fun a b => stringLess a b = true) ∧
        (∀ n ∈ Keys, n ∈ K) ∧
        (∀ n ∈ K, n ∈ Keys ∨ ∃ j o l, c0.protoAt j start = some o ∧ l ∈ c0.childsOf o ∧
          (!OnlyEnumerable || l.isEnumerable) = true ∧ l.name = n) ∧
        (∀ j o, c0.protoAt j start = some o → ∀ l ∈ c0.childsOf o,
          (!OnlyEnumerable || l.isEnumerable) = true → l.name ∈ K) ∧
        ∀ a, c1.childsOf a = c0.childsOf a := by
  intro fuel
  induction fuel with
  | zero =>
    intro c this Keys vs k _ _ hvs _ hnd _ _ _ hfuel
    have := nodup_length_le hnd (fun a ha => (hvs a ha).1)
    omega
  | succ fuel ih =>
    intro c this Keys vs k hch hobj hvs hst hnd hthis hvis hsorted hfuel
    have hlen := nodup_length_le hnd (fun a ha => (hvs a ha).1)
    have hnotin : this ∉ vs := fun hmem => hthis (hvs this hmem).2.1
    obtain ⟨hs1, hm1⟩ := keys_fold_spec OnlyEnumerable (c0.childsOf this) Keys hsorted
    -- the names gathered after the pass over the children of `this`
    generalize hK1 : (c0.childsOf this).foldl (fun K it =>
      if !OnlyEnumerable || it.isEnumerable then STRING_SET_insert K it.name else K) Keys = Keys1
      at hs1 hm1
    have hch1 : ∀ a, (c.setTemporaryID this ID).childsOf a = c0.childsOf a := by
      intro a
      rw [childsOf_setTemporaryID, hch]
    have hvis1 : ∀ j < k + 1, ∀ p, c0.protoAt j start = some p → ∀ l ∈ c0.childsOf p,
        (!OnlyEnumerable || l.isEnumerable) = true → l.name ∈ Keys1 := by
      intro j hj p hp l hl hpl
      by_cases hjk : j < k
      · exact (hm1 _).mpr (Or.inl (hvis j hjk p hp l hl hpl))
      · have : j = k := by omega
        subst this
        rw [hobj] at hp
        cases hp
        exact (hm1 _).mpr (Or.inr ⟨l, hl, hpl, rfl⟩)
    have hprov : ∀ n ∈ Keys1, n ∈ Keys ∨ ∃ j o l, c0.protoAt j start = some o ∧
        l ∈ c0.childsOf o ∧ (!OnlyEnumerable || l.isEnumerable) = true ∧ l.name = n := by
      intro n hn
      rcases (hm1 n).mp hn with h | ⟨l, hl, hpl, rfl⟩
      · exact Or.inl h
      · exact Or.inr ⟨k, this, l, hobj, hl, hpl, rfl⟩
    have hstep : CTinyJS.keys OnlyEnumerable ID (fuel + 1) c this Keys =
        match (c.setTemporaryID this ID).findChild this TINYJS___PROTO___VAR with
        | some __proto__ =>
          if (c.setTemporaryID this ID).getTempraryID __proto__.var ≠ ID then
            CTinyJS.keys OnlyEnumerable ID fuel (c.setTemporaryID this ID) __proto__.var Keys1
          else .ok (c.setTemporaryID this ID, Keys1)
        | none => .ok (c.setTemporaryID this ID, Keys1) := by
      simp only [CTinyJS.keys, hch1, hK1, ne_eq, hID, not_false_eq_true, if_true]
    rw [hstep]
    cases hproto : (c.setTemporaryID this ID).findChild this TINYJS___PROTO___VAR with
    | none =>
      refine ⟨_, Keys1, rfl, hs1, fun n hn => (hm1 n).mpr (Or.inl hn), hprov, ?_, hch1⟩
      intro j o ho l hl hpl
      by_cases hjk : j < k + 1
      · exact hvis1 j hjk o ho l hl hpl
      · have hnext : c0.protoAt (k + 1) start = none := by
          rw [protoAt_succ, hobj]
          show c0.protoOf this = none
          unfold CTinyJS.protoOf
          rw [← findChild_congr hch1, hproto]
          rfl
        have hj : j = (k + 1) + (j - (k + 1)) := by omega
        rw [hj, protoAt_add, hnext, protoAt_none] at ho
        cases ho
    | some P =>
      have hin : this < c.vars.length := by
        have := findChild_in_heap _ _ _ _ hproto
        rw [length_setTemporaryID] at this
        exact this
      have hnext : c0.protoAt (k + 1) start = some P.var := by
        rw [protoAt_succ, hobj]
        show c0.protoOf this = some P.var
        unfold CTinyJS.protoOf
        rw [← findChild_congr hch1, hproto]
        rfl
      by_cases hstamp : (c.setTemporaryID this ID).getTempraryID P.var = ID
      · refine ⟨_, Keys1, ?_, hs1, fun n hn => (hm1 n).mpr (Or.inl hn), hprov, ?_, hch1⟩
        · simp [hstamp]
        · -- the prototype is a value of an earlier step
          have hearlier : ∃ j < k + 1, c0.protoAt j start = some P.var := by
            by_cases hPt : this = P.var
            · exact ⟨k, Nat.lt_succ_self k, hPt ▸ hobj⟩
            · rw [getTempraryID_setTemporaryID_ne c this ID P.var hPt] at hstamp
              obtain ⟨_, _, j, hj, hj2⟩ := hvs P.var (hst P.var hstamp)
              exact ⟨j, Nat.lt_succ_of_lt hj, hj2⟩
          obtain ⟨j, hj, hj2⟩ := hearlier
          intro i o ho l hl hpl
          exact chain_periodic c0
            (fun p => ∀ l ∈ c0.childsOf p, (!OnlyEnumerable || l.isEnumerable) = true →
              l.name ∈ Keys1) start j (k + 1) hj (by rw [hnext, hj2])
            (fun i hi p hp => hvis1 i hi p hp) i o ho l hl hpl
      · simp only [ne_eq, hstamp, not_false_eq_true, if_true]
        obtain ⟨c1, K, hk, hks, hkm, hkp, hkall, hkch⟩ :=
          ih (c.setTemporaryID this ID) P.var Keys1 (this :: vs) (k + 1) hch1 hnext
            (by
              intro a ha
              rw [length_setTemporaryID]
              rcases List.mem_cons.mp ha with rfl | ha
              · exact ⟨hin, getTempraryID_setTemporaryID_self c a ID hin, k,
                  Nat.lt_succ_self k, hobj⟩
              · obtain ⟨h1, h2, j, hj, hj2⟩ := hvs a ha
                have hne : this ≠ a := fun e => hnotin (e ▸ ha)
                exact ⟨h1, by rw [getTempraryID_setTemporaryID_ne c this ID a hne]; exact h2,
                  j, Nat.lt_succ_of_lt hj, hj2⟩)
            (by
              intro a ha
              by_cases hta : this = a
              · exact List.mem_cons.mpr (Or.inl hta.symm)
              · rw [getTempraryID_setTemporaryID_ne c this ID a hta] at ha
                exact List.mem_cons_of_mem _ (hst a ha))
            (List.nodup_cons.mpr ⟨hnotin, hnd⟩) hstamp hvis1 hs1
            (by rw [length_setTemporaryID, List.length_cons]; omega)
        refine ⟨c1, K, hk, hks, fun n hn => hkm n ((hm1 n).mpr (Or.inl hn)), ?_, hkall, hkch⟩
        intro n hn
        rcases hkp n hn with h | h
        · exact hprov n h
        · exact Or.inr h

end

end TinyJS

namespace TinyJS

/-! ## The stamps stay below the counter -/

section

variable {D : Type}

theorem uniqueID_setTemporaryID (c : CTinyJS D) (o ID : Nat) :
    (c.setTemporaryID o ID).uniqueID = c.uniqueID := by
  unfold CTinyJS.setTemporaryID
  cases c.vars[o]? <;> rfl

theorem stamps_setTemporaryID (c : CTinyJS D) (o ID M : Nat)
    (h : ∀ v ∈ c.vars, v.temporaryID ≤ M) (hID : ID ≤ M) :
    ∀ v ∈ (c.setTemporaryID o ID).vars, v.temporaryID ≤ M := by
  unfold CTinyJS.setTemporaryID
  cases hv : c.vars[o]? with
  | none => exact h
  | some x =>
    intro v hmem
    rcases List.mem_or_eq_of_mem_set hmem with h1 | h1
    · exact h v h1
    · rw [h1]
      exact hID

theorem findChildWithPrototypeChain_loop_stamps (name : String) (ID M : Nat) (hID : ID ≤ M) :
    ∀ (fuel : Nat) (c : CTinyJS D) (object : Option Nat) (vs : List Nat)
      (r : CTinyJS D × Option CScriptVarLink × List Nat),
      CTinyJS.findChildWithPrototypeChain_loop name ID fuel c object vs = .ok r →
      (∀ v ∈ c.vars, v.temporaryID ≤ M) →
      (∀ v ∈ r.1.vars, v.temporaryID ≤ M) ∧ r.1.uniqueID = c.uniqueID := by
  intro fuel
  induction fuel with
  | zero =>
    intro c object vs r h
    simp [CTinyJS.findChildWithPrototypeChain_loop] at h
  | succ fuel ih =>
    intro c object vs r h hb
    unfold CTinyJS.findChildWithPrototypeChain_loop at h
    cases object with
    | none =>
      simp only [Except.ok.injEq] at h
      subst h
      exact ⟨hb, rfl⟩
    | some o =>
      simp only at h
      split at h
      · split at h
        · simp only [Except.ok.injEq] at h
          subst h
          exact ⟨hb, rfl⟩
        · obtain ⟨h1, h2⟩ := ih _ _ _ r h (stamps_setTemporaryID c o ID M hb hID)
          exact ⟨h1, by rw [h2, uniqueID_setTemporaryID]⟩
      · simp only [Except.ok.injEq] at h
        subst h
        exact ⟨hb, rfl⟩

theorem findChildInPrototypeChain_loop_stamps (name : String) (ID M : Nat) (hID : ID ≤ M) :
    ∀ (fuel : Nat) (c : CTinyJS D) (object : Nat) (vs : List Nat)
      (r : CTinyJS D × Option CScriptVarLink × List Nat),
      CTinyJS.findChildInPrototypeChain_loop name ID fuel c object vs = .ok r →
      (∀ v ∈ c.vars, v.temporaryID ≤ M) →
      (∀ v ∈ r.1.vars, v.temporaryID ≤ M) ∧ r.1.uniqueID = c.uniqueID := by
  intro fuel
  induction fuel with
  | zero =>
    intro c object vs r h
    simp [CTinyJS.findChildInPrototypeChain_loop] at h
  | succ fuel ih =>
    intro c object vs r h hb
    unfold CTinyJS.findChildInPrototypeChain_loop at h
    split at h
    · split at h
      · split at h
        · simp only [Except.ok.injEq] at h
          subst h
          exact ⟨hb, rfl⟩
        · obtain ⟨h1, h2⟩ := ih _ _ _ r h (stamps_setTemporaryID c object ID M hb hID)
          exact ⟨h1, by rw [h2, uniqueID_setTemporaryID]⟩
      · simp only [Except.ok.injEq] at h
        subst h
        exact ⟨hb, rfl⟩
    · simp only [Except.ok.injEq] at h
      subst h
      exact ⟨hb, rfl⟩

theorem keys_stamps (OnlyEnumerable : Bool) (ID M : Nat) (hID : ID ≤ M) :
    ∀ (fuel : Nat) (c : CTinyJS D) (this : Nat) (Keys : List String)
      (r : CTinyJS D × List String),
      CTinyJS.keys OnlyEnumerable ID fuel c this Keys = .ok r →
      (∀ v ∈ c.vars, v.temporaryID ≤ M) →
      (∀ v ∈ r.1.vars, v.temporaryID ≤ M) ∧ r.1.uniqueID = c.uniqueID := by
  intro fuel
  induction fuel with
  | zero =>
    intro c this Keys r h
    simp [CTinyJS.keys] at h
  | succ fuel ih =>
    intro c this Keys r h hb
    have hb1 := stamps_setTemporaryID c this ID M hb hID
    unfold CTinyJS.keys at h
    simp only at h
    split at h
    · split at h
      · split at h
        · obtain ⟨h1, h2⟩ := ih _ _ _ r h hb1
          exact ⟨h1, by rw [h2, uniqueID_setTemporaryID]⟩
        · simp only [Except.ok.injEq] at h
          subst h
          exact ⟨hb1, uniqueID_setTemporaryID c this ID⟩
      · simp only [Except.ok.injEq] at h
        subst h
        exact ⟨hb1, uniqueID_setTemporaryID c this ID⟩
    · simp only [Except.ok.injEq] at h
      subst h
      exact ⟨hb1, uniqueID_setTemporaryID c this ID⟩

/-- No value carries the identifier that `getUniqueID` hands out next, when every
stamp is at most the counter. -/
theorem fresh_of_stamps (c : CTinyJS D) (h : ∀ v ∈ c.vars, v.temporaryID ≤ c.uniqueID) :
    ∀ v ∈ c.vars, v.temporaryID ≠ c.getUniqueID.2 := by
  intro v hv e
  have := h v hv
  have e2 : v.temporaryID = c.uniqueID + 1 := e
  omega

end

end TinyJS
namespace TinyJS

/-! ## The member access with `execute` unset -/

/-- The loop of `execute_member` at a token `[` whose skip value is 0, with
`execute` unset: a pass of the loop leaves the cursor where it is, so the loop
is not left, whatever the number of passes allowed. -/
theorem member_loop_stuck {D : Type} (E : Expressions D) (V : Values D) (s : Exec D)
    (htk : s.tk = tkChar '[') (hskip : s.getToken.getInt = 0) :
    ∀ (fuel : Nat) (a parent : Option CScriptVarLink),
      Expression.execute_member_loop E V fuel s false a parent = .error .fuel := by
  have hs : s.skip = s := by
    unfold Exec.skip
    rw [hskip]
    simp
  have hg : ∀ a, Expression.getter E s false a = .ok (s, false, a) := by
    intro a
    unfold Expression.getter CScriptVarLinkWorkPtr.getter getterFault
    cases a <;> simp
  intro fuel
  induction fuel with
  | zero => intro a parent; rfl
  | succ n ih =>
    intro a parent
    unfold Expression.execute_member_loop
    have hne : ¬ (s.tk = tkChar '.') := by rw [htk]; decide
    simp only [htk, hg, or_true, if_true]
    simp only [hne, if_false, hs, Bool.false_eq_true]
    exact ih a a

end TinyJS
namespace TinyJS

/-! ## The two loops of `tiny_ltoa` -/

/-- The first loop of `tiny_ltoa` writes the digits of `val`, least significant
first (one `0` for 0). -/
theorem tiny_ltoa_digits_spec (radix : Nat) (hr : 2 ≤ radix) :
    ∀ (fuel val : Nat) (buf : List Char), val < fuel →
      tiny_ltoa_digits radix fuel val buf =
        buf ++ (if val = 0 then [tiny_ltoa_char 0] else (Nat.digits radix val).map tiny_ltoa_char) := by
  intro fuel
  induction fuel with
  | zero => intro val buf h; omega
  | succ n ih =>
    intro val buf h
    unfold tiny_ltoa_digits
    simp only
    by_cases h1 : val / radix > 0
    · rw [if_pos h1]
      have hv : 0 < val := by
        rcases Nat.eq_zero_or_pos val with h0 | h0
        · rw [h0] at h1; simp at h1
        · exact h0
      have hlt : val / radix < val := Nat.div_lt_self hv (by omega)
      rw [ih (val / radix) _ (by omega), if_neg (by omega), if_neg (by omega),
        Nat.digits_def' (by omega) hv]
      simp
    · rw [if_neg h1]
      have h0 : val / radix = 0 := Nat.le_zero.mp (Nat.not_lt.mp h1)
      have hlt : val < radix := (Nat.div_eq_zero_iff (by omega)).mp h0
      by_cases hz : val = 0
      · rw [if_pos hz, hz]
        simp
      · rw [if_neg hz, Nat.digits_of_lt radix val hz hlt, Nat.mod_eq_of_lt hlt]
        simp

/-- The character at the index that is the length of the first part. -/
theorem getD_append_cons (A R : List Char) (x d : Char) (i : Nat) (h : i = A.length) :
    (A ++ x :: R).getD i d = x := by
  subst h
  induction A with
  | nil => rfl
  | cons a A ih => simpa using ih

/-- The list with the character at that index replaced. -/
theorem set_append_cons (A R : List Char) (x y : Char) (i : Nat) (h : i = A.length) :
    (A ++ x :: R).set i y = A ++ y :: R := by
  subst h
  induction A with
  | nil => rfl
  | cons a A ih => simp

/-- The second loop of `tiny_ltoa` reverses the part of the buffer between
`firstdig` and `p`, both included. -/
theorem tiny_ltoa_reverse_spec :
    ∀ (fuel : Nat) (A M B : List Char), M ≠ [] → M.length ≤ 2 * fuel →
      tiny_ltoa_reverse fuel (A ++ M ++ B) ((A.length : Int) + (M.length : Int) - 1) A.length =
        A ++ M.reverse ++ B := by
  intro fuel
  induction fuel with
  | zero =>
    intro A M B hM hl
    cases M with
    | nil => exact absurd rfl hM
    | cons x xs => simp at hl
  | succ n ih =>
    intro A M B hM hl
    unfold tiny_ltoa_reverse
    cases M with
    | nil => exact absurd rfl hM
    | cons x xs =>
      rcases List.eq_nil_or_concat xs with hx | ⟨M1, y, hx⟩
      · -- one character
        subst hx
        have hp : ((A.length : Int) + (([x] : List Char).length : Int) - 1).toNat = A.length := by
          simp
        simp only [hp]
        have hcond : ¬ (((A.length + 1 : Nat) : Int) <
            (A.length : Int) + (([x] : List Char).length : Int) - 1 - 1) := by
          simp
          omega
        rw [if_neg hcond]
        have e : A ++ [x] ++ B = A ++ x :: B := by simp
        rw [e, getD_append_cons A B x NUL _ rfl, set_append_cons A B x x _ rfl,
          set_append_cons A B x x _ rfl]
        simp
      · subst hx
        have hp : ((A.length : Int) + ((x :: (M1.concat y) : List Char).length : Int) - 1).toNat =
            A.length + M1.length + 1 := by
          simp
          omega
        simp only [hp]
        have e1 : A ++ x :: (M1.concat y) ++ B = (A ++ x :: M1) ++ y :: B := by simp
        have e2 : (A ++ x :: M1) ++ x :: B = A ++ x :: (M1 ++ x :: B) := by simp
        have hl1 : A.length + M1.length + 1 = (A ++ x :: M1).length := by simp; omega
        have hg0 : (A ++ x :: M1 ++ y :: B).getD A.length NUL = x := by
          have e0 : A ++ x :: M1 ++ y :: B = A ++ x :: (M1 ++ y :: B) := by simp
          rw [e0]
          exact getD_append_cons A _ x NUL _ rfl
        rw [e1, hg0, getD_append_cons (A ++ x :: M1) B y NUL _ hl1,
          set_append_cons (A ++ x :: M1) B y _ _ hl1, e2,
          set_append_cons A (M1 ++ x :: B) x y _ rfl]
        by_cases hc : (((A.length + 1 : Nat) : Int) <
            (A.length : Int) + ((x :: (M1.concat y) : List Char).length : Int) - 1 - 1)
        · rw [if_pos hc]
          have hlen : 2 ≤ M1.length := by
            simp at hc
            omega
          have hM1 : M1 ≠ [] := by
            intro h
            rw [h] at hlen
            simp at hlen
          have hidx : (A.length : Int) + ((x :: (M1.concat y) : List Char).length : Int) - 1 - 1 =
              ((A ++ [y]).length : Int) + (M1.length : Int) - 1 := by
            simp
            omega
          have hf : A.length + 1 = (A ++ [y]).length := by simp
          have e3 : A ++ y :: (M1 ++ x :: B) = (A ++ [y]) ++ M1 ++ (x :: B) := by simp
          rw [hidx, hf, e3, ih (A ++ [y]) M1 (x :: B) hM1 (by simp at hl; omega)]
          simp
        · rw [if_neg hc]
          have hlen : M1.length ≤ 1 := by
            simp at hc
            omega
          have hrev : M1.reverse = M1 := by
            match M1, hlen with
            | [], _ => rfl
            | [_], _ => rfl
          simp [hrev]

/-- The characters of `tiny_ltoa` are those of the claim for the digits below 36. -/
theorem tiny_ltoa_char_standard (d : Nat) (h : d < 36) : tiny_ltoa_char d = standardDigit d := by
  interval_cases d <;> rfl

/-- No digit of the claim is the sign. -/
theorem standardDigit_ne_minus (d : Nat) : standardDigit d ≠ '-' := by
  unfold standardDigit
  by_cases h : d < 36
  · interval_cases d <;> decide
  · rw [List.getD_eq_default _ _ (by simp; omega)]
    decide

end TinyJS
namespace TinyJS

/-- The digits that the first loop of `tiny_ltoa` writes, reversed, are the digits
of the claim. -/
theorem tiny_ltoa_digits_standard (r : Nat) (hr : 2 ≤ r) (hr36 : r ≤ 36) (m : Nat) :
    (if m = 0 then [tiny_ltoa_char 0] else (Nat.digits r m).map tiny_ltoa_char).reverse =
      standardDigits m r := by
  unfold standardDigits
  by_cases hm : m = 0
  · rw [if_pos hm, if_pos hm]
    rfl
  · rw [if_neg hm, if_neg hm, ← List.map_reverse]
    apply List.map_congr_left
    intro d hd
    have h1 : d ∈ Nat.digits r m := List.mem_reverse.mp hd
    have h2 : d < r := Nat.digits_lt_base (by omega) h1
    exact tiny_ltoa_char_standard d (by omega)

/-- The result of `tiny_ltoa`: the buffer of the first loop (the sign, then the
digits, least significant first), reversed as a whole. -/
theorem tiny_ltoa_eq (n : Int) (r : Nat) (hr : 2 ≤ r) (hr36 : r ≤ 36) :
    tiny_ltoa n r =
      String.mk (standardDigits n.natAbs r ++ (if n < 0 then ['-'] else [])) := by
  have hnat : (if n < 0 then -n else n).toNat = n.natAbs := by
    split <;> omega
  unfold tiny_ltoa
  simp only [hnat]
  rw [tiny_ltoa_digits_spec r hr _ _ _ (Nat.lt_succ_self _)]
  generalize hD : (if n.natAbs = 0 then [tiny_ltoa_char 0]
    else (Nat.digits r n.natAbs).map tiny_ltoa_char) = Dg
  have hrev : Dg.reverse = standardDigits n.natAbs r := by
    rw [← hD]
    exact tiny_ltoa_digits_standard r hr hr36 _
  have hne : (if n < 0 then ['-'] else []) ++ Dg ≠ [] := by
    have : Dg ≠ [] := by
      rw [← hD]
      split
      · simp
      · rename_i hm
        intro h
        exact hm ((Nat.digits_eq_nil_iff_eq_zero).mp (List.map_eq_nil_iff.mp h))
    simp [this]
  have h := tiny_ltoa_reverse_spec ((if n < 0 then ['-'] else []) ++ Dg).length []
    ((if n < 0 then ['-'] else []) ++ Dg) [] hne (by omega)
  simp only [List.nil_append, List.append_nil, List.length_nil, Int.Nat.cast_ofNat_Int,
    zero_add] at h
  rw [h]
  rw [List.reverse_append, hrev]
  congr 1
  split <;> rfl

end TinyJS
namespace TinyJS

/-! ## The last link of a sorted property list -/

/-- In a strictly sorted property list whose numerals are below 2^31, no numeral
stands before a name that is no numeral, and the numerals ascend. -/
theorem strictSorted_last (init : SCRIPTVAR_CHILDS) (back : CScriptVarLink)
    (hs : StrictSorted (init ++ [back]))
    (hb : ∀ l ∈ init ++ [back], isNumeral l.name = true → numeralValue l.name < 2147483648) :
    ∀ x ∈ init, isNumeral x.name = true →
      isNumeral back.name = true ∧ numeralValue x.name < numeralValue back.name := by
  intro x hx hnum
  have hlt : CScriptVarLinkPtr.lt x back.name = true := by
    unfold StrictSorted at hs
    rw [List.pairwise_append] at hs
    exact hs.2.2 x hx back (by simp)
  have hkx : isDecimalNumber x.name = (numeralValue x.name : Int) :=
    isDecimalNumber_numeral hnum (hb x (by simp [hx]) hnum)
  have h0 : (0 : Int) ≤ (numeralValue x.name : Int) := Int.ofNat_nonneg _
  unfold CScriptVarLinkPtr.lt at hlt
  simp only at hlt
  rw [hkx, if_neg (by omega)] at hlt
  have hlt2 : (numeralValue x.name : Int) < isDecimalNumber back.name := by simpa using hlt
  by_cases hbn : isNumeral back.name = true
  · have hkb := isDecimalNumber_numeral hbn (hb back (by simp) hbn)
    rw [hkb] at hlt2
    exact ⟨hbn, by exact_mod_cast hlt2⟩
  · have hkb := isDecimalNumber_not_numeral (Bool.eq_false_iff.mpr hbn)
    rw [hkb] at hlt2
    omega

end TinyJS
namespace TinyJS

/-! ## The statement of a forwarder and the end of a `switch` -/

/-- Source `t->match(tk)` leaves the buffer, the context and the label as they are. -/
theorem Exec.match_frame {D : Type} (a b : Exec D) (e : Nat) (alt : Option Nat)
    (h : a.«match» e alt = .ok b) : b.tokens = a.tokens ∧ b.c = a.c ∧ b.label = a.label := by
  unfold Exec.«match» at h
  cases hc : a.check e alt with
  | error x => rw [hc] at h; cases h
  | ok v =>
    rw [hc] at h
    cases v with
    | false =>
      simp only [Except.ok.injEq] at h
      rw [← h]
      exact ⟨rfl, rfl, rfl⟩
    | true =>
      simp only [Except.ok.injEq] at h
      rw [← h]
      unfold Exec.getNextToken
      split <;> exact ⟨rfl, rfl, rfl⟩

/-- Source `case LEX_T_FORWARD`: the buffer after the statement is the buffer before
it with the set `lets` of the forwarder replaced by its set `vars`. -/
theorem execute_forward_tokens {D : Type} (E : Expressions D) (s s1 : Exec D)
    (lets vars vl : List String) (functions : List CScriptToken)
    (htok : s.tokens[s.pos]? = some (.forwarder lets vars vl functions))
    (h : execute_forward E s = .ok s1) :
    s1.tokens = s.tokens.set s.pos (.forwarder vars vars vl functions) := by
  have hget : s.getToken = .forwarder lets vars vl functions := by
    unfold Exec.getToken; rw [htok]; rfl
  unfold execute_forward at h
  rw [hget] at h
  simp only at h
  split at h
  · cases h
  · split at h
    · cases h
    · exact (Exec.match_frame _ _ _ _ h).1

/-- The statement at a forwarder token is `case LEX_T_FORWARD`, whatever `execute` is. -/
theorem execute_statement_forward {D : Type} (E : Expressions D) (fuel : Nat) (s : Exec D)
    (execute : Bool) (htk : s.tk = LEX_T_FORWARD) :
    execute_statement E (fuel + 1) s execute =
      (execute_forward E s).map fun x => (x, execute, none) := by
  unfold execute_statement execute_statement_step
  simp only [htk]
  rw [if_neg (by decide), if_neg (by decide), if_pos trivial]
  cases execute_forward E s <;> rfl

end TinyJS
namespace TinyJS

/-! ## The lexer on the quoted form of a string -/

/-- The body of `getNextCh` changes neither the token nor the text. -/
theorem getNextCh_read_fields (l : CScriptLex) :
    l.getNextCh_read.tkStr = l.tkStr ∧ l.getNextCh_read.tk = l.tk ∧
      l.getNextCh_read.data = l.data := by
  unfold CScriptLex.getNextCh_read
  simp only
  split <;> exact ⟨rfl, rfl, rfl⟩

/-- Source `getNextCh` changes neither the token nor the text. -/
theorem getNextCh_fields (l : CScriptLex) :
    l.getNextCh.tkStr = l.tkStr ∧ l.getNextCh.tk = l.tk ∧ l.getNextCh.data = l.data := by
  have h1 := getNextCh_read_fields l
  have h2 := getNextCh_read_fields l.getNextCh_read
  unfold CScriptLex.getNextCh
  simp only
  split
  · split
    · exact ⟨h2.1.trans h1.1, h2.2.1.trans h1.2.1, h2.2.2.trans h1.2.2⟩
    · exact h1
  · exact h1

/-- Source `getNextCh` where the character fetched before is no carriage return: it
becomes the current character, and the next character of the text is
fetched. -/
theorem getNextCh_step (l : CScriptLex) (nxt : Char) (rest : List Char)
    (h2 : l.nextCh = nxt) (h3 : l.data.drop l.dataPos = rest) (h4 : ∀ c ∈ rest, c ≠ NUL)
    (hr : nxt ≠ '\r') :
    l.getNextCh.currCh = nxt ∧ l.getNextCh.nextCh = rest.headD NUL ∧
      l.getNextCh.data.drop l.getNextCh.dataPos = rest.tail := by
  have hread : l.getNextCh_read.currCh = nxt ∧
      l.getNextCh_read.nextCh = rest.headD NUL ∧
      l.getNextCh_read.data.drop l.getNextCh_read.dataPos = rest.tail := by
    unfold CScriptLex.getNextCh_read
    have key : ∀ l1 : CScriptLex, l1.nextCh = l.nextCh → l1.data = l.data →
        l1.dataPos = l.dataPos →
        ({ l1 with currCh := l1.nextCh, nextCh := l1.data.getD l1.dataPos NUL,
                   dataPos := if l1.data.getD l1.dataPos NUL ≠ NUL then l1.dataPos + 1
                     else l1.dataPos } : CScriptLex).currCh = nxt ∧
        ({ l1 with currCh := l1.nextCh, nextCh := l1.data.getD l1.dataPos NUL,
                   dataPos := if l1.data.getD l1.dataPos NUL ≠ NUL then l1.dataPos + 1
                     else l1.dataPos } : CScriptLex).nextCh = rest.headD NUL ∧
        ({ l1 with currCh := l1.nextCh, nextCh := l1.data.getD l1.dataPos NUL,
                   dataPos := if l1.data.getD l1.dataPos NUL ≠ NUL then l1.dataPos + 1
                     else l1.dataPos } : CScriptLex).data.drop
          ({ l1 with currCh := l1.nextCh, nextCh := l1.data.getD l1.dataPos NUL,
                     dataPos := if l1.data.getD l1.dataPos NUL ≠ NUL then l1.dataPos + 1
                       else l1.dataPos } : CScriptLex).dataPos = rest.tail := by
      intro l1 e1 e2 e3
      simp only [e1, e2, e3, h2]
      refine ⟨trivial, ?_, ?_⟩
      · cases ht : rest with
        | nil =>
          rw [ht] at h3
          have hlen : l.data.length ≤ l.dataPos := List.drop_eq_nil_iff.mp h3
          simp [List.getD_eq_getElem?_getD, List.getElem?_eq_none hlen]
        | cons x xs =>
          rw [ht] at h3
          have hx : l.data[l.dataPos]? = some x := by
            have := congrArg List.head? h3
            simpa [List.head?_drop] using this
          simp [List.getD_eq_getElem?_getD, hx]
      · cases ht : rest with
        | nil =>
          rw [ht] at h3
          have hlen : l.data.length ≤ l.dataPos := List.drop_eq_nil_iff.mp h3
          simp [List.getD_eq_getElem?_getD, List.getElem?_eq_none hlen, h3]
        | cons x xs =>
          rw [ht] at h3
          have hx : l.data[l.dataPos]? = some x := by
            have := congrArg List.head? h3
            simpa [List.head?_drop] using this
          have hxn : x ≠ NUL := h4 x (by rw [ht]; simp)
          have hd : l.data.drop (l.dataPos + 1) = xs := by
            have := congrArg List.tail h3
            simpa [List.tail_drop] using this
          simp [List.getD_eq_getElem?_getD, hx, hxn, hd]
    simp only
    split
    · exact key _ rfl rfl rfl
    · exact key _ rfl rfl rfl
  have hne : ¬ (l.getNextCh_read.currCh = '\r') := by
    rw [hread.1]
    exact hr
  unfold CScriptLex.getNextCh
  simp only
  rw [if_neg hne]
  exact hread

/-- Source `getNextCh` where the character after the current one is no carriage
return: the text before the lexer loses its first character. -/
theorem getNextCh_ahead (l : CScriptLex) (c : Char) (t : List Char)
    (h : l.Ahead (c :: t)) (hr : t.headD NUL ≠ '\r') : l.getNextCh.Ahead t := by
  obtain ⟨_, h2, h3, h4⟩ := h
  simp only [List.tail_cons] at h2 h3
  have hs := getNextCh_step l (t.headD NUL) t.tail h2 h3
    (fun x hx => h4 x (List.mem_cons_of_mem _ (List.mem_of_mem_tail hx))) hr
  exact ⟨hs.1, hs.2.1, hs.2.2, fun x hx => h4 x (List.mem_cons_of_mem _ hx)⟩

end TinyJS
namespace TinyJS

/-- What `getJSString` writes for a character that it does not write as `\xNN`: the
character itself, which is then none of the characters that end or escape in
a string literal, or a backslash and the character of `escapePairs`. -/
theorem getJSString_char_plain (c : Char) (h : plainCode c.toNat = true) :
    (getJSString_char c = [c] ∧ c ≠ NUL ∧ c ≠ '"' ∧ c ≠ '\n' ∧ c ≠ '\\' ∧ c ≠ '\r') ∨
    (∃ e, getJSString_char c = ['\\', e] ∧ (c, e) ∈ escapePairs) := by
  unfold getJSString_char
  by_cases h1 : c = '\\'
  · right; exact ⟨'\\', by rw [if_pos h1], by rw [h1]; decide⟩
  rw [if_neg h1]
  by_cases h2 : c = '\n'
  · right; exact ⟨'n', by rw [if_pos h2], by rw [h2]; decide⟩
  rw [if_neg h2]
  by_cases h3 : c = '\r'
  · right; exact ⟨'r', by rw [if_pos h3], by rw [h3]; decide⟩
  rw [if_neg h3]
  by_cases h4 : c = Char.ofNat 7
  · right; exact ⟨'a', by rw [if_pos h4], by rw [h4]; decide⟩
  rw [if_neg h4]
  by_cases h5 : c = Char.ofNat 8
  · right; exact ⟨'b', by rw [if_pos h5], by rw [h5]; decide⟩
  rw [if_neg h5]
  by_cases h6 : c = Char.ofNat 12
  · right; exact ⟨'f', by rw [if_pos h6], by rw [h6]; decide⟩
  rw [if_neg h6]
  by_cases h7 : c = '\t'
  · right; exact ⟨'t', by rw [if_pos h7], by rw [h7]; decide⟩
  rw [if_neg h7]
  by_cases h8 : c = Char.ofNat 11
  · right; exact ⟨'v', by rw [if_pos h8], by rw [h8]; decide⟩
  rw [if_neg h8]
  by_cases h9 : c = '"'
  · right; exact ⟨'"', by rw [if_pos h9], by rw [h9]; decide⟩
  rw [if_neg h9]
  left
  have hn : ∀ k : Nat, c ≠ Char.ofNat k → k < 256 → c.toNat ≠ k := by
    intro k hk hlt heq
    apply hk
    apply char_eq_of_toNat_eq
    rw [heq]
    have : (Char.ofNat k).toNat = k := by
      interval_cases k <;> rfl
    exact this.symm
  have e7 := hn 7 h4 (by decide)
  have e8 := hn 8 h5 (by decide)
  have e9 := hn 9 h7 (by decide)
  have e10 := hn 10 h2 (by decide)
  have e11 := hn 11 h8 (by decide)
  have e12 := hn 12 h6 (by decide)
  have e13 := hn 13 h3 (by decide)
  unfold plainCode at h
  simp only [Bool.or_eq_true, Bool.and_eq_true, decide_eq_true_eq, List.contains_eq_any_beq,
    List.any_cons, List.any_nil, beq_iff_eq, Bool.or_false] at h
  have hrange : 32 ≤ c.toNat ∧ c.toNat ≤ 127 := by
    rcases h with h | h
    · exact h
    · omega
  have hmod : c.toNat % 256 = c.toNat := Nat.mod_eq_of_lt (by omega)
  simp only [hmod]
  rw [if_neg (by omega)]
  refine ⟨rfl, ?_, h9, h2, h1, h3⟩
  intro h0
  rw [h0] at hrange
  exact absurd hrange.1 (by decide)

end TinyJS
namespace TinyJS

/-- One pass of the loop of a string literal at a character that is neither the
end nor a backslash: the character is appended. -/
theorem readString_raw (n : Nat) (l : CScriptLex) (h0 : l.currCh ≠ NUL) (h1 : l.currCh ≠ '"')
    (h2 : l.currCh ≠ '\n') (h3 : l.currCh ≠ '\\') :
    CScriptLex.readString '"' (n + 1) l =
      CScriptLex.readString '"' n { l with tkStr := l.tkStr.push l.currCh }.getNextCh := by
  rw [CScriptLex.readString]
  rw [if_pos ⟨h0, h1, h2⟩, if_neg h3]

/-- The characters that follow the backslash in `escapePairs`: none is the
character of code 0 or a carriage return. -/
theorem escapePairs_second : ∀ p ∈ escapePairs, p.2 ≠ NUL ∧ p.2 ≠ '\r' := by
  decide

/-- One pass of the loop of a string literal at a backslash that is followed by
the second character of a pair of `escapePairs`: the first character of the
pair is appended. -/
theorem readString_escape (n : Nat) (l : CScriptLex) (p : Char × Char) (hp : p ∈ escapePairs)
    (h : l.currCh = '\\') (he : l.getNextCh.currCh = p.2) :
    CScriptLex.readString '"' (n + 1) l =
      CScriptLex.readString '"' n
        { l.getNextCh with tkStr := l.getNextCh.tkStr.push p.1 }.getNextCh := by
  rw [CScriptLex.readString]
  have hc : l.currCh ≠ NUL ∧ l.currCh ≠ '"' ∧ l.currCh ≠ '\n' := by
    rw [h]
    decide
  rw [if_pos hc, if_pos h]
  simp only [he]
  unfold escapePairs at hp
  fin_cases hp <;> dsimp only at he ⊢ <;>
    simp +decide only [↓reduceIte, CScriptLex.escape_default, he]

/-- The quoted form of a string without `\xNN`, with the closing quote, does not
begin with a carriage return. -/
theorem quoted_head (s : List Char) (h : ∀ c ∈ s, plainCode c.toNat = true) :
    (s.flatMap getJSString_char ++ ['"']).headD NUL ≠ '\r' := by
  cases s with
  | nil => decide
  | cons c s =>
    rcases getJSString_char_plain c (h c (by simp)) with ⟨e1, _, _, _, _, e6⟩ | ⟨e, e1, _⟩
    · simp only [List.flatMap_cons, e1, List.singleton_append, List.cons_append, List.headD_cons]
      exact e6
    · simp only [List.flatMap_cons, e1, List.cons_append, List.headD_cons]
      decide

/-- The quoted form of a string without `\xNN` has no character of code 0. -/
theorem quoted_no_NUL (s : List Char) (h : ∀ c ∈ s, plainCode c.toNat = true) :
    ∀ x ∈ s.flatMap getJSString_char, x ≠ NUL := by
  intro x hx
  rcases List.mem_flatMap.mp hx with ⟨c, hc, hxc⟩
  rcases getJSString_char_plain c (h c hc) with ⟨e1, e2, _⟩ | ⟨e, e1, hp⟩
  · rw [e1] at hxc
    simp at hxc
    rw [hxc]
    exact e2
  · rw [e1] at hxc
    simp only [List.mem_cons, List.mem_singleton, List.not_mem_nil, or_false] at hxc
    rcases hxc with rfl | rfl
    · decide
    · exact (escapePairs_second (c, x) hp).1

/-- The loop of a string literal on the quoted form of a string without `\xNN`: it
ends at the closing quote with the string read. -/
theorem readString_plain :
    ∀ (s : List Char) (fuel : Nat) (l : CScriptLex),
      (∀ c ∈ s, plainCode c.toNat = true) →
      l.Ahead (s.flatMap getJSString_char ++ ['"']) → s.length < fuel →
      ∃ l1, CScriptLex.readString '"' fuel l = .ok l1 ∧ l1.Ahead ['"'] ∧
        l1.tkStr.toList = l.tkStr.toList ++ s ∧ l1.tk = l.tk ∧ l1.data = l.data := by
  intro s
  induction s with
  | nil =>
    intro fuel l _ hA hf
    cases fuel with
    | zero => omega
    | succ n =>
      refine ⟨l, ?_, hA, by simp, rfl, rfl⟩
      rw [CScriptLex.readString]
      have hc : l.currCh = '"' := hA.1
      rw [if_neg (by rw [hc]; simp)]
  | cons c s ih =>
    intro fuel l hp hA hf
    cases fuel with
    | zero => omega
    | succ n =>
      have hps : ∀ c ∈ s, plainCode c.toNat = true := fun x hx => hp x (by simp [hx])
      have hhead := quoted_head s hps
      rcases getJSString_char_plain c (hp c (by simp)) with
        ⟨e1, e2, e3, e4, e5, _⟩ | ⟨e, e1, hpair⟩
      · simp only [List.flatMap_cons, e1, List.singleton_append, List.cons_append] at hA
        have hc : l.currCh = c := hA.1
        rw [readString_raw n l (by rw [hc]; exact e2) (by rw [hc]; exact e3)
          (by rw [hc]; exact e4) (by rw [hc]; exact e5)]
        have hA2 : ({ l with tkStr := l.tkStr.push l.currCh } : CScriptLex).Ahead
            (c :: (s.flatMap getJSString_char ++ ['"'])) := hA
        have hA3 := getNextCh_ahead _ c _ hA2 hhead
        obtain ⟨l1, h1, h2, h3, h4, h5⟩ := ih n _ hps hA3 (by simp at hf; omega)
        refine ⟨l1, h1, h2, ?_, ?_, ?_⟩
        · rw [h3, (getNextCh_fields _).1, hc]
          simp
        · rw [h4, (getNextCh_fields _).2.1]
        · rw [h5, (getNextCh_fields _).2.2]
      · simp only [List.flatMap_cons, e1, List.cons_append, List.nil_append] at hA
        have hc : l.currCh = '\\' := hA.1
        have he_cr : (e :: (s.flatMap getJSString_char ++ ['"'])).headD NUL ≠ '\r' :=
          (escapePairs_second (c, e) hpair).2
        have hA1 := getNextCh_ahead l '\\' _ hA he_cr
        have he : l.getNextCh.currCh = e := hA1.1
        rw [readString_escape n l (c, e) hpair hc he]
        have hA2 : ({ l.getNextCh with tkStr := l.getNextCh.tkStr.push c } : CScriptLex).Ahead
            (e :: (s.flatMap getJSString_char ++ ['"'])) := hA1
        have hA3 := getNextCh_ahead _ e _ hA2 hhead
        obtain ⟨l1, h1, h2, h3, h4, h5⟩ := ih n _ hps hA3 (by simp at hf; omega)
        refine ⟨l1, h1, h2, ?_, ?_, ?_⟩
        · rw [h3, (getNextCh_fields _).1]
          show (l.getNextCh.tkStr.push c).toList ++ s = l.tkStr.toList ++ c :: s
          rw [(getNextCh_fields l).1]
          simp
        · rw [h4, (getNextCh_fields _).2.1]
          exact (getNextCh_fields l).2.1
        · rw [h5, (getNextCh_fields _).2.2]
          exact (getNextCh_fields l).2.2

end TinyJS
namespace TinyJS

/-- The loop of a string literal on the quoted form of a string without `\xNN`,
for a run that is given. -/
theorem readString_plain_of (s : List Char) (fuel : Nat) (l : CScriptLex)
    (r : Except Fault CScriptLex) (hr : CScriptLex.readString '"' fuel l = r)
    (hp : ∀ c ∈ s, plainCode c.toNat = true)
    (hA : l.Ahead (s.flatMap getJSString_char ++ ['"'])) (hf : s.length < fuel) :
    ∃ l1, r = .ok l1 ∧ l1.Ahead ['"'] ∧ l1.tkStr.toList = l.tkStr.toList ++ s ∧
      l1.data = l.data := by
  obtain ⟨l1, h1, h2, h3, _, h5⟩ := readString_plain s fuel l hp hA hf
  exact ⟨l1, hr ▸ h1, h2, h3, h5⟩

/-- The loop over the white space before a token, at a character that is none. -/
theorem skipWhile_none (l : CScriptLex) (h : isWhitespace l.currCh = false) :
    CScriptLex.skipWhile (fun s => s.currCh != NUL && isWhitespace s.currCh) l.charFuel l =
      .ok l := by
  unfold CScriptLex.charFuel
  rw [CScriptLex.skipWhile]
  rw [if_neg (by simp [h])]

/-- Source `getNextToken` on the quoted form of a string without `\xNN`: the token is
`LEX_STR` with the string, and the text is read to its end. -/
theorem getNextToken_plain (s : List Char) (fuel : Nat) (l : CScriptLex)
    (hp : ∀ c ∈ s, plainCode c.toNat = true)
    (hA : l.Ahead ('"' :: (s.flatMap getJSString_char ++ ['"'])))
    (hf : s.length < l.data.length + 3) :
    ∃ lf, CScriptLex.getNextToken (fuel + 1) l = .ok lf ∧ lf.tk = LEX_STR ∧
      lf.tkStr.toList = s ∧ lf.currCh = NUL ∧ lf.data = l.data := by
  have h : l.currCh = '"' := hA.1
  rw [CScriptLex.getNextToken]
  rw [skipWhile_none l (by rw [h]; decide)]
  simp only [bind, Except.bind]
  rw [if_neg (by rw [h]; intro x; exact absurd x.1 (by decide)),
    if_neg (by rw [h]; intro x; exact absurd x.1 (by decide))]
  have ha : isAlpha '"' = false := by decide
  have hn : (isNumeric '"' || '"' == '.' && isNumeric l.nextCh) = false := by
    have a : isNumeric '"' = false := by decide
    have b : ('"' == '.') = false := by decide
    rw [a, b]
    rfl
  simp only [h, ha, hn, Bool.false_eq_true, if_false, true_or, if_true]
  split
  · rename_i e heq
    obtain ⟨l1, h1, _⟩ := readString_plain_of s _ _ _ heq hp
      (getNextCh_ahead _ '"' _ (by exact ⟨rfl, hA.2.1, hA.2.2.1, hA.2.2.2⟩) (quoted_head s hp))
      (by exact hf)
    cases h1
  · rename_i l2 heq
    obtain ⟨l1, h1, h2, h3, h5⟩ := readString_plain_of s _ _ _ heq hp
      (getNextCh_ahead _ '"' _ (by exact ⟨rfl, hA.2.1, hA.2.2.1, hA.2.2.2⟩) (quoted_head s hp))
      (by exact hf)
    cases h1
    have hq : l2.currCh = '"' := h2.1
    rw [if_neg (by rw [hq]; simp)]
    have hend := getNextCh_ahead l2 '"' [] h2 (by decide)
    refine ⟨_, rfl, rfl, ?_, hend.1, ?_⟩
    · show l2.getNextCh.tkStr.toList = s
      rw [(getNextCh_fields l2).1, h3, (getNextCh_fields _).1]
      rfl
    · show l2.getNextCh.data = l.data
      rw [(getNextCh_fields l2).2.2, h5, (getNextCh_fields _).2.2]

/-- Source `getNextToken` at the end of the text: the token `LEX_EOF`. -/
theorem getNextToken_end (fuel : Nat) (l : CScriptLex) (h : l.currCh = NUL) :
    ∃ l1, CScriptLex.getNextToken (fuel + 1) l = .ok l1 ∧ l1.tk = LEX_EOF := by
  rw [CScriptLex.getNextToken]
  rw [skipWhile_none l (by rw [h]; decide)]
  simp only [bind, Except.bind]
  rw [if_neg (by rw [h]; intro x; exact absurd x.1 (by decide)),
    if_neg (by rw [h]; intro x; exact absurd x.1 (by decide))]
  have ha : isAlpha NUL = false := by decide
  have hn : (isNumeric NUL || NUL == '.' && isNumeric l.nextCh) = false := by
    have a : isNumeric NUL = false := by decide
    have b : (NUL == '.') = false := by decide
    rw [a, b]
    rfl
  have hq : ¬ (NUL = '"' ∨ NUL = '\'') := by decide
  simp only [h, ha, hn, Bool.false_eq_true, if_false, hq]
  have e1 : ¬ (NUL = '=') := by decide
  have e2 : ¬ (NUL = '!') := by decide
  have e3 : ¬ (NUL = '<') := by decide
  have e4 : ¬ (NUL = '>') := by decide
  have e5 : ¬ (NUL = '+') := by decide
  have e6 : ¬ (NUL = '-') := by decide
  have e7 : ¬ (NUL = '&') := by decide
  have e8 : ¬ (NUL = '|') := by decide
  have e9 : ¬ (NUL = '^') := by decide
  have e10 : ¬ (NUL = '*') := by decide
  have e11 : ¬ (NUL = '/') := by decide
  have e12 : ¬ (NUL = '%') := by decide
  simp only [CScriptLex.readPunctuator, e1, e2, e3, e4, e5, e6, e7, e8, e9, e10, e11, e12,
    false_and, if_false, ne_eq, not_true_eq_false]
  exact ⟨_, rfl, rfl⟩

end TinyJS
namespace TinyJS

/-- The quoted form of a string without `\xNN` is not shorter than the string. -/
theorem quoted_length (s : List Char) (h : ∀ c ∈ s, plainCode c.toNat = true) :
    s.length ≤ (s.flatMap getJSString_char).length := by
  induction s with
  | nil => simp
  | cons c s ih =>
    have h1 := ih (fun x hx => h x (by simp [hx]))
    rcases getJSString_char_plain c (h c (by simp)) with ⟨e1, _⟩ | ⟨e, e1, _⟩
    · simp only [List.flatMap_cons, e1, List.length_append, List.length_cons, List.length_nil]
      omega
    · simp only [List.flatMap_cons, e1, List.length_append, List.length_cons, List.length_nil]
      omega

/-- The lexer made for the quoted form of a string without `\xNN`: its first token is
`LEX_STR` with the string, and it has read the text to its end. -/
theorem new_plain (s : String) (hp : ∀ c ∈ s.toList, plainCode c.toNat = true) :
    ∃ lf, CScriptLex.new (getJSString s) 0 anyRegex = .ok lf ∧ lf.tk = LEX_STR ∧
      lf.tkStr.toList = s.toList ∧ lf.currCh = NUL := by
  have htext : (getJSString s).toList = '"' :: (s.toList.flatMap getJSString_char ++ ['"']) := rfl
  have hnul : ∀ c ∈ '"' :: (s.toList.flatMap getJSString_char ++ ['"']), c ≠ NUL := by
    intro c hc
    simp only [List.mem_cons, List.mem_append, List.mem_singleton, List.not_mem_nil,
      or_false] at hc
    rcases hc with rfl | hc | rfl
    · decide
    · exact quoted_no_NUL s.toList hp c hc
    · decide
  unfold CScriptLex.new CScriptLex.reset
  simp only [htext]
  generalize hl1 :
    ({ data := '"' :: (s.toList.flatMap getJSString_char ++ ['"']), dataPos := 0,
       currCh := NUL, nextCh := NUL, tk := 0, last_tk := 0, tkStr := "", currentLine := 0,
       currentLineStart := 0, tokenStart := 0, lineBreakBeforeToken := false,
       regex_errors := anyRegex } : CScriptLex) = l1
  have hd1 : l1.data = '"' :: (s.toList.flatMap getJSString_char ++ ['"']) := by rw [← hl1]
  have hs1 := getNextCh_step l1 NUL ('"' :: (s.toList.flatMap getJSString_char ++ ['"']))
    (by rw [← hl1]) (by rw [← hl1]; rfl) hnul (by decide)
  have hs2 := getNextCh_step l1.getNextCh '"' (s.toList.flatMap getJSString_char ++ ['"'])
    hs1.2.1 hs1.2.2 (fun c hc => hnul c (List.mem_cons_of_mem _ hc)) (by decide)
  have hA : l1.getNextCh.getNextCh.Ahead
      ('"' :: (s.toList.flatMap getJSString_char ++ ['"'])) :=
    ⟨hs2.1, hs2.2.1, hs2.2.2, hnul⟩
  have hdata : l1.getNextCh.getNextCh.data =
      '"' :: (s.toList.flatMap getJSString_char ++ ['"']) := by
    rw [(getNextCh_fields _).2.2, (getNextCh_fields _).2.2, hd1]
  have hf : s.toList.length < l1.getNextCh.getNextCh.data.length + 3 := by
    rw [hdata]
    have := quoted_length s.toList hp
    simp only [List.length_cons, List.length_append, List.length_nil]
    omega
  have hfuel : l1.tokenFuel = l1.data.length + 1 + 1 := rfl
  rw [hfuel]
  obtain ⟨lf, h1, h2, h3, h4, _⟩ := getNextToken_plain s.toList (l1.data.length + 1) _ hp hA hf
  exact ⟨lf, h1, h2, h3, h4⟩

/-- The round trip of a string without `\xNN`. -/
theorem roundTrip_plain (s : String) (hp : ∀ c ∈ s.toList, plainCode c.toNat = true) :
    roundTrip s = some (LEX_STR, s.toList.map Char.toNat, LEX_EOF) := by
  obtain ⟨lf, h1, h2, h3, h4⟩ := new_plain s hp
  unfold roundTrip
  rw [h1]
  simp only
  obtain ⟨l2, h5, h6⟩ := getNextToken_end (lf.data.length + 1) lf h4
  have hm : lf.«match» lf.tk none =
      .ok { l2 with lineBreakBeforeToken := decide (lf.currentLine ≠ l2.currentLine) } := by
    unfold CScriptLex.«match» CScriptLex.check
    rw [h2]
    simp only [ne_eq, not_true_eq_false, false_and, if_false]
    rw [if_neg (by decide)]
    simp only [bind, Except.bind]
    have hfuel : lf.tokenFuel = lf.data.length + 1 + 1 := rfl
    rw [hfuel, h5]
  rw [hm]
  simp only [h2, h3, h6]

end TinyJS

namespace TinyJS

/-! ## The claims -/

/-- C1 (property-list invariant), evaluated where it fails.  The names `"0"` and
`"4294967296"` have the same `isDecimalNumber` (the `int` wraps around), so
neither is smaller than the other.  The list `overflowChilds`, built by two
calls of `addChild` from the empty list, is sorted in the sense of
`std::is_sorted` and has no two links of the same name, but it is not strictly
sorted, and `addChild("0", ...)` on it yields a list with two links named
`"0"`. -/
theorem C1_addChild_breaks_invariant :
    isDecimalNumber "4294967296" = isDecimalNumber "0" ∧
    childNames overflowChilds = ["4294967296", "0"] ∧
    sortedByLinkOrder overflowChilds ∧ (childNames overflowChilds).Nodup ∧
    ¬ StrictSorted overflowChilds ∧
    childNames (addChild overflowChilds 0 2 1 "0" (some 8) SCRIPTVARLINK_DEFAULT).1
      = ["0", "4294967296", "0"] ∧
    ¬ (childNames (addChild overflowChilds 0 2 1 "0" (some 8) SCRIPTVARLINK_DEFAULT).1).Nodup := by
  have e1 : overflowChilds =
      [{ name := "4294967296", var := 9, flags := SCRIPTVARLINK_DEFAULT, owner := some 0,
         owned := true, addr := 1 },
       { name := "0", var := 8, flags := SCRIPTVARLINK_DEFAULT, owner := some 0,
         owned := true, addr := 0 }] := by decide
  have e2 : childNames (addChild overflowChilds 0 2 1 "0" (some 8) SCRIPTVARLINK_DEFAULT).1
      = ["0", "4294967296", "0"] := by decide
  have e3 : CScriptVarLinkPtr.lt
      { name := "0", var := 8, flags := SCRIPTVARLINK_DEFAULT, owner := some 0,
        owned := true, addr := 0 } "4294967296" = false := by decide
  have e4 : CScriptVarLinkPtr.lt
      { name := "4294967296", var := 9, flags := SCRIPTVARLINK_DEFAULT, owner := some 0,
        owned := true, addr := 1 } "0" = false := by decide
  refine ⟨by decide, by decide, ?_, ?_, ?_, e2, ?_⟩
  · rw [sortedByLinkOrder, e1]
    simp [e3]
  · rw [e1]
    simp [childNames]
  · rw [StrictSorted, e1]
    simp [e4]
  · rw [e2]
    simp

/-- C2 (`findChild` agrees with a linear scan), evaluated where it fails: on the
list `overflowChilds`, built from the empty list by two calls of `addChild`, the
binary search of `findChild` does not find the link named `"0"` that a linear
scan finds. -/
theorem C2_findChild_misses_link :
    findChild overflowChilds "0" = none ∧
    (linearScan overflowChilds "0").map CScriptVarLink.var = some 8 := by
  decide

/-- C3, the claim as stated fails: `typeof null` evaluates to the string
`"null"`, which is none of the six strings. -/
theorem C3_typeof_null_counterexample :
    execute_typeof (ScriptVar.null : ScriptVar Int) = .string "null" false ∧
    "null" ∉ typeofNames := by
  decide

/-- C3 as amended: `typeof v` evaluates to the string `getVarType(v)`; this is
one of the six strings for every value other than `null` and an accessor,
`"null"` for `null` and `"accessor"` for an accessor; for every boxed primitive
(`fakeObject` set) it is `"object"`. -/
theorem C3_typeof_amended {D : Type} :
    (∀ v : ScriptVar D, execute_typeof v = .string v.getVarType false ∧
      (v.getVarType ∈ typeofNames ∨ (v = .null ∧ v.getVarType = "null") ∨
        (∃ addr, v = .object .Accessor addr ∧ v.getVarType = "accessor"))) ∧
    (∀ s, execute_typeof (.string s true : ScriptVar D) = .string "object" false) ∧
    (∀ i, execute_typeof (.integer i true : ScriptVar D) = .string "object" false) ∧
    (∀ b, execute_typeof (.bool b true : ScriptVar D) = .string "object" false) ∧
    (∀ d, execute_typeof (.double d true : ScriptVar D) = .string "object" false) ∧
    (∀ n, execute_typeof (.infinity n true : ScriptVar D) = .string "object" false) ∧
    execute_typeof (.nan true : ScriptVar D) = .string "object" false := by
  refine ⟨?_, fun _ => rfl, fun _ => rfl, fun _ => rfl, fun _ => rfl, fun _ => rfl, rfl⟩
  intro v
  refine ⟨rfl, ?_⟩
  cases v with
  | undefined => left; simp [ScriptVar.getVarType, typeofNames]
  | null => right; left; exact ⟨rfl, rfl⟩
  | nan f =>
    left; cases f <;> simp [ScriptVar.getVarType, ScriptVar.getVarTypePrimitive, typeofNames]
  | string s f =>
    left; cases f <;> simp [ScriptVar.getVarType, ScriptVar.getVarTypePrimitive, typeofNames]
  | integer i f =>
    left; cases f <;> simp [ScriptVar.getVarType, ScriptVar.getVarTypePrimitive, typeofNames]
  | bool b f =>
    left; cases f <;> simp [ScriptVar.getVarType, ScriptVar.getVarTypePrimitive, typeofNames]
  | infinity n f =>
    left; cases f <;> simp [ScriptVar.getVarType, ScriptVar.getVarTypePrimitive, typeofNames]
  | double d f =>
    left; cases f <;> simp [ScriptVar.getVarType, ScriptVar.getVarTypePrimitive, typeofNames]
  | object cls addr =>
    cases cls with
    | Accessor => right; right; exact ⟨addr, rfl, rfl⟩
    | _ => left; simp [ScriptVar.getVarType, typeofNames]

end TinyJS

namespace TinyJS

/-- C4, the claim as stated fails: `"6" * "7"` evaluates to NaN although the
numeric operation on the two coerced operands yields 42; `"5" - "3"` evaluates
to NaN as well; and `"5" + null` evaluates to `"5"` although `getString()` of
`null` is `"null"`. -/
theorem C4_string_times_string_counterexample :
    mathsOp intPlatform noPrimitive true (.string "6" false) (.string "7" false) .star
      = .value (.nan false) ∧
    mathsOpNumeric intPlatform ((ScriptVar.string "6" false).getNumericVar intPlatform)
      ((ScriptVar.string "7" false).getNumericVar intPlatform) .star
      = .value (.integer 42 false) ∧
    mathsOp intPlatform noPrimitive true (.string "5" false) (.string "3" false) .minus
      = .value (.nan false) ∧
    mathsOp intPlatform noPrimitive true (.string "5" false) .null .plus
      = .value (.string "5" false) ∧
    (ScriptVar.null : ScriptVar Int).getString intPlatform = "null" := by
  decide

theorem mathsOpNumeric_arithmetic {D : Type} (P : Platform D) (x y : ScriptVar D) (op : Op)
    (hop : op ∈ arithmeticOps) :
    mathsOpNumeric P x y op = .divisionByZero ∨
    mathsOpNumeric P x y op = .divisionOverflow ∨
    ∃ v, mathsOpNumeric P x y op = .value v ∧ v.isNumber = true := by
  simp only [arithmeticOps, List.mem_cons, List.mem_singleton, List.not_mem_nil, or_false] at hop
  unfold mathsOpNumeric
  rcases hop with h | h | h | h <;> subst h
  all_goals
    simp only
    split_ifs <;>
      first
        | (right; right; exact ⟨_, rfl, rfl⟩)
        | (unfold DoMathsInt; simp only; split_ifs <;>
            first | (left; rfl) | (right; left; rfl) | (right; right; exact ⟨_, rfl, rfl⟩))
        | (unfold DoMathsDouble; simp only; split_ifs <;>
            first | (left; rfl) | (right; left; rfl) | (right; right; exact ⟨_, rfl, rfl⟩))

/-- C4 as amended.  Let `a` and `b` be the primitives of the two operands.  For
`-`, `*`, `/`, `%`: when exactly one of `a`, `b` is a string, `mathsOp` returns
what the numeric block returns on `getNumericVar(a)` and `getNumericVar(b)`,
which is a number value (Integer, Double, Infinity or NaN) unless an integer
remainder by zero is taken or the integer quotient or remainder of -2^31 and
-1, in which the call does not return; when both are strings it returns NaN.
For `+`:
when one of them is a string, it returns the concatenation of the two string
forms, where the string form of `null` is the empty string. -/
theorem C4_string_arithmetic_amended {D : Type} (P : Platform D)
    (toPrimitive : ObjectClass → Nat → Option (ScriptVar D)) (A B a b : ScriptVar D)
    (hA : A.getPrimitivVar toPrimitive = some a) (hB : B.getPrimitivVar toPrimitive = some b) :
    (∀ op ∈ arithmeticOps, a.isString ≠ b.isString →
      mathsOp P toPrimitive true A B op
        = mathsOpNumeric P (a.getNumericVar P) (b.getNumericVar P) op ∧
      (mathsOp P toPrimitive true A B op = .divisionByZero ∨
        mathsOp P toPrimitive true A B op = .divisionOverflow ∨
        ∃ v, mathsOp P toPrimitive true A B op = .value v ∧ v.isNumber = true)) ∧
    (∀ op ∈ arithmeticOps, a.isString = true → b.isString = true →
      mathsOp P toPrimitive true A B op = .value (.nan false)) ∧
    (a.isString = true ∨ b.isString = true →
      mathsOp P toPrimitive true A B .plus
        = .value (.string (a.stringForm P ++ b.stringForm P) false)) := by
  have hobj : ∀ op, op ≠ Op.LEX_EQUAL → op ≠ Op.LEX_NEQUAL → mathsOpObjects A B op = none := by
    intro op h1 h2
    unfold mathsOpObjects
    split
    · split
      · exact absurd rfl h1
      · exact absurd rfl h2
      · rfl
    · rfl
  refine ⟨?_, ?_, ?_⟩
  · intro op hop hs
    have key : mathsOp P toPrimitive true A B op
        = mathsOpNumeric P (a.getNumericVar P) (b.getNumericVar P) op := by
      simp only [arithmeticOps, List.mem_cons, List.mem_singleton, List.not_mem_nil,
        or_false] at hop
      have hne : ¬ (a.isString = true ∧ b.isString = true) := by
        intro h; exact hs (by rw [h.1, h.2])
      have hstr : a.isString = true ∨ b.isString = true := by
        cases ha : a.isString <;> cases hb : b.isString <;> simp_all
      have hun : ¬ ((a.isUndefined = true ∨ a.isNull = true) ∧
          (b.isUndefined = true ∨ b.isNull = true)) := by
        intro h
        rcases hstr with h1 | h1
        · cases a <;> simp_all [ScriptVar.isString, ScriptVar.isUndefined, ScriptVar.isNull]
        · cases b <;> simp_all [ScriptVar.isString, ScriptVar.isUndefined, ScriptVar.isNull]
      rcases hop with h | h | h | h <;> subst h <;>
        simp [mathsOp, mathsOpLoose, hobj, hA, hB, hne, hun]
    refine ⟨key, ?_⟩
    rw [key]
    exact mathsOpNumeric_arithmetic P _ _ op hop
  · intro op hop ha hb
    simp only [arithmeticOps, List.mem_cons, List.mem_singleton, List.not_mem_nil,
      or_false] at hop
    rcases hop with h | h | h | h <;> subst h <;>
      simp [mathsOp, mathsOpLoose, hobj, hA, hB, ha, hb]
  · intro hs
    simp [mathsOp, mathsOpLoose, hobj, hA, hB, ScriptVar.stringForm, hs]

/-- A witness for C4 as amended: `"6" * 7` is 42, `"6" * "7"` is NaN and
`"5" + null` is `"5"`. -/
theorem C4_string_arithmetic_amended_witness :
    mathsOp intPlatform noPrimitive true (.string "6" false) (.integer 7 false) .star
      = .value (.integer 42 false) ∧
    mathsOp intPlatform noPrimitive true (.string "6" false) (.string "7" false) .star
      = .value (.nan false) ∧
    mathsOp intPlatform noPrimitive true (.string "5" false) .null .plus
      = .value (.string "5" false) := by
  have h1 := C4_string_arithmetic_amended intPlatform noPrimitive (.string "6" false)
    (.integer 7 false) (.string "6" false) (.integer 7 false) rfl rfl
  have h2 := C4_string_arithmetic_amended intPlatform noPrimitive (.string "6" false)
    (.string "7" false) (.string "6" false) (.string "7" false) rfl rfl
  have h3 := C4_string_arithmetic_amended intPlatform noPrimitive (.string "5" false)
    .null (.string "5" false) .null rfl rfl
  refine ⟨?_, ?_, ?_⟩
  · rw [(h1.1 .star (by decide) (by decide)).1]; decide
  · exact h2.2.1 .star (by decide) rfl rfl
  · rw [h3.2.2 (Or.inl rfl)]; decide

/-- C5, evaluated where it fails: in `mathsOp` the test `A->isNaN() || B->isNaN()`
returns `constFalse` for `===` and for `!==` alike, so `NaN !== B` is false for
every value `B` (in particular `NaN !== NaN` is false, where the claim says
true); `NaN === NaN` is false, as the claim says. -/
theorem C5_NaN_not_identical_is_false {D : Type} (P : Platform D)
    (toPrimitive : ObjectClass → Nat → Option (ScriptVar D)) (B : ScriptVar D) (f : Bool) :
    mathsOp P toPrimitive true (.nan f) B .LEX_NTYPEEQUAL = .value (.bool false false) ∧
    mathsOp P toPrimitive true (.nan f) (.nan f) .LEX_NTYPEEQUAL = .value (.bool false false) ∧
    mathsOp P toPrimitive true (.nan f) (.nan f) .LEX_TYPEEQUAL = .value (.bool false false) := by
  simp [mathsOp, ScriptVar.isNaN]

set_option maxRecDepth 100000 in
/-- C6 (code, where it differs from the claim): the division of two Integers.
`a / 0` is NaN for `a = 0`, `+Infinity` for `a > 0` and `-Infinity` for `a < 0`,
as the claim says.  For `b ≠ 0` the result of `a / b` is the Integer quotient
(rounded towards zero), so neither an Infinity nor NaN, except for `a = -2^31`
and `b = -1`: the quotient 2^31 is no `int`, the division `da/db` is undefined
behaviour and the call returns no value.  The text `(-2147483647 - 1) / -1`
reaches that division; with the divisor 1 the text has the value -2147483648. -/
theorem C6_integer_division {D : Type} (P : Platform D)
    (toPrimitive : ObjectClass → Nat → Option (ScriptVar D)) (a b : Int) (fa fb : Bool) :
    mathsOp P toPrimitive true (.integer a fa) (.integer b fb) .slash =
      (if b = 0 then
        if a = 0 then .value (.nan false) else .value (.infinity (decide (a < 0)) false)
      else if a = -2147483648 ∧ b = -1 then .divisionOverflow
      else .value (.integer (wrapInt (Int.tdiv a b)) false)) ∧
    sourceEvaluate "(-2147483647 - 1) / -1" = .error (.notModelled "division overflow") ∧
    sourceEvaluate "(-2147483647 - 1) / 1" = .ok ("-2147483648", []) ∧
    sourceEvaluate "-2147483647 / -1" = .ok ("2147483647", []) := by
  refine ⟨?_, by decide!, by decide!, by decide!⟩
  simp only [mathsOp, mathsOpLoose, mathsOpObjects, ScriptVar.getPrimitivVar, mathsOpNumeric,
    DoMathsInt,
    ScriptVar.getNumericVar, ScriptVar.isNaN, ScriptVar.isString, ScriptVar.isInfinity,
    ScriptVar.isDouble, ScriptVar.isUndefined, ScriptVar.isNull, ScriptVar.getInt,
    ScriptVar.constInfinity]
  by_cases hb : b = 0
  · by_cases ha : a = 0
    · simp [ha, hb]
    · by_cases hneg : a < 0
      · simp [ha, hb, hneg]
      · simp [ha, hb, hneg]
  · by_cases ho : a = -2147483648 ∧ b = -1
    · simp [hb, ho]
    · simp [hb, ho]

/-- C7: NaN compared with a primitive `x` (a plain or a boxed one, NaN included):
`==`, `<`, `<=`, `>`, `>=` are false with NaN on either side, `!=` is true. -/
theorem C7_NaN_comparisons {D : Type} (P : Platform D)
    (toPrimitive : ObjectClass → Nat → Option (ScriptVar D)) (x : ScriptVar D) (f : Bool)
    (hx : x.isPrimitive = true) :
    (∀ op ∈ comparisonOps,
      mathsOp P toPrimitive true (.nan f) x op = .value (.bool false false) ∧
      mathsOp P toPrimitive true x (.nan f) op = .value (.bool false false)) ∧
    mathsOp P toPrimitive true (.nan f) x .LEX_NEQUAL = .value (.bool true false) ∧
    mathsOp P toPrimitive true x (.nan f) .LEX_NEQUAL = .value (.bool true false) := by
  refine ⟨?_, ?_, ?_⟩
  · intro op hop
    simp only [comparisonOps, List.mem_cons, List.mem_singleton, List.not_mem_nil,
      or_false] at hop
    rcases hop with h | h | h | h | h <;> subst h <;> cases x <;>
      first
        | (simp [mathsOp, mathsOpLoose, mathsOpObjects, ScriptVar.getPrimitivVar, mathsOpNumeric,
            ScriptVar.getNumericVar, ScriptVar.isNaN, ScriptVar.isString,
            ScriptVar.isUndefined, ScriptVar.isNull]; done)
        | (exfalso; simp [ScriptVar.isPrimitive] at hx)
  · cases x <;>
      first
        | (simp [mathsOp, mathsOpLoose, mathsOpObjects, ScriptVar.getPrimitivVar, mathsOpNumeric,
            ScriptVar.getNumericVar, ScriptVar.isNaN, ScriptVar.isString,
            ScriptVar.isUndefined, ScriptVar.isNull]; done)
        | (exfalso; simp [ScriptVar.isPrimitive] at hx)
  · cases x <;>
      first
        | (simp [mathsOp, mathsOpLoose, mathsOpObjects, ScriptVar.getPrimitivVar, mathsOpNumeric,
            ScriptVar.getNumericVar, ScriptVar.isNaN, ScriptVar.isString,
            ScriptVar.isUndefined, ScriptVar.isNull]; done)
        | (exfalso; simp [ScriptVar.isPrimitive] at hx)

/-- A witness for C7: NaN against the string `"1"`, which is a primitive. -/
theorem C7_NaN_comparisons_witness :
    (ScriptVar.string "1" false : ScriptVar Int).isPrimitive = true ∧
    mathsOp intPlatform noPrimitive true (.nan false) (.string "1" false) .LEX_EQUAL
      = .value (.bool false false) ∧
    mathsOp intPlatform noPrimitive true (.string "1" false) (.nan false) .LEX_NEQUAL
      = .value (.bool true false) :=
  ⟨rfl,
   ((C7_NaN_comparisons intPlatform noPrimitive (.string "1" false) false rfl).1
      .LEX_EQUAL (by decide)).1,
   (C7_NaN_comparisons intPlatform noPrimitive (.string "1" false) false rfl).2.2⟩

/-- C8: the Infinity identities of `mathsOp`.  `Infinity + Infinity = Infinity`,
`Infinity - Infinity = NaN`, `0 * Infinity = NaN`, `Infinity / Infinity = NaN`,
and the same with `-Infinity` in place of `Infinity`. -/
theorem C8_infinity_identities {D : Type} (P : Platform D)
    (toPrimitive : ObjectClass → Nat → Option (ScriptVar D)) (s : Bool) :
    mathsOp P toPrimitive true (.infinity s false) (.infinity s false) .plus
      = .value (.infinity s false) ∧
    mathsOp P toPrimitive true (.infinity s false) (.infinity s false) .minus
      = .value (.nan false) ∧
    mathsOp P toPrimitive true (.integer 0 false) (.infinity s false) .star
      = .value (.nan false) ∧
    mathsOp P toPrimitive true (.infinity s false) (.integer 0 false) .star
      = .value (.nan false) ∧
    mathsOp P toPrimitive true (.infinity s false) (.infinity s false) .slash
      = .value (.nan false) := by
  cases s <;>
    simp [mathsOp, mathsOpLoose, mathsOpObjects, ScriptVar.getPrimitivVar, mathsOpNumeric,
      ScriptVar.getNumericVar, ScriptVar.isNaN, ScriptVar.isString, ScriptVar.isInfinity,
      ScriptVar.isUndefined, ScriptVar.isNull, ScriptVar.getInt, ScriptVar.constInfinity,
      wrapInt]

end TinyJS

namespace TinyJS

/-- C9, evaluated where it fails.  In the example heap the function `f` (at 4)
has the property `prototype`, an object (at 5).  `new f()` yields an object
whose `__proto__` is `Object.prototype` (at 0) and not `f.prototype`: the
source sets `__proto__` only inside the branch that creates a missing
`prototype`.  `f.prototype` is still the object at 5 afterwards, and
`new f() instanceof f` evaluates to false. -/
theorem C9_new_ignores_existing_prototype :
    (exampleContext.findChild 4 TINYJS_PROTOTYPE_CLASS).map CScriptVarLink.var = some 5 ∧
    exampleContext.valOf 5 = some (.object .Object 5) ∧
    (execute_literals_NEW exampleEvaluator exampleContext 4 []).protoOfObject
      = some exampleContext.objectPrototype ∧
    (execute_literals_NEW exampleEvaluator exampleContext 4 []).prototypeOf 4 = some 5 ∧
    (execute_literals_NEW exampleEvaluator exampleContext 4 []).instanceofResult 4
      = some false := by
  refine ⟨by decide, by decide, ?_, ?_, ?_⟩
  · set_option maxRecDepth 100000 in decide
  · set_option maxRecDepth 100000 in decide
  · set_option maxRecDepth 100000 in decide

/-- C10, the claim as stated fails for a function with a repeated parameter
name: when `g(x, x)` (at 10 in the example heap) is called with the arguments
at 8 and 9, the scope binds the parameter `p0 = x` to the argument `a1` (at 9),
not to `a0` (at 8): `addChildOrReplace` replaces the first binding. -/
theorem C10_repeated_parameter_counterexample :
    ((exampleContext.vars[10]?).bind CScriptVar.data) =
      some { name := "g", arguments := [.LEX_ID "x", .LEX_ID "x"], bodyIsBlock := true } ∧
    (callFunction_enter exampleEvaluator exampleContext true 10
      { name := "g", arguments := [.LEX_ID "x", .LEX_ID "x"], bodyIsBlock := true } [8, 9]
      2).binding "x" = some 9 := by
  refine ⟨by decide, ?_⟩
  set_option maxRecDepth 100000 in decide

/-- C10 as amended: the call protocol of `callFunction` for a script function whose
parameters are the identifiers `ps`, pairwise distinct, and whose name is not
`arguments`, called with `execute` set and with the arguments `Arguments`
(fewer than 2^31).  The function scope is a fresh value
(at `c.vars.length`), the `arguments` object a fresh object (at the next
address).  When the body starts (context `c8`, the scope pushed): the scope
binds the parameter `i` to the argument `i`, or to the undefined value when
there is no argument `i`; `arguments` has the child `int2string i` bound to the
argument `i` and `length` bound to an Integer of value `Arguments.length`; and
the scope binds `arguments` to that object unless a parameter has this name.
The call returns what `callFunction_return` reads after the body, which, when
the body has not thrown, is the value of the return slot of the scope, or the
undefined value when the scope has no such slot. -/
theorem C10_callFunction_protocol {D : Type} (E : Evaluator D) (c : CTinyJS D) (F : Nat)
    (fv : CScriptVar D) (Fnc : CScriptTokenDataFnc) (Arguments : List Nat) (This : Nat)
    (ps : List String) (wantNewThis : Bool)
    (hF : c.vars[F]? = some fv) (hdata : fv.data = some Fnc)
    (hscript : fv.val.isNative = false)
    (hps : Fnc.arguments = ps.map FncArgument.LEX_ID) (hid : ∀ p ∈ ps, isIDString p = true)
    (hnd : ps.Nodup) (hname : Fnc.name ≠ TINYJS_ARGUMENTS_VAR)
    (hk : Arguments.length < 2147483648) :
    ∃ c8 lengthVar,
      callFunction_enter E c true F Fnc Arguments This
        = .entered c8 true c.vars.length (c.vars.length + 1) ∧
      c8.scopes = c.vars.length :: c.scopes ∧
      c8.valOf c.vars.length = some (.object .ScopeFnc c.vars.length) ∧
      c8.valOf (c.vars.length + 1) = some (.object .Object (c.vars.length + 1)) ∧
      (∀ (i : Nat) p, ps[i]? = some p →
        (c8.findChild c.vars.length p).map CScriptVarLink.var
          = some ((Arguments[i]?).getD c.constUndefined)) ∧
      (∀ (i : Nat) a, Arguments[i]? = some a →
        (c8.findChild (c.vars.length + 1) (int2string (i : Int))).map CScriptVarLink.var
          = some a) ∧
      (c8.findChild (c.vars.length + 1) "length").map CScriptVarLink.var = some lengthVar ∧
      c8.valOf lengthVar = some (.integer (Arguments.length : Int) false) ∧
      (TINYJS_ARGUMENTS_VAR ∉ ps →
        (c8.findChild c.vars.length TINYJS_ARGUMENTS_VAR).map CScriptVarLink.var
          = some (c.vars.length + 1)) ∧
      callFunction E c true F Arguments This wantNewThis =
        callFunction_return (callFunction_script E c8 true F Fnc c.vars.length).1
          (callFunction_script E c8 true F Fnc c.vars.length).2 c.vars.length wantNewThis ∧
      ((callFunction_script E c8 true F Fnc c.vars.length).1.runtimeFlags.THROW = false →
        ∃ c10 newThis, callFunction E c true F Arguments This wantNewThis =
          .returned c10 true
            ((((callFunction_script E c8 true F Fnc c.vars.length).1.findChild c.vars.length
                TINYJS_RETURN_VAR).map CScriptVarLink.var).getD
              (callFunction_script E c8 true F Fnc c.vars.length).1.constUndefined)
            newThis) := by
  obtain ⟨c8, lengthVar, e1, e2, _, e4, e5, e6, e7, e8, e9, e10⟩ :=
    callFunction_enter_ids E c true F Fnc Arguments This ps hps hid hnd hname hk
  have hcall : callFunction E c true F Arguments This wantNewThis =
      callFunction_return (callFunction_script E c8 true F Fnc c.vars.length).1
        (callFunction_script E c8 true F Fnc c.vars.length).2 c.vars.length wantNewThis := by
    unfold callFunction
    simp only [hF, hdata, e1, hscript, Bool.false_eq_true, if_false]
  refine ⟨c8, lengthVar, e1, e2, e4, e5, e6, e7, e8, e9, e10, hcall, ?_⟩
  intro hthrow
  rw [hcall]
  have hex : (callFunction_script E c8 true F Fnc c.vars.length).2 = true := by
    unfold callFunction_script at hthrow ⊢
    simp only at hthrow ⊢
    simp [hthrow]
  rw [hex]
  unfold callFunction_return
  simp only [if_true]
  cases hr : (callFunction_script E c8 true F Fnc c.vars.length).1.findChild c.vars.length
      TINYJS_RETURN_VAR with
  | none => exact ⟨_, _, rfl⟩
  | some returnVar => exact ⟨_, _, rfl⟩

/-- A witness for C10: the function `f(x, y)` of the example heap called with
the one argument at 8. -/
theorem C10_callFunction_protocol_witness :
    ∃ c8 lengthVar,
      callFunction_enter exampleEvaluator exampleContext true 4
          { name := "f", arguments := [.LEX_ID "x", .LEX_ID "y"], bodyIsBlock := true } [8] 2
        = .entered c8 true 11 12 ∧
      (c8.findChild 11 "x").map CScriptVarLink.var = some 8 ∧
      (c8.findChild 11 "y").map CScriptVarLink.var = some 1 ∧
      (c8.findChild 12 "0").map CScriptVarLink.var = some 8 ∧
      (c8.findChild 12 "length").map CScriptVarLink.var = some lengthVar ∧
      c8.valOf lengthVar = some (.integer 1 false) := by
  obtain ⟨c8, lengthVar, e1, _, _, _, e5, e6, e7, e8, _, _, _⟩ :=
    C10_callFunction_protocol exampleEvaluator exampleContext 4
      { val := .object .Function 4,
        Childs := [exampleLink "__proto__" 3 4 5, exampleLink "length" 7 4 6,
                   exampleLink "prototype" 5 4 7],
        extensible := true, temporaryID := 0,
        data := some { name := "f", arguments := [.LEX_ID "x", .LEX_ID "y"],
                       bodyIsBlock := true } }
      { name := "f", arguments := [.LEX_ID "x", .LEX_ID "y"], bodyIsBlock := true }
      [8] 2 ["x", "y"] false rfl rfl rfl rfl (by decide) (by decide) (by decide) (by decide)
  exact ⟨c8, lengthVar, e1, e5 0 "x" rfl, e5 1 "y" rfl, e6 0 8 rfl, e7, e8⟩

end TinyJS

namespace TinyJS

/-! ## C11: a property with a getter and no setter -/

set_option maxRecDepth 100000 in
/-- C11 (confirmed).  The texts are evaluated with the bodies of the functions
executed.  After `var o = \x7bget x()\x7breturn 42\x7d\x7d` the read `o.x` gives 42, the
value the body of the getter returns, and so does every further read
(`o.x + o.x` is 84); the getter runs with `this` bound to the owner `o` of the
property (the scope that `callFunction` builds binds `this` to the object 9,
and a getter `return this.y` gives the `y` of `o`, not that of the root).  The
assignment `o.x = 7` gives 7 and leaves the property list of `o` and that of
the accessor as they were, and the read after it gives 42.  In general: for an
own property whose value is an accessor with no setter, the assignment of any
value `v` returns `v` and leaves the whole context as it was. -/
theorem C11_getter_only_property :
    (∀ (D : Type) (E : Evaluator D) (c : CTinyJS D) (link : CScriptVarLink) (v : Nat),
      c.isAccessor link.var = true →
      c.findChild link.var TINYJS_ACCESSOR_SET_VAR = none →
      link.owned = true →
      execute_assignment_assign E c link v true = .value c true v) ∧
    scriptEvaluate "var o = \x7bget x()\x7breturn 42\x7d\x7d; o.x" = .ok ("42", []) ∧
    scriptEvaluate "var o = \x7bget x()\x7breturn 42\x7d\x7d; o.x + o.x" = .ok ("84", []) ∧
    scriptEvaluate "var y = 6; var o = \x7by: 5, get x()\x7breturn this.y\x7d\x7d; o.x"
      = .ok ("5", []) ∧
    ((context11.findChild context11.root "o").bind fun o => context11.findChild o.var "x")
      = some link11 ∧
    getterThis scriptSource.calls context11 link11 = some 9 ∧
    scriptEvaluate "var o = \x7bget x()\x7breturn 42\x7d\x7d; o.x = 7" = .ok ("7", []) ∧
    scriptEvaluate "var o = \x7bget x()\x7breturn 42\x7d\x7d; o.x = 7; o.x" = .ok ("42", []) ∧
    accessorProperties "var o = \x7bget x()\x7breturn 42\x7d\x7d; o.x = 7"
      = accessorProperties program11 ∧
    accessorProperties program11
      = some ([("__proto__", 0, SCRIPTVARLINK_WRITABLE), ("x", 13, SCRIPTVARLINK_DEFAULT)],
          [("__accessor_get__", 10, SCRIPTVARLINK_DEFAULT),
           ("__proto__", 0, SCRIPTVARLINK_WRITABLE)]) := by
  refine ⟨?_, by decide!, by decide!, by decide!, by decide!, by decide!, by decide!,
    by decide!, by decide!, by decide!⟩
  intro D E c link v hacc hset howned
  unfold execute_assignment_assign
  simp only [howned, if_true, Bool.not_true, Bool.false_and, Bool.false_eq_true, if_false]
  by_cases hw : link.isWritable = true
  · simp only [hw, if_true]
    unfold CScriptVarLinkWorkPtr.setter
    simp only [hacc, hset, if_true]
  · simp only [hw, if_false]
    rfl

set_option maxRecDepth 100000 in
/-- A witness for C11: the property `x` of the object `o` in the context after
`var o = \x7bget x()\x7breturn 42\x7d\x7d`, and the assignment of the value at the
address 7 (the number 1) to it. -/
theorem C11_getter_only_property_witness :
    context11.isAccessor link11.var = true ∧
    context11.findChild link11.var TINYJS_ACCESSOR_SET_VAR = none ∧
    execute_assignment_assign scriptSource.calls context11 link11 7 true
      = .value context11 true 7 :=
  ⟨by decide!, by decide!,
   C11_getter_only_property.1 Int scriptSource.calls context11 link11 7
     (by decide!) (by decide!) rfl⟩

end TinyJS

namespace TinyJS

/-! ## C20: `/` as the start of a regular expression -/

/-- C20 (counterexample): the end of the input is in the set of the claim, but a
`/` whose previous token is `LEX_EOF` (the first token of the text) is lexed as
a regular expression: the text `/a/` is the one token `LEX_REGEXP`. -/
theorem C20_slash_first_counterexample :
    LEX_EOF ∈ claimedNoRegexpAfter ∧
      regexpOrSlash LEX_EOF not_allowed_tokens_befor_regexp = LEX_REGEXP ∧
      lexView (CScriptLex.new "/a/" 0 anyRegex) = some (LEX_REGEXP, "/a/", false) := by
  refine ⟨by decide, by decide, by decide⟩

/-- C20 (amended): for every previous token kind `k` the lexer starts a regular
expression at a following `/` if and only if `k` is none of identifier, integer,
float, string, `true`, `false`, `null`, `]`, `)` and `.`, and takes the `/` as
the division otherwise; the end of the input (the table's last entry, 0, ends
the search) is no exception, so a `/` at the start of the text starts a regular
expression. -/
theorem C20_regexp_after_token (k : Nat) :
    (regexpOrSlash k not_allowed_tokens_befor_regexp = LEX_REGEXP ↔ k ∉ noRegexpAfter) ∧
      (regexpOrSlash k not_allowed_tokens_befor_regexp = tkChar '/' ↔ k ∈ noRegexpAfter) ∧
      regexpOrSlash LEX_EOF not_allowed_tokens_befor_regexp = LEX_REGEXP := by
  have hr := regexpOrSlash_append k noRegexpAfter [] noRegexpAfter_ne_zero
  rw [← not_allowed_tokens_befor_regexp_eq] at hr
  have hne : tkChar '/' ≠ LEX_REGEXP := by decide
  refine ⟨?_, ?_, by decide⟩
  · rw [hr]
    by_cases h : k ∈ noRegexpAfter
    · simp [h, hne]
    · simp [h]
  · rw [hr]
    by_cases h : k ∈ noRegexpAfter
    · simp [h]
    · simp only [h, if_false, iff_false]
      exact fun e => hne e.symm

end TinyJS

namespace TinyJS

/-! ## C14 to C19 on the texts of the claims -/

/-- C14 (counterexample): the evaluation of the text of C14 does not give "b". -/
theorem C14_value_counterexample : (evaluateResult program14).map Prod.fst ≠ some "b" := by
  decide!

/-- C14 (amended): the evaluation of the text of C14 skips the first catch (its
string "a" is never created), executes the second catch and then the finally
block (the strings "b" and "c" are created, in this order) and completes; the
`try` statement gives no value, so that `evaluate` returns "undefined". -/
theorem C14_try_catch_finally : evaluateResult program14 = some ("undefined", ["b", "c"]) := by
  decide!

/-- C15 (code at the failing input): the label of the loop is tokenized to
`LEX_T_DUMMY_LABEL` (the second token, after the forwarder), for which
`execute_statement` has no case, and the evaluation of the text of C15 throws a
`SyntaxError`. -/
theorem C15_labelled_loop_throws :
    tokenKinds program15 = some [LEX_T_FORWARD, LEX_T_DUMMY_LABEL, 58, LEX_R_FOR,
      LEX_T_LOOP_LABEL, 40, LEX_R_VAR, LEX_ID, 61, LEX_INT, 59, LEX_ID, 60, LEX_INT, 59, LEX_ID,
      LEX_PLUSPLUS, 41, LEX_R_FOR, 40, LEX_R_VAR, LEX_ID, 61, LEX_INT, 59, LEX_ID, 60, LEX_INT, 59,
      LEX_ID, LEX_PLUSPLUS, 41, 123, LEX_R_IF, 40, LEX_ID, LEX_EQUAL, LEX_INT, 41, LEX_T_SKIP,
      LEX_R_BREAK, LEX_ID, 59, 125, LEX_T_OBJECT_LITERAL, 59, LEX_EOF] ∧
      evaluateFault program15 = some (.exception "SyntaxError" "Got unexpected LABEL") := by
  decide!

/-- C16 (code at the failing input): a loop whose body declares `let x` runs its
first pass, but in the second pass the block pushes no let-scope and binds no
`x`: `let x = i` finds no `x`, its initialiser is not evaluated and the
statement ends in a `SyntaxError`. -/
theorem C16_second_pass_binds_nothing :
    evaluateResult program16once = some ("undefined", []) ∧
      evaluateFault program16 = some (.exception "SyntaxError" "Got 'ID' expected ';'") := by
  decide!

/-- C17 (counterexample): a function declaration inside a nested block or as the
branch of an `if` is in no forwarder; it stays in the buffer as the token
`LEX_R_FUNCTION`.  (At the top level it is forwarded and a placeholder
stays.) -/
theorem C17_nested_function_counterexample :
    forwardedFunctions program17 = some [] ∧
      tokenKinds program17 = some [123, LEX_R_FUNCTION, 125, LEX_EOF] ∧
      forwardedFunctions program17if = some [] ∧
      tokenKinds program17if = some [LEX_R_IF, 40, LEX_ID, 41, LEX_T_SKIP, LEX_R_FUNCTION,
        LEX_EOF] ∧
      forwardedFunctions program17top = some ["f"] ∧
      tokenKinds program17top = some [LEX_T_FORWARD, LEX_R_FUNCTION_PLACEHOLDER, LEX_EOF] := by
  decide!

/-- C18 (code at the failing input): `var x` in a block nested in the block that
declares `let x`, or as the unbraced branch of an `if` in it, is tokenized
without an error; directly in the block it is the `TypeError`. -/
theorem C18_nested_var_accepted :
    tokenizeFault program18 = none ∧ tokenizeFault program18if = none ∧
      tokenizeFault program18same =
        some (.exception "TypeError" "redeclaration of variable 'x'") := by
  decide!

/-- C19 (code at the failing input): in `a "b\` line break `c"` no line break lies
between the end of `a` and the start of the string, but the lexer sets
`lineBreakBeforeToken` at the string, and the tokenizer puts a `;` between the
two expressions; without the line break inside the string the same text is a
`SyntaxError`. -/
theorem C19_line_break_inside_token :
    lexView (secondToken program19) = some (LEX_STR, "bc", true) ∧
      tokenKinds program19 = some [LEX_ID, 59, LEX_STR, 59, LEX_EOF] ∧
      tokenizeFault program19plain =
        some (.exception "SyntaxError" "Got 'STRING' expected ';'") := by
  decide!

end TinyJS

namespace TinyJS

open CScriptTokenizer

/-! ## C17: where a function declaration is forwarded -/

/-- C17 (amended): for a function declaration statement `function name(...) \x7b...\x7d`
whose head and body tokenize, `tokenizeFunction` adds the function to the set
`functions` of the forwarder at `BlockStart.front()` (the forwarder of the
enclosing function or of the root) and leaves a placeholder in the buffer
exactly when `BlockStart.front() == BlockStart.back()`, which is when the
declaration stands directly in the body of that function; inside a nested
block, an `if` branch or a loop body (which push a block start of their own)
no forwarder is changed and the declaration stays in the buffer as the token
`LEX_R_FUNCTION`, to be bound when the statement is executed.  In the first
case the loop over `functions` of the forwarder statement binds the name in
the scope it works on (for a `parseFunctionDefinition` that leaves the children
of that scope as they are, a sorted property list and names that are
identifiers). -/
theorem C17_function_statement_forwarding (fuel : Nat) (T : Tokenizing) (Flags : TokenizeFlags)
    (l1 l2 l3 l4 l5 : CScriptLex) (arguments : List CScriptToken) (B : Tokenizing)
    (front back : Nat) (lets vars vl : List String) (functions : List CScriptToken)
    (hS : Flags.asStatement = true) (hA : Flags.isAccessor = false)
    (htk : T.l.tk = LEX_R_FUNCTION)
    (h1 : T.l.«match» LEX_R_FUNCTION none = .ok l1)
    (hid : l1.tk = LEX_ID)
    (h2 : l1.«match» LEX_ID (some LEX_STR) = .ok l2)
    (h3 : l2.«match» (tkChar '(') none = .ok l3)
    (h4 : tokenizeFunction_arguments l3.tokenFuel l3 [] = .ok (l4, arguments))
    (h5 : { l4 with tk := tkChar '\x7b' }.«match» (tkChar '\x7b') none = .ok l5)
    (hb : l5.tk = tkChar '\x7b')
    (h6 : tokenizeBlock fuel
      { l := l5, Tokens := [], BlockStart := [], Marks := [], Labels := [], LoopLabels := [] }
      { TokenizeFlags.zero with canReturn := true } = .ok B)
    (hfront : T.BlockStart.head? = some front) (hback : T.BlockStart.getLast? = some back)
    (hfw : front = back → T.Tokens[front]? = some (.forwarder lets vars vl functions)) :
    tokenizeFunction (fuel + 1) T Flags = .ok
      (if front = back then
        { T with l := B.l,
                 Tokens := T.Tokens.set front (.forwarder lets vars vl
                     (FNC_SET_insert functions (.fnc LEX_R_FUNCTION l1.tkStr arguments B.Tokens)))
                   ++ [.fnc LEX_R_FUNCTION_PLACEHOLDER l1.tkStr arguments B.Tokens] }
       else
        { T with l := B.l,
                 Tokens := T.Tokens ++ [.fnc LEX_R_FUNCTION l1.tkStr arguments B.Tokens] }) ∧
    (front = back → ∀ (D : Type) (E : Expressions D) (c : CTinyJS D) (in_scope : Nat),
      (∀ (c1 : CTinyJS D) (fn : CScriptToken),
        (E.parseFunctionDefinition c1 fn).1.childsOf in_scope = c1.childsOf in_scope ∧
        c1.vars.length ≤ (E.parseFunctionDefinition c1 fn).1.vars.length) →
      in_scope < c.vars.length → StrictSorted (c.childsOf in_scope) →
      (∀ g ∈ FNC_SET_insert functions (.fnc LEX_R_FUNCTION l1.tkStr arguments B.Tokens),
        isDecimalNumber g.getString < 0) →
      ∃ v, Binds ((forward_functions E c in_scope
        (FNC_SET_insert functions (.fnc LEX_R_FUNCTION l1.tkStr arguments B.Tokens))).childsOf
          in_scope) l1.tkStr v) := by
  refine ⟨?_, fun _ D E c in_scope hE hlt hs hneg => ?_⟩
  swap
  · obtain ⟨g, hg, hn⟩ := FNC_SET_insert_has_name
      (.fnc LEX_R_FUNCTION l1.tkStr arguments B.Tokens) functions
    obtain ⟨v, hv⟩ := (forward_functions_binds E in_scope hE _ c hlt hs hneg).2.2 g hg
    rw [hn] at hv
    exact ⟨v, hv⟩
  have hfr : CScriptTokenizer.front { T with l := l1 } = .ok front := by
    simp [CScriptTokenizer.front, hfront]
  have hbk : CScriptTokenizer.back { T with l := l1 } = .ok back := by
    simp [CScriptTokenizer.back, hback]
  unfold tokenizeFunction
  simp only [hS, hA, lmatch, h1, htk, hid, h2, h3, h4, h5, hb, h6, hfr, hbk, Except.map,
    Bool.false_eq_true, if_false, Bool.not_true, bind, Except.bind, pure, Except.pure,
    true_or, if_true]
  by_cases hfb : front = back
  · have hbeq : (front == back) = true := by simp [hfb]
    have hfr3 : CScriptTokenizer.front { T with l := B.l } = .ok front := by
      simp [CScriptTokenizer.front, hfront]
    simp only [hbeq, if_true, hfr3, hfb, modifyForwarder]
    rw [← hfb, hfw hfb]
    simp [pushBack, CScriptToken.insertFunction]
  · have hbeq : (front == back) = false := by simp [hfb]
    simp [hbeq, hfb, pushBack]

end TinyJS

namespace TinyJS

open CScriptTokenizer

/-- A witness for C17: the declaration `function f()\x7b\x7d` at the top level, where the
forwarder of the root is the only block start. -/
theorem C17_function_statement_forwarding_witness :
    tokenizeFunction 6 tokenizing17 { TokenizeFlags.zero with asStatement := true } = .ok
      (if 0 = 0 then
        { tokenizing17 with
          l := body17.l,
          Tokens := tokenizing17.Tokens.set 0 (.forwarder [] [] []
              (FNC_SET_insert [] (.fnc LEX_R_FUNCTION (lexer17 1).tkStr [] body17.Tokens)))
            ++ [.fnc LEX_R_FUNCTION_PLACEHOLDER (lexer17 1).tkStr [] body17.Tokens] }
       else
        { tokenizing17 with
          l := body17.l,
          Tokens := tokenizing17.Tokens ++
            [.fnc LEX_R_FUNCTION (lexer17 1).tkStr [] body17.Tokens] }) :=
  (C17_function_statement_forwarding 5 tokenizing17 { TokenizeFlags.zero with asStatement := true }
    (lexer17 1) (lexer17 2) (lexer17 3) (lexer17 3)
    (getOk emptyLex ({ lexer17 3 with tk := tkChar '\x7b' }.«match» (tkChar '\x7b') none))
    [] body17 0 0 [] [] [] [] rfl rfl (by decide!) (by decide!) (by decide!) (by decide!)
    (by decide!) (by decide!) (by decide!) (by decide!) (by decide!) (by decide!) (by decide!)
    (fun _ => by decide!)).1

end TinyJS

namespace TinyJS

/-- Source `scope()->scopeLet()` after `addLetScope`: the scope pushed. -/
theorem addLetScope_scopeLet {D : Type} (c : CTinyJS D) (fuel : Nat) :
    c.addLetScope.scopeLet (fuel + 1) c.addLetScope.scope = some c.vars.length := by
  obtain ⟨l1, _, _, _, l5, _⟩ := CTinyJS.addLetScope_spec c
  unfold CTinyJS.scope
  rw [l1]
  simp only [List.headD_cons, CTinyJS.scopeLet, CTinyJS.scopeClass, l5]

/-- C13 (code, with the case in which it differs from the claim): the statement
`try \x7b throw v \x7d catch(e) \x7b B \x7d`, entered with `execute` set and no exception
pending.  `v` is evaluated with `CanThrow` set and gives the value `a`.  The
block `B` is started in a new let-scope, and runs to its end (it leaves
`execute` set, the flags as it found them and no exception).  Then the
statement returns (no exception reaches the host) with `execute` set, `Throw`
clear, `CanThrow` as on entry and `exceptionVar` empty, the cursor where `B`
left it.  In the new let-scope `e` is found with the value `a`, as the claim
says, unless `e` is `__proto__` or `__scope_parent__`: the let-scope has a child
of that name already, `addChild(e, exceptionVar)` adds nothing, and `e` is found
with the prototype of the objects or with the scope around the statement. -/
theorem C13_throw_is_caught {D : Type} (E : Expressions D) (n : Nat) (s sv sB : Exec D)
    (e : String) (a : Nat)
    (htry : kindAt s.tokens s.pos = LEX_R_TRY)
    (hopen : kindAt s.tokens (s.pos + 1) = tkChar '\x7b')
    (hthrow : kindAt s.tokens (s.pos + 2) = LEX_R_THROW)
    (hno : s.c.runtimeFlags.THROW = false)
    (hv : execute_base E
        { s with pos := s.pos + 3,
                 c := { s.c with runtimeFlags := { s.c.runtimeFlags with CAN_THROW := true } } }
        true = .ok (sv, true, a))
    (hvt : sv.tokens = s.tokens)
    (hvc : sv.c.runtimeFlags.CAN_THROW = true)
    (hsemi : kindAt s.tokens sv.pos = tkChar ';')
    (hclose : kindAt s.tokens (sv.pos + 1) = tkChar '\x7d')
    (hcatch : kindAt s.tokens (sv.pos + 2) = LEX_R_CATCH)
    (hpar : kindAt s.tokens (sv.pos + 3) = tkChar '(')
    (hid : s.tokens[sv.pos + 4]? = some (.string LEX_ID e))
    (hpar2 : kindAt s.tokens (sv.pos + 5) = tkChar ')')
    (hB : execute_block (execute_statement E (n + 3)) (n + 3)
        (catchEntry sv s.c.runtimeFlags e a) true false = .ok (sB, true))
    (hBf : sB.c.runtimeFlags = (catchEntry sv s.c.runtimeFlags e a).c.runtimeFlags)
    (hBe : sB.c.exceptionVar = none)
    (hnext : kindAt sB.tokens sB.pos ≠ LEX_R_CATCH ∧ kindAt sB.tokens sB.pos ≠ LEX_R_FINALLY) :
    ((catchEntry sv s.c.runtimeFlags e a).c.scopes = sv.c.vars.length :: sv.c.scopes ∧
     (catchEntry sv s.c.runtimeFlags e a).c.scopeClass sv.c.vars.length = some .ScopeLet ∧
     ((catchEntry sv s.c.runtimeFlags e a).c.findInScopes e).map CScriptVarLink.var =
       some (if e = TINYJS___PROTO___VAR then sv.c.objectPrototype
         else if e = TINYJS_SCOPE_PARENT_VAR then sv.c.scope else a)) ∧
    execute_statement E (n + 4) s true =
      .ok (sB.withContext (fun c => c.popScopes 1), true, none) ∧
    (sB.withContext (fun c => c.popScopes 1)).c.runtimeFlags.THROW = false ∧
    (sB.withContext (fun c => c.popScopes 1)).c.runtimeFlags.CAN_THROW =
      s.c.runtimeFlags.CAN_THROW ∧
    (sB.withContext (fun c => c.popScopes 1)).c.exceptionVar = none := by
  obtain ⟨b1, b2, b3, b4⟩ := catch_scope_binds
    ({ sv.c with exceptionVar := none,
                 runtimeFlags := restoreThrowFlags sv.c.runtimeFlags s.c.runtimeFlags } : CTinyJS D)
    e a
  have hflags : sB.c.runtimeFlags = restoreThrowFlags sv.c.runtimeFlags s.c.runtimeFlags :=
    hBf.trans b4
  refine ⟨⟨b1, b2, b3⟩, ?_, ?_, ?_, hBe⟩
  · -- the run
    -- the statement `throw v`
    have hA : execute_throw E
        { s with pos := s.pos + 2,
                 c := { s.c with runtimeFlags := { s.c.runtimeFlags with CAN_THROW := true } } }
        true = .ok ({ sv with c := { sv.c with
            runtimeFlags := { sv.c.runtimeFlags with THROW := true },
            exceptionVar := some a } }, false) := by
      unfold execute_throw
      rw [if_pos rfl, Exec.match_same _ LEX_R_THROW hthrow (by decide)]
      simp only [bind, Except.bind]
      rw [hv]
      simp only [hvc, if_true]
    have hBs : execute_statement E (n + 3)
        { s with pos := s.pos + 2,
                 c := { s.c with runtimeFlags := { s.c.runtimeFlags with CAN_THROW := true } } }
        true = .ok ({ sv with c := { sv.c with
            runtimeFlags := { sv.c.runtimeFlags with THROW := true },
            exceptionVar := some a } }, false, none) := by
      show execute_statement_step E (execute_statement E (n + 2)) (n + 2) _ true = _
      rw [execute_statement_step_throw _ _ _ _ _ hthrow, hA]
      rfl
    have hCs : execute_statement E (n + 3)
        { sv with c := { sv.c with
            runtimeFlags := { sv.c.runtimeFlags with THROW := true },
            exceptionVar := some a } }
        false = .ok ({ sv with pos := sv.pos + 1, c := { sv.c with
            runtimeFlags := { sv.c.runtimeFlags with THROW := true },
            exceptionVar := some a } }, false, none) := by
      show execute_statement_step E (execute_statement E (n + 2)) (n + 2) _ false = _
      rw [execute_statement_step_semicolon _ _ _ _ _ (by rw [hvt]; exact hsemi)]
    have hD : execute_block_loop (execute_statement E (n + 3)) (n + 3)
        { s with pos := s.pos + 2,
                 c := { s.c with runtimeFlags := { s.c.runtimeFlags with CAN_THROW := true } } }
        true = .ok ({ sv with pos := sv.pos + 1, c := { sv.c with
            runtimeFlags := { sv.c.runtimeFlags with THROW := true },
            exceptionVar := some a } }, false) := by
      rw [execute_block_loop, if_pos (by rw [Exec.tk_eq]; simp only; rw [hthrow]; decide), hBs]
      simp only
      rw [execute_block_loop, if_pos (by rw [Exec.tk_eq]; simp only; rw [hvt, hsemi]; decide), hCs]
      simp only
      rw [execute_block_loop, if_neg (by rw [Exec.tk_eq]; simp only; rw [hvt, hclose]; simp)]
    have hE : execute_block (execute_statement E (n + 3)) (n + 3)
        { s with pos := s.pos + 1,
                 c := { s.c with runtimeFlags := { s.c.runtimeFlags with CAN_THROW := true } } }
        true true = .ok ({ sv with pos := sv.pos + 2, c := { sv.c with
            runtimeFlags := { sv.c.runtimeFlags with THROW := true },
            exceptionVar := some a } }, false) := by
      unfold execute_block
      rw [if_pos rfl, Exec.match_same _ (tkChar '\x7b') hopen (by decide)]
      simp only [bind, Except.bind]
      have hfw : ∀ x : Exec D, kindAt x.tokens x.pos = LEX_R_THROW →
          (x.tk == LEX_T_FORWARD) = false := by
        intro x hx
        rw [Exec.tk_eq, hx]
        decide
      rw [hfw _ hthrow]
      simp only [Bool.and_false, Bool.false_and, Bool.false_eq_true, if_false]
      rw [hD]
      simp only
      rw [Exec.match_same _ (tkChar '\x7d') (by simp only; rw [hvt]; exact hclose) (by decide)]
    -- the loop over the `catch` clauses
    have hF : execute_catches E (execute_statement E (n + 3)) (n + 3) (some a) (n + 3)
        { sv with pos := sv.pos + 2, c := { sv.c with
            runtimeFlags := restoreThrowFlags sv.c.runtimeFlags s.c.runtimeFlags,
            exceptionVar := none } }
        true true = .ok (sB.withContext (fun c => c.popScopes 1), true, false) := by
      have hstr : ({ sv with pos := sv.pos + 2 + 1 + 1, c := { sv.c with
            runtimeFlags := restoreThrowFlags sv.c.runtimeFlags s.c.runtimeFlags,
            exceptionVar := none } } : Exec D).tkStr = e := by
        unfold Exec.tkStr Exec.getToken
        simp only
        rw [hvt, hid]
        rfl
      have hkid : kindAt s.tokens (sv.pos + 4) = LEX_ID := by
        unfold kindAt
        rw [hid]
        rfl
      rw [execute_catches, if_pos (by rw [Exec.tk_eq]; simp only; rw [hvt]; exact hcatch)]
      simp only [Bool.and_self, if_true]
      rw [Exec.match_same _ LEX_R_CATCH (by simp only; rw [hvt]; exact hcatch) (by decide)]
      simp only [bind, Except.bind]
      rw [Exec.match_same _ (tkChar '(') (by simp only; rw [hvt]; exact hpar) (by decide)]
      simp only
      rw [Exec.match_same _ LEX_ID (by simp only; rw [hvt]; exact hkid) (by decide)]
      simp only [hstr]
      rw [addLetScope_scopeLet]
      simp only
      rw [if_neg (by rw [Exec.tk_eq]; simp only; rw [hvt, hpar2]; decide)]
      simp only
      rw [Exec.match_same _ (tkChar ')') (by simp only; rw [hvt]; exact hpar2) (by decide)]
      simp only [Bool.and_self, if_true]
      erw [hB]
      simp only
      rw [execute_catches, if_neg (by rw [Exec.tk_eq]; exact hnext.1)]
    show execute_statement_step E (execute_statement E (n + 3)) (n + 3) s true = _
    rw [execute_statement_step_try _ _ _ _ _ htry]
    unfold execute_try
    rw [if_pos rfl, Exec.match_same _ LEX_R_TRY htry (by decide)]
    simp only [bind, Except.bind]
    rw [loopLabels, if_neg (by rw [Exec.tk_eq]; simp only; rw [hopen]; decide)]
    simp only
    rw [hE]
    simp only [if_true, List.contains_nil, List.elem_nil, Bool.and_false, Bool.false_eq_true, if_false]
    erw [hF]
    simp only
    rw [if_neg (by rw [Exec.tk_eq]; exact hnext.2)]
    simp only [Bool.false_and, Bool.false_eq_true, if_false]
    rfl
  · rw [show (sB.withContext (fun c => c.popScopes 1)).c.runtimeFlags = sB.c.runtimeFlags from rfl,
      hflags]
    exact hno
  · rw [show (sB.withContext (fun c => c.popScopes 1)).c.runtimeFlags = sB.c.runtimeFlags from rfl,
      hflags]
    rfl

set_option maxRecDepth 100000 in
/-- A witness for C13: the text `try \x7b throw "v" \x7d catch(e) \x7b e; \x7d "z"` evaluated
in the start context, where `CanThrow` is not set: the statement returns with
`execute` set and the cursor at `"z"`, and `e` is found with the string thrown.
In the same text with the name `__scope_parent__` for `e` the statement returns
in the same way, but the name is found with the root scope (the value 2), not
with the string thrown (the value 3); and in whole texts that throw the number
3 the type of `e` in the block is "number", that of `__scope_parent__` is
"object", and `__scope_parent__.r` is the variable `r` of the root. -/
theorem C13_throw_is_caught_witness :
    execute_statement exampleExpressions 4 start13 true =
      .ok (caught13.withContext (fun c => c.popScopes 1), true, none) ∧
    ((catchEntry thrown13.1 start13.c.runtimeFlags "e" thrown13.2.2).c.findInScopes "e").map
      CScriptVarLink.var = some thrown13.2.2 ∧
    (caught13.withContext (fun c => c.popScopes 1)).c.runtimeFlags.THROW = false ∧
    (caught13.withContext (fun c => c.popScopes 1)).c.runtimeFlags.CAN_THROW = false ∧
    (caught13.withContext (fun c => c.popScopes 1)).c.exceptionVar = none ∧
    execute_statement exampleExpressions 4 start13hidden true =
      .ok (caught13hidden.withContext (fun c => c.popScopes 1), true, none) ∧
    ((catchEntry thrown13hidden.1 start13hidden.c.runtimeFlags "__scope_parent__"
      thrown13hidden.2.2).c.findInScopes "__scope_parent__").map CScriptVarLink.var = some 2 ∧
    thrown13hidden.2.2 = 3 ∧
    sourceEvaluate "var r = 0; try \x7b throw 3 \x7d catch(e) \x7b r = typeof e; \x7d r"
      = .ok ("number", ["number"]) ∧
    sourceEvaluate
      "var r = 0; try \x7b throw 3 \x7d catch(__scope_parent__) \x7b r = typeof __scope_parent__; \x7d r"
      = .ok ("object", ["object"]) ∧
    sourceEvaluate
      "var r = 5; try \x7b throw 3 \x7d catch(__scope_parent__) \x7b r = __scope_parent__.r; \x7d r"
      = .ok ("5", []) :=
  have h := C13_throw_is_caught exampleExpressions 0 start13 thrown13.1 caught13 "e" thrown13.2.2
    (by decide!) (by decide!) (by decide!) (by decide!) (by decide!) (by decide!) (by decide!)
    (by decide!) (by decide!) (by decide!) (by decide!) (by decide!) (by decide!) (by decide!)
    (by decide!) (by decide!) (by decide!)
  have g := C13_throw_is_caught exampleExpressions 0 start13hidden thrown13hidden.1
    caught13hidden
    "__scope_parent__" thrown13hidden.2.2
    (by decide!) (by decide!) (by decide!) (by decide!) (by decide!) (by decide!) (by decide!)
    (by decide!) (by decide!) (by decide!) (by decide!) (by decide!) (by decide!) (by decide!)
    (by decide!) (by decide!) (by decide!)
  ⟨h.2.1, h.1.2.2.trans (by decide!), h.2.2.1, h.2.2.2.1, h.2.2.2.2, g.2.1,
    g.1.2.2.trans (by decide!), by decide!, by decide!, by decide!, by decide!⟩

end TinyJS

namespace TinyJS

/-- The statement `switch (d) \x7b ... \x7d` does what `switchSpec` says, when the
expressions and the statements of its body keep to the layout of the buffer.
The discriminant is evaluated once, to the value `d`; the clauses `cs` lie in
the buffer as `tokenizeSwitch` lays them out, up to the `\x7d` at index `closing`;
the expressions and the statements leave the layout of the buffer as it is and
the cursor at their end.  Then, with enough fuel, `execute_switch` is
`switchSpec`: the expressions of the cases are evaluated in source order up to
the first that equals `d`, the execution starts after that case (or after
`default:`, when no case matches, or nowhere, when there is no `default`
either) and falls through until a statement clears `execute`, and the cursor
ends just past the `\x7d`. -/
theorem switch_is_switchSpec {D : Type} (E : Expressions D) (stmt : StatementFn D)
    (fuel : Nat) (s sd sb : Exec D) (d : Nat) (cs : List SwitchClause) (closing : Nat)
    (hsw : kindAt s.tokens s.pos = LEX_R_SWITCH)
    (hpar : kindAt s.tokens (s.pos + 1) = tkChar '(')
    (hd : execute_base E (s.setPos (s.pos + 2)) true = .ok (sd, true, d))
    (hpar2 : kindAt sd.tokens sd.pos = tkChar ')')
    (hopen : kindAt sd.tokens (sd.pos + 1) = tkChar '\x7b')
    (hsb : (if kindAt sd.tokens (sd.pos + 2) = LEX_T_FORWARD then
              (stmt ((sd.setPos (sd.pos + 2)).withContext CTinyJS.addLetScope) true).map
                fun x => (x.1, x.2.1)
            else .ok (sd.setPos (sd.pos + 2), true)) = .ok (sb, true))
    (hcs : clausesAt (layoutOf sb.tokens) closing sb.pos cs = true)
    (hclose : kindIn (layoutOf sb.tokens) closing = tkChar '\x7d')
    (hok : ∀ c ∈ cs, ClauseOK E stmt (layoutOf sb.tokens) c)
    (hM : MathsOK E (layoutOf sb.tokens))
    (hfuel : switchFuel cs ≤ fuel) :
    execute_switch E stmt fuel s true =
      switchSpec E stmt d cs closing (decide (kindAt sd.tokens (sd.pos + 2) = LEX_T_FORWARD))
        sb := by
  have hloop := switch_search E stmt d (layoutOf sb.tokens) closing hclose hM (clauseSteps cs + 2)
    cs sb.pos fuel sb false sb.pos none hcs hok (le_refl _) rfl
    (by unfold switchFuel at hfuel; omega) rfl
  rw [Exec.setPos_pos] at hloop
  unfold execute_switch
  rw [if_pos rfl, Exec.match_same _ _ hsw (by decide)]
  simp only [bind, Except.bind]
  rw [Exec.match_same _ _ hpar (by decide)]
  simp only
  erw [hd]
  simp only
  rw [Exec.match_same _ _ hpar2 (by decide)]
  simp only [if_true]
  rw [Exec.match_same _ _ hopen (by decide)]
  simp only
  have hbodyspec : execute_switch_loop E stmt d fuel sb true false false sb.pos =
      (switchBody E stmt d cs sb).map fun r => (r.1.setPos closing, r.2) := hloop
  rw [show ({ c := sd.c, tokens := sd.tokens, pos := sd.pos + 1 + 1, label := sd.label } : Exec D) =
    sd.setPos (sd.pos + 2) from rfl]
  by_cases hfw : kindAt sd.tokens (sd.pos + 2) = LEX_T_FORWARD
  · have hb : ((sd.setPos (sd.pos + 2)).tk == LEX_T_FORWARD) = true := by
      rw [Exec.tk_eq]
      simpa using hfw
    rw [if_pos hfw] at hsb
    simp only [hb, if_true, hfw, decide_True]
    cases hs : stmt ((sd.setPos (sd.pos + 2)).withContext CTinyJS.addLetScope) true with
    | error x => rw [hs] at hsb; cases hsb
    | ok v =>
      rw [hs] at hsb
      simp only [Except.map, Except.ok.injEq, Prod.mk.injEq] at hsb
      simp only [hsb.1, hsb.2]
      rw [hbodyspec]
      unfold switchSpec
      cases hbody : switchBody E stmt d cs sb with
      | error x => rfl
      | ok r =>
        have hlr := switchBody_layout E stmt d (layoutOf sb.tokens) hM cs sb r hok rfl hbody
        simp only [Except.map]
        rw [Exec.match_layout (r.1.setPos closing) (tkChar '\x7d')
          (by show kindIn (layoutOf r.1.tokens) closing = _; rw [hlr]; exact hclose) (by decide)]
        rfl
  · have hb : ((sd.setPos (sd.pos + 2)).tk == LEX_T_FORWARD) = false := by
      rw [Exec.tk_eq]
      simpa using hfw
    rw [if_neg hfw] at hsb
    simp only [Except.ok.injEq, Prod.mk.injEq, and_true] at hsb
    simp only [hb, Bool.false_eq_true, if_false, hfw, decide_False]
    rw [hsb]
    rw [hbodyspec]
    unfold switchSpec
    cases hbody : switchBody E stmt d cs sb with
    | error x => rfl
    | ok r =>
      have hlr := switchBody_layout E stmt d (layoutOf sb.tokens) hM cs sb r hok rfl hbody
      simp only [Except.map]
      rw [Exec.match_layout (r.1.setPos closing) (tkChar '\x7d')
        (by show kindIn (layoutOf r.1.tokens) closing = _; rw [hlr]; exact hclose) (by decide)]
      rfl

end TinyJS

namespace TinyJS

/-- The statements and the case expressions of `program12` keep to the layout of its
buffer. -/
theorem clauses12_ok : ∀ c ∈ clauses12,
    ClauseOK exampleExpressions (execute_statement exampleExpressions 1)
      (layoutOf body12.tokens) c := by
  intro c hc
  simp only [clauses12, List.mem_cons, List.mem_singleton, List.not_mem_nil, or_false] at hc
  rcases hc with rfl | rfl | rfl | rfl
  · exact ⟨fun _ s hl hp r hr =>
        example_case_ok (layoutOf body12.tokens) 7 (by decide!) (by decide!) s hl hp r hr,
      fun s hl hp => statement_semicolon_ok exampleExpressions 0 _ 9 (by decide!) s hl hp, trivial⟩
  · refine ⟨fun h => ?_, ?_⟩
    · exact absurd h (by decide)
    · exact ⟨fun s hl hp => statement_semicolon_ok exampleExpressions 0 _ 12 (by decide!) s hl hp,
        trivial⟩
  · exact ⟨fun _ s hl hp r hr =>
        example_case_ok (layoutOf body12.tokens) 15 (by decide!) (by decide!) s hl hp r hr,
      fun s hl hp => statement_semicolon_ok exampleExpressions 0 _ 17 (by decide!) s hl hp,
      fun s hl hp => statement_break_ok exampleExpressions 0 _ 18 (by decide!) (by decide!) s hl hp,
      trivial⟩
  · exact ⟨fun _ s hl hp r hr =>
        example_case_ok (layoutOf body12.tokens) 22 (by decide!) (by decide!) s hl hp r hr,
      fun s hl hp => statement_semicolon_ok exampleExpressions 0 _ 24 (by decide!) s hl hp, trivial⟩

set_option maxRecDepth 100000 in
/-- C12 (code, with the case in which it differs from the claim).  First part:
when the expressions and the statements of the body keep to the layout of the
buffer (they leave it as it is and end at their end, also when they are passed
with `execute` unset), the statement `switch (d) \x7b ... \x7d` does what the claim
says (`switchSpec`): the discriminant is evaluated once, the expressions of the
cases in source order up to the first that equals `d`, the execution starts
after that case or after `default:` and falls through until a statement clears
`execute`, and the cursor ends just past the `\x7d`.  But a statement that follows
a `break` in the same clause is passed by `execute_statement` with `execute`
unset, and not every statement can be passed so: in
`switch (1) \x7b case 1: break; 1 || 2; \x7d 5` the switch does not reach its `\x7d`, the
evaluation ends in a `SyntaxError` at the `||`.  With the statement before the
`break`, or with the statement `2;` after it, the evaluation gives 5. -/
theorem C12_switch_statement_after_break :
    (∀ (D : Type) (E : Expressions D) (stmt : StatementFn D) (fuel : Nat) (s sd sb : Exec D)
      (d : Nat) (cs : List SwitchClause) (closing : Nat),
      kindAt s.tokens s.pos = LEX_R_SWITCH →
      kindAt s.tokens (s.pos + 1) = tkChar '(' →
      execute_base E (s.setPos (s.pos + 2)) true = .ok (sd, true, d) →
      kindAt sd.tokens sd.pos = tkChar ')' →
      kindAt sd.tokens (sd.pos + 1) = tkChar '\x7b' →
      (if kindAt sd.tokens (sd.pos + 2) = LEX_T_FORWARD then
          (stmt ((sd.setPos (sd.pos + 2)).withContext CTinyJS.addLetScope) true).map
            fun x => (x.1, x.2.1)
        else .ok (sd.setPos (sd.pos + 2), true)) = .ok (sb, true) →
      clausesAt (layoutOf sb.tokens) closing sb.pos cs = true →
      kindIn (layoutOf sb.tokens) closing = tkChar '\x7d' →
      (∀ c ∈ cs, ClauseOK E stmt (layoutOf sb.tokens) c) →
      MathsOK E (layoutOf sb.tokens) →
      switchFuel cs ≤ fuel →
      execute_switch E stmt fuel s true =
        switchSpec E stmt d cs closing
          (decide (kindAt sd.tokens (sd.pos + 2) = LEX_T_FORWARD)) sb) ∧
    sourceEvaluate "switch (1) \x7b case 1: break; 1 || 2; \x7d 5"
      = .error (.exception "SyntaxError" "Got unexpected ||") ∧
    sourceEvaluate "switch (1) \x7b case 1: 1 || 2; break; \x7d 5" = .ok ("5", []) ∧
    sourceEvaluate "switch (1) \x7b case 1: break; 2; \x7d 5" = .ok ("5", []) :=
  ⟨fun _ E stmt fuel s sd sb d cs closing hsw hpar hd hpar2 hopen hsb hcs hclose hok hM hfuel =>
      switch_is_switchSpec E stmt fuel s sd sb d cs closing hsw hpar hd hpar2 hopen hsb hcs
        hclose hok hM hfuel,
    by decide!, by decide!, by decide!⟩

/-- A witness for C12: the text `switch (2) \x7b case 1: ; default: ; case 2: ; break;
case 3: ; \x7d` with the evaluators of the examples. -/
theorem C12_switch_statement_after_break_witness :
    execute_switch exampleExpressions (execute_statement exampleExpressions 1) 16 start12 true =
      switchSpec exampleExpressions (execute_statement exampleExpressions 1) discriminant12.2.2
        clauses12 25
        (decide (kindAt discriminant12.1.tokens (discriminant12.1.pos + 2) = LEX_T_FORWARD))
        body12 :=
  C12_switch_statement_after_break.1 Int exampleExpressions
    (execute_statement exampleExpressions 1) 16 start12
    discriminant12.1 body12 discriminant12.2.2 clauses12 25 (by decide!) (by decide!)
    (by decide!) (by decide!) (by decide!) (by decide!) (by decide!) (by decide!) clauses12_ok
    (example_maths_ok _) (by decide)

/-- The switch of `program12` by the specification: the cursor ends after the `\x7d`
(token 26) with `execute` set and no `break` pending. -/
theorem switch12_result :
    (switchSpec exampleExpressions (execute_statement exampleExpressions 1) discriminant12.2.2
      clauses12 25 false body12).toOption.map
        (fun r => (r.1.pos, r.2, r.1.c.runtimeFlags.BREAK)) = some (26, true, false) := by
  decide!

/-- Three runs of a switch: a case after the `default` matches and falls through to
the `break`; no case matches and the `default` in the middle is taken; no case
matches and there is no `default`. -/
theorem switch_examples :
    evaluateResult program12match = some ("undefined", ["c", "d"]) ∧
    evaluateResult program12default = some ("z", ["b", "c", "z"]) ∧
    evaluateResult program12none = some ("z", ["z"]) := by
  decide!

end TinyJS

namespace TinyJS

/-! ## C21: escape sequences of a string literal -/

set_option maxRecDepth 100000 in
/-- C21 (code at the failing inputs): for all hexadecimal digits `h1`, `h2` the
string literal with the one escape sequence `\xh1h2` is lexed to a `LEX_STR`
token of two characters, none of which depends on `h1`: the character whose
code is the value of `h2`, and after it once more that character when `h2` is
an octal digit, else the digit `h2` itself; `"\x41"` gives the codes 1, 1 and
not 65.  For all octal digits `a`, `b`, `c` the literal with the escape sequence
`\abc` is lexed to a string of one character, whose code is the octal number
`abc` modulo 256. -/
theorem C21_hex_escape_two_characters :
    (∀ h1 ∈ hexDigits, ∀ h2 ∈ hexDigits,
      firstToken (escapeLiteral ['x', h1, h2]) =
        some (LEX_STR, [CScriptLex.hexDigit h2,
                        if isOctal h2 then CScriptLex.hexDigit h2 else h2.toNat])) ∧
    firstToken "\"\\x41\"" = some (LEX_STR, [1, 1]) ∧
    firstToken "\"\\x4A\"" = some (LEX_STR, [10, 65]) ∧
    (∀ a ∈ octalDigits, ∀ b ∈ octalDigits, ∀ c ∈ octalDigits,
      firstToken (escapeLiteral [a, b, c]) =
        some (LEX_STR, [(64 * CScriptLex.hexDigit a + 8 * CScriptLex.hexDigit b +
                          CScriptLex.hexDigit c) % 256])) := by
  decide!

/-! ## C23: the order of the links -/

/-- C23, the claim as stated fails where exactly one name is a numeral: `"a"` is
smaller than `"5"` in the order of the links although `"a" < "5"` is false for
strings, and `"5"` is not smaller than `"a"` although `"5" < "a"` is true for
strings.  (And for numerals from 2^31 on the keys wrap around: `"4294967296"` is
smaller than `"1"`.) -/
theorem C23_mixed_names_counterexample :
    isNumeral "a" = false ∧ isNumeral "5" = true ∧
    nameLess "a" "5" = true ∧ stringLess "a" "5" = false ∧
    nameLess "5" "a" = false ∧ stringLess "5" "a" = true ∧
    isNumeral "4294967296" = true ∧ nameLess "4294967296" "1" = true := by
  decide

/-- C23 as amended: the order of the links on two names is the comparison of
their values when both are decimal numerals without a leading zero (of a
value below 2^31), the comparison of the strings when neither is such a
numeral, and when exactly one of them is such a numeral the other name is the
smaller one. -/
theorem C23_link_order (a b : String) :
    (isNumeral a = true → isNumeral b = true → numeralValue a < 2147483648 →
      numeralValue b < 2147483648 → nameLess a b = decide (numeralValue a < numeralValue b)) ∧
    (isNumeral a = false → isNumeral b = false → nameLess a b = stringLess a b) ∧
    (isNumeral a = false → isNumeral b = true → numeralValue b < 2147483648 →
      nameLess a b = true ∧ nameLess b a = false) := by
  have hdef : ∀ x y : String, nameLess x y =
      if isDecimalNumber x < 0 ∧ isDecimalNumber y < 0 then stringLess x y
      else decide (isDecimalNumber x < isDecimalNumber y) := fun _ _ => rfl
  refine ⟨fun ha hb hla hlb => ?_, fun ha hb => ?_, fun ha hb hlb => ?_⟩
  · rw [hdef, isDecimalNumber_numeral ha hla, isDecimalNumber_numeral hb hlb, if_neg]
    · simp
    · rintro ⟨h, _⟩
      have : (0 : Int) ≤ (numeralValue a : Int) := Int.ofNat_nonneg _
      omega
  · rw [hdef, isDecimalNumber_not_numeral ha, isDecimalNumber_not_numeral hb, if_pos]
    exact ⟨by decide, by decide⟩
  · have h0 : (0 : Int) ≤ (numeralValue b : Int) := Int.ofNat_nonneg _
    constructor
    · rw [hdef, isDecimalNumber_not_numeral ha, isDecimalNumber_numeral hb hlb, if_neg]
      · simp only [decide_eq_true_eq]
        omega
      · rintro ⟨_, h⟩
        omega
    · rw [hdef, isDecimalNumber_not_numeral ha, isDecimalNumber_numeral hb hlb, if_neg]
      · simp only [decide_eq_false_iff_not]
        omega
      · rintro ⟨h, _⟩
        omega

/-- C23 at the names "2", "10" and "a", "b", "5": "2" is smaller than "10"; "a" is
smaller than "b"; "a" is smaller than "5". -/
theorem C23_link_order_witness :
    nameLess "2" "10" = decide (numeralValue "2" < numeralValue "10") ∧
    nameLess "a" "b" = stringLess "a" "b" ∧
    (nameLess "a" "5" = true ∧ nameLess "5" "a" = false) :=
  ⟨(C23_link_order "2" "10").1 (by decide) (by decide) (by decide) (by decide),
   (C23_link_order "a" "b").2.1 (by decide) (by decide),
   (C23_link_order "a" "5").2.2 (by decide) (by decide) (by decide)⟩

/-! ## C29: the operator `!==` -/

/-- C29 (code, where it differs from the claim): on two values of the same class
`A !== B` is false, whatever the values are (equal or not); on two values of
different classes, none of them NaN, it is what `A != B` is (the comparison
after conversion). -/
theorem C29_not_identical_is_no_negation {D : Type} (P : Platform D)
    (toPrimitive : ObjectClass → Nat → Option (ScriptVar D)) (A B : ScriptVar D) :
    (A.typeid = B.typeid →
      mathsOp P toPrimitive true A B .LEX_NTYPEEQUAL = .value (.bool false false)) ∧
    (A.typeid ≠ B.typeid → A.isNaN = false → B.isNaN = false →
      mathsOp P toPrimitive true A B .LEX_NTYPEEQUAL =
        mathsOpLoose P toPrimitive A B .LEX_NEQUAL) := by
  constructor
  · intro h
    simp [mathsOp, h]
  · intro h ha hb
    simp [mathsOp, h, ha, hb]

/-- C29 at the failing inputs: `1 !== 2` is false and `1 === 2` is false too;
`1 !== "1"` is false (it is `1 != "1"`) and `1 === "1"` is false too. -/
theorem C29_not_identical_is_no_negation_witness :
    mathsOp intPlatform noPrimitive true (.integer 1 false) (.integer 2 false) .LEX_NTYPEEQUAL
      = .value (.bool false false) ∧
    mathsOp intPlatform noPrimitive true (.integer 1 false) (.integer 2 false) .LEX_TYPEEQUAL
      = .value (.bool false false) ∧
    mathsOp intPlatform noPrimitive true (.integer 1 false) (.string "1" false) .LEX_NTYPEEQUAL
      = .value (.bool false false) ∧
    mathsOp intPlatform noPrimitive true (.integer 1 false) (.string "1" false) .LEX_TYPEEQUAL
      = .value (.bool false false) :=
  ⟨(C29_not_identical_is_no_negation intPlatform noPrimitive (.integer 1 false)
      (.integer 2 false)).1 (by decide),
   by decide,
   ((C29_not_identical_is_no_negation intPlatform noPrimitive (.integer 1 false)
      (.string "1" false)).2 (by decide) (by decide) (by decide)).trans (by decide),
   by decide⟩

end TinyJS

namespace TinyJS

/-! ## C25: the lookups along the prototype chain -/

/-- C25: on every heap whose stamps were handed out by `getUniqueID` (each
`temporaryID` is at most the counter `uniqueID`; a cycle of `__proto__` links is
allowed), `findChildWithPrototypeChain` and `findChildInPrototypeChain` return
(the loop ends within its fuel), no value is the `object` of two passes of the
loop, the property lists are left as they are, the stamps are again at most
the counter, and the link returned is the own property of that name of the
first value along the `__proto__` chain that has one, or no link when none
has; the chain of `findChildWithPrototypeChain` starts with the value itself,
that of `findChildInPrototypeChain` with its prototype. -/
theorem C25_prototype_chain_lookup {D : Type} (c : CTinyJS D) (this : Nat) (childName : String)
    (hstamps : ∀ v ∈ c.vars, v.temporaryID ≤ c.uniqueID) :
    (∃ c1 r visited, c.findChildWithPrototypeChain this childName = .ok (c1, r, visited) ∧
      visited.Nodup ∧ c.FirstOwn childName (some this) r ∧
      (∀ a, c1.childsOf a = c.childsOf a) ∧ ∀ v ∈ c1.vars, v.temporaryID ≤ c1.uniqueID) ∧
    (∃ c1 r visited, c.findChildInPrototypeChain this childName = .ok (c1, r, visited) ∧
      visited.Nodup ∧ c.FirstOwn childName (c.protoOf this) r ∧
      (∀ a, c1.childsOf a = c.childsOf a) ∧ ∀ v ∈ c1.vars, v.temporaryID ≤ c1.uniqueID) := by
  have hfresh := fresh_of_stamps c hstamps
  have hb : ∀ v ∈ c.getUniqueID.1.vars, v.temporaryID ≤ c.uniqueID + 1 :=
    fun v hv => Nat.le_succ_of_le (hstamps v hv)
  constructor
  · obtain ⟨c1, r, vs, h, hnd, hfirst, hch⟩ :=
      findChildWithPrototypeChain_loop_spec c childName c.getUniqueID.2 (some this)
        (c.getUniqueID.1.vars.length + 2) c.getUniqueID.1 (some this) [] 0 (fun _ => rfl) rfl
        (fun j hj => absurd hj (Nat.not_lt_zero j)) (fun a ha => absurd ha (List.not_mem_nil a))
        (fun a ha => absurd ha (fresh_stamp c hfresh a)) List.nodup_nil (by simp)
    obtain ⟨h1, h2⟩ := findChildWithPrototypeChain_loop_stamps childName (c.uniqueID + 1)
      (c.uniqueID + 1) (Nat.le_refl _) _ _ _ _ _ h hb
    refine ⟨c1, r, vs, h, hnd, hfirst, hch, fun v hv => ?_⟩
    have h3 : c1.uniqueID = c.uniqueID + 1 := h2
    rw [h3]
    exact h1 v hv
  · obtain ⟨c1, r, vs, h, hnd, hfirst, hch⟩ :=
      findChildInPrototypeChain_loop_spec c childName c.getUniqueID.2 this
        (c.getUniqueID.1.vars.length + 2) c.getUniqueID.1 this [] 0 (fun _ => rfl) rfl
        (fun j h1 h2 => by omega) (fun a ha => absurd ha (List.not_mem_nil a))
        (fun a ha => absurd ha (fresh_stamp c hfresh a)) List.nodup_nil (by simp)
    obtain ⟨h1, h2⟩ := findChildInPrototypeChain_loop_stamps childName (c.uniqueID + 1)
      (c.uniqueID + 1) (Nat.le_refl _) _ _ _ _ _ h hb
    refine ⟨c1, r, vs, h, hnd, hfirst, hch, fun v hv => ?_⟩
    have h3 : c1.uniqueID = c.uniqueID + 1 := h2
    rw [h3]
    exact h1 v hv

set_option maxRecDepth 100000 in
/-- C25 on the heap `accessorContext`, in which `Object.prototype` (0) links
itself as `__proto__`: the lookups of `y` from the object `o` (3), which no
value of the chain has, return no link after the passes for 3 and 0; the
lookup of `x` returns the link of `o`. -/
theorem C25_prototype_chain_lookup_witness :
    ((∃ c1 r visited, accessorContext.findChildWithPrototypeChain 3 "y" = .ok (c1, r, visited) ∧
      visited.Nodup ∧ accessorContext.FirstOwn "y" (some 3) r ∧
      (∀ a, c1.childsOf a = accessorContext.childsOf a) ∧
      ∀ v ∈ c1.vars, v.temporaryID ≤ c1.uniqueID) ∧
    (∃ c1 r visited, accessorContext.findChildInPrototypeChain 3 "y" = .ok (c1, r, visited) ∧
      visited.Nodup ∧ accessorContext.FirstOwn "y" (accessorContext.protoOf 3) r ∧
      (∀ a, c1.childsOf a = accessorContext.childsOf a) ∧
      ∀ v ∈ c1.vars, v.temporaryID ≤ c1.uniqueID)) ∧
    (accessorContext.findChildWithPrototypeChain 3 "y").map (fun r => r.2) = .ok (none, [0, 3]) ∧
    (accessorContext.findChildInPrototypeChain 3 "y").map (fun r => r.2) = .ok (none, [0, 3]) ∧
    (accessorContext.findChildWithPrototypeChain 3 "x").map (fun r => r.2.1) =
      .ok (some accessorLink) :=
  ⟨C25_prototype_chain_lookup accessorContext 3 "y" (by decide), by decide!, by decide!,
    by decide!⟩

end TinyJS

namespace TinyJS

/-! ## C22 and C24: the keys of `for ... in` -/

set_option maxRecDepth 100000 in
/-- C22, the claim as stated fails: over an object with the keys `a`, `2` and `10`
the loop variable of `for ... in` is bound to "10", "2", "a" in this order (the
strings created), and the property list of the object is `__proto__`, `a`, `2`,
`10`; neither is the order "2", "10", "a" of the claim, and the two differ. -/
theorem C22_for_in_order_counterexample :
    forInKeys program22 = some ["10", "2", "a"] ∧
    forInChilds program22 "o" = some ["__proto__", "a", "2", "10"] := by
  decide!

/-- C22 as amended: the keys that `for ... in` gathers from the value `for_in_var`
(on a heap whose stamps were handed out by `getUniqueID`: each `temporaryID` is
at most the counter) are in strictly ascending lexicographic order of the
strings, and they are the names of the enumerable links of the values along
the `__proto__` chain from `for_in_var`, each name once; the property lists are
left as they are and the stamps are again at most the counter. -/
theorem C22_for_in_keys_lexicographic {D : Type} (c : CTinyJS D) (for_in_var : Nat)
    (hstamps : ∀ v ∈ c.vars, v.temporaryID ≤ c.uniqueID) :
    ∃ c1 K, c.for_in_keys for_in_var = .ok (c1, K) ∧
      K.Pairwise (fun a b => stringLess a b = true) ∧
      (∀ n, n ∈ K ↔ ∃ j o l, c.protoAt j (some for_in_var) = some o ∧ l ∈ c.childsOf o ∧
        l.isEnumerable = true ∧ l.name = n) ∧
      (∀ a, c1.childsOf a = c.childsOf a) ∧ ∀ v ∈ c1.vars, v.temporaryID ≤ c1.uniqueID := by
  have hfresh := fresh_of_stamps c hstamps
  have hb : ∀ v ∈ c.getUniqueID.1.vars, v.temporaryID ≤ c.uniqueID + 1 :=
    fun v hv => Nat.le_succ_of_le (hstamps v hv)
  obtain ⟨c1, K, hk, hs, _, hp, hall, hch⟩ :=
    keys_spec c true c.getUniqueID.2 (Nat.succ_ne_zero _) (some for_in_var)
      (c.getUniqueID.1.vars.length + 1) c.getUniqueID.1 for_in_var [] [] 0 (fun _ => rfl) rfl
      (fun a ha => absurd ha (List.not_mem_nil a))
      (fun a ha => absurd ha (fresh_stamp c hfresh a)) List.nodup_nil
      (fresh_stamp c hfresh for_in_var) (fun j hj => absurd hj (Nat.not_lt_zero j))
      List.Pairwise.nil (by simp)
  obtain ⟨h1, h2⟩ := keys_stamps true (c.uniqueID + 1) (c.uniqueID + 1) (Nat.le_refl _) _ _ _ _ _
    hk hb
  refine ⟨c1, K, hk, hs, fun n => ⟨fun hn => ?_, ?_⟩, hch, fun v hv => ?_⟩
  · rcases hp n hn with h | ⟨j, o, l, h1, h2, h3, h4⟩
    · exact absurd h (List.not_mem_nil n)
    · exact ⟨j, o, l, h1, h2, by simpa using h3, h4⟩
  · rintro ⟨j, o, l, h1, h2, h3, rfl⟩
    exact hall j o h1 l h2 (by simpa using h3)
  · have h3 : c1.uniqueID = c.uniqueID + 1 := h2
    rw [h3]
    exact h1 v hv

set_option maxRecDepth 100000 in
/-- C22 on the heap after the declaration of the object of `program22` (the object
is the value at 8): the keys gathered are "10", "2", "a". -/
theorem C22_for_in_keys_lexicographic_witness :
    (∃ c1 K, (sourceContext program22o).for_in_keys 8 = .ok (c1, K) ∧
      K.Pairwise (fun a b => stringLess a b = true) ∧
      (∀ n, n ∈ K ↔ ∃ j o l, (sourceContext program22o).protoAt j (some 8) = some o ∧
        l ∈ (sourceContext program22o).childsOf o ∧ l.isEnumerable = true ∧ l.name = n) ∧
      (∀ a, c1.childsOf a = (sourceContext program22o).childsOf a) ∧
      ∀ v ∈ c1.vars, v.temporaryID ≤ c1.uniqueID) ∧
    ((sourceContext program22o).for_in_keys 8).map Prod.snd = .ok ["10", "2", "a"] :=
  ⟨C22_for_in_keys_lexicographic (sourceContext program22o) 8 (by decide!), by decide!⟩

set_option maxRecDepth 100000 in
/-- C24 (code at the failing input): after `var o = \x7b get x() \x7b return 1 \x7d \x7d`
the accessor that is the property `x` of `o` has the child `__accessor_get__`
with the flags `SCRIPTVARLINK_DEFAULT`, which is enumerable, and
`for (k in o.x)` binds `k` to "__accessor_get__"; the constructor of a native
accessor links its two children with the flags 0, which are not enumerable. -/
theorem C24_accessor_key_enumerated :
    accessorFlags program24o "x" =
      some [("__accessor_get__", SCRIPTVARLINK_DEFAULT), ("__proto__", SCRIPTVARLINK_WRITABLE)] ∧
    (flaggedLink "__accessor_get__" 0 0 0 SCRIPTVARLINK_DEFAULT).isEnumerable = true ∧
    forInKeys program24 = some ["__accessor_get__"] ∧
    ((expressionContext.newScriptVarAccessorNative (some 6) (some 7)).1.childsOf 8).map
      (fun l => (l.name, l.isEnumerable)) =
      [("__accessor_get__", false), ("__accessor_set__", false), ("__proto__", false)] := by
  decide!

/-! ## C27, C28 and C30: expressions -/

set_option maxRecDepth 100000 in
/-- C27 (code at the failing inputs): the evaluation of `true ? 1 : 2 || 3`, whose
second branch is evaluated with `execute` unset, ends in a `SyntaxError` at the
token `||`; so does the expression statement `1 || 2;` after a `break` in the
same block, and the operand `2 && 3` of `1 || 2 && 3`, which is evaluated with
`execute` unset because `1` is true.  Without `||` or `&&` in the part that is
not executed the evaluation gives the value. -/
theorem C27_unexecuted_logic_throws :
    sourceEvaluate program27 = .error (.exception "SyntaxError" "Got unexpected ||") ∧
    sourceEvaluate program27block = .error (.exception "SyntaxError" "Got unexpected ||") ∧
    sourceEvaluate "1 || 2 && 3" = .error (.exception "SyntaxError" "Got unexpected &&") ∧
    sourceEvaluate "true ? 1 : 2" = .ok ("1", []) ∧
    sourceEvaluate "true ? 1 : (2 || 3)" = .ok ("1", []) := by
  decide!

set_option maxRecDepth 100000 in
/-- C28 (code at the failing inputs): `1 || x` gives `undefined` (also when `x` is a
variable with the value 5), and `1 || 0` gives 0: the value is that of the
second operand evaluated with `execute` unset, whose boolean coercion is
false.  Where the first operand is false the second one is evaluated and is
the value: `0 || 5` gives 5. -/
theorem C28_or_yields_unexecuted_operand :
    sourceEvaluate "1 || x" = .ok ("undefined", []) ∧
    sourceEvaluate "var x = 5; 1 || x" = .ok ("undefined", []) ∧
    sourceEvaluate "1 || 0" = .ok ("0", []) ∧
    sourceEvaluate "0 || 5" = .ok ("5", []) ∧
    sourceEvaluate "0 || 0" = .ok ("false", []) := by
  decide!

set_option maxRecDepth 100000 in
/-- C30 (code at the failing inputs): `delete o.x` removes the link `x` from `o`,
but it does not stop after its operand: it passes the token that follows (the
`;`), evaluates what comes then as one more operand and subtracts 1 from it.
`delete o.x; 5` gives 4, `delete o.x` at the end of the text gives NaN, and as
the condition of an `if` it ends in a `SyntaxError`. -/
theorem C30_delete_runs_on :
    sourceEvaluate program30 = .ok ("4", []) ∧
    sourceChilds program30 "o" = some ["__proto__", "y"] ∧
    sourceEvaluate program30last = .ok ("NaN", []) ∧
    sourceEvaluate program30if =
      .error (.exception "SyntaxError" "Got unexpected LEX_SKIP") := by
  decide!

end TinyJS

namespace TinyJS

/-! ## C26: the skip value of a block -/

set_option maxRecDepth 100000 in
/-- C26 (code at the failing input): in the buffer of `\x7b let (x=1) \x7b\x7d \x7d y` the
block token `\x7b` at index 1 has the skip value 12, its `\x7d` is the token at
index 11, and the token at index 1 + 12 - 1 is the identifier `y`: the
forwarder of the block was erased after the skip value had been set (the
forwarder of the root, at index 0, is the one that stayed).  Skipping from the
`\x7b` leaves the cursor at index 13, on the `;` after `y`, not on `y`.  In the
same text without `let (...)` the skip value leads to the `\x7d`.  With an
exception pending, the evaluation skips such a block and the token after it
and ends in a `SyntaxError`. -/
theorem C26_block_skip_off_by_one :
    layoutOfText program26 =
      some [(LEX_T_FORWARD, 0), (123, 12), (LEX_R_LET, 9), (40, 0), (LEX_T_FORWARD, 0),
        (LEX_ID, 0), (61, 0), (LEX_INT, 1), (41, 0), (123, 2), (125, 0), (125, 0), (LEX_ID, 0),
        (59, 0), (LEX_EOF, 0)] ∧
    skipFrom program26 1 = some (13, 59) ∧
    layoutOfText program26plain =
      some [(123, 6), (LEX_ID, 0), (59, 0), (123, 2), (125, 0), (125, 0), (LEX_ID, 0), (59, 0),
        (LEX_EOF, 0)] ∧
    skipFrom program26plain 0 = some (6, LEX_ID) ∧
    sourceEvaluate program26skip = .error (.exception "SyntaxError" "Got unexpected =") ∧
    sourceEvaluate program26skipPlain = .ok ("undefined", []) := by
  decide!

end TinyJS
namespace TinyJS

/-! ## C31: a member access with an index that is not executed -/

/-- C31 (code at the failing input): where the current token is an identifier and
the next one a `[` whose skip value is 0, the evaluation of the member access
with `execute` unset does not return, whatever the fuel: `execute_member` skips
`t->getToken().Int()` tokens at the `[`, which is 0, so each pass of its loop
leaves the cursor on the `[`.  The same holds for `execute_member` called at
the `[` itself. -/
theorem C31_member_access_never_returns {D : Type} (E : Expressions D) (V : Values D)
    (s : Exec D) (fuel : Nat) (hid : s.tk = LEX_ID)
    (htk : (s.setPos (s.pos + 1)).tk = tkChar '[')
    (hskip : (s.setPos (s.pos + 1)).getToken.getInt = 0) :
    Expression.execute_function_call E V fuel s false = .error .fuel ∧
    ∀ parent, Expression.execute_member E V fuel (s.setPos (s.pos + 1)) false parent =
      .error .fuel := by
  have hm : ∀ f parent, Expression.execute_member E V f (s.setPos (s.pos + 1)) false parent =
      .error .fuel := by
    intro f parent
    cases f with
    | zero => rfl
    | succ n =>
      unfold Expression.execute_member
      exact member_loop_stuck E V _ htk hskip n parent none
  refine ⟨?_, hm fuel⟩
  cases fuel with
  | zero => rfl
  | succ n =>
    unfold Expression.execute_function_call
    cases n with
    | zero => rfl
    | succ m =>
      have hmatch : s.«match» LEX_ID none = .ok { s with pos := s.pos + 1 } :=
        Exec.match_same s LEX_ID hid (by decide)
      unfold Expression.execute_literals
      simp only [hid, if_true, Bool.false_eq_true, if_false, hmatch, Exec.value, Exec.link]
      unfold Expression.execute_member
      rw [member_loop_stuck E V
        { c := (s.c.newLink s.c.constUndefined TINYJS_TEMP_NAME SCRIPTVARLINK_DEFAULT).1,
          tokens := s.tokens, pos := s.pos + 1, label := s.label } htk hskip m]

set_option maxRecDepth 100000 in
/-- C31 on the text `a[5]`: the tokenizer gives the `[` the skip value 0, and the
member access with `execute` unset does not return with the fuel 1000.  The
evaluation of `true ? 1 : a[5]`, whose second branch is not executed, runs out
of its fuel; a member access that is executed returns. -/
theorem C31_member_access_never_returns_witness :
    layoutOfText "a[5]" =
      some [(LEX_ID, 0), (91, 0), (LEX_INT, 5), (93, 0), (59, 0), (LEX_EOF, 0)] ∧
    (Expression.execute_function_call valueExpressions exampleValues 1000 start31 false =
        .error .fuel ∧
      ∀ parent, Expression.execute_member valueExpressions exampleValues 1000
        (start31.setPos (start31.pos + 1)) false parent = .error .fuel) ∧
    sourceEvaluate program31 = .error .fuel ∧
    sourceEvaluate "var a = \x7b x: 1 \x7d; a[\"x\"]" = .ok ("1", ["x"]) ∧
    sourceEvaluate "var a = \x7b x: 1 \x7d; true ? 1 : a.x" = .ok ("1", []) :=
  ⟨by decide!,
   C31_member_access_never_returns valueExpressions exampleValues start31 1000 (by decide!)
     (by decide!) (by decide!),
   by decide!, by decide!, by decide!⟩

/-! ## C32: the statement of a forwarder -/

/-- C32 (code, where it differs from the claim): when `execute_statement` has
processed a forwarder token, the token buffer is the buffer before with the
set `lets` of that forwarder replaced by its set `vars`; so the buffer is
changed whenever the two sets differ. -/
theorem C32_forward_overwrites_lets {D : Type} (E : Expressions D) (fuel : Nat) (s : Exec D)
    (execute : Bool) (r : Exec D × Bool × Option Nat) (lets vars vl : List String)
    (functions : List CScriptToken)
    (htok : s.tokens[s.pos]? = some (.forwarder lets vars vl functions))
    (h : execute_statement E (fuel + 1) s execute = .ok r) :
    r.1.tokens = s.tokens.set s.pos (.forwarder vars vars vl functions) ∧
    (lets ≠ vars → r.1.tokens ≠ s.tokens) := by
  have htk : s.tk = LEX_T_FORWARD := by
    unfold Exec.tk Exec.getToken
    rw [htok]
    rfl
  rw [execute_statement_forward E fuel s execute htk] at h
  cases hf : execute_forward E s with
  | error e => rw [hf] at h; cases h
  | ok s1 =>
    rw [hf] at h
    simp only [Except.map, Except.ok.injEq] at h
    have ht := execute_forward_tokens E s s1 lets vars vl functions htok hf
    have hr : r.1 = s1 := by rw [← h]
    rw [hr, ht]
    refine ⟨rfl, fun hne heq => ?_⟩
    have hlt : s.pos < s.tokens.length := by
      rcases List.getElem?_eq_some_iff.mp htok with ⟨hl, _⟩
      exact hl
    have h1 : (s.tokens.set s.pos (.forwarder vars vars vl functions))[s.pos]? =
        some (.forwarder vars vars vl functions) := by
      simp [List.getElem?_set, hlt]
    rw [heq, htok] at h1
    simp only [Option.some.injEq, CScriptToken.forwarder.injEq] at h1
    exact hne h1.1

set_option maxRecDepth 100000 in
/-- C32 on the text `var x;`: the forwarder of the root has the sets `lets` = none
and `vars` = `x` before the statement and `lets` = `vars` = `x` after it.  In
`\x7b let x; \x7d` the forwarder of the block has `lets` = `x` before the block is
executed and no name after it. -/
theorem C32_forward_overwrites_lets_witness :
    start32.tokens[0]? = some (.forwarder [] ["x"] [] []) ∧
    execute_statement exampleSource 20 start32 true = .ok forwarded32 ∧
    (forwarded32.1.tokens = start32.tokens.set start32.pos (.forwarder ["x"] ["x"] [] []) ∧
      (([] : List String) ≠ ["x"] → forwarded32.1.tokens ≠ start32.tokens)) ∧
    tokens32block.map (fun p => (p.1[1]?, p.2[1]?)) =
      some (some (.forwarder ["x"] [] [] []), some (.forwarder [] [] [] [])) :=
  ⟨by decide!, by decide!,
   C32_forward_overwrites_lets exampleSource 19 start32 true forwarded32 [] ["x"] [] []
     (by decide!) (by decide!),
   by decide!⟩

/-! ## C33: `break` with a label inside a `switch` -/

/-- C33 (code, where it differs from the claim): a `switch` statement that is
executed and whose discriminant leaves `execute` set never ends with `execute`
unset and the flag of `break` set, whatever `label` is: the end of the
statement tests `!execute && (runtimeFlags & RUNTIME_BREAK)` only and takes
every pending `break`. -/
theorem C33_switch_takes_labelled_break {D : Type} (E : Expressions D) (stmt : StatementFn D)
    (fuel : Nat) (s s1 s2 : Exec D) (v : Exec D × Bool × Nat) (r : Exec D × Bool)
    (h1 : s.«match» LEX_R_SWITCH none = .ok s1) (h2 : s1.«match» (tkChar '(') none = .ok s2)
    (hv : execute_base E s2 true = .ok v) (hx : v.2.1 = true)
    (h : execute_switch E stmt fuel s true = .ok r) :
    ¬ (r.2 = false ∧ r.1.c.runtimeFlags.BREAK = true) := by
  unfold execute_switch at h
  simp only [if_true, bind, Except.bind, h1, h2, hv, hx] at h
  split at h
  · cases h
  · rename_i s3 h3
    split at h
    · cases h
    · rename_i s4 h4
      split at h
      · cases h
      · rename_i f hf
        split at h
        · cases h
        · rename_i q hq
          split at h
          · cases h
          · rename_i s5 h5
            simp only [Except.ok.injEq] at h
            rw [← h]
            cases hA : (s4.tk == LEX_T_FORWARD) <;> cases hq2 : q.2 <;>
              cases hbr : s5.c.runtimeFlags.BREAK <;>
              simp [hq2, hbr, Exec.withContext, CTinyJS.popScopes]

set_option maxRecDepth 100000 in
/-- C33 on the text `L: \x7b switch (1) \x7b case 1: break L; \x7d x = 5; \x7d x`: after
the `switch` statement `execute` is set, the flag of `break` is cleared, `label`
is empty and the cursor is on the assignment `x = 5`, which is executed: the
text gives 5.  Without the `switch` around it, `break L` leaves the block and
the text gives `undefined`. -/
theorem C33_switch_takes_labelled_break_witness :
    ¬ (switched33.2 = false ∧ switched33.1.c.runtimeFlags.BREAK = true) ∧
    execute_switch exampleSource (execute_statement exampleSource 20) 20 start33 true =
      .ok switched33 ∧
    switched33.2 = true ∧ switched33.1.c.runtimeFlags.BREAK = false ∧
    switched33.1.label = "" ∧ switched33.1.pos = 16 ∧
    sourceEvaluate program33 = .ok ("5", []) ∧
    sourceEvaluate program33plain = .ok ("undefined", []) :=
  ⟨C33_switch_takes_labelled_break exampleSource (execute_statement exampleSource 20) 20 start33
     { start33 with pos := 4 } { start33 with pos := 5 } discriminant33 switched33
     (by decide!) (by decide!) (by decide!) (by decide!) (by decide!),
   by decide!, by decide!, by decide!, by decide!, by decide!, by decide!, by decide!⟩

end TinyJS
namespace TinyJS

/-! ## C34: the sign of a quotient with `Infinity` -/

/-- C34 (code, where it differs from the claim): the quotient of `Infinity` or
`-Infinity` and an integer `b` is `Infinity`, whatever the two signs are (the
source takes both signs from the dividend); the product with an integer
`b ≠ 0` (above -2^31) is the `Infinity` whose sign is the product of the
signs, as the claim says. -/
theorem C34_infinity_division_sign {D : Type} (P : Platform D)
    (toPrimitive : ObjectClass → Nat → Option (ScriptVar D)) (s : Bool) (b : Int) :
    mathsOp P toPrimitive true (.infinity s false) (.integer b false) .slash
      = .value (.infinity false false) ∧
    (b ≠ 0 → -2147483648 < b → b < 2147483648 →
      mathsOp P toPrimitive true (.infinity s false) (.integer b false) .star
        = .value (.infinity (xor s (decide (b < 0))) false)) := by
  constructor
  · cases s <;>
      simp [mathsOp, mathsOpLoose, mathsOpObjects, ScriptVar.getPrimitivVar, mathsOpNumeric,
        ScriptVar.getNumericVar, ScriptVar.isNaN, ScriptVar.isString, ScriptVar.isInfinity,
        ScriptVar.isUndefined, ScriptVar.isNull, ScriptVar.getInt, ScriptVar.constInfinity]
  · intro h0 hlo hhi
    have hw1 : wrapInt b = b := by unfold wrapInt; omega
    have hw2 : wrapInt (-b) = -b := by unfold wrapInt; omega
    cases s <;>
      simp [mathsOp, mathsOpLoose, mathsOpObjects, ScriptVar.getPrimitivVar, mathsOpNumeric,
        ScriptVar.getNumericVar, ScriptVar.isNaN, ScriptVar.isString, ScriptVar.isInfinity,
        ScriptVar.isUndefined, ScriptVar.isNull, ScriptVar.getInt, ScriptVar.constInfinity,
        hw1, h0]
    rw [hw2]
    have h3 : ¬ (-b = 0) := by omega
    simp only [h3, if_false, MathsResult.value.injEq, ScriptVar.infinity.injEq, and_true]
    by_cases h4 : b < 0
    · simp [h4]; omega
    · simp [h4]; omega

/-- C34 at the failing inputs: `Infinity / -2` is `Infinity` and `-Infinity / 2` is
`Infinity`; `Infinity * -2` is `-Infinity`. -/
theorem C34_infinity_division_sign_witness :
    mathsOp intPlatform noPrimitive true (.infinity false false) (.integer (-2) false) .slash
      = .value (.infinity false false) ∧
    mathsOp intPlatform noPrimitive true (.infinity true false) (.integer 2 false) .slash
      = .value (.infinity false false) ∧
    mathsOp intPlatform noPrimitive true (.infinity false false) (.integer (-2) false) .star
      = .value (.infinity true false) :=
  ⟨(C34_infinity_division_sign intPlatform noPrimitive false (-2)).1,
   (C34_infinity_division_sign intPlatform noPrimitive true 2).1,
   (C34_infinity_division_sign intPlatform noPrimitive false (-2)).2 (by decide) (by decide)
     (by decide)⟩

/-! ## C35: the operator `!` -/

set_option maxRecDepth 100000 in
/-- C35 (code, where it differs from the claim): `!v` is `v == 0`.  For `undefined`
and for `NaN` it is false although the boolean coercion of the value is false
too; for the string "0" it is true although the coercion is true.  For `null`,
a boolean, an integer and `Infinity` it is the negation of the coercion, and
so it is for the strings "" and "a".  In a text, `!x` with `x` undefined gives
`false`. -/
theorem C35_not_is_equal_zero {D : Type} (P : Platform D)
    (toPrimitive : ObjectClass → Nat → Option (ScriptVar D)) :
    (execute_not P toPrimitive .undefined = .value (.bool false false) ∧
      (ScriptVar.undefined : ScriptVar D).getBool P = false) ∧
    (∀ f, execute_not P toPrimitive (.nan f) = .value (.bool false false) ∧
      (ScriptVar.nan f : ScriptVar D).getBool P = false) ∧
    (execute_not P toPrimitive .null = .value (.bool true false) ∧
      (ScriptVar.null : ScriptVar D).getBool P = false) ∧
    (∀ x f, execute_not P toPrimitive (.bool x f) =
      .value (.bool (!(ScriptVar.bool x f : ScriptVar D).getBool P) false)) ∧
    (∀ x f, execute_not P toPrimitive (.integer x f) =
      .value (.bool (!(ScriptVar.integer x f : ScriptVar D).getBool P) false)) ∧
    (∀ x f, execute_not P toPrimitive (.infinity x f) =
      .value (.bool (!(ScriptVar.infinity x f : ScriptVar D).getBool P) false)) ∧
    (execute_not intPlatform noPrimitive (.string "0" false) = .value (.bool true false) ∧
      (ScriptVar.string "0" false : ScriptVar Int).getBool intPlatform = true) ∧
    (execute_not intPlatform noPrimitive (.string "" false) = .value (.bool true false) ∧
      (ScriptVar.string "" false : ScriptVar Int).getBool intPlatform = false) ∧
    (execute_not intPlatform noPrimitive (.string "a" false) = .value (.bool false false) ∧
      (ScriptVar.string "a" false : ScriptVar Int).getBool intPlatform = true) ∧
    sourceEvaluate "var x; !x" = .ok ("false", []) ∧
    sourceEvaluate "!\"0\"" = .ok ("true", ["0"]) ∧
    sourceEvaluate "!0" = .ok ("true", []) := by
  refine ⟨?_, ?_, ?_, ?_, ?_, ?_, by decide, by decide, by decide, by decide!, by decide!,
    by decide!⟩
  · simp [execute_not, mathsOp, mathsOpLoose, mathsOpObjects, ScriptVar.getPrimitivVar,
      mathsOpNumeric, ScriptVar.getNumericVar, ScriptVar.isNaN, ScriptVar.isString,
      ScriptVar.isUndefined, ScriptVar.isNull, ScriptVar.getBool]
  · intro f
    simp [execute_not, mathsOp, mathsOpLoose, mathsOpObjects, ScriptVar.getPrimitivVar,
      mathsOpNumeric, ScriptVar.getNumericVar, ScriptVar.isNaN, ScriptVar.isString,
      ScriptVar.isUndefined, ScriptVar.isNull, ScriptVar.getBool]
  · simp [execute_not, mathsOp, mathsOpLoose, mathsOpObjects, ScriptVar.getPrimitivVar,
      mathsOpNumeric, ScriptVar.getNumericVar, ScriptVar.isNaN, ScriptVar.isString,
      ScriptVar.isUndefined, ScriptVar.isNull, ScriptVar.getBool, ScriptVar.isInfinity,
      ScriptVar.isDouble, DoMathsInt, ScriptVar.getInt]
  · intro x f
    cases x <;>
    simp [execute_not, mathsOp, mathsOpLoose, mathsOpObjects, ScriptVar.getPrimitivVar,
      mathsOpNumeric, ScriptVar.getNumericVar, ScriptVar.isNaN, ScriptVar.isString,
      ScriptVar.isUndefined, ScriptVar.isNull, ScriptVar.getBool, ScriptVar.isInfinity,
      ScriptVar.isDouble, DoMathsInt, ScriptVar.getInt]
  · intro x f
    simp [execute_not, mathsOp, mathsOpLoose, mathsOpObjects, ScriptVar.getPrimitivVar,
      mathsOpNumeric, ScriptVar.getNumericVar, ScriptVar.isNaN, ScriptVar.isString,
      ScriptVar.isUndefined, ScriptVar.isNull, ScriptVar.getBool, ScriptVar.isInfinity,
      ScriptVar.isDouble, DoMathsInt, ScriptVar.getInt]
  · intro x f
    cases x <;>
    simp [execute_not, mathsOp, mathsOpLoose, mathsOpObjects, ScriptVar.getPrimitivVar,
      mathsOpNumeric, ScriptVar.getNumericVar, ScriptVar.isNaN, ScriptVar.isString,
      ScriptVar.isUndefined, ScriptVar.isNull, ScriptVar.getBool, ScriptVar.isInfinity,
      ScriptVar.isDouble, DoMathsInt, ScriptVar.getInt]

/-! ## C36: the length of an array -/

set_option maxRecDepth 100000 in
/-- C36 (code): on a strictly sorted property list whose numeral keys are all below
2^31 - 1, `getArrayLength` is what the claim says: 0 for a value that is no
array, 0 when no key is a numeral, and 1 + the largest numeral key of an
array.  Beyond that bound it is not: the `int` of `isDecimalNumber` and of the
sum wraps around.  An array with the key `4294967296` has the length 1, one
with the key `2147483647` the length -2147483648, and next to the key `7` the
key `2147483648` does not count (the length is 8); each of these lists is
built by `addChild` and strictly sorted. -/
theorem C36_array_length_wraps :
    (∀ (D : Type) (v : ScriptVar D) (Childs : SCRIPTVAR_CHILDS), StrictSorted Childs →
      (∀ l ∈ Childs, isNumeral l.name = true → numeralValue l.name < 2147483647) →
      (v.isArray = false → getArrayLength v Childs = 0) ∧
      ((∀ l ∈ Childs, isNumeral l.name = false) → getArrayLength v Childs = 0) ∧
      (v.isArray = true → ∀ m ∈ Childs, isNumeral m.name = true →
        (∀ l ∈ Childs, isNumeral l.name = true → numeralValue l.name ≤ numeralValue m.name) →
        getArrayLength v Childs = (numeralValue m.name : Int) + 1)) ∧
    (StrictSorted (childsOfNames ["__proto__", "length", "4294967296"]) ∧
      getArrayLength exampleArray (childsOfNames ["__proto__", "length", "4294967296"]) = 1) ∧
    (StrictSorted (childsOfNames ["__proto__", "length", "2147483647"]) ∧
      getArrayLength exampleArray (childsOfNames ["__proto__", "length", "2147483647"]) =
        -2147483648) ∧
    (StrictSorted (childsOfNames ["__proto__", "length", "7", "2147483648"]) ∧
      childNames (childsOfNames ["__proto__", "length", "7", "2147483648"]) =
        ["2147483648", "__proto__", "length", "7"] ∧
      getArrayLength exampleArray (childsOfNames ["__proto__", "length", "7", "2147483648"]) =
        8) := by
  refine ⟨?_, ⟨by unfold StrictSorted; decide!, by decide!⟩,
    ⟨by unfold StrictSorted; decide!, by decide!⟩,
    ⟨by unfold StrictSorted; decide!, by decide!, by decide!⟩⟩
  intro D v Childs hs hb
  have hb2 : ∀ l ∈ Childs, isNumeral l.name = true → numeralValue l.name < 2147483648 :=
    fun l hl hn => Nat.lt_succ_of_lt (hb l hl hn)
  refine ⟨fun h => ?_, fun h => ?_, fun h m hm hnum hmax => ?_⟩
  · unfold getArrayLength
    simp [h]
  · unfold getArrayLength
    split
    · rfl
    · rcases List.eq_nil_or_concat Childs with h0 | ⟨init, back, h0⟩
      · subst h0
        rfl
      · subst h0
        have hgl : (init.concat back).getLast? = some back := by simp
        rw [hgl]
        simp only
        rw [isDecimalNumber_not_numeral (h back (by simp))]
        rfl
  · unfold getArrayLength
    rcases List.eq_nil_or_concat Childs with h0 | ⟨init, back, h0⟩
    · subst h0
      simp at hm
    · subst h0
      rw [List.concat_eq_append] at hs hb hb2 hm hmax ⊢
      have hlast := strictSorted_last init back hs hb2
      have hbn : isNumeral back.name = true := by
        rcases List.mem_append.mp hm with h1 | h1
        · exact (hlast m h1 hnum).1
        · simp at h1
          rw [← h1]
          exact hnum
      have hval : numeralValue back.name = numeralValue m.name := by
        rcases List.mem_append.mp hm with h1 | h1
        · have h2 := (hlast m h1 hnum).2
          have h3 := hmax back (by simp) hbn
          omega
        · simp at h1
          rw [h1]
      have hkb := isDecimalNumber_numeral hbn (hb2 back (by simp) hbn)
      have hlt := hb back (by simp) hbn
      have hgl : (init ++ [back]).getLast? = some back := by simp
      rw [hgl]
      simp only [h, Bool.not_true, Bool.false_or, List.length_append, List.length_singleton]
      rw [if_neg (by simp), hkb, hval]
      rw [hval] at hlt
      apply wrapInt_of_small <;> omega

set_option maxRecDepth 100000 in
/-- C36 on the array with the keys 0, 10 and 2, added in this order: the property
list is `__proto__`, `length`, 0, 2, 10 and the length is 11. -/
theorem C36_array_length_wraps_witness :
    childNames (childsOfNames ["__proto__", "length", "0", "10", "2"]) =
      ["__proto__", "length", "0", "2", "10"] ∧
    getArrayLength exampleArray (childsOfNames ["__proto__", "length", "0", "10", "2"]) =
      (numeralValue "10" : Int) + 1 ∧
    getArrayLength exampleArray (childsOfNames ["__proto__", "length", "0", "10", "2"]) = 11 :=
  ⟨by decide!,
   (C36_array_length_wraps.1 Int exampleArray
      (childsOfNames ["__proto__", "length", "0", "10", "2"])
      (by unfold StrictSorted; decide!) (by decide!)).2.2 (by decide)
      (exampleLink "10" 2 0 3) (by decide!) (by decide!) (by decide!),
   by decide!⟩

/-! ## C38: the digits of an integer -/

/-- C38 (code): for an `int` `n` and a radix from 2 to 36, `tiny_ltoa` gives the
standard representation when `n ≥ 0`; for `n < 0` it gives the digits of `|n|`,
most significant first, followed by the sign `-`, which is not the standard
representation: the loop that reverses the buffer starts at the sign. -/
theorem C38_tiny_ltoa_sign_last (n : Int) (r : Nat) (hr : 2 ≤ r) (hr36 : r ≤ 36)
    (_hlo : -2147483648 ≤ n) (_hhi : n < 2147483648) :
    (0 ≤ n → tiny_ltoa n r = standardRepresentation n r) ∧
    (n < 0 → tiny_ltoa n r = String.mk (standardDigits n.natAbs r ++ ['-']) ∧
      tiny_ltoa n r ≠ standardRepresentation n r) := by
  have hne : ∀ m, standardDigits m r ≠ [] := by
    intro m
    unfold standardDigits
    split
    · simp
    · rename_i h
      intro h2
      have h3 : (Nat.digits r m).reverse = [] := List.map_eq_nil_iff.mp h2
      exact h ((Nat.digits_eq_nil_iff_eq_zero).mp (List.reverse_eq_nil_iff.mp h3))
  have hminus : ∀ m, ∀ c ∈ standardDigits m r, c ≠ '-' := by
    intro m c hc
    unfold standardDigits at hc
    split at hc
    · simp at hc
      rw [hc]
      decide
    · rcases List.mem_map.mp hc with ⟨d, _, hd⟩
      rw [← hd]
      exact standardDigit_ne_minus d
  constructor
  · intro h
    rw [tiny_ltoa_eq n r hr hr36]
    unfold standardRepresentation
    have hn : ¬ n < 0 := by omega
    simp [hn]
  · intro h
    rw [tiny_ltoa_eq n r hr hr36]
    unfold standardRepresentation
    simp only [h, if_true]
    refine ⟨trivial, ?_⟩
    intro heq
    have h2 : standardDigits n.natAbs r ++ ['-'] = ['-'] ++ standardDigits n.natAbs r :=
      congrArg String.data heq
    cases hds : standardDigits n.natAbs r with
    | nil => exact hne _ hds
    | cons c cs =>
      rw [hds] at h2
      simp at h2
      exact hminus n.natAbs c (by rw [hds]; simp) h2.1

/-- C38 at the failing input: `tiny_ltoa(-12, 10)` is "12-" and `tiny_ltoa(-255, 16)`
is "ff-"; `tiny_ltoa(255, 16)` is "ff". -/
theorem C38_tiny_ltoa_sign_last_witness :
    (tiny_ltoa (-12) 10 = String.mk (standardDigits (-12 : Int).natAbs 10 ++ ['-']) ∧
      tiny_ltoa (-12) 10 ≠ standardRepresentation (-12) 10) ∧
    tiny_ltoa (-12) 10 = "12-" ∧ tiny_ltoa (-255) 16 = "ff-" ∧
    tiny_ltoa 255 16 = standardRepresentation 255 16 ∧ tiny_ltoa 255 16 = "ff" ∧
    CScriptVarInteger_toString (-12) 10 = "12-" :=
  ⟨(C38_tiny_ltoa_sign_last (-12) 10 (by decide) (by decide) (by decide) (by decide)).2
     (by decide),
   by decide, by decide,
   (C38_tiny_ltoa_sign_last 255 16 (by decide) (by decide) (by decide) (by decide)).1
     (by decide),
   by decide, by decide⟩

/-! ## C39: the remainder -/

/-- C39 (code, where it differs from the claim): on two integers the remainder
never divides by zero (`a % 0` is NaN); but where the divisor is a `double`
that is not 0 and whose truncation to `int` is 0, `DoMaths<double>` evaluates
`dai % dbi` with `dbi` 0: the test before it compares the `double` with 0. -/
theorem C39_remainder_divides_by_zero {D : Type} (P : Platform D)
    (toPrimitive : ObjectClass → Nat → Option (ScriptVar D)) (a : Int) (x : D) :
    (∀ b : Int, mathsOp P toPrimitive true (.integer a false) (.integer b false) .percent
      ≠ .divisionByZero) ∧
    (P.eq x (P.ofInt 0) = false → wrapInt (P.toInt x) = 0 →
      mathsOp P toPrimitive true (.integer a false) (.double x false) .percent
        = .divisionByZero) := by
  constructor
  · intro b
    simp [mathsOp, mathsOpLoose, mathsOpObjects, ScriptVar.getPrimitivVar,
      mathsOpNumeric, ScriptVar.getNumericVar, ScriptVar.isNaN, ScriptVar.isString,
      ScriptVar.isUndefined, ScriptVar.isNull, ScriptVar.isInfinity,
      ScriptVar.isDouble, DoMathsInt, ScriptVar.getInt]
    split_ifs <;> simp
  · intro h1 h2
    simp [mathsOp, mathsOpLoose, mathsOpObjects, ScriptVar.getPrimitivVar,
      mathsOpNumeric, ScriptVar.getNumericVar, ScriptVar.isNaN, ScriptVar.isString,
      ScriptVar.isUndefined, ScriptVar.isNull, ScriptVar.isInfinity,
      ScriptVar.isDouble, DoMathsDouble, ScriptVar.getInt, ScriptVar.getDouble, h1, h2]

/-- C39 at the failing input, on the platform whose doubles are the multiples of
1/2: `5 % 0.5` divides by zero; `5 % 0` is NaN. -/
theorem C39_remainder_divides_by_zero_witness :
    halvesPlatform.eq 1 (halvesPlatform.ofInt 0) = false ∧ wrapInt (halvesPlatform.toInt 1) = 0 ∧
    mathsOp halvesPlatform noPrimitive true (.integer 5 false) oneHalf .percent
      = .divisionByZero ∧
    mathsOp halvesPlatform noPrimitive true (.integer 5 false) (.integer 0 false) .percent
      = .value (.nan false) :=
  ⟨by decide, by decide,
   (C39_remainder_divides_by_zero halvesPlatform noPrimitive 5 1).2 (by decide) (by decide),
   by decide⟩

end TinyJS
namespace TinyJS

/-! ## C37: the quoted form of a string, lexed -/

set_option maxRecDepth 100000 in
/-- C37 (code): the text `getJSString(s)` is lexed to one `LEX_STR` token with the
value `s`, followed by the end of the text, for every string `s` in which
`getJSString` writes no character as `\xNN`, that is whose characters have the
codes 32 to 127 or an escape sequence of their own.  For the strings of one
character this is exact: with any other code (1 to 255) the token has two
characters, the value of the second hexadecimal digit and then that value
again or the digit itself; so the string of the code 1 gives the codes 1, 1
and the string of the code 200 the codes 8, 56. -/
theorem C37_quoted_control_character_two_characters :
    (∀ s : String, (∀ c ∈ s.toList, plainCode c.toNat = true) →
      roundTrip s = some (LEX_STR, s.toList.map Char.toNat, LEX_EOF)) ∧
    (∀ n ∈ List.range 256, n ≠ 0 →
      roundTrip (String.mk [Char.ofNat n]) =
        some (LEX_STR,
          if plainCode n then [n]
          else [n % 16, if n % 16 < 8 then n % 16 else (hex.getD (n % 16) NUL).toNat],
          LEX_EOF)) ∧
    getJSString (String.mk [Char.ofNat 1]) = "\"\\x01\"" ∧
    roundTrip (String.mk [Char.ofNat 1]) = some (LEX_STR, [1, 1], LEX_EOF) ∧
    roundTrip (String.mk [Char.ofNat 200]) = some (LEX_STR, [8, 56], LEX_EOF) :=
  ⟨fun s hp => roundTrip_plain s hp, by decide!, by decide!, by decide!, by decide!⟩

/-- C37 on a string with a double quote, a backslash, a line feed, a carriage
return and a tabulator: it is lexed back to itself. -/
theorem C37_quoted_control_character_two_characters_witness :
    roundTrip "a\"b\\c\n\r\t 'x'" =
      some (LEX_STR, [97, 34, 98, 92, 99, 10, 13, 9, 32, 39, 120, 39], LEX_EOF) :=
  C37_quoted_control_character_two_characters.1 "a\"b\\c\n\r\t 'x'" (by decide)

/-! ## C40: the vector `BlockStart` -/

set_option maxRecDepth 100000 in
/-- C40 (code at the failing input): `tokenizeStatement` on `let (x=1) x;` leaves one
more entry in `BlockStart` than it found (the index 3 of the forwarder of the
`let`), also when the body is a block and when the `let` is an expression; the
other statements leave `BlockStart` as it was.  A declaration that follows in
the same block goes to the forwarder of the `let`: in
`\x7b let (x=1) x; let y; \x7d` the only forwarder left besides that of the root
(which is empty and was not erased) holds `x` and `y`, a function declared at
the top level after such a statement is not forwarded, `let x` after it is a
redeclaration, and a second `let y` in the block is accepted. -/
theorem C40_let_leaves_block_start :
    blockStartAfter "let (x=1) x;" = some ([0, 0], [0, 0, 3]) ∧
    blockStartAfter "let (x=1) \x7b x; \x7d" = some ([0, 0], [0, 0, 3]) ∧
    blockStartAfter "x = let (x=1) x;" = some ([0, 0], [0, 0, 5]) ∧
    (∀ Code ∈ ["x = 1;", "\x7b let x; \x7d", "if (x) \x7b let x; \x7d else y;",
        "for (let i=0;i<1;i++) \x7b\x7d", "while (x) \x7b var y; \x7d",
        "try \x7b x; \x7d catch (e) \x7b y; \x7d", "switch (x) \x7b case 1: let y; \x7d",
        "function f() \x7b var y; \x7d", "var f = function() \x7b let (x=1) x; \x7d;"],
      blockStartAfter Code = some ([0, 0], [0, 0])) ∧
    forwardersOf "\x7b let (x=1) x; let y; \x7d" = some [(0, [], [], []), (4, ["x", "y"], [], [])] ∧
    forwardersOf "\x7b x; let y; \x7d" = some [(1, ["y"], [], [])] ∧
    tokenKinds "let (x=1) x; function f() \x7b\x7d" =
      some [LEX_T_FORWARD, LEX_R_LET, 40, LEX_T_FORWARD, LEX_ID, 61, LEX_INT, 41, LEX_ID, 59,
        LEX_R_FUNCTION, LEX_EOF] ∧
    tokenKinds "x; function f() \x7b\x7d" =
      some [LEX_T_FORWARD, LEX_ID, 59, LEX_R_FUNCTION_PLACEHOLDER, LEX_EOF] ∧
    tokenizeFault "\x7b let (x=1) x; let x; \x7d" =
      some (.exception "TypeError" "redeclaration of variable 'x'") ∧
    tokenizeFault "\x7b let y; let (x=1) x; let y; \x7d" = none ∧
    tokenizeFault "\x7b let y; x; let y; \x7d" =
      some (.exception "TypeError" "redeclaration of variable 'y'") := by
  refine ⟨by decide!, by decide!, by decide!, by decide!, by decide!, by decide!, by decide!,
    by decide!, by decide!, by decide!, by decide!⟩

end TinyJS
